import Mathlib

/-!
# time_cal backend: a shallow embedding and its verified properties

The development follows the Go sources under `backend/internal`:
`models/time_entry.go`, `services/time_service.go`, `services/auth_service.go`,
`services/daily_plan_service.go` and the handlers that call them.

Conventions of the embedding

* A Go `string` is a Lean `String`; a byte slice is a `List Nat`.
* A Go `int`, `int64` or `time.Duration` is an `Int`; where the source can
  overflow the 64-bit range the wrap is written out with `wrapInt64`.
* A pointer that may be nil (`*time.Time`, `*int`) is an `Option`.
* A method that returns `(value, error)` returns a `Result`: the value, the
  text of the Go error, or a run-time panic.
* The database handle `*gorm.DB` is an explicit `Store` value that every
  service method receives and returns (state passing).
-/

namespace TimeCal

/-! ## Results -/

/-- Outcome of a service method: a value, a Go `error` with its text, or a
run-time panic (which the framework answers with status 500). -/
inductive Result (α : Type) where
  | ok (v : α)
  | err (msg : String)
  | panic (msg : String)
deriving DecidableEq, Repr

/-- True for an outcome that carries a value. -/
def Result.isOk {α : Type} : Result α → Bool
  | .ok _ => true
  | _ => false

/-! ## Package `time` (standard library) -/

/-- Largest value of a Go `time.Duration` (an int64 count of nanoseconds). -/
def maxDuration : Int := 9223372036854775807

/-- Smallest value of a Go `time.Duration`. -/
def minDuration : Int := -9223372036854775808

/-- Two's complement wrap of an integer into the int64 range. -/
def wrapInt64 (x : Int) : Int := (x + 9223372036854775808) % 18446744073709551616 - 9223372036854775808

/-- Nanoseconds in one second: the Go constant `time.Second`. -/
def Second : Int := 1000000000

/-- Nanoseconds in one hour: the Go constant `time.Hour`. -/
def Hour : Int := 3600000000000

/-- An instant of `time.Time` without monotonic clock reading (as produced by
JSON decoding and by the database): the count of nanoseconds since the zero
time, January 1 of year 1, 00:00:00 UTC. -/
structure Time where
  ns : Int
deriving DecidableEq, Repr

namespace Time

/-- Seconds since the zero time: the Go accessor `t.sec()`. -/
def sec (t : Time) : Int := t.ns / 1000000000

/-- Nanoseconds within the second, in `[0, 999999999]`: the Go accessor `t.nsec()`. -/
def nsec (t : Time) : Int := t.ns % 1000000000

/-- Go `t.Before(u)`: compares seconds, then nanoseconds. -/
def Before (t u : Time) : Bool :=
  decide (t.sec < u.sec) || (decide (t.sec = u.sec) && decide (t.nsec < u.nsec))

/-- Go `t.After(u)`. -/
def After (t u : Time) : Bool :=
  decide (t.sec > u.sec) || (decide (t.sec = u.sec) && decide (t.nsec > u.nsec))

/-- Go `t.Equal(u)`. -/
def Equal (t u : Time) : Bool := decide (t.sec = u.sec) && decide (t.nsec = u.nsec)

/-- Go `t.Add(d)`. -/
def Add (t : Time) (d : Int) : Time := ⟨t.ns + d⟩

/-- Go `t.Sub(u)`: the duration `t - u` computed in int64 arithmetic; when the
wrapped result is not the true difference the extreme duration of the right
sign is returned. -/
def Sub (t u : Time) : Int :=
  let d := wrapInt64 (wrapInt64 (wrapInt64 (t.sec - u.sec) * Second) + (t.nsec - u.nsec))
  if (u.Add d).Equal t then d
  else if t.Before u then minDuration
  else maxDuration

/-- Go `t.Truncate(time.Second)`: rounds down to a whole second. -/
def truncateSecond (t : Time) : Time := ⟨t.sec * 1000000000⟩

/-- Days from the zero time to the civil date `y-m-d` of the proleptic
Gregorian calendar. -/
def daysFromCivil (y : Int) (m d : Nat) : Int :=
  let y1 := if m ≤ 2 then y - 1 else y
  let era := y1 / 400
  let yoe := y1 % 400
  let mp := (m + 9) % 12
  let doy := (153 * mp + 2) / 5 + d - 1
  let doe := yoe * 365 + yoe / 4 - yoe / 100 + (doy : Int)
  era * 146097 + doe - 306

/-- Go `time.Date(y, m, d, hh, mm, ss, nsec, time.UTC)` for an in-range month,
day and time of day. -/
def Date (y : Int) (m d hh mm ss nsec : Nat) : Time :=
  ⟨(((daysFromCivil y m d * 24 + hh) * 60 + mm) * 60 + ss) * 1000000000 + nsec⟩

/-- The civil date (year, month, day) of a count of days from the zero time. -/
def civilFromDays (z : Int) : Int × Nat × Nat :=
  let n := z + 306
  let era := n / 146097
  let doe := (n % 146097).toNat
  let yoe := (doe - doe / 1460 + doe / 36524 - doe / 146096) / 365
  let doy := doe - (365 * yoe + yoe / 4 - yoe / 100)
  let mp := (5 * doy + 2) / 153
  let d := doy - (153 * mp + 2) / 5 + 1
  let m := if mp < 10 then mp + 3 else mp - 9
  ((yoe : Int) + era * 400 + (if m ≤ 2 then 1 else 0), m, d)

/-- Decimal digits of `n`, padded with zeros to at least `width` digits. -/
def padZero (width n : Nat) : String :=
  let s := toString n
  String.mk (List.replicate (width - s.length) '0') ++ s

/-- Go `t.Format("2006-01-02")` for an instant in UTC. -/
def Format (t : Time) : String :=
  let ymd := civilFromDays (t.ns / 86400000000000)
  (if ymd.1 < 0 then "-" ++ padZero 4 (-ymd.1).toNat else padZero 4 ymd.1.toNat) ++ "-" ++
    padZero 2 ymd.2.1 ++ "-" ++ padZero 2 ymd.2.2

/-- True for a leap year of the Gregorian calendar. -/
def isLeap (year : Int) : Bool := year % 4 == 0 && (year % 100 != 0 || year % 400 == 0)

/-- Function `daysIn` of package `time`: the number of days of a month. -/
def daysIn (month : Nat) (year : Int) : Nat :=
  if month = 2 then (if isLeap year then 29 else 28)
  else if month = 4 ∨ month = 6 ∨ month = 9 ∨ month = 11 then 30
  else 31

/-- True for an ASCII decimal digit. -/
def isDigit (c : Char) : Bool := 48 ≤ c.toNat && c.toNat ≤ 57

/-- Value of an ASCII decimal digit. -/
def digit (c : Char) : Nat := c.toNat - 48

/-- The text of a `*time.ParseError` for the layout "2006-01-02"; quoting is
rendered without escapes. -/
def parseErrorText (value layoutElem valueElem message : String) : String :=
  if message = "" then
    "parsing time \"" ++ value ++ "\" as \"2006-01-02\": cannot parse \"" ++ valueElem ++
      "\" as \"" ++ layoutElem ++ "\""
  else "parsing time \"" ++ value ++ "\"" ++ message

/-- The month and the day of `time.Parse("2006-01-02", value)`, after the year
and the first hyphen have been read; `rest` is the unread text. -/
def parseMonthDay (value : String) (year : Nat) (rest : List Char) : Result Time :=
  match rest with
  | m0 :: m1 :: r1 =>
    if !(isDigit m0 && isDigit m1) then .err (parseErrorText value "01" (String.mk rest) "")
    else
      let month := digit m0 * 10 + digit m1
      if month = 0 ∨ 12 < month then .err (parseErrorText value "01" (String.mk r1) ": month out of range")
      else
        match r1 with
        | '-' :: r2 =>
          match r2 with
          | d0 :: d1 :: r3 =>
            if !(isDigit d0 && isDigit d1) then .err (parseErrorText value "02" (String.mk r2) "")
            else
              let day := digit d0 * 10 + digit d1
              if r3 ≠ [] then
                .err (parseErrorText value "" (String.mk r3) (": extra text: \"" ++ String.mk r3 ++ "\""))
              else if day < 1 ∨ day > daysIn month year then
                .err (parseErrorText value "" "" ": day out of range")
              else .ok (Date year month day 0 0 0 0)
          | _ => .err (parseErrorText value "02" (String.mk r2) "")
        | _ => .err (parseErrorText value "-" (String.mk r1) "")
  | _ => .err (parseErrorText value "01" (String.mk rest) "")

/-- Go `time.Parse("2006-01-02", value)`: four digits of the year, a hyphen, two
digits of the month, a hyphen, two digits of the day, nothing else; the month
and the day must exist in the calendar.  The result is midnight UTC. -/
def Parse (value : String) : Result Time :=
  match value.toList with
  | y0 :: y1 :: y2 :: y3 :: r0 =>
    if !(isDigit y0 && isDigit y1 && isDigit y2 && isDigit y3) then
      .err (parseErrorText value "2006" value "")
    else
      match r0 with
      | '-' :: r1 =>
        parseMonthDay value (digit y0 * 1000 + digit y1 * 100 + digit y2 * 10 + digit y3) r1
      | _ => .err (parseErrorText value "-" (String.mk r0) "")
  | _ => .err (parseErrorText value "2006" value "")

end Time

/-! ### `Duration.Seconds` and the conversion to `int`

`d.Seconds()` is `float64(d / Second) + float64(d % Second) / 1e9`.  The two
conversions are exact; the quotient and the sum are rounded to the nearest
float64, ties to even.  The functions below compute these roundings on
natural numbers. -/

/-- The quotient `a / b` rounded to the nearest natural number, ties to even. -/
def roundNearestEven (a b : Nat) : Nat :=
  let q := a / b
  let r := a % b
  if 2 * r < b then q
  else if b < 2 * r then q + 1
  else if q % 2 = 0 then q else q + 1

/-- Worker of `bitLen`: the first argument bounds the number of halvings. -/
def bitLenAux : Nat → Nat → Nat
  | 0, _ => 0
  | fuel + 1, n => if n = 0 then 0 else bitLenAux fuel (n / 2) + 1

/-- Number of binary digits of `n` (0 for 0): `2^(bitLen n - 1) ≤ n < 2^(bitLen n)`
for `n > 0`. -/
def bitLen (n : Nat) : Nat := bitLenAux n n

/-- The float64 quotient `float64(n) / 1e9` for `0 < n < 10^9`, returned as
`(m, k)` with value `m / 2^k`, where `m` is the 53-bit significand. -/
def float64DivE9 (n : Nat) : Nat × Nat :=
  let a := bitLen n - 1
  let k1 := 81 - a
  let k := if 2 ^ 52 * 1000000000 ≤ n * 2 ^ k1 then k1 else k1 + 1
  (roundNearestEven (n * 2 ^ k) 1000000000, k)

/-- The Go expression `int(d.Seconds())` for a duration `d ≥ 0` of `d`
nanoseconds. -/
def secondsTrunc (d : Nat) : Nat :=
  let sec := d / 1000000000
  let nsec := d % 1000000000
  if nsec = 0 then sec
  else
    let mk := float64DivE9 nsec
    let N := sec * 2 ^ mk.2 + mk.1
    let L := bitLen N
    if L ≤ 53 then N / 2 ^ mk.2
    else (roundNearestEven N (2 ^ (L - 53)) * 2 ^ (L - 53)) / 2 ^ mk.2

/-- The Go expression `int(d.Seconds())` for any duration; the float64
operations are symmetric under negation and the conversion truncates toward
zero. -/
def Duration.secondsInt (d : Int) : Int :=
  if 0 ≤ d then (secondsTrunc d.toNat : Int) else -(secondsTrunc (-d).toNat : Int)

/-! ## Strings and package `uuid` -/

/-- UTF-8 encoding of one character. -/
def utf8EncodeChar (c : Char) : List Nat :=
  let n := c.toNat
  if n < 128 then [n]
  else if n < 2048 then [192 + n / 64, 128 + n % 64]
  else if n < 65536 then [224 + n / 4096, 128 + n / 64 % 64, 128 + n % 64]
  else [240 + n / 262144, 128 + n / 4096 % 64, 128 + n / 64 % 64, 128 + n % 64]

/-- The bytes of a Go string: `[]byte(s)`. -/
def utf8Bytes (s : String) : List Nat := s.toList.flatMap utf8EncodeChar

/-- A `uuid.UUID`: the 128-bit value of its sixteen bytes, big-endian. -/
abbrev UUID := Nat

/-- The all-zero `uuid.Nil`. -/
def UUID.Nil : UUID := 0

/-- Value of one hexadecimal digit given as a byte (table `xvalues` of package
`uuid`). -/
def hexVal (b : Nat) : Option Nat :=
  if 48 ≤ b ∧ b ≤ 57 then some (b - 48)
  else if 97 ≤ b ∧ b ≤ 102 then some (b - 87)
  else if 65 ≤ b ∧ b ≤ 70 then some (b - 55)
  else none

/-- Function `xtob` of package `uuid`: two hexadecimal digits to a byte. -/
def xtob (x1 x2 : Nat) : Option Nat :=
  match hexVal x1, hexVal x2 with
  | some a, some b => some (a * 16 + b)
  | _, _ => none

/-- Reads the byte pairs of `s` at the given offsets and accumulates them,
most significant first. -/
def parseHexPairs (s : List Nat) : List Nat → Nat → Option Nat
  | [], acc => some acc
  | x :: xs, acc =>
    match xtob (s.getD x 0) (s.getD (x + 1) 0) with
    | some v => parseHexPairs s xs (acc * 256 + v)
    | none => none

/-- The Go text of `uuid.ErrInvalidUUIDFormat`. -/
def errInvalidUUIDFormat : String := "invalid UUID format"

/-- The 36-byte form `xxxxxxxx-xxxx-xxxx-xxxx-xxxxxxxxxxxx`. -/
def parseHyphenated (s : List Nat) : Result UUID :=
  if s.getD 8 0 ≠ 45 ∨ s.getD 13 0 ≠ 45 ∨ s.getD 18 0 ≠ 45 ∨ s.getD 23 0 ≠ 45 then
    .err errInvalidUUIDFormat
  else
    match parseHexPairs s [0, 2, 4, 6, 9, 11, 14, 16, 19, 21, 24, 26, 28, 30, 32, 34] 0 with
    | some v => .ok v
    | none => .err errInvalidUUIDFormat

/-- ASCII lower-casing of a byte, for the case-insensitive `urn:uuid:` test. -/
def asciiLower (b : Nat) : Nat := if 65 ≤ b ∧ b ≤ 90 then b + 32 else b

/-- Function `uuid.Parse` (package `github.com/google/uuid`): decodes the
standard form, the `urn:uuid:` form, the 38-byte form and the 32-digit form,
selected by the byte length of the string.  Of a 38-byte string the first
byte is dropped and the next 36 are decoded; the two outer bytes are not
looked at.  The prefix quoted in the `invalid urn prefix` error is rendered
without escapes. -/
def uuidParse (str : String) : Result UUID :=
  let s := utf8Bytes str
  if s.length = 36 then parseHyphenated s
  else if s.length = 45 then
    if (s.take 9).map asciiLower = utf8Bytes "urn:uuid:" then parseHyphenated (s.drop 9)
    else .err ("invalid urn prefix: \"" ++ String.mk (str.toList.take 9) ++ "\"")
  else if s.length = 38 then parseHyphenated (s.drop 1)
  else if s.length = 32 then
    match parseHexPairs s [0, 2, 4, 6, 8, 10, 12, 14, 16, 18, 20, 22, 24, 26, 28, 30] 0 with
    | some v => .ok v
    | none => .err errInvalidUUIDFormat
  else .err ("invalid UUID length: " ++ toString s.length)

/-- One lower-case hexadecimal digit. -/
def hexDigit (n : Nat) : Char := Char.ofNat (if n < 10 then 48 + n else 87 + n)

/-- Two hexadecimal digits of the `i`-th byte (0 is the most significant) of a UUID. -/
def hexByte (u : UUID) (i : Nat) : List Char :=
  let b := u / 256 ^ (15 - i) % 256
  [hexDigit (b / 16), hexDigit (b % 16)]

/-- Method `UUID.String`: the standard lower-case form. -/
def UUID.String (u : UUID) : String :=
  String.mk ((List.range 4).flatMap (hexByte u) ++ ['-'] ++ (hexByte u 4 ++ hexByte u 5) ++ ['-'] ++
    (hexByte u 6 ++ hexByte u 7) ++ ['-'] ++ (hexByte u 8 ++ hexByte u 9) ++ ['-'] ++
    ((List.range 6).flatMap (fun i => hexByte u (10 + i))))

/-! ## Package `models` -/

/-- Model `models.Tag` (the timestamps maintained by the ORM are left out). -/
structure Tag where
  ID : UUID
  Name : String
  Color : String
  DeletedAt : Option Time
deriving DecidableEq, Repr

/-- Model `models.TimeEntry` (the timestamps maintained by the ORM and the
preloaded `User` are left out). -/
structure TimeEntry where
  ID : UUID
  UserID : UUID
  Description : String
  StartTime : Time
  EndTime : Option Time
  Duration : Option Int
  Category : String
  Tags : List Tag
  DeletedAt : Option Time
deriving DecidableEq, Repr

/-- The hook `(*TimeEntry).BeforeSave`: calculates the duration if the end
time is set and the start time is before it.  The hook never fails. -/
def TimeEntry.BeforeSave (t : TimeEntry) : TimeEntry :=
  match t.EndTime with
  | some e =>
    if t.StartTime.Before e then
      { t with Duration := some (Duration.secondsInt (e.Sub t.StartTime)) }
    else t
  | none => t

/-- The hook `(*TimeEntry).BeforeCreate`: generates the UUID if it is not set;
`fresh` is the value that `uuid.New()` returns. -/
def TimeEntry.BeforeCreate (t : TimeEntry) (fresh : UUID) : TimeEntry :=
  if t.ID = UUID.Nil then { t with ID := fresh } else t

/-- The hook `(*Tag).BeforeCreate`. -/
def Tag.BeforeCreate (t : Tag) (fresh : UUID) : Tag :=
  if t.ID = UUID.Nil then { t with ID := fresh } else t

/-- Model `models.User` (the timestamps maintained by the ORM are left out). -/
structure User where
  ID : UUID
  Email : String
  Password : String
  Name : String
  DeletedAt : Option Time
deriving DecidableEq, Repr

/-- The hook `(*User).BeforeCreate`. -/
def User.BeforeCreate (u : User) (fresh : UUID) : User :=
  if u.ID = UUID.Nil then { u with ID := fresh } else u

/-- Model `models.Activity` (the timestamps maintained by the ORM and the
preloaded `DailyPlan` are left out). -/
structure Activity where
  ID : UUID
  DailyPlanID : UUID
  Description : String
  EstimatedTime : Int
  ActualTime : Option Int
  Status : String
  Category : String
  Priority : String
  Order : Int
  DeletedAt : Option Time
deriving DecidableEq, Repr

/-- The hook `(*Activity).BeforeCreate`. -/
def Activity.BeforeCreate (a : Activity) (fresh : UUID) : Activity :=
  if a.ID = UUID.Nil then { a with ID := fresh } else a

/-- Model `models.DailyPlan` (the timestamps maintained by the ORM and the
preloaded `User` are left out).  `Activities` is filled by a preload; the rows
of table `daily_plans` carry the empty list. -/
structure DailyPlan where
  ID : UUID
  UserID : UUID
  Date : Time
  TotalEstimatedTime : Int
  TotalActualTime : Int
  Status : String
  DeletedAt : Option Time
  Activities : List Activity
deriving DecidableEq, Repr

/-- The hook `(*DailyPlan).BeforeCreate`. -/
def DailyPlan.BeforeCreate (d : DailyPlan) (fresh : UUID) : DailyPlan :=
  if d.ID = UUID.Nil then { d with ID := fresh } else d

/-- A time entry that starts at 0001-01-01T00:00:00Z and ends at
2024-01-01T00:00:00Z; both timestamps are accepted by the JSON decoder. -/
def entryLongSpan : TimeEntry :=
  { ID := 1, UserID := 1, Description := "archive", StartTime := Time.Date 1 1 1 0 0 0 0,
    EndTime := some (Time.Date 2024 1 1 0 0 0 0), Duration := none, Category := "work",
    Tags := [], DeletedAt := none }

/-- The time entry of the specification example: 2024-01-01 from 10:00:00Z to
11:30:00Z. -/
def entryNinetyMinutes : TimeEntry :=
  { ID := 1, UserID := 1, Description := "meeting", StartTime := Time.Date 2024 1 1 10 0 0 0,
    EndTime := some (Time.Date 2024 1 1 11 30 0 0), Duration := none, Category := "work",
    Tags := [], DeletedAt := none }

/-- A time entry of 194 days, 4 hours, 20 minutes and 16.999999999 seconds:
2^24 whole seconds and a fraction one nanosecond short of a second. -/
def entryRoundUp : TimeEntry :=
  { entryNinetyMinutes with
    StartTime := Time.Date 2024 1 1 0 0 0 0
    EndTime := some (Time.Date 2024 7 13 4 20 16 999999999) }

/-- A time entry of 90 minutes and half a second. -/
def entryHalfSecond : TimeEntry :=
  { entryNinetyMinutes with EndTime := some (Time.Date 2024 1 1 11 30 0 500000000) }

/-! ## The database (package `gorm`)

The tables are lists of rows in insertion order.  A row with `DeletedAt` set
is soft-deleted: queries skip it, unique indexes still see it.  Foreign keys
are not enforced (the default SQLite driver).  Statements fail only on a
violated primary key or unique index; failures of the connection are outside
the model. -/

/-- The tables of the application: `users`, `tags`, `time_entries`, the join
table `time_entry_tags` (entry id, tag id), `daily_plans` and `activities`. -/
structure Store where
  users : List User
  tags : List Tag
  timeEntries : List TimeEntry
  timeEntryTags : List (UUID × UUID)
  dailyPlans : List DailyPlan
  activities : List Activity
deriving DecidableEq, Repr

/-- Text of the error of a violated unique index. -/
def uniqueViolation (column : String) : String := "UNIQUE constraint failed: " ++ column

/-- The row with the least key: `ORDER BY id LIMIT 1`. -/
def firstBy {α : Type} (key : α → Nat) : List α → Option α
  | [] => none
  | x :: xs =>
    match firstBy key xs with
    | some y => if key y < key x then some y else some x
    | none => some x

namespace Store

/-- Query `Where("name = ?", name).First(&tag)`. -/
def firstTagByName (s : Store) (name : String) : Option Tag :=
  firstBy Tag.ID (s.tags.filter (fun t => t.DeletedAt.isNone && t.Name == name))

/-- Statement `Create(&tag)`: runs the hook, then inserts the row. -/
def createTag (s : Store) (fresh : UUID) (tag : Tag) : Store × Result Tag :=
  let t := tag.BeforeCreate fresh
  if s.tags.any (fun x => x.ID == t.ID) then (s, .err (uniqueViolation "tags.id"))
  else if s.tags.any (fun x => x.Name == t.Name) then (s, .err (uniqueViolation "tags.name"))
  else ({ s with tags := s.tags ++ [t] }, .ok t)

/-- Saving the `Tags` association of an entry: each tag is inserted unless a
row conflicts with it (`ON CONFLICT DO NOTHING`), and each missing join row is
added.  Join rows that exist are kept. -/
def saveTags (s : Store) (entryID : UUID) (tags : List Tag) : Store :=
  tags.foldl (fun st t =>
    { st with
      tags := if st.tags.any (fun x => x.ID == t.ID || x.Name == t.Name) then st.tags
              else st.tags ++ [t]
      timeEntryTags := if st.timeEntryTags.contains (entryID, t.ID) then st.timeEntryTags
                       else st.timeEntryTags ++ [(entryID, t.ID)] }) s

/-- Statement `Create(&entry)` for a time entry: runs the hooks `BeforeSave`
and `BeforeCreate`, inserts the row and saves the association. -/
def createTimeEntry (s : Store) (fresh : UUID) (entry : TimeEntry) : Store × Result TimeEntry :=
  let e := (entry.BeforeSave).BeforeCreate fresh
  if s.timeEntries.any (fun x => x.ID == e.ID) then (s, .err (uniqueViolation "time_entries.id"))
  else (saveTags { s with timeEntries := s.timeEntries ++ [{ e with Tags := [] }] } e.ID e.Tags, .ok e)

/-- Statement `Save(&entry)` for a time entry with a primary key: runs the
hook `BeforeSave`, updates all columns of the live row with that key (or
inserts the row when there is none) and saves the association. -/
def saveTimeEntry (s : Store) (entry : TimeEntry) : Store × Result TimeEntry :=
  let e := entry.BeforeSave
  let row := { e with Tags := [] }
  let updated := s.timeEntries.map (fun x => if x.ID == e.ID && x.DeletedAt.isNone then row else x)
  if s.timeEntries.any (fun x => x.ID == e.ID && x.DeletedAt.isNone) then
    (saveTags { s with timeEntries := updated } e.ID e.Tags, .ok e)
  else if s.timeEntries.any (fun x => x.ID == e.ID) then
    (s, .err (uniqueViolation "time_entries.id"))
  else (saveTags { s with timeEntries := s.timeEntries ++ [row] } e.ID e.Tags, .ok e)

/-- The live tags joined to an entry: `Preload("Tags")`.  The query has no
`ORDER BY`, so the order of the rows is left to the engine; they are listed
here in the order of the table. -/
def tagsOf (s : Store) (entryID : UUID) : List Tag :=
  s.tags.filter (fun t => t.DeletedAt.isNone && s.timeEntryTags.contains (entryID, t.ID))

/-- Query `Where("id = ? AND user_id = ?", id, user).First(&entry)`. -/
def firstTimeEntry (s : Store) (id user : UUID) : Option TimeEntry :=
  firstBy TimeEntry.ID
    (s.timeEntries.filter (fun e => e.DeletedAt.isNone && e.ID == id && e.UserID == user))

/-- Query `Preload("Tags").First(&entry, id)`. -/
def firstTimeEntryByID (s : Store) (id : UUID) : Option TimeEntry :=
  (firstBy TimeEntry.ID (s.timeEntries.filter (fun e => e.DeletedAt.isNone && e.ID == id))).map
    (fun e => { e with Tags := s.tagsOf e.ID })

/-- Statement `Where("id = ? AND user_id = ?", id, user).Delete(&models.TimeEntry{})`:
soft-deletes the matching live rows and reports how many there were. -/
def deleteTimeEntry (s : Store) (now : Time) (id user : UUID) : Store × Nat :=
  let hit := fun (e : TimeEntry) => e.DeletedAt.isNone && e.ID == id && e.UserID == user
  let marked := s.timeEntries.map (fun e => if hit e then { e with DeletedAt := some now } else e)
  ({ s with timeEntries := marked }, (s.timeEntries.filter hit).length)

end Store

/-! ## Package `services`: the time entry service (`time_service.go`)

`gen i` is the value returned by the `i`-th call of `uuid.New()` during one
service call; `now` is the reading of the clock used for soft deletion. -/

/-- Request `services.TimeEntryRequest`. -/
structure TimeEntryRequest where
  Description : String
  StartTime : Time
  EndTime : Option Time
  Category : String
  Tags : List String
deriving DecidableEq, Repr

/-- Response `services.TimeEntryResponse` (without the ORM timestamps). -/
structure TimeEntryResponse where
  ID : UUID
  Description : String
  StartTime : Time
  EndTime : Option Time
  Duration : Option Int
  Category : String
  Tags : List Tag
deriving DecidableEq, Repr

/-- The palette of `generateColorForTag`. -/
def tagColors : List String :=
  ["#3b82f6", "#10b981", "#8b5cf6", "#f59e0b", "#ef4444",
   "#14b8a6", "#f97316", "#84cc16", "#06b6d4", "#ec4899"]

/-- The accumulation `hash = hash*31 + int(char)` over the runes of the tag
name, in 64-bit `int` arithmetic. -/
def tagHash (tagName : String) : Int :=
  tagName.toList.foldl (fun hash char => wrapInt64 (wrapInt64 (hash * 31) + (char.toNat : Int))) 0

/-- Function `generateColorForTag`: indexes the palette with
`hash % len(colors)`; the Go remainder has the sign of the dividend, and a
negative index panics. -/
def generateColorForTag (tagName : String) : Result String :=
  let i := Int.tmod (tagHash tagName) (tagColors.length : Int)
  if 0 ≤ i then .ok (tagColors.getD i.toNat "")
  else .panic ("runtime error: index out of range [" ++ toString i ++ "]")

/-- Method `TimeService.getOrCreateTags`, as a loop over the remaining names:
`k` counts the calls of `uuid.New()` so far and `acc` is the slice `tags`. -/
def getOrCreateTags (gen : Nat → UUID) :
    Store → Nat → List String → List Tag → Store × Nat × Result (List Tag)
  | s, k, [], acc => (s, k, .ok acc)
  | s, k, tagName :: rest, acc =>
    match s.firstTagByName tagName with
    | some tag => getOrCreateTags gen s k rest (acc ++ [tag])
    | none =>
      match generateColorForTag tagName with
      | .ok color =>
        match s.createTag (gen k) { ID := UUID.Nil, Name := tagName, Color := color, DeletedAt := none } with
        | (s1, .ok tag) => getOrCreateTags gen s1 (k + 1) rest (acc ++ [tag])
        | (s1, .err e) => (s1, k + 1, .err ("failed to create tag " ++ tagName ++ ": " ++ e))
        | (s1, .panic p) => (s1, k + 1, .panic p)
      | .err e => (s, k, .err e)
      | .panic p => (s, k, .panic p)

/-- Method `TimeService.toTimeEntryResponse`. -/
def toTimeEntryResponse (entry : TimeEntry) : TimeEntryResponse :=
  { ID := entry.ID, Description := entry.Description, StartTime := entry.StartTime,
    EndTime := entry.EndTime, Duration := entry.Duration, Category := entry.Category,
    Tags := entry.Tags }

/-- The test `req.EndTime != nil && req.EndTime.Before(req.StartTime)`. -/
def endBeforeStart (req : TimeEntryRequest) : Bool :=
  match req.EndTime with
  | some e => e.Before req.StartTime
  | none => false

/-- The step "Handle tags" of `CreateTimeEntry` and `UpdateTimeEntry`: the
names are resolved when there are any, otherwise the entry gets no tags. -/
def processTags (gen : Nat → UUID) (s : Store) (names : List String) :
    Store × Nat × Result (List Tag) :=
  if names.length > 0 then getOrCreateTags gen s 0 names [] else (s, 0, .ok [])

/-- The value `models.TimeEntry{...}` that `CreateTimeEntry` builds from the
request, with the resolved tags. -/
def newTimeEntry (userUUID : UUID) (req : TimeEntryRequest) (tags : List Tag) : TimeEntry :=
  { ID := UUID.Nil, UserID := userUUID, Description := req.Description,
    StartTime := req.StartTime, EndTime := req.EndTime, Duration := none,
    Category := req.Category, Tags := tags, DeletedAt := none }

/-- Method `TimeService.CreateTimeEntry`. -/
def CreateTimeEntry (s : Store) (gen : Nat → UUID) (userID : String) (req : TimeEntryRequest) :
    Store × Result TimeEntryResponse :=
  if endBeforeStart req then (s, .err "end time cannot be before start time")
  else
    match uuidParse userID with
    | .err e => (s, .err ("invalid user ID: " ++ e))
    | .panic p => (s, .panic p)
    | .ok userUUID =>
      match processTags gen s req.Tags with
      | (s1, _, .err e) => (s1, .err ("failed to process tags: " ++ e))
      | (s1, _, .panic p) => (s1, .panic p)
      | (s1, k, .ok tags) =>
        match s1.createTimeEntry (gen k) (newTimeEntry userUUID req tags) with
        | (s2, .err e) => (s2, .err ("failed to create time entry: " ++ e))
        | (s2, .panic p) => (s2, .panic p)
        | (s2, .ok created) =>
          match s2.firstTimeEntryByID created.ID with
          | none => (s2, .err "failed to load time entry with tags: record not found")
          | some loaded => (s2, .ok (toTimeEntryResponse loaded))

/-- Method `TimeService.GetTimeEntry`. -/
def GetTimeEntry (s : Store) (userID entryID : String) : Result TimeEntryResponse :=
  match uuidParse userID with
  | .err e => .err ("invalid user ID: " ++ e)
  | .panic p => .panic p
  | .ok userUUID =>
    match uuidParse entryID with
    | .err e => .err ("invalid entry ID: " ++ e)
    | .panic p => .panic p
    | .ok entryUUID =>
      match s.firstTimeEntry entryUUID userUUID with
      | none => .err "time entry not found"
      | some entry => .ok (toTimeEntryResponse { entry with Tags := s.tagsOf entry.ID })

/-- The step "Update fields" of `UpdateTimeEntry`, with the resolved tags. -/
def updatedTimeEntry (found : TimeEntry) (req : TimeEntryRequest) (tags : List Tag) : TimeEntry :=
  { found with Description := req.Description, StartTime := req.StartTime,
               EndTime := req.EndTime, Category := req.Category, Tags := tags }

/-- Method `TimeService.UpdateTimeEntry`. -/
def UpdateTimeEntry (s : Store) (gen : Nat → UUID) (userID entryID : String)
    (req : TimeEntryRequest) : Store × Result TimeEntryResponse :=
  match uuidParse userID with
  | .err e => (s, .err ("invalid user ID: " ++ e))
  | .panic p => (s, .panic p)
  | .ok userUUID =>
    match uuidParse entryID with
    | .err e => (s, .err ("invalid entry ID: " ++ e))
    | .panic p => (s, .panic p)
    | .ok entryUUID =>
      if endBeforeStart req then (s, .err "end time cannot be before start time")
      else
        match s.firstTimeEntry entryUUID userUUID with
        | none => (s, .err "time entry not found")
        | some found =>
          match processTags gen s req.Tags with
          | (s1, _, .err e) => (s1, .err ("failed to process tags: " ++ e))
          | (s1, _, .panic p) => (s1, .panic p)
          | (s1, _, .ok tags) =>
            match s1.saveTimeEntry (updatedTimeEntry found req tags) with
            | (s2, .err e) => (s2, .err ("failed to update time entry: " ++ e))
            | (s2, .panic p) => (s2, .panic p)
            | (s2, .ok saved) =>
              match s2.firstTimeEntryByID saved.ID with
              | none => (s2, .err "failed to load updated time entry: record not found")
              | some loaded => (s2, .ok (toTimeEntryResponse loaded))

/-- Method `TimeService.DeleteTimeEntry`. -/
def DeleteTimeEntry (s : Store) (now : Time) (userID entryID : String) : Store × Result Unit :=
  match uuidParse userID with
  | .err e => (s, .err ("invalid user ID: " ++ e))
  | .panic p => (s, .panic p)
  | .ok userUUID =>
    match uuidParse entryID with
    | .err e => (s, .err ("invalid entry ID: " ++ e))
    | .panic p => (s, .panic p)
    | .ok entryUUID =>
      match s.deleteTimeEntry now entryUUID userUUID with
      | (s1, rowsAffected) =>
        if rowsAffected = 0 then (s1, .err "time entry not found") else (s1, .ok ())

/-! ### Sample data -/

/-- The store with no rows. -/
def emptyStore : Store :=
  { users := [], tags := [], timeEntries := [], timeEntryTags := [], dailyPlans := [],
    activities := [] }

/-- The successive values of `uuid.New()` used in the examples: 101, 102, ... -/
def sampleGen (i : Nat) : UUID := 101 + i

/-- The text of the UUID with value 10, used as a user id. -/
def userA : String := "00000000-0000-0000-0000-00000000000a"

/-- The text of the UUID with value 11, used as a second user id. -/
def userB : String := "00000000-0000-0000-0000-00000000000b"

/-- A request whose end time (09:00) is before its start time (10:00). -/
def reqEndBeforeStart : TimeEntryRequest :=
  { Description := "review", StartTime := Time.Date 2024 1 1 10 0 0 0,
    EndTime := some (Time.Date 2024 1 1 9 0 0 0), Category := "work", Tags := ["urgent"] }

/-- A request whose end time equals its start time. -/
def reqZeroLength : TimeEntryRequest :=
  { Description := "ping", StartTime := Time.Date 2024 1 1 10 0 0 0,
    EndTime := some (Time.Date 2024 1 1 10 0 0 0), Category := "work", Tags := [] }

/-- A request from 10:00 to 11:30 on 2024-01-01. -/
def reqNinetyMinutes : TimeEntryRequest :=
  { Description := "meeting", StartTime := Time.Date 2024 1 1 10 0 0 0,
    EndTime := some (Time.Date 2024 1 1 11 30 0 0), Category := "work", Tags := [] }

/-- A request from 0001-01-01T00:00:00Z to 2024-01-01T00:00:00Z. -/
def reqLongSpan : TimeEntryRequest :=
  { Description := "archive", StartTime := Time.Date 1 1 1 0 0 0 0,
    EndTime := some (Time.Date 2024 1 1 0 0 0 0), Category := "work", Tags := [] }

/-- A request of 194 days, 4 hours, 20 minutes and 16.999999999 seconds. -/
def reqRoundUp : TimeEntryRequest :=
  { Description := "sabbatical", StartTime := Time.Date 2024 1 1 0 0 0 0,
    EndTime := some (Time.Date 2024 7 13 4 20 16 999999999), Category := "work", Tags := [] }

/-- A request of 90 minutes and half a second. -/
def reqHalfSecond : TimeEntryRequest :=
  { Description := "meeting", StartTime := Time.Date 2024 1 1 10 0 0 0,
    EndTime := some (Time.Date 2024 1 1 11 30 0 500000000), Category := "work", Tags := [] }

/-- The row that `CreateTimeEntry` stores for user 10 and the request `req`
when `uuid.New()` returns `id` and the hook computes `duration`. -/
def storedRow (id : UUID) (req : TimeEntryRequest) (duration : Option Int) : TimeEntry :=
  { ID := id, UserID := 10, Description := req.Description, StartTime := req.StartTime,
    EndTime := req.EndTime, Duration := duration, Category := req.Category, Tags := [],
    DeletedAt := none }

/-- The store that holds the single time entry `row`. -/
def storeWith (row : TimeEntry) : Store := { emptyStore with timeEntries := [row] }

/-- The text of the UUID with value 101, the id of the first entry created
with `sampleGen`. -/
def entry101 : String := "00000000-0000-0000-0000-000000000065"

/-! ## Package `config` -/

/-- Structure `config.JWTConfig`. -/
structure JWTConfig where
  Secret : String
  ExpireHours : Int
  RefreshExpireHours : Int
deriving DecidableEq, Repr

/-- Structure `config.Config`, reduced to the part the services read. -/
structure Config where
  JWT : JWTConfig
deriving DecidableEq, Repr

/-! ## Package `jwt` (`github.com/golang-jwt/jwt/v5`)

A token string is represented by what `Parser.ParseUnverified` makes of it:
either it does not decode (wrong number of segments, bad base64 or JSON), and
the parser reports a detail, or it decodes to a header algorithm, claims and
signature bytes.  Numeric dates
are whole seconds since the zero time (the library truncates to seconds).
The hash functions and the text that is signed are parameters. -/

/-- Structure `jwt.RegisteredClaims`. -/
structure RegisteredClaims where
  Issuer : String
  Subject : String
  Audience : List String
  ExpiresAt : Option Int
  NotBefore : Option Int
  IssuedAt : Option Int
  ID : String
deriving DecidableEq, Repr

/-- Structure `services.TokenClaims`. -/
structure TokenClaims where
  UserID : String
  Email : String
  Registered : RegisteredClaims
deriving DecidableEq, Repr

/-- A token string, as decoded by `Parser.ParseUnverified`; `detail` is the
text that the parser adds to `ErrTokenMalformed` for a string that does not
decode, such as "token contains an invalid number of segments". -/
inductive TokenString where
  | malformed (detail : String)
  | jwt (alg : String) (claims : TokenClaims) (signature : List Nat)
deriving DecidableEq, Repr

/-- The functions of the libraries that the model does not compute:
`hash alg` is the hash function of the HMAC method `alg` (SHA-256, SHA-384 or
SHA-512), `signingString alg claims` is the text that is signed (the encoded
header, a dot, the encoded claims), `bcrypt salt password` is the hash that
`bcrypt.GenerateFromPassword` returns with the random salt `salt`,
`bcryptCompare hash password` tells whether `bcrypt.CompareHashAndPassword`
accepts, and `orderedPreload rows` is the answer of the database engine to the
preload query `SELECT ... FROM activities WHERE ... ORDER BY order ASC` whose
matching rows are `rows`: the rows sorted by their order column where the
engine takes the unquoted word `order` as the column, an error where it
rejects the reserved word. -/
structure Lib where
  hash : String → List Nat → List Nat
  signingString : String → TokenClaims → List Nat
  bcrypt : Nat → String → String
  bcryptCompare : String → String → Bool
  orderedPreload : List Activity → Result (List Activity)

/-- The names of the signing methods of the HMAC family (`*jwt.SigningMethodHMAC`). -/
def hmacMethods : List String := ["HS256", "HS384", "HS512"]

/-- The names registered with `jwt.RegisterSigningMethod`. -/
def registeredMethods : List String :=
  ["HS256", "HS384", "HS512", "RS256", "RS384", "RS512", "ES256", "ES384", "ES512",
   "PS256", "PS384", "PS512", "EdDSA", "none"]

/-- Block size in bytes of the hash of an HMAC method. -/
def blockSize (alg : String) : Nat := if alg = "HS256" then 64 else 128

/-- The key block of HMAC (RFC 2104, `crypto/hmac.New`): a key longer than
the block is hashed, and the key is padded with zero bytes to the block size. -/
def hmacKeyBlock (lib : Lib) (alg : String) (key : List Nat) : List Nat :=
  let k0 := if key.length > blockSize alg then lib.hash alg key else key
  k0 ++ List.replicate (blockSize alg - k0.length) 0

/-- HMAC of a message: `H((K xor opad) || H((K xor ipad) || message))`. -/
def hmac (lib : Lib) (alg : String) (key message : List Nat) : List Nat :=
  let k := hmacKeyBlock lib alg key
  lib.hash alg (k.map (fun b => Nat.xor b 92) ++ lib.hash alg (k.map (fun b => Nat.xor b 54) ++ message))

/-- The token that `jwt.NewWithClaims(method, claims).SignedString(key)`
produces for an HMAC method `alg` and the key `[]byte(secret)`. -/
def signedToken (lib : Lib) (alg : String) (claims : TokenClaims) (secret : String) : TokenString :=
  .jwt alg claims (hmac lib alg (utf8Bytes secret) (lib.signingString alg claims))

/-- Method `Token.SignedString` for an HMAC method and a byte-slice key; it
does not fail. -/
def SignedString (lib : Lib) (alg : String) (claims : TokenClaims) (secret : String) :
    Result TokenString :=
  .ok (signedToken lib alg claims secret)

/-- The errors of `ParseWithClaims`: `ErrTokenMalformed` with the detail of
the parser, `ErrTokenUnverifiable`, `ErrTokenSignatureInvalid`, and
`ErrTokenInvalidClaims` joined with `ErrTokenExpired` and/or
`ErrTokenNotValidYet`. -/
inductive JwtError where
  | malformed (detail : String)
  | unverifiable (detail : String)
  | signatureInvalid
  | invalidClaims (expired notValidYet : Bool)
deriving DecidableEq, Repr

/-- The text `err.Error()`: the library joins an error and its detail with
a colon and a blank, and the errors of the claims with a comma and a blank. -/
def JwtError.Error : JwtError → String
  | .malformed detail => "token is malformed: " ++ detail
  | .unverifiable detail => "token is unverifiable: " ++ detail
  | .signatureInvalid => "token signature is invalid: signature is invalid"
  | .invalidClaims true false => "token has invalid claims: token is expired"
  | .invalidClaims false true => "token has invalid claims: token is not valid yet"
  | .invalidClaims true true => "token has invalid claims: token is expired, token is not valid yet"
  | .invalidClaims false false => "token has invalid claims"

/-- The test `errors.Is(err, jwt.ErrTokenExpired)`. -/
def JwtError.isExpired : JwtError → Bool
  | .invalidClaims true _ => true
  | _ => false

/-- Structure `jwt.Token` after parsing. -/
structure Token where
  Method : String
  Claims : TokenClaims
  Signature : List Nat
  Valid : Bool
deriving DecidableEq, Repr

/-- The check of `exp` in `Validator.Validate`: a missing claim passes, a
present one requires `now.Before(exp)`. -/
def expiredAt (now : Time) (c : RegisteredClaims) : Bool :=
  match c.ExpiresAt with
  | some exp => !(now.Before ⟨exp * 1000000000⟩)
  | none => false

/-- The check of `nbf` in `Validator.Validate`: a missing claim passes, a
present one requires that `now` is not before it. -/
def notValidYetAt (now : Time) (c : RegisteredClaims) : Bool :=
  match c.NotBefore with
  | some nbf => now.Before ⟨nbf * 1000000000⟩
  | none => false

/-- The key function that `ValidateToken` and `RefreshToken` pass to the
parser: it accepts the methods of the HMAC family and returns the configured
secret. -/
def keyFunc (cfg : Config) (alg : String) : Result String :=
  if alg ∈ hmacMethods then .ok cfg.JWT.Secret
  else .err ("unexpected signing method: " ++ alg)

/-- Function `jwt.ParseWithClaims(tokenString, &TokenClaims{}, keyFunc)` at the
time `now`: decodes, looks the method up, asks the key function, verifies the
signature, then validates `exp` and `nbf`.  As in Go the token is returned
next to the error once it has been decoded. -/
def ParseWithClaims (lib : Lib) (cfg : Config) (now : Time) (tokenString : TokenString) :
    Option Token × Option JwtError :=
  match tokenString with
  | .malformed detail => (none, some (.malformed detail))
  | .jwt alg claims signature =>
    let token : Token := { Method := alg, Claims := claims, Signature := signature, Valid := false }
    if alg ∉ registeredMethods then
      (some token, some (.unverifiable "signing method (alg) is unavailable"))
    else
      match keyFunc cfg alg with
      | .ok secret =>
        if signature ≠ hmac lib alg (utf8Bytes secret) (lib.signingString alg claims) then
          (some token, some .signatureInvalid)
        else if expiredAt now claims.Registered || notValidYetAt now claims.Registered then
          (some token, some (.invalidClaims (expiredAt now claims.Registered)
            (notValidYetAt now claims.Registered)))
        else (some { token with Valid := true }, none)
      | .err e => (some token, some (.unverifiable ("error while executing keyfunc: " ++ e)))
      | .panic p => (some token, some (.unverifiable p))

/-! ## Package `services`: the authentication service (`auth_service.go`)

`clk i` is the `i`-th reading of `time.Now()` during one call of
`GenerateTokenPair`; `now` is the reading taken by the token parser. -/

/-- Structure `services.TokenPair`. -/
structure TokenPair where
  AccessToken : TokenString
  RefreshToken : TokenString
  ExpiresIn : Int
deriving DecidableEq, Repr

/-- Structure `services.LoginRequest`. -/
structure LoginRequest where
  Email : String
  Password : String
deriving DecidableEq, Repr

/-- Structure `services.RegisterRequest`. -/
structure RegisterRequest where
  Email : String
  Password : String
  Name : String
deriving DecidableEq, Repr

/-- Structure `services.AuthResponse`. -/
structure AuthResponse where
  User : User
  Tokens : TokenPair
deriving DecidableEq, Repr

/-- The value `jwt.NewNumericDate(t)`: the instant truncated to whole seconds. -/
def NewNumericDate (t : Time) : Int := t.sec

/-- The claims that `GenerateTokenPair` builds for one token: `expires` is
the reading of the clock to which the lifetime of `hours` hours is added (the
product `time.Duration(hours) * time.Hour` wraps in 64 bits), `issued` and
`notBefore` are the two later readings. -/
def tokenClaims (userID email subject : String) (hours : Int) (expires issued notBefore : Time) :
    TokenClaims :=
  { UserID := userID, Email := email,
    Registered :=
      { Issuer := "", Subject := subject, Audience := [],
        ExpiresAt := some (NewNumericDate (expires.Add (wrapInt64 (hours * Hour)))),
        NotBefore := some (NewNumericDate notBefore),
        IssuedAt := some (NewNumericDate issued), ID := "" } }

/-- Method `AuthService.GenerateTokenPair`. -/
def GenerateTokenPair (lib : Lib) (cfg : Config) (clk : Nat → Time) (userID email : String) :
    Result TokenPair :=
  let accessClaims := tokenClaims userID email "access" cfg.JWT.ExpireHours (clk 0) (clk 1) (clk 2)
  match SignedString lib "HS256" accessClaims cfg.JWT.Secret with
  | .err e => .err ("failed to sign access token: " ++ e)
  | .panic p => .panic p
  | .ok accessTokenString =>
    let refreshClaims :=
      tokenClaims userID email "refresh" cfg.JWT.RefreshExpireHours (clk 3) (clk 4) (clk 5)
    match SignedString lib "HS256" refreshClaims cfg.JWT.Secret with
    | .err e => .err ("failed to sign refresh token: " ++ e)
    | .panic p => .panic p
    | .ok refreshTokenString =>
      .ok { AccessToken := accessTokenString, RefreshToken := refreshTokenString,
            ExpiresIn := wrapInt64 (cfg.JWT.ExpireHours * 3600) }

/-- Method `AuthService.ValidateToken`. -/
def ValidateToken (lib : Lib) (cfg : Config) (now : Time) (tokenString : TokenString) :
    Result TokenClaims :=
  match ParseWithClaims lib cfg now tokenString with
  | (_, some err) => .err ("invalid token: " ++ err.Error)
  | (none, none) => .err "invalid token claims"
  | (some token, none) =>
    if !token.Valid then .err "invalid token claims"
    else if token.Claims.Registered.Subject ≠ "access" then .err "invalid token type"
    else .ok token.Claims

/-- Method `AuthService.RefreshToken`. -/
def RefreshToken (lib : Lib) (cfg : Config) (now : Time) (clk : Nat → Time)
    (refreshToken : TokenString) : Result TokenPair :=
  match ParseWithClaims lib cfg now refreshToken with
  | (_, some err) => .err ("invalid refresh token: " ++ err.Error)
  | (none, none) => .err "invalid refresh token claims"
  | (some token, none) =>
    if !token.Valid then .err "invalid refresh token claims"
    else if token.Claims.Registered.Subject ≠ "refresh" then .err "invalid token type"
    else GenerateTokenPair lib cfg clk token.Claims.UserID token.Claims.Email

namespace Store

/-- Query `Where("email = ?", email).First(&user)`. -/
def firstUserByEmail (s : Store) (email : String) : Option User :=
  firstBy User.ID (s.users.filter (fun u => u.DeletedAt.isNone && u.Email == email))

/-- Query `Where("id = ?", userID).First(&user)` with the id given as text:
the row whose id has that text. -/
def firstUserByID (s : Store) (userID : String) : Option User :=
  firstBy User.ID (s.users.filter (fun u => u.DeletedAt.isNone && u.ID.String == userID))

/-- Statement `Create(&user)`: runs the hook, then inserts the row. -/
def createUser (s : Store) (fresh : UUID) (user : User) : Store × Result User :=
  let u := user.BeforeCreate fresh
  if s.users.any (fun x => x.ID == u.ID) then (s, .err (uniqueViolation "users.id"))
  else if s.users.any (fun x => x.Email == u.Email) then (s, .err (uniqueViolation "users.email"))
  else ({ s with users := s.users ++ [u] }, .ok u)

end Store

/-- The limit of `bcrypt.GenerateFromPassword`: a password of more than 72
bytes is refused. -/
def bcryptGenerate (lib : Lib) (salt : Nat) (password : String) : Result String :=
  if (utf8Bytes password).length > 72 then .err "bcrypt: password length exceeds 72 bytes"
  else .ok (lib.bcrypt salt password)

/-- Method `AuthService.Register`; `salt` is the randomness of bcrypt and
`gen 0` the value of `uuid.New()` in the hook of the new user. -/
def Register (lib : Lib) (cfg : Config) (s : Store) (gen : Nat → UUID) (salt : Nat)
    (clk : Nat → Time) (req : RegisterRequest) : Store × Result AuthResponse :=
  match s.firstUserByEmail req.Email with
  | some _ => (s, .err "user with this email already exists")
  | none =>
    match bcryptGenerate lib salt req.Password with
    | .err e => (s, .err ("failed to hash password: " ++ e))
    | .panic p => (s, .panic p)
    | .ok hashedPassword =>
      match s.createUser (gen 0)
          { ID := UUID.Nil, Email := req.Email, Password := hashedPassword, Name := req.Name,
            DeletedAt := none } with
      | (s1, .err e) => (s1, .err ("failed to create user: " ++ e))
      | (s1, .panic p) => (s1, .panic p)
      | (s1, .ok user) =>
        match GenerateTokenPair lib cfg clk user.ID.String user.Email with
        | .err e => (s1, .err ("failed to generate tokens: " ++ e))
        | .panic p => (s1, .panic p)
        | .ok tokens => (s1, .ok { User := { user with Password := "" }, Tokens := tokens })

/-- Method `AuthService.Login`. -/
def Login (lib : Lib) (cfg : Config) (s : Store) (clk : Nat → Time) (req : LoginRequest) :
    Result AuthResponse :=
  match s.firstUserByEmail req.Email with
  | none => .err "invalid email or password"
  | some user =>
    if !lib.bcryptCompare user.Password req.Password then .err "invalid email or password"
    else
      match GenerateTokenPair lib cfg clk user.ID.String user.Email with
      | .err e => .err ("failed to generate tokens: " ++ e)
      | .panic p => .panic p
      | .ok tokens => .ok { User := { user with Password := "" }, Tokens := tokens }

/-- Method `AuthService.GetUserByID`. -/
def GetUserByID (s : Store) (userID : String) : Result User :=
  match s.firstUserByID userID with
  | none => .err "user not found"
  | some user => .ok { user with Password := "" }

/-! ## Package `handlers`: the authentication handler (`auth_handler.go`) -/

/-- The HTTP status with which `AuthHandler.Register` answers; `bound` is the
outcome of `c.ShouldBindJSON(&req)`.  A panic is answered by the recovery
middleware with status 500. -/
def AuthHandler.Register (lib : Lib) (cfg : Config) (s : Store) (gen : Nat → UUID) (salt : Nat)
    (clk : Nat → Time) (bound : Result RegisterRequest) : Store × Nat :=
  match bound with
  | .ok req =>
    match TimeCal.Register lib cfg s gen salt clk req with
    | (s1, .ok _) => (s1, 201)
    | (s1, .err e) => if e = "user with this email already exists" then (s1, 409) else (s1, 400)
    | (s1, .panic _) => (s1, 500)
  | _ => (s, 400)

/-- The inputs of one call of `Register`. -/
structure RegisterCall where
  gen : Nat → UUID
  salt : Nat
  clk : Nat → Time
  req : RegisterRequest

/-- The store after a sequence of calls of `Register`. -/
def registerAll (lib : Lib) (cfg : Config) : Store → List RegisterCall → Store
  | s, [] => s
  | s, c :: cs => registerAll lib cfg (Register lib cfg s c.gen c.salt c.clk c.req).1 cs

/-! ### Sample data -/

/-- Inserts an activity into a list sorted by `Order`, after the rows with the
same order. -/
def insertByOrder (a : Activity) : List Activity → List Activity
  | [] => [a]
  | b :: bs => if a.Order < b.Order then a :: b :: bs else b :: insertByOrder a bs

/-- The activities sorted by `Order`, rows of equal order in their stored order. -/
def sortByOrder (rows : List Activity) : List Activity :=
  rows.foldl (fun acc a => insertByOrder a acc) []

/-- A small stand-in for the library functions, used to evaluate examples: a
polynomial checksum for the hash functions, the fields of the claims for the
signed text, a tagged copy of the password for bcrypt, and an engine that
sorts the preloaded activities. -/
def sampleLib : Lib :=
  { hash := fun _ bytes => [bytes.foldl (fun acc b => (acc * 31 + b) % 65521) 7]
    signingString := fun alg c =>
      utf8Bytes (alg ++ "." ++ c.UserID ++ "." ++ c.Email ++ "." ++ c.Registered.Subject)
    bcrypt := fun salt password => "$2a$10$" ++ toString salt ++ "$" ++ password
    bcryptCompare := fun hash password =>
      (hash.splitOn "$").getLast? == some password
    orderedPreload := fun rows => .ok (sortByOrder rows) }

/-- The stand-in `sampleLib` with an engine that rejects the reserved word in
`ORDER BY order ASC` (the text of the error is that of SQLite). -/
def strictLib : Lib :=
  { sampleLib with orderedPreload := fun _ => .err "near \"order\": syntax error" }

/-- The configuration of the tests: `setupTestConfig`. -/
def testConfig : Config :=
  { JWT := { Secret := "test-secret-key-for-testing-only", ExpireHours := 1,
             RefreshExpireHours := 24 } }

/-- A clock that reads 2024-01-01T10:00:00Z at every call. -/
def clockTen (_ : Nat) : Time := Time.Date 2024 1 1 10 0 0 0

/-- The instant 2024-01-01T10:30:00Z. -/
def halfPastTen : Time := Time.Date 2024 1 1 10 30 0 0

/-- The instant 2024-01-03T10:00:00Z. -/
def twoDaysLater : Time := Time.Date 2024 1 3 10 0 0 0

/-- The claims of the token of `TestExpiredTokenValidation`, taken at 10:00:
expired at 09:00, issued at 08:00, no subject. -/
def expiredClaims : TokenClaims :=
  { UserID := userA, Email := "test@example.com",
    Registered :=
      { Issuer := "", Subject := "", Audience := [],
        ExpiresAt := some (NewNumericDate (Time.Date 2024 1 1 9 0 0 0)), NotBefore := none,
        IssuedAt := some (NewNumericDate (Time.Date 2024 1 1 8 0 0 0)), ID := "" } }

/-- The claims of the token of `TestTokenClaimsValidation`, taken at 10:00:
expires at 11:00, issued at 10:00, no subject. -/
def testClaims : TokenClaims :=
  { UserID := userA, Email := "test@example.com",
    Registered :=
      { Issuer := "", Subject := "", Audience := [],
        ExpiresAt := some (NewNumericDate (Time.Date 2024 1 1 11 0 0 0)), NotBefore := none,
        IssuedAt := some (NewNumericDate (Time.Date 2024 1 1 10 0 0 0)), ID := "" } }

/-- Claims of an access token that does not expire. -/
def accessClaims : TokenClaims :=
  { UserID := userA, Email := "test@example.com",
    Registered :=
      { Issuer := "", Subject := "access", Audience := [], ExpiresAt := none, NotBefore := none,
        IssuedAt := none, ID := "" } }

/-- The registration request of the examples. -/
def sampleRegister : RegisterRequest :=
  { Email := "test@example.com", Password := "secret1", Name := "Al" }

/-- The user that `sampleRegister` creates when `uuid.New()` returns 101 and the
salt is 7. -/
def sampleUser : User :=
  { ID := 101, Email := "test@example.com", Password := "$2a$10$7$secret1", Name := "Al",
    DeletedAt := none }

/-- The store that holds `sampleUser` only. -/
def storeWithUser : Store := { emptyStore with users := [sampleUser] }

/-! ## Package `services`: the daily plan service (`daily_plan_service.go`) -/

/-- Structure `services.Activity`: an activity in a request or a response. -/
structure Services.Activity where
  ID : UUID
  Description : String
  EstimatedTime : Int
  ActualTime : Option Int
  Status : String
  Category : String
  Priority : String
  Order : Int
deriving DecidableEq, Repr

/-- Structure `services.DailyPlanRequest`. -/
structure DailyPlanRequest where
  Date : String
  Activities : List Services.Activity
  Status : String
deriving DecidableEq, Repr

/-- Structure `services.DailyPlanResponse` (without the ORM timestamps). -/
structure DailyPlanResponse where
  ID : UUID
  Date : String
  Activities : List Services.Activity
  TotalEstimatedTime : Int
  TotalActualTime : Int
  Status : String
deriving DecidableEq, Repr

/-- Structure `services.ActivityResponse` (without the ORM timestamps). -/
structure ActivityResponse where
  ID : UUID
  Description : String
  EstimatedTime : Int
  ActualTime : Option Int
  Status : String
  Category : String
  Priority : String
  Order : Int
deriving DecidableEq, Repr

/-- Structure `services.UpdateActivityRequest`. -/
structure UpdateActivityRequest where
  Description : String
  EstimatedTime : Int
  ActualTime : Option Int
  Status : String
  Category : String
  Priority : String
  Order : Int
deriving DecidableEq, Repr

namespace Store

/-- The test at the head of `CreateDailyPlan`:
`Where("user_id = ? AND date = ?", user, date).First(&existingPlan)`. -/
def firstDailyPlanByDate (s : Store) (user : UUID) (date : Time) : Option DailyPlan :=
  firstBy DailyPlan.ID
    (s.dailyPlans.filter (fun p => p.DeletedAt.isNone && p.UserID == user && p.Date == date))

/-- Query `Where("id = ? AND user_id = ?", id, user).First(&plan)`, before the preload. -/
def firstDailyPlan (s : Store) (id user : UUID) : Option DailyPlan :=
  firstBy DailyPlan.ID
    (s.dailyPlans.filter (fun p => p.DeletedAt.isNone && p.ID == id && p.UserID == user))

/-- The live activities of a plan, in stored order. -/
def activitiesOf (s : Store) (plan : UUID) : List Activity :=
  s.activities.filter (fun a => a.DeletedAt.isNone && a.DailyPlanID == plan)

/-- Statement `tx.Create(&plan)`: runs the hook, applies the column default
of `status` to an empty status and inserts the row. -/
def createDailyPlan (s : Store) (fresh : UUID) (plan : DailyPlan) : Store × Result DailyPlan :=
  let p0 := plan.BeforeCreate fresh
  let p := { p0 with Status := if p0.Status = "" then "draft" else p0.Status, Activities := [] }
  if s.dailyPlans.any (fun x => x.ID == p.ID) then (s, .err (uniqueViolation "daily_plans.id"))
  else ({ s with dailyPlans := s.dailyPlans ++ [p] }, .ok p)

/-- The rows of the batch `tx.Create(&activities)`: the hook gives the `i`-th
activity the id `gen (k + i)`, and the column defaults replace an empty status
and an empty priority. -/
def newActivityRows (gen : Nat → UUID) (k : Nat) : List Activity → List Activity
  | [] => []
  | a :: as =>
    let a0 := a.BeforeCreate (gen k)
    { a0 with Status := if a0.Status = "" then "pending" else a0.Status,
              Priority := if a0.Priority = "" then "medium" else a0.Priority }
      :: newActivityRows gen (k + 1) as

/-- Statement `tx.Create(&activities)`: inserts the batch, or nothing when an
id of the batch is taken. -/
def createActivities (s : Store) (gen : Nat → UUID) (k : Nat) (activities : List Activity) :
    Store × Result (List Activity) :=
  let rows := newActivityRows gen k activities
  if rows.any (fun r => s.activities.any (fun x => x.ID == r.ID)) ∨ ¬ (rows.map Activity.ID).Nodup then
    (s, .err (uniqueViolation "activities.id"))
  else ({ s with activities := s.activities ++ rows }, .ok rows)

/-- Statement `tx.Model(&models.DailyPlan{}).Where("id = ? AND user_id = ?", id,
user).Updates(updateData)` with the keys `date`, `total_estimated_time` and
`status`. -/
def updateDailyPlan (s : Store) (id user : UUID) (date : Time) (total : Int) (status : String) :
    Store :=
  let hit := fun (p : DailyPlan) => p.DeletedAt.isNone && p.ID == id && p.UserID == user
  let rows := s.dailyPlans.map
    (fun p => if hit p then { p with Date := date, TotalEstimatedTime := total, Status := status } else p)
  { s with dailyPlans := rows }

/-- Statement `tx.Where("daily_plan_id = ?", plan).Delete(&models.Activity{})`:
soft-deletes the live activities of the plan. -/
def deleteActivitiesOf (s : Store) (now : Time) (plan : UUID) : Store :=
  let rows := s.activities.map
    (fun a => if a.DeletedAt.isNone && a.DailyPlanID == plan then { a with DeletedAt := some now } else a)
  { s with activities := rows }

/-- Statement `tx.Where("id = ? AND user_id = ?", id, user).Delete(&models.DailyPlan{})`:
soft-deletes the matching live rows and reports how many there were. -/
def deleteDailyPlan (s : Store) (now : Time) (id user : UUID) : Store × Nat :=
  let hit := fun (p : DailyPlan) => p.DeletedAt.isNone && p.ID == id && p.UserID == user
  let rows := s.dailyPlans.map (fun p => if hit p then { p with DeletedAt := some now } else p)
  ({ s with dailyPlans := rows }, (s.dailyPlans.filter hit).length)

/-- Statement `Model(&models.Activity{}).Where("id = ? AND daily_plan_id = ?", id,
plan).Updates(updateData)`: writes every key of the map to the matching live
rows and reports how many there were. -/
def updateActivity (s : Store) (id plan : UUID) (req : UpdateActivityRequest) : Store × Nat :=
  let hit := fun (a : Activity) => a.DeletedAt.isNone && a.ID == id && a.DailyPlanID == plan
  let rows := s.activities.map
    (fun a => if hit a then
        { a with Description := req.Description, EstimatedTime := req.EstimatedTime,
                 ActualTime := req.ActualTime, Status := req.Status, Category := req.Category,
                 Priority := req.Priority, Order := req.Order }
      else a)
  ({ s with activities := rows }, (s.activities.filter hit).length)

/-- Query `First(&activity, id)`. -/
def firstActivityByID (s : Store) (id : UUID) : Option Activity :=
  firstBy Activity.ID (s.activities.filter (fun a => a.DeletedAt.isNone && a.ID == id))

end Store

/-- The activity rows that `CreateDailyPlan` and `UpdateDailyPlan` build from
the activities of the request. -/
def activitiesOfRequest (plan : UUID) (reqs : List Services.Activity) : List Activity :=
  reqs.map (fun r =>
    { ID := UUID.Nil, DailyPlanID := plan, Description := r.Description,
      EstimatedTime := r.EstimatedTime, ActualTime := r.ActualTime, Status := r.Status,
      Category := r.Category, Priority := r.Priority, Order := r.Order, DeletedAt := none })

/-- The loop "Calculate total estimated time", in 64-bit `int` arithmetic. -/
def totalEstimatedTime (reqs : List Services.Activity) : Int :=
  reqs.foldl (fun total activity => wrapInt64 (total + activity.EstimatedTime)) 0

/-- Method `DailyPlanService.toDailyPlanResponse`. -/
def toDailyPlanResponse (plan : DailyPlan) : DailyPlanResponse :=
  { ID := plan.ID, Date := plan.Date.Format,
    Activities := plan.Activities.map (fun a =>
      { ID := a.ID, Description := a.Description, EstimatedTime := a.EstimatedTime,
        ActualTime := a.ActualTime, Status := a.Status, Category := a.Category,
        Priority := a.Priority, Order := a.Order })
    TotalEstimatedTime := plan.TotalEstimatedTime, TotalActualTime := plan.TotalActualTime,
    Status := plan.Status }

/-- Method `DailyPlanService.toActivityResponse`. -/
def toActivityResponse (a : Activity) : ActivityResponse :=
  { ID := a.ID, Description := a.Description, EstimatedTime := a.EstimatedTime,
    ActualTime := a.ActualTime, Status := a.Status, Category := a.Category, Priority := a.Priority,
    Order := a.Order }

/-- The query of `GetDailyPlan` and `GetDailyPlanByDate` once the plan row is
found: the preload of the activities ordered by `order`. -/
def loadPlan (lib : Lib) (s : Store) (plan : DailyPlan) : Result DailyPlanResponse :=
  match lib.orderedPreload (s.activitiesOf plan.ID) with
  | .ok activities => .ok (toDailyPlanResponse { plan with Activities := activities })
  | .err e => .err ("failed to fetch daily plan: " ++ e)
  | .panic p => .panic p

/-- Method `DailyPlanService.GetDailyPlan`. -/
def GetDailyPlan (lib : Lib) (s : Store) (userID planID : String) : Result DailyPlanResponse :=
  match uuidParse userID with
  | .err e => .err ("invalid user ID: " ++ e)
  | .panic p => .panic p
  | .ok userUUID =>
    match uuidParse planID with
    | .err e => .err ("invalid plan ID: " ++ e)
    | .panic p => .panic p
    | .ok planUUID =>
      match s.firstDailyPlan planUUID userUUID with
      | none => .err "daily plan not found"
      | some plan => loadPlan lib s plan

/-- Method `DailyPlanService.GetDailyPlanByDate`. -/
def GetDailyPlanByDate (lib : Lib) (s : Store) (userID date : String) : Result DailyPlanResponse :=
  match uuidParse userID with
  | .err e => .err ("invalid user ID: " ++ e)
  | .panic p => .panic p
  | .ok userUUID =>
    match Time.Parse date with
    | .err e => .err ("invalid date format, expected YYYY-MM-DD: " ++ e)
    | .panic p => .panic p
    | .ok parsedDate =>
      match s.firstDailyPlanByDate userUUID parsedDate with
      | none => .err "daily plan not found"
      | some plan => loadPlan lib s plan

/-- The transaction of `CreateDailyPlan`: inserts the plan (`gen 0` is the id
from its hook) and then, when the request has activities, their rows (ids
`gen 1`, `gen 2`, ...).  On an error the transaction is rolled back, so the
store is the one before. -/
def createPlanTx (s : Store) (gen : Nat → UUID) (plan : DailyPlan) (reqs : List Services.Activity) :
    Store × Result DailyPlan :=
  match s.createDailyPlan (gen 0) plan with
  | (_, .err e) => (s, .err ("failed to create daily plan: " ++ e))
  | (_, .panic p) => (s, .panic p)
  | (s1, .ok created) =>
    if reqs.length > 0 then
      match s1.createActivities gen 1 (activitiesOfRequest created.ID reqs) with
      | (_, .err e) => (s, .err ("failed to create activities: " ++ e))
      | (_, .panic p) => (s, .panic p)
      | (s2, .ok _) => (s2, .ok created)
    else (s1, .ok created)

/-- The value `models.DailyPlan{...}` that `CreateDailyPlan` builds. -/
def newDailyPlan (userUUID : UUID) (date : Time) (req : DailyPlanRequest) : DailyPlan :=
  { ID := UUID.Nil, UserID := userUUID, Date := date,
    TotalEstimatedTime := totalEstimatedTime req.Activities, TotalActualTime := 0,
    Status := req.Status, DeletedAt := none, Activities := [] }

/-- Method `DailyPlanService.CreateDailyPlan`. -/
def CreateDailyPlan (lib : Lib) (s : Store) (gen : Nat → UUID) (userID : String)
    (req : DailyPlanRequest) : Store × Result DailyPlanResponse :=
  match uuidParse userID with
  | .err e => (s, .err ("invalid user ID: " ++ e))
  | .panic p => (s, .panic p)
  | .ok userUUID =>
    match Time.Parse req.Date with
    | .err e => (s, .err ("invalid date format, expected YYYY-MM-DD: " ++ e))
    | .panic p => (s, .panic p)
    | .ok date =>
      match s.firstDailyPlanByDate userUUID date with
      | some _ => (s, .err "daily plan already exists for this date")
      | none =>
        match createPlanTx s gen (newDailyPlan userUUID date req) req.Activities with
        | (s1, .err e) => (s1, .err e)
        | (s1, .panic p) => (s1, .panic p)
        | (s1, .ok created) => (s1, GetDailyPlan lib s1 userID created.ID.String)

/-- The transaction of `UpdateDailyPlan`: updates the plan row of the user,
soft-deletes the activities of the plan id and inserts the activities of the
request (ids `gen 0`, `gen 1`, ...).  On an error the transaction is rolled
back. -/
def updatePlanTx (s : Store) (gen : Nat → UUID) (now : Time) (planUUID userUUID : UUID)
    (date : Time) (req : DailyPlanRequest) : Store × Result Unit :=
  let s1 := s.updateDailyPlan planUUID userUUID date (totalEstimatedTime req.Activities) req.Status
  let s2 := s1.deleteActivitiesOf now planUUID
  if req.Activities.length > 0 then
    match s2.createActivities gen 0 (activitiesOfRequest planUUID req.Activities) with
    | (_, .err e) => (s, .err ("failed to create activities: " ++ e))
    | (_, .panic p) => (s, .panic p)
    | (s3, .ok _) => (s3, .ok ())
  else (s2, .ok ())

/-- Method `DailyPlanService.UpdateDailyPlan`; `now` is the time of the soft
deletion. -/
def UpdateDailyPlan (lib : Lib) (s : Store) (gen : Nat → UUID) (now : Time)
    (userID planID : String) (req : DailyPlanRequest) : Store × Result DailyPlanResponse :=
  match uuidParse userID with
  | .err e => (s, .err ("invalid user ID: " ++ e))
  | .panic p => (s, .panic p)
  | .ok userUUID =>
    match uuidParse planID with
    | .err e => (s, .err ("invalid plan ID: " ++ e))
    | .panic p => (s, .panic p)
    | .ok planUUID =>
      match Time.Parse req.Date with
      | .err e => (s, .err ("invalid date format, expected YYYY-MM-DD: " ++ e))
      | .panic p => (s, .panic p)
      | .ok date =>
        match updatePlanTx s gen now planUUID userUUID date req with
        | (s1, .err e) => (s1, .err e)
        | (s1, .panic p) => (s1, .panic p)
        | (s1, .ok _) => (s1, GetDailyPlan lib s1 userID planID)

/-- Method `DailyPlanService.DeleteDailyPlan`: the activities of the plan id
are deleted first, then the plan row of the user; the count of deleted plan
rows is examined after the commit. -/
def DeleteDailyPlan (s : Store) (now : Time) (userID planID : String) : Store × Result Unit :=
  match uuidParse userID with
  | .err e => (s, .err ("invalid user ID: " ++ e))
  | .panic p => (s, .panic p)
  | .ok userUUID =>
    match uuidParse planID with
    | .err e => (s, .err ("invalid plan ID: " ++ e))
    | .panic p => (s, .panic p)
    | .ok planUUID =>
      match (s.deleteActivitiesOf now planUUID).deleteDailyPlan now planUUID userUUID with
      | (s1, rowsAffected) =>
        if rowsAffected = 0 then (s1, .err "daily plan not found") else (s1, .ok ())

/-- Method `DailyPlanService.UpdateActivity`. -/
def UpdateActivity (s : Store) (userID planID activityID : String) (req : UpdateActivityRequest) :
    Store × Result ActivityResponse :=
  match uuidParse userID with
  | .err e => (s, .err ("invalid user ID: " ++ e))
  | .panic p => (s, .panic p)
  | .ok _ =>
    match uuidParse planID with
    | .err e => (s, .err ("invalid plan ID: " ++ e))
    | .panic p => (s, .panic p)
    | .ok planUUID =>
      match uuidParse activityID with
      | .err e => (s, .err ("invalid activity ID: " ++ e))
      | .panic p => (s, .panic p)
      | .ok activityUUID =>
        match s.updateActivity activityUUID planUUID req with
        | (s1, rowsAffected) =>
          if rowsAffected = 0 then (s1, .err "activity not found")
          else
            match s1.firstActivityByID activityUUID with
            | none => (s1, .err "failed to fetch updated activity: record not found")
            | some activity => (s1, .ok (toActivityResponse activity))

/-! ## Package `handlers`: the daily plan handler (`daily_plan_handler.go`) -/

/-- The HTTP status with which `DailyPlanHandler.CreateDailyPlan` answers;
`userID` is the value that the authentication middleware put in the context
and `bound` the outcome of `c.ShouldBindJSON(&req)`. -/
def DailyPlanHandler.CreateDailyPlan (lib : Lib) (s : Store) (gen : Nat → UUID)
    (userID : Option String) (bound : Result DailyPlanRequest) : Store × Nat :=
  match userID with
  | none => (s, 401)
  | some uid =>
    match bound with
    | .ok req =>
      let req1 := if req.Status = "" then { req with Status := "draft" } else req
      match TimeCal.CreateDailyPlan lib s gen uid req1 with
      | (s1, .ok _) => (s1, 201)
      | (s1, .err e) =>
        if e = "daily plan already exists for this date" then (s1, 409) else (s1, 400)
      | (s1, .panic _) => (s1, 500)
    | _ => (s, 400)

/-! ### Sample data -/

/-- A plan request for the given date with one activity of 30 minutes. -/
def planRequest (date : String) : DailyPlanRequest :=
  { Date := date,
    Activities := [{ ID := UUID.Nil, Description := "Morning routine", EstimatedTime := 30,
                     ActualTime := none, Status := "pending", Category := "Personal",
                     Priority := "medium", Order := 1 }],
    Status := "draft" }

/-- The plan row of user 10 with the given id and date that `planRequest` creates. -/
def planRow (id : UUID) (date : Time) : DailyPlan :=
  { ID := id, UserID := 10, Date := date, TotalEstimatedTime := 30, TotalActualTime := 0,
    Status := "draft", DeletedAt := none, Activities := [] }

/-- The activity row with the given id and plan that `planRequest` creates;
`deleted` is the time of its soft deletion, if any. -/
def activityRow (id plan : UUID) (deleted : Option Time) : Activity :=
  { ID := id, DailyPlanID := plan, Description := "Morning routine", EstimatedTime := 30,
    ActualTime := none, Status := "pending", Category := "Personal", Priority := "medium",
    Order := 1, DeletedAt := deleted }

/-- The successive values of `uuid.New()` of a second call: 201, 202, ... -/
def sampleGen2 (i : Nat) : UUID := 201 + i

/-- The successive values of `uuid.New()` of a third call: 301, 302, ... -/
def sampleGen3 (i : Nat) : UUID := 301 + i

/-- The text of the UUID with value 201. -/
def plan201 : String := "00000000-0000-0000-0000-0000000000c9"

/-- The invariant "at most one plan per (user, date)" on the live rows of
table `daily_plans`. -/
def onePlanPerDay (s : Store) : Prop :=
  ((s.dailyPlans.filter (fun p => p.DeletedAt.isNone)).map (fun p => (p.UserID, p.Date))).Nodup

instance (s : Store) : Decidable (onePlanPerDay s) := by
  unfold onePlanPerDay; infer_instance

/-- The store after plans of user 10 for 2024-01-01 (id 101) and 2024-01-02
(id 201) have been created with `planRequest`. -/
def storeTwoPlans : Store :=
  { emptyStore with
    dailyPlans := [planRow 101 (Time.Date 2024 1 1 0 0 0 0), planRow 201 (Time.Date 2024 1 2 0 0 0 0)]
    activities := [activityRow 102 101 none, activityRow 202 201 none] }

/-- The store `storeTwoPlans` after the plan 201 has been moved to 2024-01-01
at 10:30 with `planRequest`. -/
def storeSameDay : Store :=
  { emptyStore with
    dailyPlans := [planRow 101 (Time.Date 2024 1 1 0 0 0 0), planRow 201 (Time.Date 2024 1 1 0 0 0 0)]
    activities := [activityRow 102 101 none, activityRow 202 201 (some halfPastTen),
                   activityRow 301 201 none] }

/-! ### Comparison of stored and requested activities, further sample data -/

/-- The seven fields of the stored activity `a` are those of the request
activity `r`. -/
def Activity.sameFields (a : Activity) (r : Services.Activity) : Bool :=
  a.Description == r.Description && a.EstimatedTime == r.EstimatedTime &&
  a.ActualTime == r.ActualTime && a.Status == r.Status && a.Category == r.Category &&
  a.Priority == r.Priority && a.Order == r.Order

/-- The seven fields of the stored activity `a` are those of the request
activity `r`, with status "pending" for an empty status and priority "medium"
for an empty priority. -/
def Activity.storedFrom (a : Activity) (r : Services.Activity) : Bool :=
  a.Description == r.Description && a.EstimatedTime == r.EstimatedTime &&
  a.ActualTime == r.ActualTime && a.Status == (if r.Status = "" then "pending" else r.Status) &&
  a.Category == r.Category &&
  a.Priority == (if r.Priority = "" then "medium" else r.Priority) && a.Order == r.Order

/-- A request for 2024-01-02 with one activity whose status and priority are
empty (both keys are optional in the JSON body). -/
def reqNoStatus : DailyPlanRequest :=
  { Date := "2024-01-02",
    Activities := [{ ID := UUID.Nil, Description := "Read", EstimatedTime := 45,
                     ActualTime := none, Status := "", Category := "Study",
                     Priority := "", Order := 1 }],
    Status := "draft" }

/-- The store `storeTwoPlans` after the activities of plan 201 have been
replaced at 10:30 with those of `reqNoStatus`. -/
def storeReplaced : Store :=
  { emptyStore with
    dailyPlans := [planRow 101 (Time.Date 2024 1 1 0 0 0 0),
                   { planRow 201 (Time.Date 2024 1 2 0 0 0 0) with TotalEstimatedTime := 45 }]
    activities := [activityRow 102 101 none, activityRow 202 201 (some halfPastTen),
                   { ID := 301, DailyPlanID := 201, Description := "Read", EstimatedTime := 45,
                     ActualTime := none, Status := "pending", Category := "Study",
                     Priority := "medium", Order := 1, DeletedAt := none }] }

/-- The answer of `UpdateDailyPlan` to `reqNoStatus` for plan 201. -/
def respReplaced : DailyPlanResponse :=
  { ID := 201, Date := "2024-01-02",
    Activities := [{ ID := 301, Description := "Read", EstimatedTime := 45, ActualTime := none,
                     Status := "pending", Category := "Study", Priority := "medium", Order := 1 }],
    TotalEstimatedTime := 45, TotalActualTime := 0, Status := "draft" }

/-- The store `storeTwoPlans` after user 11 has called `DeleteDailyPlan` at
10:30 for plan 201 of user 10: the plan is still there, its activity is
deleted. -/
def storeOrphaned : Store :=
  { emptyStore with
    dailyPlans := [planRow 101 (Time.Date 2024 1 1 0 0 0 0), planRow 201 (Time.Date 2024 1 2 0 0 0 0)]
    activities := [activityRow 102 101 none, activityRow 202 201 (some halfPastTen)] }

/-- A plan request with two activities of 2^62 minutes each. -/
def reqHugeEstimates : DailyPlanRequest :=
  { Date := "2024-01-02",
    Activities := [{ ID := UUID.Nil, Description := "Write", EstimatedTime := 4611686018427387904,
                     ActualTime := none, Status := "pending", Category := "Work",
                     Priority := "high", Order := 1 },
                   { ID := UUID.Nil, Description := "Review", EstimatedTime := 4611686018427387904,
                     ActualTime := none, Status := "pending", Category := "Work",
                     Priority := "high", Order := 2 }],
    Status := "draft" }

/-- A plan request for 2024-01-03 with activities of 30 and 45 minutes. -/
def reqTwoActivities : DailyPlanRequest :=
  { Date := "2024-01-03",
    Activities := [{ ID := UUID.Nil, Description := "Morning routine", EstimatedTime := 30,
                     ActualTime := none, Status := "pending", Category := "Personal",
                     Priority := "medium", Order := 1 },
                   { ID := UUID.Nil, Description := "Read", EstimatedTime := 45,
                     ActualTime := none, Status := "pending", Category := "Study",
                     Priority := "low", Order := 2 }],
    Status := "draft" }

/-- The row `a` with the seven fields of the request written to it. -/
def Activity.overwrittenBy (a : Activity) (req : UpdateActivityRequest) : Activity :=
  { a with Description := req.Description, EstimatedTime := req.EstimatedTime,
           ActualTime := req.ActualTime, Status := req.Status, Category := req.Category,
           Priority := req.Priority, Order := req.Order }

/-- An update request that supplies the estimated time only. -/
def reqEstimateOnly : UpdateActivityRequest :=
  { Description := "", EstimatedTime := 45, ActualTime := none, Status := "", Category := "",
    Priority := "", Order := 0 }

/-- The text of the UUID with value 202. -/
def activity202 : String := "00000000-0000-0000-0000-0000000000ca"

/-! ## Package `handlers`: the time entry handler (`time_handler.go`) and the list handlers -/

/-- The HTTP status with which `TimeHandler.GetTimeEntry` answers; `userID`
is the value that the authentication middleware put in the context and
`entryID` the path parameter `id`. -/
def TimeHandler.GetTimeEntry (s : Store) (userID : Option String) (entryID : String) : Nat :=
  match userID with
  | none => 401
  | some uid =>
    if entryID = "" then 400
    else
      match TimeCal.GetTimeEntry s uid entryID with
      | .ok _ => 200
      | .err e => if e = "time entry not found" then 404 else 400
      | .panic _ => 500

/-- The HTTP status with which `TimeHandler.UpdateTimeEntry` answers; `bound`
is the outcome of `c.ShouldBindJSON(&req)`. -/
def TimeHandler.UpdateTimeEntry (s : Store) (gen : Nat → UUID) (userID : Option String)
    (entryID : String) (bound : Result TimeEntryRequest) : Store × Nat :=
  match userID with
  | none => (s, 401)
  | some uid =>
    if entryID = "" then (s, 400)
    else
      match bound with
      | .ok req =>
        match TimeCal.UpdateTimeEntry s gen uid entryID req with
        | (s1, .ok _) => (s1, 200)
        | (s1, .err e) => if e = "time entry not found" then (s1, 404) else (s1, 400)
        | (s1, .panic _) => (s1, 500)
      | _ => (s, 400)

/-- The HTTP status with which `TimeHandler.DeleteTimeEntry` answers. -/
def TimeHandler.DeleteTimeEntry (s : Store) (now : Time) (userID : Option String)
    (entryID : String) : Store × Nat :=
  match userID with
  | none => (s, 401)
  | some uid =>
    if entryID = "" then (s, 400)
    else
      match TimeCal.DeleteTimeEntry s now uid entryID with
      | (s1, .ok _) => (s1, 200)
      | (s1, .err e) => if e = "time entry not found" then (s1, 404) else (s1, 400)
      | (s1, .panic _) => (s1, 500)

/-- Structure `services.TimeQueryParams`. -/
structure TimeQueryParams where
  Page : Int
  Limit : Int
  Category : String
  DateFrom : String
  DateTo : String
  Search : String
deriving DecidableEq, Repr

/-- Structure `services.DailyPlanQueryParams`. -/
structure DailyPlanQueryParams where
  Page : Int
  Limit : Int
  DateFrom : String
  DateTo : String
  Status : String
deriving DecidableEq, Repr

/-- The step "Validate pagination parameters" of `TimeHandler.GetTimeEntries`. -/
def TimeHandler.validatePagination (params : TimeQueryParams) : TimeQueryParams :=
  let params := if params.Page < 1 then { params with Page := 1 } else params
  if params.Limit < 1 ∨ params.Limit > 100 then { params with Limit := 20 } else params

/-- Handler `TimeHandler.GetTimeEntries`: the HTTP status and, with status 200,
the body.  `userID` is the value that the authentication middleware put in
the context, `bound` the outcome of `c.ShouldBindQuery(&params)`, and
`service` stands for the call `h.timeService.GetTimeEntries`. -/
def TimeHandler.GetTimeEntries {α : Type} (service : String → TimeQueryParams → Result α)
    (userID : Option String) (bound : Result TimeQueryParams) : Nat × Option α :=
  match userID with
  | none => (401, none)
  | some uid =>
    match bound with
    | .ok params =>
      match service uid (TimeHandler.validatePagination params) with
      | .ok response => (200, some response)
      | .err _ => (400, none)
      | .panic _ => (500, none)
    | _ => (400, none)

/-- The step "Validate pagination parameters" of `DailyPlanHandler.GetDailyPlans`. -/
def DailyPlanHandler.validatePagination (params : DailyPlanQueryParams) : DailyPlanQueryParams :=
  let params := if params.Page < 1 then { params with Page := 1 } else params
  if params.Limit < 1 ∨ params.Limit > 100 then { params with Limit := 20 } else params

/-- Handler `DailyPlanHandler.GetDailyPlans`: the HTTP status and, with status
200, the body: the answer of the service with the keys `page` and `limit`.
`service` stands for the call `h.dailyPlanService.GetDailyPlans`. -/
def DailyPlanHandler.GetDailyPlans {α : Type} (service : String → DailyPlanQueryParams → Result α)
    (userID : Option String) (bound : Result DailyPlanQueryParams) : Nat × Option (α × Int × Int) :=
  match userID with
  | none => (401, none)
  | some uid =>
    match bound with
    | .ok params =>
      match service uid (DailyPlanHandler.validatePagination params) with
      | .ok plans =>
        (200, some (plans, (DailyPlanHandler.validatePagination params).Page,
                    (DailyPlanHandler.validatePagination params).Limit))
      | .err _ => (400, none)
      | .panic _ => (500, none)
    | _ => (400, none)

/-- A service that answers with the parameters it is called with. -/
def echoService {β : Type} (_ : String) (params : β) : Result β := .ok params

/-! ## Package `services`: the statistics service (`statistics_service.go`)

The clock of the server is taken to be in UTC. -/

/-- Go `t.Weekday()` for an instant in UTC, as a number: Sunday is 0, Monday
is 1, ..., Saturday is 6.  The zero time, January 1 of year 1, is a Monday. -/
def Time.Weekday (t : Time) : Int := (t.ns / 86400000000000 + 1) % 7

/-- Go `t.AddDate(0, 0, days)` for an instant in UTC: the same time of day
`days` days later (earlier for a negative count); `time.Date` normalises a day
outside the month by counting days. -/
def Time.AddDate (t : Time) (days : Int) : Time := ⟨t.ns + days * 86400000000000⟩

/-- Go `time.Date(t.Year(), t.Month(), t.Day(), 0, 0, 0, 0, t.Location())` for
an instant in UTC: midnight at the start of the day of `t`. -/
def Time.startOfDay (t : Time) : Time := ⟨t.ns / 86400000000000 * 86400000000000⟩

/-- Structure `services.StatisticsQueryParams`. -/
structure StatisticsQueryParams where
  Days : Int
  Period : String
  Category : String
  DateFrom : String
  DateTo : String
deriving DecidableEq, Repr

/-- The steps "Set default days if not provided", "Calculate date range" and
"Override with custom date range if provided" of `GetStatisticsOverview`:
the pair `(startDate, endDate)`; `now` is the value of `time.Now()`. -/
def GetStatisticsOverview.dateRange (now : Time) (params : StatisticsQueryParams) : Time × Time :=
  let days := if params.Days < 1 ∨ params.Days > 365 then 30 else params.Days
  let endDate := now
  let startDate := now.AddDate (-days)
  let startDate :=
    if params.DateFrom ≠ "" then
      match Time.Parse params.DateFrom with
      | .ok dateFrom => dateFrom
      | _ => startDate
    else startDate
  let endDate :=
    if params.DateTo ≠ "" then
      match Time.Parse params.DateTo with
      | .ok dateTo => dateTo.Add (24 * Hour - Second)
      | _ => endDate
    else endDate
  (startDate, endDate)

/-- The step "Get this week's time" of `GetStatisticsOverview`: the value of
`weekStart` that is passed to `getTotalTrackedTime` together with `now`. -/
def GetStatisticsOverview.weekStart (now : Time) : Time :=
  let weekStart := now.AddDate (-(now.Weekday) + 1)
  weekStart.startOfDay

/-- The row type `CategoryTime` of the grouping query of `getCategoryStats`. -/
structure CategoryTime where
  Category : String
  TotalTime : Int
  Count : Int
deriving DecidableEq, Repr

/-- Structure `services.CategoryStat`.  The percentage is kept as the exact
rational value of the expression that the Go code evaluates in `float64`. -/
structure CategoryStat where
  Category : String
  TotalTime : Int
  Percentage : ℚ
  Color : String
  Count : Int
deriving DecidableEq, Repr

/-- The palette `colors` of `getCategoryStats`. -/
def categoryColors : List String :=
  ["#3b82f6", "#10b981", "#8b5cf6", "#f59e0b", "#ef4444", "#14b8a6", "#f97316", "#84cc16",
   "#06b6d4", "#ec4899"]

/-- The loop "Get total time for percentage calculation" of `getCategoryStats`,
in `int64` arithmetic. -/
def getCategoryStats.totalSum (categoryTimes : List CategoryTime) : Int :=
  categoryTimes.foldl (fun totalSum ct => wrapInt64 (totalSum + ct.TotalTime)) 0

/-- The loop "Convert to response format" of `getCategoryStats`, from index `i` on. -/
def getCategoryStats.convert (totalSum : Int) : Nat → List CategoryTime → List CategoryStat
  | _, [] => []
  | i, ct :: rest =>
    { Category := ct.Category, TotalTime := ct.TotalTime,
      Percentage := if totalSum > 0 then (ct.TotalTime : ℚ) / (totalSum : ℚ) * 100 else 0,
      Color := categoryColors.getD (i % categoryColors.length) "",
      Count := ct.Count } :: getCategoryStats.convert totalSum (i + 1) rest

/-- Method `StatisticsService.getCategoryStats` after its grouping query, whose
rows are the argument. -/
def getCategoryStats (categoryTimes : List CategoryTime) : List CategoryStat :=
  getCategoryStats.convert (getCategoryStats.totalSum categoryTimes) 0 categoryTimes

/-- Sunday 2024-01-07, 12:00:00 UTC. -/
def sundayNoon : Time := Time.Date 2024 1 7 12 0 0 0

/-- Rows of the grouping query: 3600 s of "Work" in two entries, 1800 s of
"Study" and 600 s of "Rest" in one entry each. -/
def sampleCategoryTimes : List CategoryTime :=
  [{ Category := "Work", TotalTime := 3600, Count := 2 },
   { Category := "Study", TotalTime := 1800, Count := 1 },
   { Category := "Rest", TotalTime := 600, Count := 1 }]

/-- Rows of the grouping query with two totals of 2^62 seconds. -/
def hugeCategoryTimes : List CategoryTime :=
  [{ Category := "Work", TotalTime := 4611686018427387904, Count := 2 },
   { Category := "Study", TotalTime := 4611686018427387904, Count := 1 }]

/-- Query parameters with `days` out of range, no `date_from` and a `date_to`
that is not a date. -/
def paramsDaysOutOfRange : StatisticsQueryParams :=
  { Days := 400, Period := "day", Category := "", DateFrom := "", DateTo := "tomorrow" }

/-- Query parameters with `days` 30 and `date_from` 2000-01-01. -/
def paramsFromYear2000 : StatisticsQueryParams :=
  { Days := 30, Period := "day", Category := "", DateFrom := "2000-01-01", DateTo := "" }

/-! ### Further sample data -/

/-- The login request of the examples. -/
def sampleLogin : LoginRequest := { Email := "test@example.com", Password := "secret1" }

/-- The text of the UUID with value 101, the id of `sampleUser`. -/
def user101 : String := "00000000-0000-0000-0000-000000000065"

/-- The stand-in `sampleLib` with a bcrypt whose hash is the password behind
a fixed prefix, so that the comparison can be evaluated. -/
def plainLib : Lib :=
  { sampleLib with bcrypt := fun _ password => "$2a$10$" ++ password
                   bcryptCompare := fun hash password => hash == "$2a$10$" ++ password }

/-- The user that `sampleRegister` creates with `plainLib` when `uuid.New()`
returns 101. -/
def plainUser : User :=
  { ID := 101, Email := "test@example.com", Password := "$2a$10$secret1", Name := "Al",
    DeletedAt := none }

/-- The store that holds `plainUser` only. -/
def storeWithPlainUser : Store := { emptyStore with users := [plainUser] }

/-- The request `reqNinetyMinutes` with the tag "project-planning". -/
def reqTagged : TimeEntryRequest := { reqNinetyMinutes with Tags := ["project-planning"] }

/-- The request `reqNinetyMinutes` without an end time. -/
def reqNoEnd : TimeEntryRequest := { reqNinetyMinutes with EndTime := none }

/-- The store `storeTwoPlans` after user 11 has called `UpdateDailyPlan` at
10:30 for plan 201 of user 10 with `planRequest`: the plans are as before,
activity 202 is deleted and activity 301 is new. -/
def storeHijacked : Store :=
  { emptyStore with
    dailyPlans := [planRow 101 (Time.Date 2024 1 1 0 0 0 0), planRow 201 (Time.Date 2024 1 2 0 0 0 0)]
    activities := [activityRow 102 101 none, activityRow 202 201 (some halfPastTen),
                   activityRow 301 201 none] }

/-- The answer of `UpdateDailyPlan` of plan 201 with `reqTwoActivities`. -/
def respTwoActivities : DailyPlanResponse :=
  { ID := 201, Date := "2024-01-03",
    Activities := [{ ID := 301, Description := "Morning routine", EstimatedTime := 30,
                     ActualTime := none, Status := "pending", Category := "Personal",
                     Priority := "medium", Order := 1 },
                   { ID := 302, Description := "Read", EstimatedTime := 45, ActualTime := none,
                     Status := "pending", Category := "Study", Priority := "low", Order := 2 }],
    TotalEstimatedTime := 75, TotalActualTime := 0, Status := "draft" }


/-- A stand-in for the libraries whose hash functions have no collisions: the
hash of a message is the one number that encodes the list of its bytes. -/
def idealLib : Lib :=
  { sampleLib with hash := fun _ bytes => [Encodable.encode bytes] }
/-! ## Further handlers, package `config` (`config.go`) and `main` -/

/-- The template plan of `GetTodayPlan` for the date `today`. -/
def todayTemplate (today : String) : DailyPlanRequest :=
  { Date := today,
    Activities :=
      [{ ID := UUID.Nil, Description := "Morning routine", EstimatedTime := 30, ActualTime := none,
         Status := "pending", Category := "Personal", Priority := "medium", Order := 1 },
       { ID := UUID.Nil, Description := "Deep work session 1", EstimatedTime := 120,
         ActualTime := none, Status := "pending", Category := "Work", Priority := "high",
         Order := 2 },
       { ID := UUID.Nil, Description := "Lunch break", EstimatedTime := 60, ActualTime := none,
         Status := "pending", Category := "Personal", Priority := "medium", Order := 3 },
       { ID := UUID.Nil, Description := "Deep work session 2", EstimatedTime := 120,
         ActualTime := none, Status := "pending", Category := "Work", Priority := "high",
         Order := 4 },
       { ID := UUID.Nil, Description := "Evening review", EstimatedTime := 30, ActualTime := none,
         Status := "pending", Category := "Personal", Priority := "medium", Order := 5 }],
    Status := "draft" }

/-- Handler `DailyPlanHandler.GetTodayPlan`: the store, the HTTP status and,
with status 200, the plan of the body.  `now` is the value of `time.Now()`,
taken in UTC. -/
def DailyPlanHandler.GetTodayPlan (lib : Lib) (s : Store) (gen : Nat → UUID) (now : Time)
    (userID : Option String) : Store × Nat × Option DailyPlanResponse :=
  match userID with
  | none => (s, 401, none)
  | some uid =>
    let today := now.Format
    match GetDailyPlanByDate lib s uid today with
    | .ok plan => (s, 200, some plan)
    | .panic _ => (s, 500, none)
    | .err e =>
      if e = "daily plan not found" then
        match TimeCal.CreateDailyPlan lib s gen uid (todayTemplate today) with
        | (s1, .ok plan) => (s1, 200, some plan)
        | (s1, .err _) => (s1, 400, none)
        | (s1, .panic _) => (s1, 500, none)
      else (s, 400, none)

/-- The row of the template activity with the given id in plan 101. -/
def templateRow (id : UUID) (description : String) (estimated : Int) (category priority : String)
    (order : Int) : Activity :=
  { ID := id, DailyPlanID := 101, Description := description, EstimatedTime := estimated,
    ActualTime := none, Status := "pending", Category := category, Priority := priority,
    Order := order, DeletedAt := none }

/-- The store after `GetTodayPlan` of user 10 on 2024-01-01 in the empty store,
with the ids 101 to 106. -/
def storeToday : Store :=
  { emptyStore with
    dailyPlans := [{ planRow 101 (Time.Date 2024 1 1 0 0 0 0) with TotalEstimatedTime := 360 }]
    activities := [templateRow 102 "Morning routine" 30 "Personal" "medium" 1,
                   templateRow 103 "Deep work session 1" 120 "Work" "high" 2,
                   templateRow 104 "Lunch break" 60 "Personal" "medium" 3,
                   templateRow 105 "Deep work session 2" 120 "Work" "high" 4,
                   templateRow 106 "Evening review" 30 "Personal" "medium" 5] }

/-- The plan of `storeToday` as a response. -/
def planToday : DailyPlanResponse :=
  toDailyPlanResponse
    { planRow 101 (Time.Date 2024 1 1 0 0 0 0) with
      TotalEstimatedTime := 360, Activities := storeToday.activities }

/-- Handler `AuthHandler.Login`: the HTTP status and the text of the key
`error` of the body (empty for a success); `bound` is the outcome of
`c.ShouldBindJSON(&req)`. -/
def AuthHandler.Login (lib : Lib) (cfg : Config) (s : Store) (clk : Nat → Time)
    (bound : Result LoginRequest) : Nat × String :=
  match bound with
  | .ok req =>
    match TimeCal.Login lib cfg s clk req with
    | .ok _ => (200, "")
    | .err e => (401, e)
    | .panic _ => (500, "")
  | .err e => (400, e)
  | .panic _ => (500, "")

/-- Handler `TimeHandler.CreateTimeEntry`: the store, the HTTP status and the
text of the key `error` of the body (empty for a success). -/
def TimeHandler.CreateTimeEntry (s : Store) (gen : Nat → UUID) (userID : Option String)
    (bound : Result TimeEntryRequest) : Store × Nat × String :=
  match userID with
  | none => (s, 401, "User not authenticated")
  | some uid =>
    match bound with
    | .ok req =>
      match TimeCal.CreateTimeEntry s gen uid req with
      | (s1, .ok _) => (s1, 201, "")
      | (s1, .err e) => (s1, 400, e)
      | (s1, .panic _) => (s1, 500, "")
    | .err e => (s, 400, e)
    | .panic _ => (s, 500, "")

/-- A registration request with an email that no sample user has. -/
def otherRegister : RegisterRequest :=
  { Email := "other@example.com", Password := "secret2", Name := "Bo" }

/-- Function `getEnv` of package `config`; `env` is `os.LookupEnv` after
`godotenv.Load("configs/.env")` has added the variables of that file that the
process environment does not set. -/
def getEnv (env : String → Option String) (key defaultValue : String) : String :=
  match env key with
  | some value => value
  | none => defaultValue

/-- Function `strconv.Atoi`: an optional sign and decimal digits, with a value
in the range of `int`. -/
def atoi (s : String) : Option Int :=
  let digits := match s.toList with
    | '-' :: rest => rest
    | '+' :: rest => rest
    | rest => rest
  if digits = [] ∨ ¬ digits.all Time.isDigit then none
  else
    let n : Int := digits.foldl (fun n c => n * 10 + (Time.digit c : Int)) 0
    let v := if s.toList.head? = some '-' then -n else n
    if v < -9223372036854775808 ∨ v > 9223372036854775807 then none else some v

/-- Function `getEnvInt` of package `config`. -/
def getEnvInt (env : String → Option String) (key : String) (defaultValue : Int) : Int :=
  match env key with
  | some valueStr =>
    match atoi valueStr with
    | some value => value
    | none => defaultValue
  | none => defaultValue

/-- Function `config.Load`, with the sections of the configuration that the
validation reads; the result carries the JWT section. -/
def Load (env : String → Option String) : Result Config :=
  let driver := getEnv env "DB_DRIVER" "sqlite"
  let password := getEnv env "DB_PASSWORD" ""
  let jwt : JWTConfig :=
    { Secret := getEnv env "JWT_SECRET" "default-secret-change-this",
      ExpireHours := getEnvInt env "JWT_EXPIRE_HOURS" 24,
      RefreshExpireHours := getEnvInt env "JWT_REFRESH_EXPIRE_HOURS" 168 }
  if driver = "postgres" ∧ password = "" then
    .err "database password is required for PostgreSQL"
  else if jwt.Secret = "default-secret-change-this" then
    .err "JWT secret must be set to a secure value"
  else .ok { JWT := jwt }

/-- The first step of `main`: the configuration with which the server goes
on, or none when `log.Fatalf` ends the process. -/
def mainConfig (env : String → Option String) : Option Config :=
  match Load env with
  | .ok cfg => some cfg
  | _ => none

/-- The environment in which no variable is set. -/
def emptyEnv (_ : String) : Option String := none

/-- An environment that sets the JWT secret and the expiry of access tokens. -/
def secretEnv (key : String) : Option String :=
  if key = "JWT_SECRET" then some "s3cret-value"
  else if key = "JWT_EXPIRE_HOURS" then some "12"
  else none

/-- Method `gin.Context.Param`: the value of the path parameter with the given
name, or the empty string when the route has no such parameter. -/
def ginParam (params : List (String × String)) (key : String) : String :=
  match params.lookup key with
  | some value => value
  | none => ""

/-- The path parameters that the router binds for the route of
`UpdateActivity`, registered in `main` as group `/daily-plans/:id/activities`
with `PUT /:activity_id`. -/
def activityRouteParams (id activityID : String) : List (String × String) :=
  [("id", id), ("activity_id", activityID)]

/-- Handler `DailyPlanHandler.UpdateActivity`: the store, the HTTP status and
the text of the key `error` of the body (empty for a success).  `params` are
the path parameters of the request, `userID` is the value that the
authentication middleware put in the context and `bound` the outcome of
`c.ShouldBindJSON(&req)`. -/
def DailyPlanHandler.UpdateActivity (s : Store) (params : List (String × String))
    (userID : Option String) (bound : Result UpdateActivityRequest) : Store × Nat × String :=
  match userID with
  | none => (s, 401, "User not authenticated")
  | some uid =>
    let planID := ginParam params "plan_id"
    let activityID := ginParam params "activity_id"
    if planID = "" ∨ activityID = "" then (s, 400, "Plan ID and Activity ID are required")
    else
      match bound with
      | .ok req =>
        match TimeCal.UpdateActivity s uid planID activityID req with
        | (s1, .ok _) => (s1, 200, "")
        | (s1, .err e) => if e = "activity not found" then (s1, 404, e) else (s1, 400, e)
        | (s1, .panic _) => (s1, 500, "")
      | .err e => (s, 400, e)
      | .panic _ => (s, 500, "")

/-! ## Token texts: packages `encoding/base64` and `encoding/json`, and the
segments of a token

A token text is `base64url(header) "." base64url(claims) "." base64url(signature)`,
where the header and the claims are JSON objects.  The encoders are written
out in full.  The decoders are written out for the texts that the encoders
produce; what the library makes of any other text with three segments is a
parameter of `ParseUnverified`.  A string is a sequence of Unicode characters,
whose bytes are its UTF-8 text; a Go string with bytes that are not UTF-8,
which `json.Marshal` writes as U+FFFD, is not represented. -/

/-- The digit of `base64.RawURLEncoding` for a 6-bit value, as a byte. -/
def base64URLChar (v : Nat) : Nat :=
  if v < 26 then 65 + v
  else if v < 52 then 71 + v
  else if v < 62 then v - 4
  else if v = 62 then 45
  else 95

/-- Function `base64.RawURLEncoding.EncodeToString`: three bytes give four
digits, a rest of two bytes three digits and a rest of one byte two digits;
there is no padding. -/
def base64URLEncode : List Nat → List Nat
  | b0 :: b1 :: b2 :: rest =>
    base64URLChar (b0 / 4) :: base64URLChar (b0 % 4 * 16 + b1 / 16) ::
      base64URLChar (b1 % 16 * 4 + b2 / 64) :: base64URLChar (b2 % 64) :: base64URLEncode rest
  | [b0, b1] =>
    [base64URLChar (b0 / 4), base64URLChar (b0 % 4 * 16 + b1 / 16), base64URLChar (b1 % 16 * 4)]
  | [b0] => [base64URLChar (b0 / 4), base64URLChar (b0 % 4 * 16)]
  | [] => []

/-- The 6-bit value of a digit of `base64.RawURLEncoding`. -/
def base64URLValue (c : Nat) : Option Nat :=
  if 65 ≤ c ∧ c ≤ 90 then some (c - 65)
  else if 97 ≤ c ∧ c ≤ 122 then some (c - 71)
  else if 48 ≤ c ∧ c ≤ 57 then some (c + 4)
  else if c = 45 then some 62
  else if c = 95 then some 63
  else none

/-- Function `base64.RawURLEncoding.DecodeString` on a text of digits: the
bits left over in a last group of two or three digits are dropped; a single
last digit is an error, and so is a byte that is not a digit (the library
skips line breaks, which are not decoded here). -/
def base64URLDecode : List Nat → Option (List Nat)
  | c0 :: c1 :: c2 :: c3 :: rest =>
    match base64URLValue c0, base64URLValue c1, base64URLValue c2, base64URLValue c3,
        base64URLDecode rest with
    | some v0, some v1, some v2, some v3, some tail =>
      some ((v0 * 4 + v1 / 16) :: (v1 % 16 * 16 + v2 / 4) :: (v2 % 4 * 64 + v3) :: tail)
    | _, _, _, _, _ => none
  | [c0, c1, c2] =>
    match base64URLValue c0, base64URLValue c1, base64URLValue c2 with
    | some v0, some v1, some v2 => some [v0 * 4 + v1 / 16, v1 % 16 * 16 + v2 / 4]
    | _, _, _ => none
  | [c0, c1] =>
    match base64URLValue c0, base64URLValue c1 with
    | some v0, some v1 => some [v0 * 4 + v1 / 16]
    | _, _ => none
  | [_] => none
  | [] => some []

/-- One lower-case hexadecimal digit, as a byte. -/
def hexDigitByte (n : Nat) : Nat := if n < 10 then 48 + n else 87 + n

/-- The bytes that `json.Marshal` writes for one character of a string (with
the escaping of HTML that `Marshal` applies): a backslash before the quote and
the backslash, the short forms for backspace, form feed, line feed, carriage
return and tab, `\u00XX` for the other control characters and for `<`, `>`
and `&`, the escapes of U+2028 and U+2029 for these two, and the UTF-8 bytes
of every other character.  The short forms for backspace and form feed are
those of Go 1.22 and later; before, these two were written as `\u0008` and
`\u000c`. -/
def jsonEscapeChar (c : Char) : List Nat :=
  let n := c.toNat
  if n = 34 ∨ n = 92 then [92, n]
  else if n = 8 then [92, 98]
  else if n = 12 then [92, 102]
  else if n = 10 then [92, 110]
  else if n = 13 then [92, 114]
  else if n = 9 then [92, 116]
  else if n < 32 ∨ n = 60 ∨ n = 62 ∨ n = 38 then
    [92, 117, 48, 48, hexDigitByte (n / 16), hexDigitByte (n % 16)]
  else if n = 8232 then [92, 117, 50, 48, 50, 56]
  else if n = 8233 then [92, 117, 50, 48, 50, 57]
  else utf8EncodeChar c

/-- The JSON text of a string: the escaped characters between two quotes. -/
def jsonQuote (s : String) : List Nat := 34 :: (s.toList.flatMap jsonEscapeChar ++ [34])

/-- The character of a two-byte escape `\c` of a JSON string. -/
def jsonSimpleEscape (e : Nat) : Option Char :=
  if e = 34 ∨ e = 92 ∨ e = 47 then some (Char.ofNat e)
  else if e = 98 then some (Char.ofNat 8)
  else if e = 102 then some (Char.ofNat 12)
  else if e = 110 then some (Char.ofNat 10)
  else if e = 114 then some (Char.ofNat 13)
  else if e = 116 then some (Char.ofNat 9)
  else none

/-- Puts a character in front of the characters of a partial result. -/
def consChar (c : Char) (r : Option (List Char × List Nat)) : Option (List Char × List Nat) :=
  r.map (fun p => (c :: p.1, p.2))

/-- The character of an escape `\uXXXX` given by its four digits; an escape
of a surrogate, which the library pairs or replaces, is not decoded here. -/
def jsonUnicodeEscape (h0 h1 h2 h3 : Nat) : Option Char :=
  match hexVal h0, hexVal h1, hexVal h2, hexVal h3 with
  | some v0, some v1, some v2, some v3 =>
    if 55296 ≤ ((v0 * 16 + v1) * 16 + v2) * 16 + v3 ∧
        ((v0 * 16 + v1) * 16 + v2) * 16 + v3 < 57344 then none
    else some (Char.ofNat (((v0 * 16 + v1) * 16 + v2) * 16 + v3))
  | _, _, _, _ => none

/-- The character that starts after a backslash, and the bytes after it. -/
def jsonEscapeStep (bytes : List Nat) : Option (Char × List Nat) :=
  match bytes with
  | 117 :: h0 :: h1 :: h2 :: h3 :: rest => (jsonUnicodeEscape h0 h1 h2 h3).map (fun c => (c, rest))
  | e :: rest => (jsonSimpleEscape e).map (fun c => (c, rest))
  | [] => none

/-- The character of two, three or four bytes of UTF-8 that starts with the
byte `b`, and the bytes after it (function `utf8.DecodeRune`); bytes that are
not UTF-8, which the library replaces, are not decoded here. -/
def utf8Step (b : Nat) (rest : List Nat) : Option (Char × List Nat) :=
  if 194 ≤ b ∧ b < 224 then
    match rest with
    | b1 :: r1 =>
      if 128 ≤ b1 ∧ b1 < 192 then some (Char.ofNat ((b - 192) * 64 + (b1 - 128)), r1) else none
    | _ => none
  else if 224 ≤ b ∧ b < 240 then
    match rest with
    | b1 :: b2 :: r2 =>
      if 128 ≤ b1 ∧ b1 < 192 ∧ 128 ≤ b2 ∧ b2 < 192 ∧
          2048 ≤ (b - 224) * 4096 + (b1 - 128) * 64 + (b2 - 128) ∧
          ¬ (55296 ≤ (b - 224) * 4096 + (b1 - 128) * 64 + (b2 - 128) ∧
             (b - 224) * 4096 + (b1 - 128) * 64 + (b2 - 128) < 57344) then
        some (Char.ofNat ((b - 224) * 4096 + (b1 - 128) * 64 + (b2 - 128)), r2)
      else none
    | _ => none
  else if 240 ≤ b ∧ b < 245 then
    match rest with
    | b1 :: b2 :: b3 :: r3 =>
      if 128 ≤ b1 ∧ b1 < 192 ∧ 128 ≤ b2 ∧ b2 < 192 ∧ 128 ≤ b3 ∧ b3 < 192 ∧
          65536 ≤ (b - 240) * 262144 + (b1 - 128) * 4096 + (b2 - 128) * 64 + (b3 - 128) ∧
          (b - 240) * 262144 + (b1 - 128) * 4096 + (b2 - 128) * 64 + (b3 - 128) < 1114112 then
        some (Char.ofNat ((b - 240) * 262144 + (b1 - 128) * 4096 + (b2 - 128) * 64 + (b3 - 128)),
          r3)
      else none
    | _ => none
  else none

/-- One step of reading a JSON string: `none` for an error, no character at
the closing quote, else the next character; each time with the bytes that
follow.  A control character must be escaped. -/
def jsonStringStep (bytes : List Nat) : Option (Option Char × List Nat) :=
  match bytes with
  | [] => none
  | b :: rest =>
    if b = 34 then some (none, rest)
    else if b = 92 then (jsonEscapeStep rest).map (fun p => (some p.1, p.2))
    else if b < 32 then none
    else if b < 128 then some (some (Char.ofNat b), rest)
    else (utf8Step b rest).map (fun p => (some p.1, p.2))

/-- The steps of `parseJsonString`; the first argument bounds their number. -/
def parseJsonStringAux : Nat → List Nat → Option (List Char × List Nat)
  | 0, _ => none
  | fuel + 1, bytes =>
    match jsonStringStep bytes with
    | none => none
    | some (none, rest) => some ([], rest)
    | some (some c, rest) => consChar c (parseJsonStringAux fuel rest)

/-- The characters of a JSON string whose opening quote has been read, and the
bytes after its closing quote (function `unquote` of package `json`).  Every
step reads at least one byte, so the bound is never reached. -/
def parseJsonString (bytes : List Nat) : Option (List Char × List Nat) :=
  parseJsonStringAux (bytes.length + 1) bytes

/-- The decimal digits of a natural number, most significant first; the first
argument bounds the number of digits. -/
def formatNatAux : Nat → Nat → List Nat
  | 0, _ => []
  | fuel + 1, n => if n < 10 then [48 + n] else formatNatAux fuel (n / 10) ++ [48 + n % 10]

/-- Function `strconv.FormatInt(n, 10)`. -/
def formatInt (n : Int) : List Nat :=
  if n < 0 then 45 :: formatNatAux (n.natAbs + 1) n.natAbs else formatNatAux (n.toNat + 1) n.toNat

/-- Reads decimal digits: the value of the digits read, their number and the
bytes after them. -/
def parseDigits : List Nat → Nat → Nat → Nat × Nat × List Nat
  | [], acc, k => (acc, k, [])
  | b :: rest, acc, k =>
    if 48 ≤ b ∧ b ≤ 57 then parseDigits rest (acc * 10 + (b - 48)) (k + 1) else (acc, k, b :: rest)

/-- A JSON number without fraction and exponent, of absolute value at most
2^53 (the library converts through float64, which is exact there), and the
bytes after it. -/
def parseJsonInt (bytes : List Nat) : Option (Int × List Nat) :=
  match bytes with
  | [] => none
  | b :: rest =>
    if b = 45 then
      if (parseDigits rest 0 0).2.1 = 0 ∨ 9007199254740992 < (parseDigits rest 0 0).1 then none
      else some (-((parseDigits rest 0 0).1 : Int), (parseDigits rest 0 0).2.2)
    else
      if (parseDigits bytes 0 0).2.1 = 0 ∨ 9007199254740992 < (parseDigits bytes 0 0).1 then none
      else some (((parseDigits bytes 0 0).1 : Int), (parseDigits bytes 0 0).2.2)

/-- The values of the members of the JSON objects of a token: a string, a
number of seconds, or a list of strings. -/
inductive JsonValue where
  | str (s : String)
  | int (n : Int)
  | strs (l : List String)
deriving DecidableEq, Repr

/-- The JSON text of a list of strings without its opening bracket. -/
def jsonStringsTail : List String → List Nat
  | [] => [93]
  | [s] => jsonQuote s ++ [93]
  | s :: t => jsonQuote s ++ 44 :: jsonStringsTail t

/-- The JSON text of a value. -/
def JsonValue.render : JsonValue → List Nat
  | .str s => jsonQuote s
  | .int n => formatInt n
  | .strs l => 91 :: jsonStringsTail l

/-- The JSON text of the members of an object without its opening brace. -/
def jsonMembersTail : List (String × JsonValue) → List Nat
  | [] => [125]
  | [m] => jsonQuote m.1 ++ 58 :: (m.2.render ++ [125])
  | m :: t => jsonQuote m.1 ++ 58 :: (m.2.render ++ 44 :: jsonMembersTail t)

/-- The JSON text of an object, as `json.Marshal` writes it: no blanks. -/
def jsonObject (members : List (String × JsonValue)) : List Nat := 123 :: jsonMembersTail members

/-- A list of JSON strings whose opening bracket has been read; the first
argument bounds the number of strings. -/
def parseJsonStrings : Nat → List Nat → Option (List String × List Nat)
  | 0, _ => none
  | fuel + 1, bytes =>
    match bytes with
    | [] => none
    | b :: rest =>
      if b = 93 then some ([], rest)
      else if b = 34 then
        match parseJsonString rest with
        | some (cs, d :: r) =>
          if d = 93 then some ([String.mk cs], r)
          else if d = 44 then
            match parseJsonStrings fuel r with
            | some (l, r2) => if l = [] then none else some (String.mk cs :: l, r2)
            | none => none
          else none
        | _ => none
      else none

/-- A JSON value of one of the three kinds, and the bytes after it. -/
def parseJsonValue (bytes : List Nat) : Option (JsonValue × List Nat) :=
  match bytes with
  | [] => none
  | b :: rest =>
    if b = 34 then (parseJsonString rest).map (fun p => (.str (String.mk p.1), p.2))
    else if b = 91 then (parseJsonStrings (rest.length + 1) rest).map (fun p => (.strs p.1, p.2))
    else (parseJsonInt bytes).map (fun p => (.int p.1, p.2))

/-- The members of a JSON object whose opening brace has been read; the first
argument bounds the number of members. -/
def parseJsonMembers : Nat → List Nat → Option (List (String × JsonValue) × List Nat)
  | 0, _ => none
  | fuel + 1, bytes =>
    match bytes with
    | [] => none
    | b :: rest =>
      if b = 125 then some ([], rest)
      else if b = 34 then
        match parseJsonString rest with
        | some (key, c :: r) =>
          if c = 58 then
            match parseJsonValue r with
            | some (v, d :: r2) =>
              if d = 125 then some ([(String.mk key, v)], r2)
              else if d = 44 then
                match parseJsonMembers fuel r2 with
                | some (l, r3) => if l = [] then none else some ((String.mk key, v) :: l, r3)
                | none => none
              else none
            | _ => none
          else none
        | _ => none
      else none

/-- A JSON object that fills the whole text. -/
def parseJsonObject (bytes : List Nat) : Option (List (String × JsonValue)) :=
  match bytes with
  | [] => none
  | b :: rest =>
    if b = 123 then
      match parseJsonMembers (rest.length + 1) rest with
      | some (l, []) => some l
      | _ => none
    else none

/-- The string member `key` of an object, empty when there is none. -/
def memberString (members : List (String × JsonValue)) (key : String) : String :=
  match members.lookup key with
  | some (.str s) => s
  | _ => ""

/-- The number member `key` of an object. -/
def memberInt (members : List (String × JsonValue)) (key : String) : Option Int :=
  match members.lookup key with
  | some (.int n) => some n
  | _ => none

/-- The member `key` of an object that is a list of strings, empty when there
is none. -/
def memberStrings (members : List (String × JsonValue)) (key : String) : List String :=
  match members.lookup key with
  | some (.strs l) => l
  | _ => []

/-- Seconds from the zero time of `time.Time` to the Unix epoch. -/
def unixToInternal : Int := 62135596800

/-- The member of an object for a string with `omitempty`. -/
def omitEmptyString (key value : String) : List (String × JsonValue) :=
  if value = "" then [] else [(key, .str value)]

/-- The member of an object for a `*jwt.NumericDate` with `omitempty`: the
seconds since the Unix epoch (method `NumericDate.MarshalJSON` with the
precision of one second). -/
def omitEmptyDate (key : String) (value : Option Int) : List (String × JsonValue) :=
  match value with
  | some n => [(key, .int (n - unixToInternal))]
  | none => []

/-- The members that `json.Marshal` writes for a `TokenClaims`: the two fields
of the structure, then those of the embedded `jwt.RegisteredClaims`, each
with `omitempty`; an audience is written as a list. -/
def claimsMembers (c : TokenClaims) : List (String × JsonValue) :=
  [("user_id", .str c.UserID), ("email", .str c.Email)] ++
    omitEmptyString "iss" c.Registered.Issuer ++
    omitEmptyString "sub" c.Registered.Subject ++
    (if c.Registered.Audience = [] then [] else [("aud", .strs c.Registered.Audience)]) ++
    omitEmptyDate "exp" c.Registered.ExpiresAt ++
    omitEmptyDate "nbf" c.Registered.NotBefore ++
    omitEmptyDate "iat" c.Registered.IssuedAt ++
    omitEmptyString "jti" c.Registered.ID

/-- The claims that `json.Unmarshal` reads from the members of an object. -/
def claimsOfMembers (members : List (String × JsonValue)) : TokenClaims :=
  { UserID := memberString members "user_id", Email := memberString members "email",
    Registered :=
      { Issuer := memberString members "iss", Subject := memberString members "sub",
        Audience := memberStrings members "aud",
        ExpiresAt := (memberInt members "exp").map (fun n => n + unixToInternal),
        NotBefore := (memberInt members "nbf").map (fun n => n + unixToInternal),
        IssuedAt := (memberInt members "iat").map (fun n => n + unixToInternal),
        ID := memberString members "jti" } }

/-- The members of the header of a token: the map with the keys `typ` and
`alg`, which `json.Marshal` writes in the order of the keys. -/
def headerMembers (alg : String) : List (String × JsonValue) :=
  [("alg", .str alg), ("typ", .str "JWT")]

/-- Method `Token.SigningString`: the encoded header, a dot, the encoded
claims. -/
def signingText (alg : String) (claims : TokenClaims) : List Nat :=
  base64URLEncode (jsonObject (headerMembers alg)) ++
    46 :: base64URLEncode (jsonObject (claimsMembers claims))

/-- The text of a token: the signed text, a dot, the encoded signature. -/
def encodeToken (alg : String) (claims : TokenClaims) (signature : List Nat) : String :=
  String.mk ((signingText alg claims ++ 46 :: base64URLEncode signature).map Char.ofNat)

/-- The libraries with the text that `Token.SigningString` produces as the
signed text. -/
def textLib (lib : Lib) : Lib := { lib with signingString := signingText }

/-- The text that `jwt.NewWithClaims(method, claims).SignedString(key)`
returns for an HMAC method `alg` and the key `[]byte(secret)`: the signature
is the HMAC of the signed text. -/
def tokenText (lib : Lib) (alg : String) (claims : TokenClaims) (secret : String) : String :=
  encodeToken alg claims (hmac lib alg (utf8Bytes secret) (signingText alg claims))

/-- Function `strings.Split(s, ".")` on bytes. -/
def splitDots : List Nat → List (List Nat)
  | [] => [[]]
  | b :: rest =>
    if b = 46 then [] :: splitDots rest
    else
      match splitDots rest with
      | [] => [[b]]
      | seg :: segs => (b :: seg) :: segs

/-- The header algorithm, the claims and the signature that the three
segments of a token decode to. -/
def decodeSegments (h c s : List Nat) : Option (String × TokenClaims × List Nat) :=
  match base64URLDecode h, base64URLDecode c, base64URLDecode s with
  | some hb, some cb, some sig =>
    match parseJsonObject hb, parseJsonObject cb with
    | some hm, some cm => some (memberString hm "alg", claimsOfMembers cm, sig)
    | _, _ => none
  | _, _, _ => none

/-- Method `Parser.ParseUnverified` on the text of a token.  A text that does
not consist of three segments is malformed.  A text that is the encoding of
what its segments decode to is that token: its first two segments, which the
signature covers, are then the text that `Token.SigningString` gives for the
decoded header and claims.  What the library makes of any other text (blanks
or other members in the JSON objects, other escapes, numbers with a fraction)
is the parameter `other`. -/
def ParseUnverified (other : String → TokenString) (text : String) : TokenString :=
  match splitDots (utf8Bytes text) with
  | [h, c, s] =>
    match decodeSegments h c s with
    | some (alg, claims, signature) =>
      if encodeToken alg claims signature = text then .jwt alg claims signature else other text
    | none => other text
  | _ => .malformed "token contains an invalid number of segments"

/-- The stand-in `sampleLib` with hash functions whose values are bytes: the
checksum reduced to one byte. -/
def byteLib : Lib :=
  { sampleLib with
    hash := fun _ bytes => [bytes.foldl (fun acc b => (acc * 31 + b) % 65521) 7 % 256] }

/-! # Theorems

## Instants, durations and the conversion to whole seconds -/

set_option maxRecDepth 8192

theorem Time.Before_iff (t u : Time) : t.Before u = true ↔ t.ns < u.ns := by
  simp only [Time.Before, Time.sec, Time.nsec, Bool.or_eq_true, Bool.and_eq_true, decide_eq_true_eq]
  omega

theorem Time.Equal_iff (t u : Time) : t.Equal u = true ↔ t.ns = u.ns := by
  simp only [Time.Equal, Time.sec, Time.nsec, Bool.and_eq_true, decide_eq_true_eq]
  omega

theorem Time.Sub_eq_of_le (t u : Time) (h1 : minDuration ≤ t.ns - u.ns) (h2 : t.ns - u.ns ≤ maxDuration) :
    t.Sub u = t.ns - u.ns := by
  have hd : wrapInt64 (wrapInt64 (wrapInt64 (t.sec - u.sec) * Second) + (t.nsec - u.nsec)) = t.ns - u.ns := by
    simp only [wrapInt64, Time.sec, Time.nsec, Second, minDuration, maxDuration] at *
    omega
  simp only [Time.Sub, hd]
  have : (u.Add (t.ns - u.ns)).Equal t = true := by
    rw [Time.Equal_iff]; simp [Time.Add]
  simp [this]

theorem Time.Sub_eq_max (t u : Time) (h : maxDuration < t.ns - u.ns) :
    t.Sub u = maxDuration := by
  have hne : ¬ ((u.Add (wrapInt64 (wrapInt64 (wrapInt64 (t.sec - u.sec) * Second) + (t.nsec - u.nsec)))).Equal t = true) := by
    rw [Time.Equal_iff]
    simp only [wrapInt64, Time.sec, Time.nsec, Second, minDuration, maxDuration, Time.Add] at *
    omega
  have hb : ¬ (t.Before u = true) := by
    rw [Time.Before_iff]; simp only [maxDuration] at h; omega
  simp only [Time.Sub]
  simp [hne, hb]

theorem roundNearestEven_ge (a b : Nat) : a / b ≤ roundNearestEven a b := by
  unfold roundNearestEven
  simp only
  split_ifs <;> omega

theorem roundNearestEven_le (a b : Nat) : roundNearestEven a b ≤ a / b + 1 := by
  unfold roundNearestEven
  simp only
  split_ifs <;> omega

theorem roundNearestEven_of_mod_eq_zero (a b : Nat) (hb : 0 < b) (h : a % b = 0) :
    roundNearestEven a b = a / b := by
  unfold roundNearestEven
  simp only [h]
  simp [hb]

/-- Rounding to a multiple of `b` stays above every multiple of `b` below the argument. -/
theorem roundNearestEven_mul_ge (a b lo : Nat) (hb : 0 < b) (hlo : lo * b ≤ a) :
    lo * b ≤ roundNearestEven a b * b := by
  have h1 : lo ≤ a / b := (Nat.le_div_iff_mul_le hb).2 hlo
  exact Nat.mul_le_mul_right b (le_trans h1 (roundNearestEven_ge a b))

/-- Rounding to a multiple of `b` stays below every multiple of `b` above the argument. -/
theorem roundNearestEven_mul_le (a b hi : Nat) (hb : 0 < b) (hhi : a ≤ hi * b) :
    roundNearestEven a b * b ≤ hi * b := by
  apply Nat.mul_le_mul_right
  rcases Nat.lt_or_ge a (hi * b) with h | h
  · have : a / b < hi := (Nat.div_lt_iff_lt_mul hb).2 h
    have := roundNearestEven_le a b
    omega
  · have e : a = hi * b := le_antisymm hhi h
    rw [roundNearestEven_of_mod_eq_zero a b hb (by rw [e]; exact Nat.mul_mod_left hi b), e,
      Nat.mul_div_cancel _ hb]

theorem bitLenAux_le (fuel : Nat) : ∀ n j : Nat, n < 2 ^ j → bitLenAux fuel n ≤ j := by
  induction fuel with
  | zero => intro n j _; simp [bitLenAux]
  | succ f ih =>
    intro n j h
    simp only [bitLenAux]
    split_ifs with h0
    · omega
    · cases j with
      | zero => simp at h; omega
      | succ j =>
        have : n / 2 < 2 ^ j := by
          rw [Nat.div_lt_iff_lt_mul (by norm_num)]; rw [pow_succ] at h; exact h
        have := ih (n / 2) j this
        omega

theorem bitLen_le (n j : Nat) (h : n < 2 ^ j) : bitLen n ≤ j := bitLenAux_le n n j h

theorem float64DivE9_le (n : Nat) (h : n < 1000000000) :
    (float64DivE9 n).1 ≤ 2 ^ (float64DivE9 n).2 := by
  simp only [float64DivE9]
  generalize (if 2 ^ 52 * 1000000000 ≤ n * 2 ^ (81 - (bitLen n - 1)) then 81 - (bitLen n - 1)
    else 81 - (bitLen n - 1) + 1) = k
  have h1 := roundNearestEven_le (n * 2 ^ k) 1000000000
  have h2 : n * 2 ^ k / 1000000000 < 2 ^ k := by
    rw [Nat.div_lt_iff_lt_mul (by norm_num)]
    calc n * 2 ^ k < 1000000000 * 2 ^ k := Nat.mul_lt_mul_of_pos_right h (by positivity)
      _ = 2 ^ k * 1000000000 := Nat.mul_comm _ _
  omega

theorem secondsTrunc_whole (s : Nat) : secondsTrunc (s * 1000000000) = s := by
  simp [secondsTrunc]

theorem secondsTrunc_bounds (d : Nat) (hd : d / 1000000000 + 1 < 2 ^ 53) :
    d / 1000000000 ≤ secondsTrunc d ∧ secondsTrunc d ≤ d / 1000000000 + 1 := by
  unfold secondsTrunc
  simp only
  have hm := float64DivE9_le (d % 1000000000) (Nat.mod_lt _ (by norm_num))
  generalize (float64DivE9 (d % 1000000000)).2 = k at hm ⊢
  generalize (float64DivE9 (d % 1000000000)).1 = m at hm ⊢
  generalize d / 1000000000 = s at hd ⊢
  have hk : 0 < 2 ^ k := by positivity
  have e : (s + 1) * 2 ^ k = s * 2 ^ k + 2 ^ k := by ring
  have e2 : 2 ^ k * (s + 1) = s * 2 ^ k + 2 ^ k := by ring
  split_ifs with h0 hL
  · omega
  · -- the sum needs no rounding
    constructor
    · rw [Nat.le_div_iff_mul_le hk]; omega
    · apply Nat.div_le_of_le_mul
      omega
  · -- the sum is rounded to 53 bits
    have hN : s * 2 ^ k + m < 2 ^ (53 + k) := by
      calc s * 2 ^ k + m ≤ (s + 1) * 2 ^ k := by omega
        _ < 2 ^ 53 * 2 ^ k := Nat.mul_lt_mul_of_pos_right hd hk
        _ = 2 ^ (53 + k) := by rw [pow_add]
    have hL2 := bitLen_le _ _ hN
    generalize bitLen (s * 2 ^ k + m) = L at hL hL2
    obtain ⟨j, hj⟩ : ∃ j, k = (L - 53) + j := ⟨k - (L - 53), by omega⟩
    have hb : 0 < 2 ^ (L - 53) := by positivity
    have hpow : 2 ^ k = 2 ^ j * 2 ^ (L - 53) := by rw [hj, pow_add, Nat.mul_comm]
    constructor
    · rw [Nat.le_div_iff_mul_le hk]
      have := roundNearestEven_mul_ge (s * 2 ^ k + m) (2 ^ (L - 53)) (s * 2 ^ j) hb
        (by rw [Nat.mul_assoc, ← hpow]; omega)
      rwa [Nat.mul_assoc, ← hpow] at this
    · apply Nat.div_le_of_le_mul
      have := roundNearestEven_mul_le (s * 2 ^ k + m) (2 ^ (L - 53)) ((s + 1) * 2 ^ j) hb
        (by rw [Nat.mul_assoc, ← hpow]; omega)
      rw [Nat.mul_assoc, ← hpow] at this
      rw [Nat.mul_comm (2 ^ k)]; exact this

theorem bitLenAux_gt (fuel : Nat) : ∀ n j : Nat, n ≤ fuel → 2 ^ j ≤ n → j < bitLenAux fuel n := by
  induction fuel with
  | zero =>
    intro n j hn h
    have : 0 < 2 ^ j := by positivity
    omega
  | succ f ih =>
    intro n j hn h
    have hpos : 0 < 2 ^ j := by positivity
    simp only [bitLenAux]
    rw [if_neg (by omega)]
    cases j with
    | zero => omega
    | succ j =>
      have h2 : 2 ^ j ≤ n / 2 := by
        rw [Nat.le_div_iff_mul_le (by norm_num)]; rw [pow_succ] at h; exact h
      have := ih (n / 2) j (by omega) h2
      omega

theorem bitLen_gt (n j : Nat) (h : 2 ^ j ≤ n) : j < bitLen n := bitLenAux_gt n n j le_rfl h

theorem bitLen_eq (n B : Nat) (hB : 1 ≤ B) (h1 : 2 ^ (B - 1) ≤ n) (h2 : n < 2 ^ B) :
    bitLen n = B := by
  have := bitLen_le n B h2
  have := bitLen_gt n (B - 1) h1
  omega

/-- For a fraction below 2^29 ns the float64 quotient is at most 3/4. -/
theorem float64DivE9_small (n : Nat) (h : n < 2 ^ 29) :
    53 ≤ (float64DivE9 n).2 ∧ 4 * (float64DivE9 n).1 ≤ 3 * 2 ^ (float64DivE9 n).2 := by
  have hb : bitLen n ≤ 29 := bitLen_le n 29 h
  simp only [float64DivE9]
  have hk : 53 ≤ (if 2 ^ 52 * 1000000000 ≤ n * 2 ^ (81 - (bitLen n - 1)) then 81 - (bitLen n - 1)
      else 81 - (bitLen n - 1) + 1) := by
    split_ifs <;> omega
  generalize (if 2 ^ 52 * 1000000000 ≤ n * 2 ^ (81 - (bitLen n - 1)) then 81 - (bitLen n - 1)
    else 81 - (bitLen n - 1) + 1) = k at hk ⊢
  refine ⟨hk, ?_⟩
  have h1 := roundNearestEven_le (n * 2 ^ k) 1000000000
  have h2 : n * 2 ^ k / 1000000000 ≤ 2 ^ 29 * 2 ^ k / 1000000000 :=
    Nat.div_le_div_right (Nat.mul_le_mul_right _ (le_of_lt h))
  have h3 : 2 ^ 53 ≤ 2 ^ k := Nat.pow_le_pow_right (by norm_num) hk
  generalize 2 ^ k = X at h1 h2 h3 ⊢
  norm_num at h2 h3 ⊢
  omega

/-- For a fraction of at least 2^29 ns the quotient has the exponent -53. -/
theorem float64DivE9_large (n : Nat) (h1 : 2 ^ 29 ≤ n) (h2 : n < 1000000000) :
    float64DivE9 n = (roundNearestEven (n * 2 ^ 53) 1000000000, 53) := by
  have hb : bitLen n = 30 := bitLen_eq n 30 (by norm_num) h1 (by norm_num; omega)
  have hc : ¬ (2 ^ 52 * 1000000000 ≤ n * 2 ^ 52) := by norm_num; omega
  simp only [float64DivE9, hb]
  have e : 81 - (30 - 1) = 52 := rfl
  rw [e, if_neg hc]

/-- Rounding the sum `s + m / 2^53` to multiples of `P / 2^53`, for a power
of two `P` with `c * P = 2^53`, and truncating: the result is `s + 1` exactly
when `m / 2^53` is within half a unit of 1. -/
theorem round_sum_trunc (s m P c : Nat) (hcP : c * P = 2 ^ 53) (hc : c % 2 = 0)
    (hm : m < 2 ^ 53) :
    (roundNearestEven (s * 2 ^ 53 + m) P * P) / 2 ^ 53 =
      if 2 ^ 54 ≤ 2 * m + P then s + 1 else s := by
  have hP : 0 < P := by
    rcases Nat.eq_zero_or_pos P with h | h
    · rw [h] at hcP; norm_num at hcP
    · exact h
  have hcpos : 0 < c := by
    rcases Nat.eq_zero_or_pos c with h | h
    · rw [h] at hcP; norm_num at hcP
    · exact h
  have hN : s * 2 ^ 53 + m = P * (s * c) + m := by rw [← hcP]; ring
  have hq : (P * (s * c) + m) / P = s * c + m / P := Nat.mul_add_div hP _ _
  have hr : (P * (s * c) + m) % P = m % P := Nat.mul_add_mod _ _ _
  have hmr : m % P < P := Nat.mod_lt _ hP
  have hdm : P * (m / P) + m % P = m := Nat.div_add_mod m P
  have hmq : m / P < c := by
    rw [Nat.div_lt_iff_lt_mul hP, hcP]; exact hm
  have hpar : (s * c + m / P) % 2 = (m / P) % 2 := by
    obtain ⟨c2, hc2⟩ : ∃ c2, c = 2 * c2 := ⟨c / 2, by omega⟩
    have : s * c = 2 * (s * c2) := by rw [hc2]; ring
    omega
  have hdiv : ∀ X, (X * P) / 2 ^ 53 = X / c := by
    intro X
    rw [← hcP]
    exact Nat.mul_div_mul_right X c hP
  have hlow : ∀ t, t < c → (s * c + t) / c = s := by
    intro t ht
    rw [Nat.mul_comm s c, Nat.mul_add_div hcpos, Nat.div_eq_of_lt ht, Nat.add_zero]
  have hup : (s * c + c) / c = s + 1 := by
    rw [Nat.mul_comm s c, Nat.mul_add_div hcpos, Nat.div_self hcpos]
  have h54 : (2 : Nat) ^ 54 = 2 * 2 ^ 53 := by norm_num
  generalize hmq' : m / P = mq at *
  generalize hmr' : m % P = mr at *
  by_cases htop : mq + 1 = c
  · -- the quotient is in the last unit below `s + 1`
    have hPc : P * mq + P = 2 ^ 53 := by
      have : P * (mq + 1) = 2 ^ 53 := by rw [htop, Nat.mul_comm]; exact hcP
      rw [← this]; ring
    have hodd : mq % 2 = 1 := by omega
    unfold roundNearestEven
    simp only
    rw [hN, hq, hr, hdiv]
    by_cases h1 : 2 * mr < P
    · rw [if_pos h1, hlow mq hmq, if_neg (by omega)]
    · rw [if_neg h1]
      by_cases h2 : P < 2 * mr
      · rw [if_pos h2, if_pos (by omega)]
        have : s * c + mq + 1 = s * c + c := by omega
        rw [this, hup]
      · rw [if_neg h2, if_neg (by omega), if_pos (by omega)]
        have : s * c + mq + 1 = s * c + c := by omega
        rw [this, hup]
  · have hlt : mq + 2 ≤ c := by omega
    have hPc : P * mq + 2 * P ≤ 2 ^ 53 := by
      have : P * (mq + 2) ≤ P * c := Nat.mul_le_mul_left P hlt
      rw [Nat.mul_comm P c, hcP] at this
      calc P * mq + 2 * P = P * (mq + 2) := by ring
        _ ≤ 2 ^ 53 := this
    have hres : (roundNearestEven (s * 2 ^ 53 + m) P * P) / 2 ^ 53 = s := by
      unfold roundNearestEven
      simp only
      rw [hN, hq, hr, hdiv]
      split_ifs
      · exact hlow mq hmq
      · rw [Nat.add_assoc]; exact hlow (mq + 1) (by omega)
      · exact hlow mq hmq
      · rw [Nat.add_assoc]; exact hlow (mq + 1) (by omega)
    rw [hres, if_neg (by omega)]

/-- The float64 quotient of a fraction of at least 2^29 ns is below 1, and it
is within half a unit `P / 2^54` of 1 exactly when the fraction is that close
to a full second. -/
theorem quotient_near_one (n P : Nat) (hn1 : 2 ^ 29 ≤ n) (hn2 : n < 1000000000)
    (hP : P % 2 = 0) :
    roundNearestEven (n * 2 ^ 53) 1000000000 < 2 ^ 53 ∧
    (2 ^ 54 ≤ 2 * roundNearestEven (n * 2 ^ 53) 1000000000 + P ↔
      (1000000000 - n) * 2 ^ 54 < (P + 1) * 1000000000) := by
  norm_num at hn1 ⊢
  simp only [roundNearestEven]
  split_ifs <;> constructor <;> omega

/-- The value of `int(d.Seconds())` for a duration of `d` nanoseconds below
2^34 seconds, where `B` is the number of binary digits of the whole seconds:
the whole seconds, and one more exactly when the missing part of the last
second, in units of 2^-54 s, is below `2^B + 1` ns. -/
theorem secondsTrunc_eq (d B : Nat) (hd : d / 1000000000 < 2 ^ 34)
    (hB : d / 1000000000 < 2 ^ B) (hB2 : B = 0 ∨ 2 ^ (B - 1) ≤ d / 1000000000) :
    secondsTrunc d =
      if (1000000000 - d % 1000000000) * 2 ^ 54 < (2 ^ B + 1) * 1000000000 then
        d / 1000000000 + 1
      else d / 1000000000 := by
  have hn := Nat.mod_lt d (show 0 < 1000000000 by norm_num)
  have hB34 : B ≤ 34 := by
    rcases hB2 with h | h
    · omega
    · have : 2 ^ (B - 1) < 2 ^ 34 := lt_of_le_of_lt h hd
      have := (Nat.pow_lt_pow_iff_right (by norm_num : 1 < 2)).1 this
      omega
  have hP34 : 2 ^ B ≤ 2 ^ 34 := Nat.pow_le_pow_right (by norm_num) hB34
  have hPpos : 0 < 2 ^ B := by positivity
  unfold secondsTrunc
  simp only
  generalize hs : d / 1000000000 = s at *
  generalize hn0 : d % 1000000000 = n at *
  by_cases h0 : n = 0
  · rw [if_pos h0, if_neg]
    subst h0
    generalize 2 ^ B = P at hP34 hPpos
    norm_num at hP34 ⊢
    omega
  rw [if_neg h0]
  by_cases hsmall : n < 2 ^ 29
  · -- the quotient is at most 3/4: no rounding reaches the next second
    obtain ⟨hk, hm⟩ := float64DivE9_small n hsmall
    generalize (float64DivE9 n).2 = k at hk hm ⊢
    generalize (float64DivE9 n).1 = m at hm ⊢
    have hcond : ¬ ((1000000000 - n) * 2 ^ 54 < (2 ^ B + 1) * 1000000000) := by
      generalize 2 ^ B = P at hP34 hPpos
      norm_num at hP34 hsmall ⊢
      omega
    rw [if_neg hcond]
    obtain ⟨T, hT⟩ : ∃ T, 2 ^ k = 4 * T := ⟨2 ^ (k - 2), by
      have e : k = (k - 2) + 2 := by omega
      calc 2 ^ k = 2 ^ ((k - 2) + 2) := by rw [← e]
        _ = 4 * 2 ^ (k - 2) := by rw [pow_add]; ring⟩
    have hk0 : 0 < 2 ^ k := by positivity
    have hmlt : m < 2 ^ k := by omega
    split_ifs with hL
    · rw [Nat.mul_comm s, Nat.mul_add_div hk0, Nat.div_eq_of_lt hmlt, Nat.add_zero]
    · have hN : s * 2 ^ k + m < 2 ^ (34 + k) := by
        calc s * 2 ^ k + m < (s + 1) * 2 ^ k := by rw [Nat.add_mul]; omega
          _ ≤ 2 ^ 34 * 2 ^ k := Nat.mul_le_mul_right _ (by omega)
          _ = 2 ^ (34 + k) := by rw [pow_add]
      have hL2 := bitLen_le _ _ hN
      generalize bitLen (s * 2 ^ k + m) = L at hL hL2
      obtain ⟨j, hj⟩ : ∃ j, k = (L - 53) + j + 2 := ⟨k - 2 - (L - 53), by omega⟩
      have hb : 0 < 2 ^ (L - 53) := by positivity
      have hpow : 2 ^ k = 4 * 2 ^ j * 2 ^ (L - 53) := by rw [hj, pow_add, pow_add]; ring
      apply le_antisymm
      · have hle := roundNearestEven_mul_le (s * 2 ^ k + m) (2 ^ (L - 53)) ((4 * s + 3) * 2 ^ j) hb
          (by
            have : (4 * s + 3) * 2 ^ j * 2 ^ (L - 53) = s * 2 ^ k + 3 * (2 ^ j * 2 ^ (L - 53)) := by
              rw [hpow]; ring
            rw [this]
            have : 4 * (2 ^ j * 2 ^ (L - 53)) = 2 ^ k := by rw [hpow]; ring
            omega)
        have hlt : roundNearestEven (s * 2 ^ k + m) (2 ^ (L - 53)) * 2 ^ (L - 53) <
            (s + 1) * 2 ^ k := by
          have e1 : (4 * s + 3) * 2 ^ j * 2 ^ (L - 53) = s * 2 ^ k + 3 * (2 ^ j * 2 ^ (L - 53)) := by
            rw [hpow]; ring
          have e2 : 4 * (2 ^ j * 2 ^ (L - 53)) = 2 ^ k := by rw [hpow]; ring
          have e3 : 0 < 2 ^ j * 2 ^ (L - 53) := by positivity
          rw [Nat.add_mul]
          omega
        have := (Nat.div_lt_iff_lt_mul hk0).2 hlt
        omega
      · rw [Nat.le_div_iff_mul_le hk0]
        have := roundNearestEven_mul_ge (s * 2 ^ k + m) (2 ^ (L - 53)) (s * (4 * 2 ^ j)) hb
          (by rw [Nat.mul_assoc, ← hpow]; omega)
        rwa [Nat.mul_assoc, ← hpow] at this
  · -- the quotient has the exponent -53
    have hn1 : 2 ^ 29 ≤ n := by omega
    rw [float64DivE9_large n hn1 hn]
    simp only
    by_cases hs0 : s = 0
    · subst hs0
      have hB0 : B = 0 := by
        rcases hB2 with h | h
        · exact h
        · have : 0 < 2 ^ (B - 1) := by positivity
          omega
      subst hB0
      obtain ⟨hm, _⟩ := quotient_near_one n 2 hn1 hn (by norm_num)
      have hL := bitLen_le _ 53 hm
      rw [Nat.zero_mul, Nat.zero_add, if_pos hL, Nat.div_eq_of_lt hm, if_neg]
      norm_num
      omega
    · have hB1 : 1 ≤ B := by
        rcases Nat.eq_zero_or_pos B with h | h
        · rw [h] at hB; norm_num at hB; omega
        · exact h
      have hlo : 2 ^ (B - 1) ≤ s := by
        rcases hB2 with h | h
        · omega
        · exact h
      have hPeven : 2 ^ B % 2 = 0 := by
        rw [show B = (B - 1) + 1 by omega, pow_succ]; omega
      obtain ⟨hm, hiff⟩ := quotient_near_one n (2 ^ B) hn1 hn hPeven
      generalize roundNearestEven (n * 2 ^ 53) 1000000000 = m at hm hiff ⊢
      have hL : bitLen (s * 2 ^ 53 + m) = B + 53 := by
        apply bitLen_eq _ _ (by omega)
        · have : 2 ^ (B + 53 - 1) = 2 ^ (B - 1) * 2 ^ 53 := by
            rw [← pow_add]; congr 1; omega
          rw [this]
          have := Nat.mul_le_mul_right (2 ^ 53) hlo
          omega
        · have : 2 ^ (B + 53) = 2 ^ B * 2 ^ 53 := by rw [pow_add]
          rw [this]
          have : (s + 1) * 2 ^ 53 ≤ 2 ^ B * 2 ^ 53 := Nat.mul_le_mul_right _ (by omega)
          rw [Nat.add_mul] at this
          omega
      rw [hL, if_neg (by omega), show B + 53 - 53 = B by omega]
      have hcP : 2 ^ (53 - B) * 2 ^ B = 2 ^ 53 := by
        rw [← pow_add]; congr 1; omega
      have hceven : 2 ^ (53 - B) % 2 = 0 := by
        rw [show 53 - B = (53 - B - 1) + 1 by omega, pow_succ]; omega
      rw [round_sum_trunc s m (2 ^ B) (2 ^ (53 - B)) hcP hceven hm]
      by_cases hc : 2 ^ 54 ≤ 2 * m + 2 ^ B
      · rw [if_pos hc, if_pos (hiff.1 hc)]
      · rw [if_neg hc, if_neg (fun h => hc (hiff.2 h))]

/-! ## Sums in 64-bit arithmetic -/

theorem wrapInt64_wrapInt64_add (a b : Int) : wrapInt64 (wrapInt64 a + b) = wrapInt64 (a + b) := by
  unfold wrapInt64
  omega

theorem wrapInt64_of_fits (a : Int) (hlo : -9223372036854775808 ≤ a)
    (hhi : a ≤ 9223372036854775807) : wrapInt64 a = a := by
  unfold wrapInt64
  omega

/-- A loop that adds the elements of a list in 64-bit arithmetic ends with the
sum of the list wrapped to 64 bits. -/
theorem foldl_wrapInt64_eq : ∀ (xs : List Int) (acc : Int),
    xs.foldl (fun total x => wrapInt64 (total + x)) (wrapInt64 acc) = wrapInt64 (acc + xs.sum) := by
  intro xs
  induction xs with
  | nil => intro acc; simp
  | cons x xs ih =>
    intro acc
    simp only [List.foldl_cons, List.sum_cons]
    rw [wrapInt64_wrapInt64_add, ih (acc + x), add_assoc]

/-! ## The `BeforeSave` hook -/

theorem bitLen_spec (s : Nat) : s < 2 ^ bitLen s ∧ (bitLen s = 0 ∨ 2 ^ (bitLen s - 1) ≤ s) := by
  constructor
  · by_contra h
    have := bitLen_gt s (bitLen s) (by omega)
    omega
  · by_cases h0 : bitLen s = 0
    · exact Or.inl h0
    · right
      by_contra h
      have := bitLen_le s (bitLen s - 1) (by omega)
      omega

/-- The conversion drops the fraction of a second for every duration below
2^24 seconds and for every fraction of at most 0.999999 s. -/
theorem secondsTrunc_floor (d : Nat) (hd : d / 1000000000 < 2 ^ 34)
    (h : d / 1000000000 < 2 ^ 24 ∨ d % 1000000000 ≤ 999999000) :
    secondsTrunc d = d / 1000000000 := by
  obtain ⟨h1, h2⟩ := bitLen_spec (d / 1000000000)
  rw [secondsTrunc_eq d (bitLen (d / 1000000000)) hd h1 h2, if_neg]
  have hn := Nat.mod_lt d (show 0 < 1000000000 by norm_num)
  rcases h with h | h
  · have hb : bitLen (d / 1000000000) ≤ 24 := bitLen_le _ 24 h
    have hP : 2 ^ bitLen (d / 1000000000) ≤ 2 ^ 24 := Nat.pow_le_pow_right (by norm_num) hb
    generalize 2 ^ bitLen (d / 1000000000) = P at hP
    norm_num at hP ⊢
    omega
  · have hb : bitLen (d / 1000000000) ≤ 34 := bitLen_le _ 34 hd
    have hP : 2 ^ bitLen (d / 1000000000) ≤ 2 ^ 34 := Nat.pow_le_pow_right (by norm_num) hb
    generalize 2 ^ bitLen (d / 1000000000) = P at hP
    norm_num at hP ⊢
    omega

/-- The value `int(d.Seconds())` of a duration `d ≥ 0`: the whole seconds for
a duration below 2^24 seconds and for a fraction of at most 0.999999 s; in
general, with `B` the number of binary digits of the whole seconds, one more
than the whole seconds exactly when the fraction `f` ns satisfies
`(10^9 - f) * 2^54 < (2^B + 1) * 10^9`. -/
theorem Duration.secondsInt_of_nonneg (d : Int) (h0 : 0 ≤ d) (h1 : d ≤ maxDuration) :
    (d / 1000000000 < 2 ^ 24 ∨ d % 1000000000 ≤ 999999000 →
      Duration.secondsInt d = d / 1000000000) ∧
    (∀ B : Nat, d / 1000000000 < 2 ^ B → (B = 0 ∨ 2 ^ (B - 1) ≤ d / 1000000000) →
      Duration.secondsInt d =
        if (1000000000 - d % 1000000000) * 2 ^ 54 < (2 ^ B + 1) * 1000000000 then
          d / 1000000000 + 1
        else d / 1000000000) := by
  obtain ⟨n, rfl⟩ := Int.eq_ofNat_of_zero_le h0
  have hn : n / 1000000000 < 2 ^ 34 := by
    simp only [maxDuration] at h1
    norm_num
    omega
  have hsec : Duration.secondsInt (n : Int) = (secondsTrunc n : Int) := by
    simp only [Duration.secondsInt, h0, if_true, Int.toNat_ofNat]
  rw [hsec]
  constructor
  · intro h
    have h' : n / 1000000000 < 2 ^ 24 ∨ n % 1000000000 ≤ 999999000 := by
      norm_num at h ⊢
      omega
    rw [secondsTrunc_floor n hn h']
    norm_num
  · intro B hB hB2
    have e2 : ((2 : Int) ^ B) = ((2 ^ B : Nat) : Int) := by push_cast; rfl
    have e3 : ((2 : Int) ^ (B - 1)) = ((2 ^ (B - 1) : Nat) : Int) := by push_cast; rfl
    rw [e2] at hB ⊢
    rw [e3] at hB2
    have hB' : n / 1000000000 < 2 ^ B := by omega
    have hB2' : B = 0 ∨ 2 ^ (B - 1) ≤ n / 1000000000 := by omega
    have := secondsTrunc_eq n B hn hB' hB2'
    rw [this]
    generalize 2 ^ B = P
    norm_num
    split_ifs <;> omega

/-- The value `int(end.Sub(start).Seconds())` for an end after the start. -/
theorem secondsInt_sub_spec (start e : Time) (hlt : start.Before e = true) :
    (e.ns - start.ns ≤ maxDuration →
      ((e.ns - start.ns) / 1000000000 < 2 ^ 24 ∨ (e.ns - start.ns) % 1000000000 ≤ 999999000 →
        Duration.secondsInt (e.Sub start) = (e.ns - start.ns) / 1000000000) ∧
      (∀ B : Nat, (e.ns - start.ns) / 1000000000 < 2 ^ B →
        (B = 0 ∨ 2 ^ (B - 1) ≤ (e.ns - start.ns) / 1000000000) →
        Duration.secondsInt (e.Sub start) =
          if (1000000000 - (e.ns - start.ns) % 1000000000) * 2 ^ 54 < (2 ^ B + 1) * 1000000000
          then (e.ns - start.ns) / 1000000000 + 1
          else (e.ns - start.ns) / 1000000000)) ∧
    (maxDuration < e.ns - start.ns → Duration.secondsInt (e.Sub start) = 9223372036) := by
  refine ⟨?_, ?_⟩
  · intro hle
    have hpos : start.ns < e.ns := (Time.Before_iff _ _).1 hlt
    have hmin : minDuration ≤ e.ns - start.ns := by simp only [minDuration]; omega
    rw [Time.Sub_eq_of_le e start hmin hle]
    exact Duration.secondsInt_of_nonneg _ (by omega) hle
  · intro hgt
    rw [Time.Sub_eq_max e start hgt]
    rfl

/-- C1 (as amended).  For every time entry whose end time is present and after
the start time, `BeforeSave` sets the duration.  When the difference
`end - start` fits a `time.Duration` (at most 2^63 - 1 nanoseconds) the stored
value is the whole number of seconds of the difference, the fraction of a
second being dropped, for every difference below 2^24 seconds and for every
fraction of at most 0.999999 s; in general, with `B` the number of binary
digits of the whole seconds and `f` the fraction in nanoseconds, it is one
more than the whole seconds exactly when `(10^9 - f) * 2^54 < (2^B + 1) * 10^9`
(the float64 sum of the seconds then rounds to the next whole number).  For a
larger difference the stored value is 9223372036.  The entry of the
specification example gets duration 5400. -/
theorem C1_beforeSave_duration (t : TimeEntry) (e : Time) (he : t.EndTime = some e)
    (hlt : t.StartTime.Before e = true) :
    (∃ x : Int, t.BeforeSave.Duration = some x ∧
      (e.ns - t.StartTime.ns ≤ maxDuration →
        ((e.ns - t.StartTime.ns) / 1000000000 < 2 ^ 24 ∨
            (e.ns - t.StartTime.ns) % 1000000000 ≤ 999999000 →
          x = (e.ns - t.StartTime.ns) / 1000000000) ∧
        (∀ B : Nat, (e.ns - t.StartTime.ns) / 1000000000 < 2 ^ B →
          (B = 0 ∨ 2 ^ (B - 1) ≤ (e.ns - t.StartTime.ns) / 1000000000) →
          x = if (1000000000 - (e.ns - t.StartTime.ns) % 1000000000) * 2 ^ 54 <
                (2 ^ B + 1) * 1000000000
              then (e.ns - t.StartTime.ns) / 1000000000 + 1
              else (e.ns - t.StartTime.ns) / 1000000000)) ∧
      (maxDuration < e.ns - t.StartTime.ns → x = 9223372036)) ∧
    entryNinetyMinutes.BeforeSave.Duration = some 5400 := by
  have hs := secondsInt_sub_spec t.StartTime e hlt
  refine ⟨⟨Duration.secondsInt (e.Sub t.StartTime), ?_, hs.1, hs.2⟩, by decide⟩
  simp [TimeEntry.BeforeSave, he, hlt]

/-- C1, witness: the hypotheses hold for the entry of 90 minutes and half a
second, whose duration is 5400. -/
theorem C1_beforeSave_duration_witness :
    entryHalfSecond.EndTime = some (Time.Date 2024 1 1 11 30 0 500000000) ∧
    entryHalfSecond.StartTime.Before (Time.Date 2024 1 1 11 30 0 500000000) = true ∧
    (Time.Date 2024 1 1 11 30 0 500000000).ns - entryHalfSecond.StartTime.ns = 5400500000000 ∧
    entryHalfSecond.BeforeSave.Duration = some 5400 ∧
    ((∃ x : Int, entryHalfSecond.BeforeSave.Duration = some x ∧
      ((Time.Date 2024 1 1 11 30 0 500000000).ns - entryHalfSecond.StartTime.ns ≤ maxDuration →
        (((Time.Date 2024 1 1 11 30 0 500000000).ns - entryHalfSecond.StartTime.ns) / 1000000000
            < 2 ^ 24 ∨
          ((Time.Date 2024 1 1 11 30 0 500000000).ns - entryHalfSecond.StartTime.ns) % 1000000000
            ≤ 999999000 →
          x = ((Time.Date 2024 1 1 11 30 0 500000000).ns - entryHalfSecond.StartTime.ns)
            / 1000000000) ∧
        (∀ B : Nat,
          ((Time.Date 2024 1 1 11 30 0 500000000).ns - entryHalfSecond.StartTime.ns) / 1000000000
            < 2 ^ B →
          (B = 0 ∨ 2 ^ (B - 1) ≤
            ((Time.Date 2024 1 1 11 30 0 500000000).ns - entryHalfSecond.StartTime.ns)
              / 1000000000) →
          x = if (1000000000 -
                  ((Time.Date 2024 1 1 11 30 0 500000000).ns - entryHalfSecond.StartTime.ns)
                    % 1000000000) * 2 ^ 54 < (2 ^ B + 1) * 1000000000
              then ((Time.Date 2024 1 1 11 30 0 500000000).ns - entryHalfSecond.StartTime.ns)
                / 1000000000 + 1
              else ((Time.Date 2024 1 1 11 30 0 500000000).ns - entryHalfSecond.StartTime.ns)
                / 1000000000)) ∧
      (maxDuration <
          (Time.Date 2024 1 1 11 30 0 500000000).ns - entryHalfSecond.StartTime.ns →
        x = 9223372036)) ∧
    entryNinetyMinutes.BeforeSave.Duration = some 5400) :=
  ⟨rfl, by decide, by decide, by decide,
    C1_beforeSave_duration entryHalfSecond (Time.Date 2024 1 1 11 30 0 500000000) rfl
      (by decide)⟩

/-- C1, counterexample to the claim as stated.  The end time of
`entryLongSpan` is present and after its start time, the two are 63839664000
seconds apart, and `BeforeSave` stores the duration 9223372036.  The times of
`entryRoundUp` are 16777216.999999999 seconds apart and `BeforeSave` stores
16777217, more than the time between them.  The times of `entryHalfSecond`
are 5400.5 seconds apart and `BeforeSave` stores 5400. -/
theorem C1_counterexample :
    (entryLongSpan.EndTime = some (Time.Date 2024 1 1 0 0 0 0) ∧
      entryLongSpan.StartTime.Before (Time.Date 2024 1 1 0 0 0 0) = true ∧
      (Time.Date 2024 1 1 0 0 0 0).ns - entryLongSpan.StartTime.ns =
        63839664000 * 1000000000 ∧
      entryLongSpan.BeforeSave.Duration = some 9223372036) ∧
    (entryRoundUp.EndTime = some (Time.Date 2024 7 13 4 20 16 999999999) ∧
      entryRoundUp.StartTime.Before (Time.Date 2024 7 13 4 20 16 999999999) = true ∧
      (Time.Date 2024 7 13 4 20 16 999999999).ns - entryRoundUp.StartTime.ns =
        16777216 * 1000000000 + 999999999 ∧
      entryRoundUp.BeforeSave.Duration = some 16777217) ∧
    (entryHalfSecond.EndTime = some (Time.Date 2024 1 1 11 30 0 500000000) ∧
      entryHalfSecond.StartTime.Before (Time.Date 2024 1 1 11 30 0 500000000) = true ∧
      (Time.Date 2024 1 1 11 30 0 500000000).ns - entryHalfSecond.StartTime.ns =
        5400 * 1000000000 + 500000000 ∧
      entryHalfSecond.BeforeSave.Duration = some 5400) := by
  refine ⟨⟨rfl, by decide, by decide, ?_⟩, ⟨rfl, by decide, by decide, by decide⟩,
    ⟨rfl, by decide, by decide, by decide⟩⟩
  rfl

/-! ## Time entries: validation of the time range -/

theorem uuidParse_hyphenated_ne_panic (s : List Nat) (p : String) :
    parseHyphenated s ≠ Result.panic p := by
  unfold parseHyphenated
  split_ifs
  · simp
  · split <;> simp

theorem uuidParse_ne_panic (str p : String) : uuidParse str ≠ Result.panic p := by
  unfold uuidParse
  simp only
  split_ifs
  · exact uuidParse_hyphenated_ne_panic _ _
  · exact uuidParse_hyphenated_ne_panic _ _
  · simp
  · exact uuidParse_hyphenated_ne_panic _ _
  · split <;> simp
  · simp

/-- C2 (as amended).  For every request whose end time is present and strictly
before the start time: `CreateTimeEntry` returns the error "end time cannot be
before start time" and leaves the store as it was; `UpdateTimeEntry` leaves
the store as it was and returns that error when the user id and the entry id
are well-formed UUIDs, while a malformed id is reported first, as "invalid
user ID" or "invalid entry ID". -/
theorem C2_end_before_start_rejected (s : Store) (gen : Nat → UUID) (userID entryID : String)
    (req : TimeEntryRequest) (e : Time) (he : req.EndTime = some e)
    (hlt : e.Before req.StartTime = true) :
    CreateTimeEntry s gen userID req = (s, .err "end time cannot be before start time") ∧
    (UpdateTimeEntry s gen userID entryID req).1 = s ∧
    (∀ u v, uuidParse userID = .ok u → uuidParse entryID = .ok v →
      UpdateTimeEntry s gen userID entryID req = (s, .err "end time cannot be before start time")) ∧
    (∀ m, uuidParse userID = .err m →
      UpdateTimeEntry s gen userID entryID req = (s, .err ("invalid user ID: " ++ m))) ∧
    (∀ u m, uuidParse userID = .ok u → uuidParse entryID = .err m →
      UpdateTimeEntry s gen userID entryID req = (s, .err ("invalid entry ID: " ++ m))) := by
  have hb : endBeforeStart req = true := by simp [endBeforeStart, he, hlt]
  refine ⟨by simp [CreateTimeEntry, hb], ?_, ?_, ?_, ?_⟩
  · unfold UpdateTimeEntry
    cases h1 : uuidParse userID with
    | err m => rfl
    | panic p => rfl
    | ok u =>
      cases h2 : uuidParse entryID with
      | err m => rfl
      | panic p => rfl
      | ok v => simp [hb]
  · intro u v h1 h2
    simp [UpdateTimeEntry, h1, h2, hb]
  · intro m h1
    simp [UpdateTimeEntry, h1]
  · intro u m h1 h2
    simp [UpdateTimeEntry, h1, h2]

/-- C2, witness: a request that ends at 09:00 and starts at 10:00. -/
theorem C2_end_before_start_rejected_witness :
    reqEndBeforeStart.EndTime = some (Time.Date 2024 1 1 9 0 0 0) ∧
    (Time.Date 2024 1 1 9 0 0 0).Before reqEndBeforeStart.StartTime = true ∧
    CreateTimeEntry emptyStore sampleGen userA reqEndBeforeStart =
      (emptyStore, .err "end time cannot be before start time") ∧
    (UpdateTimeEntry emptyStore sampleGen userA userB reqEndBeforeStart).1 = emptyStore :=
  ⟨rfl, by decide,
    (C2_end_before_start_rejected emptyStore sampleGen userA userB reqEndBeforeStart
      (Time.Date 2024 1 1 9 0 0 0) rfl (by decide)).1,
    (C2_end_before_start_rejected emptyStore sampleGen userA userB reqEndBeforeStart
      (Time.Date 2024 1 1 9 0 0 0) rfl (by decide)).2.1⟩

/-- C2, counterexample to the claim as stated: the end time of the request is
before its start time, and `UpdateTimeEntry` called with the entry id "abc"
returns the error "invalid entry ID: invalid UUID length: 3". -/
theorem C2_counterexample :
    reqEndBeforeStart.EndTime = some (Time.Date 2024 1 1 9 0 0 0) ∧
    (Time.Date 2024 1 1 9 0 0 0).Before reqEndBeforeStart.StartTime = true ∧
    UpdateTimeEntry emptyStore sampleGen userA "abc" reqEndBeforeStart =
      (emptyStore, .err "invalid entry ID: invalid UUID length: 3") ∧
    (UpdateTimeEntry emptyStore sampleGen userA "abc" reqEndBeforeStart).2 ≠
      .err "end time cannot be before start time" := by
  refine ⟨rfl, by decide, by decide, by decide⟩

/-! ## Time entries: the persisted duration -/

theorem firstBy_mem {α : Type} (key : α → Nat) : ∀ (l : List α) (x : α), firstBy key l = some x → x ∈ l := by
  intro l
  induction l with
  | nil => intro x h; simp [firstBy] at h
  | cons a as ih =>
    intro x h
    simp only [firstBy] at h
    cases hf : firstBy key as with
    | none => simp [hf] at h; simp [h]
    | some y =>
      simp only [hf] at h
      split_ifs at h
      · simp only [Option.some.injEq] at h; subst h; exact List.mem_cons_of_mem _ (ih y hf)
      · simp only [Option.some.injEq] at h; simp [h]

theorem firstBy_isSome {α : Type} (key : α → Nat) : ∀ (l : List α), l ≠ [] → ∃ x, firstBy key l = some x := by
  intro l
  cases l with
  | nil => intro h; exact absurd rfl h
  | cons a as =>
    intro _
    simp only [firstBy]
    cases firstBy key as with
    | none => exact ⟨a, rfl⟩
    | some y => by_cases h : key y < key a <;> simp [h]

theorem Store.saveTags_timeEntries (tags : List Tag) : ∀ (s : Store) (id : UUID),
    (s.saveTags id tags).timeEntries = s.timeEntries := by
  induction tags with
  | nil => intro s id; rfl
  | cons t ts ih =>
    intro s id
    simp only [Store.saveTags, List.foldl_cons] at ih ⊢
    rw [ih]

theorem getOrCreateTags_timeEntries (gen : Nat → UUID) (names : List String) :
    ∀ (s : Store) (k : Nat) (acc : List Tag),
      (getOrCreateTags gen s k names acc).1.timeEntries = s.timeEntries := by
  induction names with
  | nil => intro s k acc; rfl
  | cons n ns ih =>
    intro s k acc
    simp only [getOrCreateTags]
    cases s.firstTagByName n with
    | some tag => exact ih s k _
    | none =>
      simp only
      cases generateColorForTag n with
      | err e => rfl
      | panic p => rfl
      | ok color =>
        simp only [Store.createTag]
        split_ifs
        · rfl
        · rfl
        · simp only; rw [ih]

theorem processTags_timeEntries (gen : Nat → UUID) (s : Store) (names : List String) :
    (processTags gen s names).1.timeEntries = s.timeEntries := by
  unfold processTags
  split_ifs
  · exact getOrCreateTags_timeEntries gen names s 0 []
  · rfl

theorem BeforeSave_of_before (t : TimeEntry) (e : Time) (he : t.EndTime = some e)
    (hlt : t.StartTime.Before e = true) :
    t.BeforeSave = { t with Duration := some (Duration.secondsInt (e.Sub t.StartTime)) } := by
  simp [TimeEntry.BeforeSave, he, hlt]

theorem firstBy_filter_prop {α : Type} (key : α → Nat) (p : α → Bool) (l : List α) (x : α)
    (h : firstBy key (l.filter p) = some x) : x ∈ l ∧ p x = true := by
  have := firstBy_mem key _ _ h
  simpa [List.mem_filter] using this

/-- What the statement `Create(&entry)` does when it succeeds. -/
theorem Store.createTimeEntry_ok (s s2 : Store) (fresh : UUID) (entry c : TimeEntry)
    (h : s.createTimeEntry fresh entry = (s2, .ok c)) :
    c = (entry.BeforeSave).BeforeCreate fresh ∧
    s2.timeEntries = s.timeEntries ++ [{ c with Tags := [] }] ∧
    (∀ x ∈ s.timeEntries, x.ID ≠ c.ID) := by
  unfold Store.createTimeEntry at h
  simp only at h
  split_ifs at h with hany
  · simp at h
  · simp only [Prod.mk.injEq, Result.ok.injEq] at h
    obtain ⟨h1, h2⟩ := h
    subst h2
    refine ⟨rfl, ?_, ?_⟩
    · rw [← h1, Store.saveTags_timeEntries]
    · intro x hx hid
      apply hany
      simp only [List.any_eq_true]
      exact ⟨x, hx, by simp [hid]⟩

/-- The row that `Preload("Tags").First(&entry, id)` finds after the insertion. -/
theorem Store.firstTimeEntryByID_of_append (s : Store) (old : List TimeEntry) (row loaded : TimeEntry)
    (hs : s.timeEntries = old ++ [row]) (hold : ∀ x ∈ old, x.ID ≠ row.ID)
    (h : s.firstTimeEntryByID row.ID = some loaded) :
    loaded = { row with Tags := s.tagsOf row.ID } := by
  unfold Store.firstTimeEntryByID at h
  simp only [Option.map_eq_some'] at h
  obtain ⟨e, he, hl⟩ := h
  obtain ⟨hmem, hp⟩ := firstBy_filter_prop _ _ _ _ he
  rw [hs] at hmem
  simp only [Bool.and_eq_true, beq_iff_eq] at hp
  simp only [List.mem_append, List.mem_singleton] at hmem
  rcases hmem with hm | hm
  · exact absurd hp.2 (hold e hm)
  · subst hm; exact hl.symm

/-- What `CreateTimeEntry` stores when it succeeds. -/
theorem CreateTimeEntry_ok (s s' : Store) (gen : Nat → UUID) (userID : String)
    (req : TimeEntryRequest) (resp : TimeEntryResponse)
    (h : CreateTimeEntry s gen userID req = (s', .ok resp)) :
    ∃ (u : UUID) (id : UUID) (tags : List Tag) (old : List TimeEntry) (c : TimeEntry),
      c = ((newTimeEntry u req tags).BeforeSave).BeforeCreate id ∧
      s'.timeEntries = old ++ [{ c with Tags := [] }] ∧
      (∀ x ∈ old, x.ID ≠ c.ID) ∧
      resp = toTimeEntryResponse { c with Tags := s'.tagsOf c.ID } := by
  unfold CreateTimeEntry at h
  split_ifs at h with hb
  · simp at h
  · cases hu : uuidParse userID with
    | err m => simp [hu] at h
    | panic p => simp [hu] at h
    | ok u =>
      simp only [hu] at h
      rcases hp : processTags gen s req.Tags with ⟨s1, k, r⟩
      rw [hp] at h
      cases r with
      | err m => simp at h
      | panic p => simp at h
      | ok tags =>
        simp only at h
        rcases hc : s1.createTimeEntry (gen k) (newTimeEntry u req tags) with ⟨s2, rc⟩
        rw [hc] at h
        cases rc with
        | err m => simp at h
        | panic p => simp at h
        | ok c =>
          simp only at h
          obtain ⟨hc1, hc2, hc3⟩ := Store.createTimeEntry_ok _ _ _ _ _ hc
          cases hl : s2.firstTimeEntryByID c.ID with
          | none => simp [hl] at h
          | some loaded =>
            simp only [hl, Prod.mk.injEq, Result.ok.injEq] at h
            obtain ⟨h1, h2⟩ := h
            subst h1
            have := Store.firstTimeEntryByID_of_append s2 s1.timeEntries { c with Tags := [] } loaded
              hc2 hc3 hl
            refine ⟨u, gen k, tags, s1.timeEntries, c, hc1, hc2, hc3, ?_⟩
            rw [← h2, this]

theorem TimeEntry.BeforeSave_ID (t : TimeEntry) : t.BeforeSave.ID = t.ID := by
  unfold TimeEntry.BeforeSave
  split
  · split_ifs <;> rfl
  · rfl

theorem TimeEntry.BeforeSave_DeletedAt (t : TimeEntry) : t.BeforeSave.DeletedAt = t.DeletedAt := by
  unfold TimeEntry.BeforeSave
  split
  · split_ifs <;> rfl
  · rfl

/-- What the statement `Save(&entry)` does when it succeeds. -/
theorem Store.saveTimeEntry_ok (s s2 : Store) (entry c : TimeEntry)
    (h : s.saveTimeEntry entry = (s2, .ok c)) :
    c = entry.BeforeSave ∧
    (∀ x ∈ s2.timeEntries, x.ID = c.ID → x.DeletedAt = none → x = { c with Tags := [] }) ∧
    ((∃ x ∈ s.timeEntries, x.ID = c.ID ∧ x.DeletedAt = none) →
      { c with Tags := [] } ∈ s2.timeEntries) := by
  unfold Store.saveTimeEntry at h
  simp only at h
  split_ifs at h with h1 h2
  · simp only [Prod.mk.injEq, Result.ok.injEq] at h
    obtain ⟨hs, hc⟩ := h
    subst hc
    refine ⟨rfl, ?_, ?_⟩
    · intro x hx hid hlive
      rw [← hs, Store.saveTags_timeEntries] at hx
      simp only [List.mem_map] at hx
      obtain ⟨y, _, hy⟩ := hx
      split_ifs at hy with hc
      · exact hy.symm
      · subst hy
        exfalso; apply hc
        simp [hid, hlive]
    · rintro ⟨x, hx, hid, hlive⟩
      rw [← hs, Store.saveTags_timeEntries]
      simp only [List.mem_map]
      exact ⟨x, hx, by simp [hid, hlive]⟩
  · simp at h
  · simp only [Prod.mk.injEq, Result.ok.injEq] at h
    obtain ⟨hs, hc⟩ := h
    subst hc
    refine ⟨rfl, ?_, ?_⟩
    · intro x hx hid hlive
      rw [← hs, Store.saveTags_timeEntries] at hx
      simp only [List.mem_append, List.mem_singleton] at hx
      rcases hx with hx | hx
      · exfalso; apply h2
        simp only [List.any_eq_true]
        exact ⟨x, hx, by simp [hid]⟩
      · exact hx
    · intro _
      rw [← hs, Store.saveTags_timeEntries]
      simp

/-- What `UpdateTimeEntry` stores when it succeeds. -/
theorem UpdateTimeEntry_ok (s s' : Store) (gen : Nat → UUID) (userID entryID : String)
    (req : TimeEntryRequest) (resp : TimeEntryResponse)
    (h : UpdateTimeEntry s gen userID entryID req = (s', .ok resp)) :
    ∃ (found : TimeEntry) (tags : List Tag) (c : TimeEntry),
      found ∈ s.timeEntries ∧ found.DeletedAt = none ∧
      c = (updatedTimeEntry found req tags).BeforeSave ∧
      (∀ x ∈ s'.timeEntries, x.ID = c.ID → x.DeletedAt = none → x = { c with Tags := [] }) ∧
      { c with Tags := [] } ∈ s'.timeEntries ∧
      resp = toTimeEntryResponse { c with Tags := s'.tagsOf c.ID } := by
  unfold UpdateTimeEntry at h
  cases hu : uuidParse userID with
  | err m => simp [hu] at h
  | panic p => simp [hu] at h
  | ok u =>
    cases hv : uuidParse entryID with
    | err m => simp [hu, hv] at h
    | panic p => simp [hu, hv] at h
    | ok v =>
      simp only [hu, hv] at h
      split_ifs at h with hb
      · simp at h
      · cases hf : s.firstTimeEntry v u with
        | none => simp [hf] at h
        | some found =>
          simp only [hf] at h
          obtain ⟨hmem, hprop⟩ := firstBy_filter_prop _ _ _ _ hf
          simp only [Bool.and_eq_true, beq_iff_eq, Option.isNone_iff_eq_none] at hprop
          rcases hp : processTags gen s req.Tags with ⟨s1, k, r⟩
          have hte := processTags_timeEntries gen s req.Tags
          rw [hp] at h hte
          simp only at hte
          cases r with
          | err m => simp at h
          | panic p => simp at h
          | ok tags =>
            simp only at h
            rcases hc : s1.saveTimeEntry (updatedTimeEntry found req tags) with ⟨s2, rc⟩
            rw [hc] at h
            cases rc with
            | err m => simp at h
            | panic p => simp at h
            | ok c =>
              simp only at h
              obtain ⟨hc1, hc2, hc3⟩ := Store.saveTimeEntry_ok _ _ _ _ hc
              have hcid : c.ID = found.ID := by rw [hc1, TimeEntry.BeforeSave_ID]; rfl
              have hcdel : c.DeletedAt = none := by
                rw [hc1, TimeEntry.BeforeSave_DeletedAt]; exact hprop.1.1
              cases hl : s2.firstTimeEntryByID c.ID with
              | none => simp [hl] at h
              | some loaded =>
                simp only [hl, Prod.mk.injEq, Result.ok.injEq] at h
                obtain ⟨h1, h2⟩ := h
                subst h1
                have hrow := hc3 ⟨found, by rw [hte]; exact hmem, hcid.symm, hprop.1.1⟩
                refine ⟨found, tags, c, hmem, hprop.1.1, hc1, hc2, hrow, ?_⟩
                rw [← h2]
                unfold Store.firstTimeEntryByID at hl
                simp only [Option.map_eq_some'] at hl
                obtain ⟨e, he, hle⟩ := hl
                obtain ⟨hemem, hep⟩ := firstBy_filter_prop _ _ _ _ he
                simp only [Bool.and_eq_true, beq_iff_eq, Option.isNone_iff_eq_none] at hep
                have := hc2 e hemem hep.2 hep.1
                subst this
                rw [← hle]

theorem newTimeEntry_BeforeSave (u : UUID) (req : TimeEntryRequest) (tags : List Tag) (e : Time)
    (he : req.EndTime = some e) (hlt : req.StartTime.Before e = true) :
    (newTimeEntry u req tags).BeforeSave =
      { newTimeEntry u req tags with
        Duration := some (Duration.secondsInt (e.Sub req.StartTime)) } :=
  BeforeSave_of_before _ e he hlt

theorem updatedTimeEntry_BeforeSave (found : TimeEntry) (req : TimeEntryRequest) (tags : List Tag)
    (e : Time) (he : req.EndTime = some e) (hlt : req.StartTime.Before e = true) :
    (updatedTimeEntry found req tags).BeforeSave =
      { updatedTimeEntry found req tags with
        Duration := some (Duration.secondsInt (e.Sub req.StartTime)) } :=
  BeforeSave_of_before _ e he hlt

/-! ## Tokens: issuing, validating, refreshing -/

theorem ParseWithClaims_signed (lib : Lib) (cfg : Config) (now : Time) (claims : TokenClaims) :
    ParseWithClaims lib cfg now (signedToken lib "HS256" claims cfg.JWT.Secret) =
      if expiredAt now claims.Registered || notValidYetAt now claims.Registered then
        (some { Method := "HS256", Claims := claims,
                Signature := hmac lib "HS256" (utf8Bytes cfg.JWT.Secret) (lib.signingString "HS256" claims),
                Valid := false },
         some (.invalidClaims (expiredAt now claims.Registered) (notValidYetAt now claims.Registered)))
      else
        (some { Method := "HS256", Claims := claims,
                Signature := hmac lib "HS256" (utf8Bytes cfg.JWT.Secret) (lib.signingString "HS256" claims),
                Valid := true }, none) := by
  have h1 : ¬ ("HS256" ∉ registeredMethods) := by decide
  have h2 : keyFunc cfg "HS256" = .ok cfg.JWT.Secret := by
    unfold keyFunc; rw [if_pos (by decide)]
  simp only [ParseWithClaims, signedToken, h1, if_false, h2, ne_eq, not_true_eq_false]

theorem GenerateTokenPair_eq (lib : Lib) (cfg : Config) (clk : Nat → Time) (userID email : String) :
    GenerateTokenPair lib cfg clk userID email =
      .ok { AccessToken := signedToken lib "HS256"
              (tokenClaims userID email "access" cfg.JWT.ExpireHours (clk 0) (clk 1) (clk 2))
              cfg.JWT.Secret,
            RefreshToken := signedToken lib "HS256"
              (tokenClaims userID email "refresh" cfg.JWT.RefreshExpireHours (clk 3) (clk 4) (clk 5))
              cfg.JWT.Secret,
            ExpiresIn := wrapInt64 (cfg.JWT.ExpireHours * 3600) } := rfl

theorem ValidateToken_signed (lib : Lib) (cfg : Config) (now : Time) (claims : TokenClaims) :
    ValidateToken lib cfg now (signedToken lib "HS256" claims cfg.JWT.Secret) =
      if expiredAt now claims.Registered || notValidYetAt now claims.Registered then
        .err ("invalid token: " ++ (JwtError.invalidClaims (expiredAt now claims.Registered)
          (notValidYetAt now claims.Registered)).Error)
      else if claims.Registered.Subject ≠ "access" then .err "invalid token type"
      else .ok claims := by
  unfold ValidateToken
  rw [ParseWithClaims_signed]
  split_ifs <;> simp_all

theorem RefreshToken_signed (lib : Lib) (cfg : Config) (now : Time) (clk : Nat → Time)
    (claims : TokenClaims) :
    RefreshToken lib cfg now clk (signedToken lib "HS256" claims cfg.JWT.Secret) =
      if expiredAt now claims.Registered || notValidYetAt now claims.Registered then
        .err ("invalid refresh token: " ++ (JwtError.invalidClaims (expiredAt now claims.Registered)
          (notValidYetAt now claims.Registered)).Error)
      else if claims.Registered.Subject ≠ "refresh" then .err "invalid token type"
      else GenerateTokenPair lib cfg clk claims.UserID claims.Email := by
  unfold RefreshToken
  rw [ParseWithClaims_signed]
  split_ifs <;> simp_all

/-- C4.  For every user id, email, configuration and clock, `GenerateTokenPair`
returns a pair; `ValidateToken` rejects the refresh token of the pair and
`RefreshToken` rejects its access token, at every time.  While the token is
within its validity period the error is "invalid token type". -/
theorem C4_token_types_not_interchangeable (lib : Lib) (cfg : Config) (clk : Nat → Time)
    (userID email : String) :
    ∃ pair : TokenPair, GenerateTokenPair lib cfg clk userID email = .ok pair ∧
      (∀ now : Time, (ValidateToken lib cfg now pair.RefreshToken).isOk = false) ∧
      (∀ (now : Time) (clk2 : Nat → Time),
        (RefreshToken lib cfg now clk2 pair.AccessToken).isOk = false) ∧
      (∀ now : Time,
        expiredAt now (tokenClaims userID email "refresh" cfg.JWT.RefreshExpireHours
          (clk 3) (clk 4) (clk 5)).Registered = false →
        notValidYetAt now (tokenClaims userID email "refresh" cfg.JWT.RefreshExpireHours
          (clk 3) (clk 4) (clk 5)).Registered = false →
        ValidateToken lib cfg now pair.RefreshToken = .err "invalid token type") ∧
      (∀ (now : Time) (clk2 : Nat → Time),
        expiredAt now (tokenClaims userID email "access" cfg.JWT.ExpireHours
          (clk 0) (clk 1) (clk 2)).Registered = false →
        notValidYetAt now (tokenClaims userID email "access" cfg.JWT.ExpireHours
          (clk 0) (clk 1) (clk 2)).Registered = false →
        RefreshToken lib cfg now clk2 pair.AccessToken = .err "invalid token type") := by
  refine ⟨_, GenerateTokenPair_eq lib cfg clk userID email, ?_, ?_, ?_, ?_⟩
  · intro now
    simp only [ValidateToken_signed]
    split_ifs with h1 h2
    · rfl
    · rfl
    · exact absurd (show (tokenClaims userID email "refresh" cfg.JWT.RefreshExpireHours
        (clk 3) (clk 4) (clk 5)).Registered.Subject ≠ "access" by
          show "refresh" ≠ "access"; decide) h2
  · intro now clk2
    simp only [RefreshToken_signed]
    split_ifs with h1 h2
    · rfl
    · rfl
    · exact absurd (show (tokenClaims userID email "access" cfg.JWT.ExpireHours
        (clk 0) (clk 1) (clk 2)).Registered.Subject ≠ "refresh" by
          show "access" ≠ "refresh"; decide) h2
  · intro now h1 h2
    simp only [ValidateToken_signed, h1, h2]
    rfl
  · intro now clk2 h1 h2
    simp only [RefreshToken_signed, h1, h2]
    rfl

/-- C4, witness: the pair issued at 10:00 with the test configuration, checked
at 10:30. -/
theorem C4_token_types_not_interchangeable_witness :
    ∃ pair : TokenPair, GenerateTokenPair sampleLib testConfig clockTen userA "test@example.com" = .ok pair ∧
      ValidateToken sampleLib testConfig halfPastTen pair.RefreshToken = .err "invalid token type" ∧
      RefreshToken sampleLib testConfig halfPastTen clockTen pair.AccessToken = .err "invalid token type" :=
  match C4_token_types_not_interchangeable sampleLib testConfig clockTen userA "test@example.com" with
  | ⟨pair, h, _, _, h3, h4⟩ =>
    ⟨pair, h, h3 halfPastTen (by decide) (by decide), h4 halfPastTen clockTen (by decide) (by decide)⟩

/-! ## Tokens: expiry -/

theorem expiredAt_of_le (now : Time) (c : RegisteredClaims) (exp : Int) (h : c.ExpiresAt = some exp)
    (hx : exp * 1000000000 ≤ now.ns) : expiredAt now c = true := by
  have : ¬ (now.Before ⟨exp * 1000000000⟩ = true) := by
    rw [Time.Before_iff]; simp only; omega
  simp [expiredAt, h, this]

/-- The error of the parser for a decoded token whose `exp` is not after `now`. -/
theorem ParseWithClaims_expired (lib : Lib) (cfg : Config) (now : Time) (alg : String)
    (claims : TokenClaims) (signature : List Nat) (exp : Int)
    (h : claims.Registered.ExpiresAt = some exp) (hx : exp * 1000000000 ≤ now.ns) :
    ∃ e, (ParseWithClaims lib cfg now (.jwt alg claims signature)).2 = some e ∧
      (alg ∈ hmacMethods →
        signature = hmac lib alg (utf8Bytes cfg.JWT.Secret) (lib.signingString alg claims) →
        e = .invalidClaims true (notValidYetAt now claims.Registered)) := by
  have hexp := expiredAt_of_le now claims.Registered exp h hx
  have hsub : alg ∈ hmacMethods → alg ∈ registeredMethods := by
    intro hm
    simp only [hmacMethods, List.mem_cons, List.mem_singleton, List.not_mem_nil, or_false] at hm
    rcases hm with rfl | rfl | rfl <;> decide
  unfold ParseWithClaims
  simp only
  by_cases h1 : alg ∈ registeredMethods
  · rw [if_neg (not_not.2 h1)]
    by_cases h2 : alg ∈ hmacMethods
    · have hk : keyFunc cfg alg = .ok cfg.JWT.Secret := by unfold keyFunc; rw [if_pos h2]
      rw [hk]
      simp only
      by_cases h3 : signature = hmac lib alg (utf8Bytes cfg.JWT.Secret) (lib.signingString alg claims)
      · rw [if_neg (not_not.2 h3)]
        simp only [hexp, Bool.true_or, if_true]
        exact ⟨_, rfl, fun _ _ => rfl⟩
      · rw [if_pos h3]
        exact ⟨_, rfl, fun _ hs => absurd hs h3⟩
    · have hk : keyFunc cfg alg = .err ("unexpected signing method: " ++ alg) := by
        unfold keyFunc; rw [if_neg h2]
      rw [hk]
      exact ⟨_, rfl, fun hm => absurd hm h2⟩
  · rw [if_pos h1]
    exact ⟨_, rfl, fun hm => absurd (hsub hm) h1⟩

/-- C5 (as amended).  For every decoded token whose `exp` claim is not after the
current time, `ValidateToken` and `RefreshToken` both return an error, whatever
the algorithm, the signature and the subject.  The parser reports "token is
expired" when the token has a method of the HMAC family and a valid
signature; the signature is verified before the claims, so otherwise the
error is that of the key function or of the signature. -/
theorem C5_expired_token_rejected (lib : Lib) (cfg : Config) (now : Time) (clk : Nat → Time)
    (alg : String) (claims : TokenClaims) (signature : List Nat) (exp : Int)
    (h : claims.Registered.ExpiresAt = some exp) (hx : exp * 1000000000 ≤ now.ns) :
    (ValidateToken lib cfg now (.jwt alg claims signature)).isOk = false ∧
    (RefreshToken lib cfg now clk (.jwt alg claims signature)).isOk = false ∧
    (alg ∈ hmacMethods →
      signature = hmac lib alg (utf8Bytes cfg.JWT.Secret) (lib.signingString alg claims) →
      ∃ e, (ParseWithClaims lib cfg now (.jwt alg claims signature)).2 = some e ∧
        e.isExpired = true) := by
  obtain ⟨e, he, hv⟩ := ParseWithClaims_expired lib cfg now alg claims signature exp h hx
  refine ⟨?_, ?_, ?_⟩
  · unfold ValidateToken
    rcases hp : ParseWithClaims lib cfg now (.jwt alg claims signature) with ⟨t, r⟩
    rw [hp] at he
    simp only at he
    subst he
    cases t <;> rfl
  · unfold RefreshToken
    rcases hp : ParseWithClaims lib cfg now (.jwt alg claims signature) with ⟨t, r⟩
    rw [hp] at he
    simp only at he
    subst he
    cases t <;> rfl
  · intro hm hs
    exact ⟨e, he, by rw [hv hm hs]; rfl⟩

/-- C5, witness: the expired token of the test, validly signed, parsed at 10:00. -/
theorem C5_expired_token_rejected_witness :
    expiredClaims.Registered.ExpiresAt = some (NewNumericDate (Time.Date 2024 1 1 9 0 0 0)) ∧
    NewNumericDate (Time.Date 2024 1 1 9 0 0 0) * 1000000000 ≤ (clockTen 0).ns ∧
    (ValidateToken sampleLib testConfig (clockTen 0)
      (signedToken sampleLib "HS256" expiredClaims testConfig.JWT.Secret)).isOk = false ∧
    (RefreshToken sampleLib testConfig (clockTen 0) clockTen
      (signedToken sampleLib "HS256" expiredClaims testConfig.JWT.Secret)).isOk = false ∧
    ∃ e, (ParseWithClaims sampleLib testConfig (clockTen 0)
        (signedToken sampleLib "HS256" expiredClaims testConfig.JWT.Secret)).2 = some e ∧
      e.isExpired = true :=
  have h := C5_expired_token_rejected sampleLib testConfig (clockTen 0) clockTen "HS256"
    expiredClaims (hmac sampleLib "HS256" (utf8Bytes testConfig.JWT.Secret)
      (sampleLib.signingString "HS256" expiredClaims))
    (NewNumericDate (Time.Date 2024 1 1 9 0 0 0)) rfl (by decide)
  ⟨rfl, by decide, h.1, h.2.1, h.2.2 (by decide) rfl⟩

/-- C5, counterexample to the claim as stated: the expired claims of the test
in a token with an empty signature, and in a token with the method "none".
The parser fails with "token signature is invalid" and "token is
unverifiable", not with "token is expired". -/
theorem C5_counterexample :
    expiredClaims.Registered.ExpiresAt = some (NewNumericDate (Time.Date 2024 1 1 9 0 0 0)) ∧
    NewNumericDate (Time.Date 2024 1 1 9 0 0 0) * 1000000000 < (clockTen 0).ns ∧
    (ParseWithClaims sampleLib testConfig (clockTen 0) (.jwt "HS256" expiredClaims [])).2 =
      some .signatureInvalid ∧
    JwtError.signatureInvalid.isExpired = false ∧
    (ParseWithClaims sampleLib testConfig (clockTen 0) (.jwt "none" expiredClaims [])).2 =
      some (.unverifiable "error while executing keyfunc: unexpected signing method: none") ∧
    (JwtError.unverifiable "error while executing keyfunc: unexpected signing method: none").isExpired
      = false ∧
    ValidateToken sampleLib testConfig (clockTen 0) (.jwt "HS256" expiredClaims []) =
      .err "invalid token: token signature is invalid: signature is invalid" := by
  refine ⟨rfl, by decide, by decide, rfl, by decide, rfl, by decide⟩

/-! ## Tokens: the claims survive signing, encoding, decoding and parsing -/

theorem base64URLValue_char (v : Nat) (h : v < 64) : base64URLValue (base64URLChar v) = some v := by
  unfold base64URLChar base64URLValue
  split_ifs <;> (congr 1; omega)

/-- Decoding undoes encoding of a list of bytes. -/
theorem base64URLDecode_encode : ∀ bs : List Nat, (∀ b ∈ bs, b < 256) →
    base64URLDecode (base64URLEncode bs) = some bs
  | [], _ => rfl
  | [b0], h => by
    have h0 : b0 < 256 := h b0 (by simp)
    simp only [base64URLEncode, base64URLDecode]
    rw [base64URLValue_char _ (by omega), base64URLValue_char _ (by omega)]
    simp only [Option.some.injEq, List.cons.injEq, and_true]
    omega
  | [b0, b1], h => by
    have h0 : b0 < 256 := h b0 (by simp)
    have h1 : b1 < 256 := h b1 (by simp)
    simp only [base64URLEncode, base64URLDecode]
    rw [base64URLValue_char _ (by omega), base64URLValue_char _ (by omega),
      base64URLValue_char _ (by omega)]
    simp only [Option.some.injEq, List.cons.injEq, and_true]
    omega
  | b0 :: b1 :: b2 :: rest, h => by
    have h0 : b0 < 256 := h b0 (by simp)
    have h1 : b1 < 256 := h b1 (by simp)
    have h2 : b2 < 256 := h b2 (by simp)
    have ih := base64URLDecode_encode rest (fun b hb => h b (by simp [hb]))
    simp only [base64URLEncode, base64URLDecode]
    rw [base64URLValue_char _ (by omega), base64URLValue_char _ (by omega),
      base64URLValue_char _ (by omega), base64URLValue_char _ (by omega), ih]
    simp only [Option.some.injEq, List.cons.injEq, and_true]
    omega

theorem base64URLChar_digit (v : Nat) : base64URLChar v ≠ 46 ∧ base64URLChar v < 128 := by
  unfold base64URLChar
  split_ifs <;> omega

/-- The digits of an encoding are ASCII characters other than the dot. -/
theorem base64URLEncode_digits : ∀ (bs : List Nat), ∀ c ∈ base64URLEncode bs, c ≠ 46 ∧ c < 128
  | [], c, hc => by simp [base64URLEncode] at hc
  | [b0], c, hc => by
    simp only [base64URLEncode, List.mem_cons, List.mem_singleton, List.not_mem_nil,
      or_false] at hc
    rcases hc with rfl | rfl <;> exact base64URLChar_digit _
  | [b0, b1], c, hc => by
    simp only [base64URLEncode, List.mem_cons, List.mem_singleton, List.not_mem_nil,
      or_false] at hc
    rcases hc with rfl | rfl | rfl <;> exact base64URLChar_digit _
  | b0 :: b1 :: b2 :: rest, c, hc => by
    simp only [base64URLEncode, List.mem_cons] at hc
    rcases hc with rfl | rfl | rfl | rfl | hc
    · exact base64URLChar_digit _
    · exact base64URLChar_digit _
    · exact base64URLChar_digit _
    · exact base64URLChar_digit _
    · exact base64URLEncode_digits rest c hc

theorem splitDots_noDot : ∀ (a : List Nat), (∀ c ∈ a, c ≠ 46) → splitDots a = [a]
  | [], _ => rfl
  | b :: rest, h => by
    have hb : b ≠ 46 := h b (by simp)
    have ih := splitDots_noDot rest (fun c hc => h c (by simp [hc]))
    simp only [splitDots, if_neg hb, ih]

theorem splitDots_append : ∀ (a rest : List Nat), (∀ c ∈ a, c ≠ 46) →
    splitDots (a ++ 46 :: rest) = a :: splitDots rest
  | [], rest, _ => by simp [splitDots]
  | b :: t, rest, h => by
    have hb : b ≠ 46 := h b (by simp)
    have ih := splitDots_append t rest (fun c hc => h c (by simp [hc]))
    simp only [List.cons_append, splitDots, if_neg hb]
    rw [show t.append (46 :: rest) = t ++ 46 :: rest from rfl, ih]

/-- Three segments without dots are what `strings.Split` finds. -/
theorem splitDots_three (a b c : List Nat) (ha : ∀ x ∈ a, x ≠ 46) (hb : ∀ x ∈ b, x ≠ 46)
    (hc : ∀ x ∈ c, x ≠ 46) : splitDots (a ++ 46 :: (b ++ 46 :: c)) = [a, b, c] := by
  rw [splitDots_append a _ ha, splitDots_append b _ hb, splitDots_noDot c hc]

/-- The code of the character with a valid code. -/
theorem charOfNat_toNat (n : Nat) (h : n.isValidChar) : (Char.ofNat n).toNat = n := by
  rw [Char.ofNat, dif_pos h]
  rfl

/-- The bytes of a text of ASCII characters are their codes. -/
theorem utf8Bytes_ascii : ∀ (l : List Nat), (∀ c ∈ l, c < 128) →
    utf8Bytes (String.mk (l.map Char.ofNat)) = l
  | [], _ => rfl
  | b :: rest, h => by
    have hb : b < 128 := h b (by simp)
    have ih := utf8Bytes_ascii rest (fun c hc => h c (by simp [hc]))
    unfold utf8Bytes at ih ⊢
    simp only [String.toList, List.map_cons, List.flatMap_cons] at ih ⊢
    rw [ih]
    have hv : (Char.ofNat b).toNat = b := charOfNat_toNat b (Or.inl (by omega))
    simp [utf8EncodeChar, hv, hb]

theorem hexVal_hexDigitByte (x : Nat) (h : x < 16) : hexVal (hexDigitByte x) = some x := by
  unfold hexVal hexDigitByte
  split_ifs <;> (congr 1; omega)

theorem char_valid_toNat (c : Char) : c.toNat < 55296 ∨ (57343 < c.toNat ∧ c.toNat < 1114112) :=
  c.valid

/-- One step of the string parser reads back the bytes written for one
character. -/
theorem jsonStringStep_escape (c : Char) (tail : List Nat) :
    jsonStringStep (jsonEscapeChar c ++ tail) = some (some c, tail) := by
  have hc : Char.ofNat c.toNat = c := Char.ofNat_toNat c
  have hv := char_valid_toNat c
  unfold jsonEscapeChar utf8EncodeChar
  simp only
  generalize c.toNat = n at hc hv ⊢
  subst hc
  by_cases h1 : n = 34 ∨ n = 92
  · rw [if_pos h1]
    rcases h1 with rfl | rfl <;> rfl
  rw [if_neg h1]
  by_cases h2 : n = 8
  · subst h2; rfl
  rw [if_neg h2]
  by_cases h3 : n = 12
  · subst h3; rfl
  rw [if_neg h3]
  by_cases h4 : n = 10
  · subst h4; rfl
  rw [if_neg h4]
  by_cases h5 : n = 13
  · subst h5; rfl
  rw [if_neg h5]
  by_cases h6 : n = 9
  · subst h6; rfl
  rw [if_neg h6]
  by_cases h7 : n < 32 ∨ n = 60 ∨ n = 62 ∨ n = 38
  · rw [if_pos h7]
    have hn : n < 64 := by omega
    simp only [List.cons_append, List.nil_append, jsonStringStep, jsonEscapeStep,
      jsonUnicodeEscape]
    rw [hexVal_hexDigitByte _ (by omega), hexVal_hexDigitByte _ (by omega)]
    have h48 : hexVal 48 = some 0 := by decide
    simp only [h48]
    have e : ((0 * 16 + 0) * 16 + n / 16) * 16 + n % 16 = n := by omega
    rw [e]
    simp
    omega
  rw [if_neg h7]
  by_cases h8 : n = 8232
  · subst h8; rfl
  rw [if_neg h8]
  by_cases h9 : n = 8233
  · subst h9; rfl
  rw [if_neg h9]
  by_cases h10 : n < 128
  · rw [if_pos h10]
    simp only [List.cons_append, List.nil_append, jsonStringStep]
    rw [if_neg (by omega), if_neg (by omega), if_neg (by omega), if_pos h10]
  rw [if_neg h10]
  by_cases h11 : n < 2048
  · rw [if_pos h11]
    simp only [List.cons_append, List.nil_append, jsonStringStep, utf8Step]
    rw [if_neg (by omega), if_neg (by omega), if_neg (by omega), if_neg (by omega),
      if_pos (by omega), if_pos (by omega)]
    have e : (192 + n / 64 - 192) * 64 + (128 + n % 64 - 128) = n := by omega
    rw [e]
    rfl
  rw [if_neg h11]
  by_cases h12 : n < 65536
  · rw [if_pos h12]
    simp only [List.cons_append, List.nil_append, jsonStringStep, utf8Step]
    have e : (224 + n / 4096 - 224) * 4096 + (128 + n / 64 % 64 - 128) * 64 +
        (128 + n % 64 - 128) = n := by omega
    rw [if_neg (by omega), if_neg (by omega), if_neg (by omega), if_neg (by omega),
      if_neg (by omega), if_pos (by omega), e, if_pos (by omega)]
    rfl
  · rw [if_neg h12]
    simp only [List.cons_append, List.nil_append, jsonStringStep, utf8Step]
    have e : (240 + n / 262144 - 240) * 262144 + (128 + n / 4096 % 64 - 128) * 4096 +
        (128 + n / 64 % 64 - 128) * 64 + (128 + n % 64 - 128) = n := by omega
    rw [if_neg (by omega), if_neg (by omega), if_neg (by omega), if_neg (by omega),
      if_neg (by omega), if_neg (by omega), if_pos (by omega), e, if_pos (by omega)]
    rfl

theorem jsonEscapeChar_length (c : Char) : 1 ≤ (jsonEscapeChar c).length := by
  rcases h : jsonEscapeChar c with _ | ⟨b, t⟩
  · have := jsonStringStep_escape c []
    rw [h] at this
    simp [jsonStringStep] at this
  · simp

theorem flatMap_jsonEscapeChar_length : ∀ cs : List Char,
    cs.length ≤ (cs.flatMap jsonEscapeChar).length
  | [] => by simp
  | c :: cs => by
    have := jsonEscapeChar_length c
    have := flatMap_jsonEscapeChar_length cs
    simp only [List.flatMap_cons, List.length_append, List.length_cons]
    omega

theorem parseJsonStringAux_escaped : ∀ (cs : List Char) (fuel : Nat) (rest : List Nat),
    cs.length < fuel →
    parseJsonStringAux fuel (cs.flatMap jsonEscapeChar ++ 34 :: rest) = some (cs, rest)
  | [], fuel, rest, h => by
    obtain ⟨f, rfl⟩ : ∃ f, fuel = f + 1 := ⟨fuel - 1, by simp at h; omega⟩
    rfl
  | c :: cs, fuel, rest, h => by
    obtain ⟨f, rfl⟩ : ∃ f, fuel = f + 1 := ⟨fuel - 1, by omega⟩
    have ih := parseJsonStringAux_escaped cs f rest (by simp at h; omega)
    simp only [List.flatMap_cons, List.append_assoc, parseJsonStringAux]
    rw [jsonStringStep_escape c]
    simp only [ih, consChar, Option.map_some']

/-- The string parser reads the characters of an escaped string up to the
closing quote. -/
theorem parseJsonString_escaped (cs : List Char) (rest : List Nat) :
    parseJsonString (cs.flatMap jsonEscapeChar ++ 34 :: rest) = some (cs, rest) := by
  unfold parseJsonString
  apply parseJsonStringAux_escaped
  have := flatMap_jsonEscapeChar_length cs
  simp only [List.length_append, List.length_cons]
  omega

theorem jsonQuote_append (s : String) (rest : List Nat) :
    jsonQuote s ++ rest = 34 :: (s.toList.flatMap jsonEscapeChar ++ 34 :: rest) := by
  simp [jsonQuote]

/-- Reading a digit continues with the rest. -/
theorem parseDigits_cons_digit (d : Nat) (rest : List Nat) (acc k : Nat) (hd : d < 10) :
    parseDigits ((48 + d) :: rest) acc k = parseDigits rest (acc * 10 + d) (k + 1) := by
  rw [parseDigits, if_pos (by omega)]
  congr 2
  omega

/-- Reading the digits written for a number `n`: the value read so far is
shifted and `n` is added. -/
theorem parseDigits_formatNatAux : ∀ (fuel n : Nat), n < fuel → ∀ (rest : List Nat) (acc k : Nat),
    ∃ len, 1 ≤ len ∧ parseDigits (formatNatAux fuel n ++ rest) acc k =
      parseDigits rest (acc * 10 ^ len + n) (k + len) := by
  intro fuel
  induction fuel with
  | zero => intro n h; omega
  | succ f ih =>
    intro n h rest acc k
    simp only [formatNatAux]
    by_cases h10 : n < 10
    · rw [if_pos h10]
      refine ⟨1, le_refl 1, ?_⟩
      simp only [List.cons_append, List.nil_append, pow_one]
      exact parseDigits_cons_digit n rest acc k h10
    · rw [if_neg h10]
      obtain ⟨len, hlen, heq⟩ := ih (n / 10) (by omega) ((48 + n % 10) :: rest) acc k
      refine ⟨len + 1, by omega, ?_⟩
      rw [List.append_assoc]
      simp only [List.cons_append, List.nil_append]
      rw [heq, parseDigits_cons_digit _ _ _ _ (by omega)]
      congr 1
      rw [pow_succ]
      have : (acc * 10 ^ len + n / 10) * 10 + n % 10 = acc * (10 ^ len * 10) + n := by
        rw [Nat.add_mul, Nat.mul_assoc]
        omega
      exact this

theorem parseDigits_stop (rest : List Nat) (acc k : Nat)
    (h : ∀ b r, rest = b :: r → ¬ (48 ≤ b ∧ b ≤ 57)) : parseDigits rest acc k = (acc, k, rest) := by
  cases rest with
  | nil => rfl
  | cons b r => rw [parseDigits, if_neg (h b r rfl)]

/-- Reading the digits written for a number, up to a byte that is no digit. -/
theorem parseDigits_format (n : Nat) (rest : List Nat)
    (h : ∀ b r, rest = b :: r → ¬ (48 ≤ b ∧ b ≤ 57)) :
    ∃ len, 1 ≤ len ∧ parseDigits (formatNatAux (n + 1) n ++ rest) 0 0 = (n, len, rest) := by
  obtain ⟨len, hlen, heq⟩ := parseDigits_formatNatAux (n + 1) n (by omega) rest 0 0
  refine ⟨len, hlen, ?_⟩
  rw [heq, parseDigits_stop rest _ _ h]
  simp

theorem formatNatAux_head (fuel n : Nat) (h : n < fuel) :
    ∃ d t, formatNatAux fuel n = (48 + d) :: t ∧ d < 10 := by
  induction fuel generalizing n with
  | zero => omega
  | succ f ih =>
    simp only [formatNatAux]
    by_cases h10 : n < 10
    · rw [if_pos h10]
      exact ⟨n, [], rfl, h10⟩
    · rw [if_neg h10]
      obtain ⟨d, t, ht, hd⟩ := ih (n / 10) (by omega)
      rw [ht]
      exact ⟨d, t ++ [48 + n % 10], rfl, hd⟩

/-- The number parser reads back a number of the exact range of float64. -/
theorem parseJsonInt_format (n : Int) (rest : List Nat)
    (hlo : -9007199254740992 ≤ n) (hhi : n ≤ 9007199254740992)
    (h : ∀ b r, rest = b :: r → ¬ (48 ≤ b ∧ b ≤ 57)) :
    parseJsonInt (formatInt n ++ rest) = some (n, rest) := by
  unfold formatInt
  by_cases hneg : n < 0
  · rw [if_pos hneg]
    obtain ⟨len, hlen, heq⟩ := parseDigits_format n.natAbs rest h
    simp only [List.cons_append, parseJsonInt, if_true, heq]
    rw [if_neg (by omega)]
    congr 2
    omega
  · rw [if_neg hneg]
    obtain ⟨len, hlen, heq⟩ := parseDigits_format n.toNat rest h
    obtain ⟨d, t, ht, hd⟩ := formatNatAux_head (n.toNat + 1) n.toNat (by omega)
    have hfull : formatNatAux (n.toNat + 1) n.toNat ++ rest = (48 + d) :: (t ++ rest) := by
      rw [ht]; rfl
    rw [hfull] at heq ⊢
    simp only [parseJsonInt]
    rw [if_neg (by omega), heq, if_neg (by simp only; omega)]
    congr 2
    simp only
    omega

theorem jsonQuote_length (s : String) : 2 ≤ (jsonQuote s).length := by
  simp [jsonQuote]

theorem jsonStringsTail_length : ∀ l : List String, l.length < (jsonStringsTail l).length
  | [] => by simp [jsonStringsTail]
  | [s] => by
    have := jsonQuote_length s
    simp only [jsonStringsTail, List.length_append, List.length_cons, List.length_nil]
    omega
  | s :: t :: u => by
    have := jsonQuote_length s
    have := jsonStringsTail_length (t :: u)
    simp only [jsonStringsTail, List.length_append, List.length_cons] at this ⊢
    omega

/-- The list parser reads back a list of strings. -/
theorem parseJsonStrings_tail : ∀ (l : List String) (fuel : Nat) (rest : List Nat),
    l.length < fuel → parseJsonStrings fuel (jsonStringsTail l ++ rest) = some (l, rest)
  | [], fuel, rest, h => by
    obtain ⟨f, rfl⟩ : ∃ f, fuel = f + 1 := ⟨fuel - 1, by simp at h; omega⟩
    rfl
  | [s], fuel, rest, h => by
    obtain ⟨f, rfl⟩ : ∃ f, fuel = f + 1 := ⟨fuel - 1, by simp at h; omega⟩
    simp only [jsonStringsTail, List.append_assoc, List.singleton_append]
    rw [jsonQuote_append, parseJsonStrings]
    simp [parseJsonString_escaped]
  | s :: t :: u, fuel, rest, h => by
    obtain ⟨f, rfl⟩ : ∃ f, fuel = f + 1 := ⟨fuel - 1, by simp at h; omega⟩
    have ih := parseJsonStrings_tail (t :: u) f rest (by simp at h ⊢; omega)
    simp only [jsonStringsTail, List.append_assoc, List.cons_append] at ih ⊢
    rw [jsonQuote_append, parseJsonStrings]
    simp [parseJsonString_escaped, ih]

theorem formatInt_head (n : Int) : ∃ b t, formatInt n = b :: t ∧ (b = 45 ∨ (48 ≤ b ∧ b ≤ 57)) := by
  unfold formatInt
  split_ifs
  · exact ⟨45, _, rfl, Or.inl rfl⟩
  · obtain ⟨d, t, ht, hd⟩ := formatNatAux_head (n.toNat + 1) n.toNat (by omega)
    exact ⟨48 + d, t, ht, Or.inr (by omega)⟩

/-- The value parser reads back a value that is followed by a byte that is no
digit; a number must be of the exact range of float64. -/
theorem parseJsonValue_render (v : JsonValue) (rest : List Nat)
    (hv : ∀ n, v = .int n → -9007199254740992 ≤ n ∧ n ≤ 9007199254740992)
    (h : ∀ b r, rest = b :: r → ¬ (48 ≤ b ∧ b ≤ 57)) :
    parseJsonValue (v.render ++ rest) = some (v, rest) := by
  cases v with
  | str s =>
    simp only [JsonValue.render]
    rw [jsonQuote_append, parseJsonValue]
    simp [parseJsonString_escaped]
  | int n =>
    obtain ⟨hlo, hhi⟩ := hv n rfl
    obtain ⟨b, t, hb, hb2⟩ := formatInt_head n
    have hp := parseJsonInt_format n rest hlo hhi h
    simp only [JsonValue.render] at hp ⊢
    rw [hb] at hp ⊢
    simp only [List.cons_append] at hp ⊢
    rw [parseJsonValue, if_neg (by omega), if_neg (by omega), hp]
    rfl
  | strs l =>
    simp only [JsonValue.render, List.cons_append]
    rw [parseJsonValue, if_neg (by decide), if_pos rfl, parseJsonStrings_tail]
    · rfl
    · have := jsonStringsTail_length l
      simp only [List.length_append]
      omega

theorem JsonValue.render_length (v : JsonValue) : 1 ≤ v.render.length := by
  cases v with
  | str s => have := jsonQuote_length s; simp only [JsonValue.render]; omega
  | int n =>
    obtain ⟨b, t, hb, _⟩ := formatInt_head n
    simp [JsonValue.render, hb]
  | strs l => simp [JsonValue.render]

theorem jsonMembersTail_length : ∀ ms : List (String × JsonValue),
    ms.length < (jsonMembersTail ms).length
  | [] => by simp [jsonMembersTail]
  | [m] => by
    have := jsonQuote_length m.1
    simp only [jsonMembersTail, List.length_append, List.length_cons, List.length_nil]
    omega
  | m :: t :: u => by
    have := jsonQuote_length m.1
    have := jsonMembersTail_length (t :: u)
    simp only [jsonMembersTail, List.length_append, List.length_cons] at this ⊢
    omega

/-- The member parser reads back the members of an object. -/
theorem parseJsonMembers_tail : ∀ (ms : List (String × JsonValue)) (fuel : Nat) (rest : List Nat),
    ms.length < fuel →
    (∀ m ∈ ms, ∀ n, m.2 = .int n → -9007199254740992 ≤ n ∧ n ≤ 9007199254740992) →
    parseJsonMembers fuel (jsonMembersTail ms ++ rest) = some (ms, rest)
  | [], fuel, rest, h, _ => by
    obtain ⟨f, rfl⟩ : ∃ f, fuel = f + 1 := ⟨fuel - 1, by simp at h; omega⟩
    rfl
  | [m], fuel, rest, h, hv => by
    obtain ⟨f, rfl⟩ : ∃ f, fuel = f + 1 := ⟨fuel - 1, by simp at h; omega⟩
    have hval := parseJsonValue_render m.2 (125 :: rest) (hv m (by simp))
      (by intro b r hbr; cases hbr; omega)
    simp only [jsonMembersTail, List.append_assoc, List.cons_append, List.singleton_append,
      List.nil_append] at hval ⊢
    rw [jsonQuote_append, parseJsonMembers]
    simp [parseJsonString_escaped, hval]
  | m :: t :: u, fuel, rest, h, hv => by
    obtain ⟨f, rfl⟩ : ∃ f, fuel = f + 1 := ⟨fuel - 1, by simp at h; omega⟩
    have ih := parseJsonMembers_tail (t :: u) f rest (by simp at h ⊢; omega)
      (fun x hx => hv x (by simp only [List.mem_cons] at hx ⊢; right; exact hx))
    have hval := parseJsonValue_render m.2 (44 :: (jsonMembersTail (t :: u) ++ rest))
      (hv m (by simp)) (by intro b r hbr; cases hbr; omega)
    simp only [jsonMembersTail, List.append_assoc, List.cons_append] at ih hval ⊢
    rw [jsonQuote_append, parseJsonMembers]
    simp [parseJsonString_escaped, hval, ih]

/-- The object parser reads back an object. -/
theorem parseJsonObject_jsonObject (ms : List (String × JsonValue))
    (hv : ∀ m ∈ ms, ∀ n, m.2 = .int n → -9007199254740992 ≤ n ∧ n ≤ 9007199254740992) :
    parseJsonObject (jsonObject ms) = some ms := by
  unfold jsonObject parseJsonObject
  simp only
  have h := parseJsonMembers_tail ms ((jsonMembersTail ms).length + 1) []
    (by have := jsonMembersTail_length ms; omega) hv
  rw [List.append_nil] at h
  rw [if_pos trivial, h]

theorem utf8EncodeChar_lt (c : Char) : ∀ b ∈ utf8EncodeChar c, b < 256 := by
  have hc := char_valid_toNat c
  intro b hb
  unfold utf8EncodeChar at hb
  simp only at hb
  by_cases h1 : c.toNat < 128
  · rw [if_pos h1] at hb
    simp only [List.mem_singleton] at hb
    omega
  · rw [if_neg h1] at hb
    by_cases h2 : c.toNat < 2048
    · rw [if_pos h2] at hb
      simp only [List.mem_cons, List.mem_singleton, List.not_mem_nil, or_false] at hb
      omega
    · rw [if_neg h2] at hb
      by_cases h3 : c.toNat < 65536
      · rw [if_pos h3] at hb
        simp only [List.mem_cons, List.mem_singleton, List.not_mem_nil, or_false] at hb
        omega
      · rw [if_neg h3] at hb
        simp only [List.mem_cons, List.mem_singleton, List.not_mem_nil, or_false] at hb
        omega

theorem hexDigitByte_lt (n : Nat) (h : n < 16) : hexDigitByte n < 256 := by
  unfold hexDigitByte
  by_cases h1 : n < 10
  · rw [if_pos h1]; omega
  · rw [if_neg h1]; omega

theorem jsonEscapeChar_lt (c : Char) : ∀ b ∈ jsonEscapeChar c, b < 256 := by
  intro b hb
  unfold jsonEscapeChar at hb
  simp only at hb
  by_cases h1 : c.toNat = 34 ∨ c.toNat = 92
  · rw [if_pos h1] at hb
    simp only [List.mem_cons, List.mem_singleton, List.not_mem_nil, or_false] at hb
    omega
  rw [if_neg h1] at hb
  by_cases h2 : c.toNat = 8
  · rw [if_pos h2] at hb
    simp only [List.mem_cons, List.mem_singleton, List.not_mem_nil, or_false] at hb
    omega
  rw [if_neg h2] at hb
  by_cases h3 : c.toNat = 12
  · rw [if_pos h3] at hb
    simp only [List.mem_cons, List.mem_singleton, List.not_mem_nil, or_false] at hb
    omega
  rw [if_neg h3] at hb
  by_cases h4 : c.toNat = 10
  · rw [if_pos h4] at hb
    simp only [List.mem_cons, List.mem_singleton, List.not_mem_nil, or_false] at hb
    omega
  rw [if_neg h4] at hb
  by_cases h5 : c.toNat = 13
  · rw [if_pos h5] at hb
    simp only [List.mem_cons, List.mem_singleton, List.not_mem_nil, or_false] at hb
    omega
  rw [if_neg h5] at hb
  by_cases h6 : c.toNat = 9
  · rw [if_pos h6] at hb
    simp only [List.mem_cons, List.mem_singleton, List.not_mem_nil, or_false] at hb
    omega
  rw [if_neg h6] at hb
  by_cases h7 : c.toNat < 32 ∨ c.toNat = 60 ∨ c.toNat = 62 ∨ c.toNat = 38
  · rw [if_pos h7] at hb
    have ha := hexDigitByte_lt (c.toNat / 16) (by omega)
    have hb2 := hexDigitByte_lt (c.toNat % 16) (by omega)
    simp only [List.mem_cons, List.mem_singleton, List.not_mem_nil, or_false] at hb
    omega
  rw [if_neg h7] at hb
  by_cases h8 : c.toNat = 8232
  · rw [if_pos h8] at hb
    simp only [List.mem_cons, List.mem_singleton, List.not_mem_nil, or_false] at hb
    omega
  rw [if_neg h8] at hb
  by_cases h9 : c.toNat = 8233
  · rw [if_pos h9] at hb
    simp only [List.mem_cons, List.mem_singleton, List.not_mem_nil, or_false] at hb
    omega
  rw [if_neg h9] at hb
  exact utf8EncodeChar_lt c b hb

theorem jsonQuote_lt (s : String) : ∀ b ∈ jsonQuote s, b < 256 := by
  intro b hb
  simp only [jsonQuote, List.mem_cons, List.mem_append, List.mem_flatMap, List.mem_singleton,
    List.not_mem_nil, or_false] at hb
  rcases hb with rfl | ⟨c, _, hc⟩ | rfl
  · omega
  · exact jsonEscapeChar_lt c b hc
  · omega

theorem formatNatAux_lt : ∀ (fuel n : Nat), ∀ b ∈ formatNatAux fuel n, b < 256
  | 0, _, b, hb => by simp [formatNatAux] at hb
  | fuel + 1, n, b, hb => by
    unfold formatNatAux at hb
    by_cases h : n < 10
    · rw [if_pos h] at hb
      simp only [List.mem_singleton] at hb
      omega
    · rw [if_neg h] at hb
      simp only [List.mem_append, List.mem_singleton] at hb
      rcases hb with hb | rfl
      · exact formatNatAux_lt fuel (n / 10) b hb
      · omega

theorem formatInt_lt (n : Int) : ∀ b ∈ formatInt n, b < 256 := by
  intro b hb
  unfold formatInt at hb
  by_cases h : n < 0
  · rw [if_pos h] at hb
    simp only [List.mem_cons] at hb
    rcases hb with rfl | hb
    · omega
    · exact formatNatAux_lt _ _ b hb
  · rw [if_neg h] at hb
    exact formatNatAux_lt _ _ b hb

theorem jsonStringsTail_lt : ∀ (l : List String), ∀ b ∈ jsonStringsTail l, b < 256
  | [], b, hb => by
    simp only [jsonStringsTail, List.mem_singleton] at hb
    omega
  | [s], b, hb => by
    simp only [jsonStringsTail, List.mem_append, List.mem_singleton] at hb
    rcases hb with hb | rfl
    · exact jsonQuote_lt s b hb
    · omega
  | s :: t :: u, b, hb => by
    simp only [jsonStringsTail, List.mem_append, List.mem_cons] at hb
    rcases hb with hb | rfl | hb
    · exact jsonQuote_lt s b hb
    · omega
    · exact jsonStringsTail_lt (t :: u) b (by simpa [jsonStringsTail] using hb)

theorem JsonValue.render_lt (v : JsonValue) : ∀ b ∈ v.render, b < 256 := by
  intro b hb
  cases v with
  | str s => exact jsonQuote_lt s b hb
  | int n => exact formatInt_lt n b hb
  | strs l =>
    simp only [JsonValue.render, List.mem_cons] at hb
    rcases hb with rfl | hb
    · omega
    · exact jsonStringsTail_lt l b hb

theorem jsonMembersTail_lt : ∀ (ms : List (String × JsonValue)), ∀ b ∈ jsonMembersTail ms, b < 256
  | [], b, hb => by
    simp only [jsonMembersTail, List.mem_singleton] at hb
    omega
  | [m], b, hb => by
    simp only [jsonMembersTail, List.mem_append, List.mem_cons, List.mem_singleton,
      List.not_mem_nil, or_false] at hb
    rcases hb with hb | rfl | hb | rfl
    · exact jsonQuote_lt _ b hb
    · omega
    · exact JsonValue.render_lt _ b hb
    · omega
  | m :: t :: u, b, hb => by
    simp only [jsonMembersTail, List.mem_append, List.mem_cons] at hb
    rcases hb with hb | rfl | hb | rfl | hb
    · exact jsonQuote_lt _ b hb
    · omega
    · exact JsonValue.render_lt _ b hb
    · omega
    · exact jsonMembersTail_lt (t :: u) b (by simpa [jsonMembersTail] using hb)

theorem jsonObject_lt (ms : List (String × JsonValue)) : ∀ b ∈ jsonObject ms, b < 256 := by
  intro b hb
  simp only [jsonObject, List.mem_cons] at hb
  rcases hb with rfl | hb
  · omega
  · exact jsonMembersTail_lt ms b hb

theorem memberString_header (alg : String) : memberString (headerMembers alg) "alg" = alg := by
  simp [memberString, headerMembers, List.lookup]

theorem lookup_omitEmptyString (k key v : String) :
    (omitEmptyString key v).lookup k = if k = key ∧ v ≠ "" then some (.str v) else none := by
  unfold omitEmptyString
  by_cases hv : v = ""
  · simp [hv]
  · by_cases hk : k = key
    · simp [hv, hk, List.lookup_cons]
    · have : (k == key) = false := by simpa using hk
      simp [hv, hk, List.lookup_cons, this]

theorem lookup_omitEmptyDate (k key : String) (v : Option Int) :
    (omitEmptyDate key v).lookup k =
      if k = key then v.map (fun n => JsonValue.int (n - unixToInternal)) else none := by
  unfold omitEmptyDate
  cases v with
  | none => simp
  | some n =>
    by_cases hk : k = key
    · simp [hk, List.lookup_cons]
    · have : (k == key) = false := by simpa using hk
      simp [hk, List.lookup_cons, this]

theorem lookup_audience (k : String) (aud : List String) :
    (if aud = [] then [] else [("aud", JsonValue.strs aud)]).lookup k =
      if k = "aud" ∧ aud ≠ [] then some (.strs aud) else none := by
  by_cases hv : aud = []
  · simp [hv]
  · by_cases hk : k = "aud"
    · simp [hv, hk, List.lookup_cons]
    · have : (k == "aud") = false := by simpa using hk
      simp [hv, hk, List.lookup_cons, this]

theorem lookup_claimsMembers (c : TokenClaims) (k : String) :
    (claimsMembers c).lookup k =
      if k = "user_id" then some (.str c.UserID)
      else if k = "email" then some (.str c.Email)
      else ((((((if k = "iss" ∧ c.Registered.Issuer ≠ "" then some (.str c.Registered.Issuer) else none).or
        (if k = "sub" ∧ c.Registered.Subject ≠ "" then some (.str c.Registered.Subject) else none)).or
        (if k = "aud" ∧ c.Registered.Audience ≠ [] then some (.strs c.Registered.Audience) else none)).or
        (if k = "exp" then c.Registered.ExpiresAt.map (fun n => JsonValue.int (n - unixToInternal)) else none)).or
        (if k = "nbf" then c.Registered.NotBefore.map (fun n => JsonValue.int (n - unixToInternal)) else none)).or
        (if k = "iat" then c.Registered.IssuedAt.map (fun n => JsonValue.int (n - unixToInternal)) else none)).or
        (if k = "jti" ∧ c.Registered.ID ≠ "" then some (.str c.Registered.ID) else none) := by
  unfold claimsMembers
  simp only [List.lookup_append, lookup_omitEmptyString, lookup_omitEmptyDate, lookup_audience]
  by_cases h1 : k = "user_id"
  · subst h1; simp [List.lookup_cons]
  · have e1 : (k == "user_id") = false := by simpa using h1
    by_cases h2 : k = "email"
    · subst h2; simp [List.lookup_cons]
    · have e2 : (k == "email") = false := by simpa using h2
      simp [List.lookup_cons, e1, e2, h1, h2]

theorem claimsOfMembers_claimsMembers (c : TokenClaims) : claimsOfMembers (claimsMembers c) = c := by
  obtain ⟨uid, email, ⟨iss, sub, aud, exp, nbf, iat, jti⟩⟩ := c
  have e : ∀ n : Int, n - unixToInternal + unixToInternal = n := fun n => by omega
  simp only [claimsOfMembers, memberString, memberInt, memberStrings, lookup_claimsMembers]
  by_cases h1 : iss = "" <;> by_cases h2 : sub = "" <;> by_cases h3 : aud = [] <;>
    by_cases h4 : jti = "" <;> cases exp <;> cases nbf <;> cases iat <;>
    simp [h1, h2, h3, h4, e]

theorem claimsMembers_exact (c : TokenClaims)
    (hd : ∀ d ∈ [c.Registered.ExpiresAt, c.Registered.NotBefore, c.Registered.IssuedAt],
      ∀ n, d = some n →
        -9007199254740992 ≤ n - unixToInternal ∧ n - unixToInternal ≤ 9007199254740992) :
    ∀ m ∈ claimsMembers c, ∀ n, m.2 = .int n →
      -9007199254740992 ≤ n ∧ n ≤ 9007199254740992 := by
  intro m hm n hn
  have date : ∀ key d, d ∈ [c.Registered.ExpiresAt, c.Registered.NotBefore, c.Registered.IssuedAt] →
      m ∈ omitEmptyDate key d → -9007199254740992 ≤ n ∧ n ≤ 9007199254740992 := by
    intro key d hdm hmem
    cases d with
    | none => simp [omitEmptyDate] at hmem
    | some x =>
      simp only [omitEmptyDate, List.mem_singleton] at hmem
      subst hmem
      simp only [JsonValue.int.injEq] at hn
      subst hn
      exact hd _ hdm x rfl
  have str : ∀ key v, m ∈ omitEmptyString key v → False := by
    intro key v hmem
    unfold omitEmptyString at hmem
    by_cases hv : v = ""
    · simp [hv] at hmem
    · rw [if_neg hv, List.mem_singleton] at hmem
      subst hmem
      simp at hn
  unfold claimsMembers at hm
  simp only [List.mem_append, List.mem_cons, List.not_mem_nil, or_false] at hm
  rcases hm with ((((((((rfl | rfl) | h) | h) | h) | h) | h) | h) | h)
  · simp at hn
  · simp at hn
  · exact (str _ _ h).elim
  · exact (str _ _ h).elim
  · by_cases ha : c.Registered.Audience = []
    · simp [ha] at h
    · rw [if_neg ha, List.mem_singleton] at h
      subst h
      simp at hn
  · exact date _ _ (by simp) h
  · exact date _ _ (by simp) h
  · exact date _ _ (by simp) h
  · exact (str _ _ h).elim

theorem headerMembers_exact (alg : String) :
    ∀ m ∈ headerMembers alg, ∀ n, m.2 = .int n →
      -9007199254740992 ≤ n ∧ n ≤ 9007199254740992 := by
  intro m hm n hn
  simp only [headerMembers, List.mem_cons, List.mem_singleton, List.not_mem_nil, or_false] at hm
  rcases hm with rfl | rfl <;> simp at hn

theorem decodeSegments_encoded (alg : String) (claims : TokenClaims) (sig : List Nat)
    (hd : ∀ d ∈ [claims.Registered.ExpiresAt, claims.Registered.NotBefore,
        claims.Registered.IssuedAt],
      ∀ n, d = some n →
        -9007199254740992 ≤ n - unixToInternal ∧ n - unixToInternal ≤ 9007199254740992)
    (hsig : ∀ b ∈ sig, b < 256) :
    decodeSegments (base64URLEncode (jsonObject (headerMembers alg)))
      (base64URLEncode (jsonObject (claimsMembers claims))) (base64URLEncode sig) =
      some (alg, claims, sig) := by
  unfold decodeSegments
  rw [base64URLDecode_encode _ (jsonObject_lt _), base64URLDecode_encode _ (jsonObject_lt _),
    base64URLDecode_encode _ hsig]
  simp only
  rw [parseJsonObject_jsonObject _ (headerMembers_exact alg),
    parseJsonObject_jsonObject _ (claimsMembers_exact claims hd)]
  simp only [memberString_header, claimsOfMembers_claimsMembers]

theorem ParseUnverified_encodeToken (other : String → TokenString) (alg : String)
    (claims : TokenClaims) (sig : List Nat)
    (hd : ∀ d ∈ [claims.Registered.ExpiresAt, claims.Registered.NotBefore,
        claims.Registered.IssuedAt],
      ∀ n, d = some n →
        -9007199254740992 ≤ n - unixToInternal ∧ n - unixToInternal ≤ 9007199254740992)
    (hsig : ∀ b ∈ sig, b < 256) :
    ParseUnverified other (encodeToken alg claims sig) = .jwt alg claims sig := by
  have hascii : ∀ c ∈ signingText alg claims ++ 46 :: base64URLEncode sig, c < 128 := by
    intro c hc
    simp only [signingText, List.mem_append, List.mem_cons] at hc
    rcases hc with (hc | rfl | hc) | rfl | hc
    · exact (base64URLEncode_digits _ c hc).2
    · omega
    · exact (base64URLEncode_digits _ c hc).2
    · omega
    · exact (base64URLEncode_digits _ c hc).2
  have hbytes : utf8Bytes (encodeToken alg claims sig) =
      base64URLEncode (jsonObject (headerMembers alg)) ++
        46 :: (base64URLEncode (jsonObject (claimsMembers claims)) ++ 46 :: base64URLEncode sig) := by
    unfold encodeToken
    rw [utf8Bytes_ascii _ hascii]
    simp [signingText]
  unfold ParseUnverified
  rw [hbytes, splitDots_three _ _ _ (fun x hx => (base64URLEncode_digits _ x hx).1)
    (fun x hx => (base64URLEncode_digits _ x hx).1)
    (fun x hx => (base64URLEncode_digits _ x hx).1)]
  simp only
  rw [decodeSegments_encoded alg claims sig hd hsig]
  simp only [if_true]

theorem hmac_bytes (lib : Lib) (alg : String) (key message : List Nat)
    (hhash : ∀ x, ∀ b ∈ lib.hash alg x, b < 256) : ∀ b ∈ hmac lib alg key message, b < 256 :=
  hhash _

theorem ParseUnverified_tokenText (other : String → TokenString) (lib : Lib) (alg : String)
    (claims : TokenClaims) (secret : String)
    (hhash : ∀ x, ∀ b ∈ lib.hash alg x, b < 256)
    (hd : ∀ d ∈ [claims.Registered.ExpiresAt, claims.Registered.NotBefore,
        claims.Registered.IssuedAt],
      ∀ n, d = some n →
        -9007199254740992 ≤ n - unixToInternal ∧ n - unixToInternal ≤ 9007199254740992) :
    ParseUnverified other (tokenText lib alg claims secret) =
      signedToken (textLib lib) alg claims secret :=
  ParseUnverified_encodeToken other alg claims _ hd (hmac_bytes lib alg _ _ hhash)

theorem notValidYetAt_of_le (now : Time) (c : RegisteredClaims) (nbf : Int)
    (h : c.NotBefore = some nbf) (hx : nbf * 1000000000 ≤ now.ns) : notValidYetAt now c = false := by
  have : ¬ (now.Before ⟨nbf * 1000000000⟩ = true) := by
    rw [Time.Before_iff]; simp only; omega
  simp [notValidYetAt, h, this]

theorem expiredAt_of_lt (now : Time) (c : RegisteredClaims) (exp : Int) (h : c.ExpiresAt = some exp)
    (hx : now.ns < exp * 1000000000) : expiredAt now c = false := by
  have : now.Before ⟨exp * 1000000000⟩ = true := by
    rw [Time.Before_iff]; exact hx
  simp [expiredAt, h, this]

theorem Time.sec_mul_le (t : Time) : t.sec * 1000000000 ≤ t.ns := by
  simp only [Time.sec]; omega

theorem header_text_HS256 :
    base64URLEncode (jsonObject (headerMembers "HS256")) =
      utf8Bytes "eyJhbGciOiJIUzI1NiIsInR5cCI6IkpXVCJ9" := by
  decide

theorem ParseUnverified_no_dots (other : String → TokenString) :
    ParseUnverified other "not-a-token" =
      .malformed "token contains an invalid number of segments" := by
  rfl

theorem ParseUnverified_not_base64 (other : String → TokenString) :
    ParseUnverified other "invalid.jwt.token" = other "invalid.jwt.token" := by
  rfl

/-- C6.  The text of a token is the base64url text of the JSON header, of the
JSON claims and of the HMAC of the two, joined by dots.  For every user id,
email, secret and registered claims, the parser reads the text of the token
that carries those claims and is signed with the secret back into header
algorithm, claims and signature, and parsing with the same secret yields a
token whose claims are the ones that were signed (so `UserID` and `Email` equal
the inputs); it is valid and there is no error while the registered claims are
within their validity period.  In particular `ValidateToken`, applied to the
text of the access token of `GenerateTokenPair` at a time not before its issue
and before its expiry, succeeds and returns that user id and email.  The hash
function yields bytes, and the numeric dates are within 2^53 seconds of the
Unix epoch, where the numbers of JSON are exact. -/
theorem C6_claims_round_trip (other : String → TokenString) (lib : Lib) (cfg : Config)
    (clk : Nat → Time) (now : Time) (userID email : String) (rc : RegisteredClaims)
    (hhash : ∀ alg x, ∀ b ∈ lib.hash alg x, b < 256)
    (hrc : ∀ d ∈ [rc.ExpiresAt, rc.NotBefore, rc.IssuedAt], ∀ n, d = some n →
      -9007199254740992 ≤ n - unixToInternal ∧ n - unixToInternal ≤ 9007199254740992)
    (hclk : ∀ t ∈ [(clk 0).Add (wrapInt64 (cfg.JWT.ExpireHours * Hour)), clk 1, clk 2],
      -9007199254740992 ≤ NewNumericDate t - unixToInternal ∧
        NewNumericDate t - unixToInternal ≤ 9007199254740992)
    (hissued : (clk 2).ns ≤ now.ns)
    (hexp : now.ns <
      NewNumericDate ((clk 0).Add (wrapInt64 (cfg.JWT.ExpireHours * Hour))) * 1000000000) :
    (∀ alg secret : String,
      ParseUnverified other
          (tokenText lib alg { UserID := userID, Email := email, Registered := rc } secret) =
        .jwt alg { UserID := userID, Email := email, Registered := rc }
          (hmac lib alg (utf8Bytes secret)
            (signingText alg { UserID := userID, Email := email, Registered := rc }))) ∧
    (∀ t : Time,
      (ParseWithClaims (textLib lib) cfg t (ParseUnverified other (tokenText lib "HS256"
          { UserID := userID, Email := email, Registered := rc } cfg.JWT.Secret))).1.map Token.Claims
        = some { UserID := userID, Email := email, Registered := rc } ∧
      (expiredAt t rc = false → notValidYetAt t rc = false →
        (ParseWithClaims (textLib lib) cfg t (ParseUnverified other (tokenText lib "HS256"
          { UserID := userID, Email := email, Registered := rc } cfg.JWT.Secret))).2 = none ∧
        (ParseWithClaims (textLib lib) cfg t (ParseUnverified other (tokenText lib "HS256"
          { UserID := userID, Email := email, Registered := rc } cfg.JWT.Secret))).1.map Token.Valid
          = some true)) ∧
    ∃ (pair : TokenPair) (claims : TokenClaims),
      GenerateTokenPair (textLib lib) cfg clk userID email = .ok pair ∧
      pair.AccessToken = ParseUnverified other (tokenText lib "HS256"
        (tokenClaims userID email "access" cfg.JWT.ExpireHours (clk 0) (clk 1) (clk 2))
        cfg.JWT.Secret) ∧
      ValidateToken (textLib lib) cfg now (ParseUnverified other (tokenText lib "HS256"
        (tokenClaims userID email "access" cfg.JWT.ExpireHours (clk 0) (clk 1) (clk 2))
        cfg.JWT.Secret)) = .ok claims ∧
      claims.UserID = userID ∧ claims.Email = email := by
  refine ⟨?_, ?_, ?_⟩
  · intro alg secret
    exact ParseUnverified_tokenText other lib alg _ secret (hhash alg) hrc
  · intro t
    rw [ParseUnverified_tokenText other lib "HS256" _ _ (hhash "HS256") hrc,
      ParseWithClaims_signed]
    refine ⟨?_, ?_⟩
    · split_ifs <;> rfl
    · intro h1 h2
      simp [h1, h2]
  · have hd : ∀ d ∈ [(tokenClaims userID email "access" cfg.JWT.ExpireHours (clk 0) (clk 1)
          (clk 2)).Registered.ExpiresAt,
        (tokenClaims userID email "access" cfg.JWT.ExpireHours (clk 0) (clk 1)
          (clk 2)).Registered.NotBefore,
        (tokenClaims userID email "access" cfg.JWT.ExpireHours (clk 0) (clk 1)
          (clk 2)).Registered.IssuedAt], ∀ n, d = some n →
        -9007199254740992 ≤ n - unixToInternal ∧ n - unixToInternal ≤ 9007199254740992 := by
      intro d hdm n hn
      simp only [tokenClaims, List.mem_cons, List.mem_singleton, List.not_mem_nil, or_false] at hdm
      rcases hdm with rfl | rfl | rfl
      · simp only [Option.some.injEq] at hn
        subst hn
        exact hclk _ (by simp)
      · simp only [Option.some.injEq] at hn
        subst hn
        exact hclk _ (by simp)
      · simp only [Option.some.injEq] at hn
        subst hn
        exact hclk _ (by simp)
    have hparse := ParseUnverified_tokenText other lib "HS256"
      (tokenClaims userID email "access" cfg.JWT.ExpireHours (clk 0) (clk 1) (clk 2))
      cfg.JWT.Secret (hhash "HS256") hd
    refine ⟨_, tokenClaims userID email "access" cfg.JWT.ExpireHours (clk 0) (clk 1) (clk 2),
      GenerateTokenPair_eq (textLib lib) cfg clk userID email, hparse.symm, ?_, rfl, rfl⟩
    have h1 : expiredAt now (tokenClaims userID email "access" cfg.JWT.ExpireHours
        (clk 0) (clk 1) (clk 2)).Registered = false :=
      expiredAt_of_lt now _ _ rfl hexp
    have h2 : notValidYetAt now (tokenClaims userID email "access" cfg.JWT.ExpireHours
        (clk 0) (clk 1) (clk 2)).Registered = false :=
      notValidYetAt_of_le now _ (NewNumericDate (clk 2)) rfl
        (le_trans (Time.sec_mul_le (clk 2)) hissued)
    rw [hparse]
    simp only [ValidateToken_signed, h1, h2]
    rfl

/-- C6, witness: the pair issued at 10:00 with a lifetime of one hour, its
access token read from its text and validated at 10:30. -/
theorem C6_claims_round_trip_witness :
    (clockTen 2).ns ≤ halfPastTen.ns ∧
    halfPastTen.ns <
      NewNumericDate ((clockTen 0).Add (wrapInt64 (testConfig.JWT.ExpireHours * Hour))) * 1000000000 ∧
    ∃ (pair : TokenPair) (claims : TokenClaims),
      GenerateTokenPair (textLib byteLib) testConfig clockTen userA "test@example.com" = .ok pair ∧
      pair.AccessToken = ParseUnverified (fun _ => .malformed "") (tokenText byteLib "HS256"
        (tokenClaims userA "test@example.com" "access" testConfig.JWT.ExpireHours (clockTen 0)
          (clockTen 1) (clockTen 2))
        testConfig.JWT.Secret) ∧
      ValidateToken (textLib byteLib) testConfig halfPastTen
        (ParseUnverified (fun _ => .malformed "") (tokenText byteLib "HS256"
          (tokenClaims userA "test@example.com" "access" testConfig.JWT.ExpireHours (clockTen 0)
            (clockTen 1) (clockTen 2))
          testConfig.JWT.Secret)) = .ok claims ∧
      claims.UserID = userA ∧ claims.Email = "test@example.com" :=
  ⟨by decide, by decide,
    (C6_claims_round_trip (fun _ => .malformed "") byteLib testConfig clockTen halfPastTen userA
      "test@example.com" testClaims.Registered
      (by
        intro alg x b hb
        simp only [byteLib, List.mem_singleton] at hb
        omega)
      (by
        intro d hd n hn
        simp only [List.mem_cons, List.mem_singleton, List.not_mem_nil, or_false] at hd
        rcases hd with rfl | rfl | rfl
        · have e : n = NewNumericDate (Time.Date 2024 1 1 11 0 0 0) := by
            simpa [testClaims] using hn.symm
          subst e
          decide
        · simp [testClaims] at hn
        · have e : n = NewNumericDate (Time.Date 2024 1 1 10 0 0 0) := by
            simpa [testClaims] using hn.symm
          subst e
          decide)
      (by
        intro t ht
        simp only [List.mem_cons, List.mem_singleton, List.not_mem_nil, or_false] at ht
        rcases ht with rfl | rfl | rfl <;> decide)
      (by decide) (by decide)).2.2⟩

/-! ## Tokens: malformed strings and foreign signatures -/

/-- A key shorter than the block and the same key followed by a zero byte
have the same HMAC key block. -/
theorem hmacKeyBlock_append_zero (lib : Lib) (alg : String) (key : List Nat)
    (h : key.length < blockSize alg) :
    hmacKeyBlock lib alg (key ++ [0]) = hmacKeyBlock lib alg key := by
  unfold hmacKeyBlock
  have h1 : ¬ (key ++ [0]).length > blockSize alg := by
    rw [List.length_append, List.length_singleton]; omega
  have h2 : ¬ key.length > blockSize alg := by omega
  simp only
  rw [if_neg h1, if_neg h2, List.length_append, List.length_singleton]
  obtain ⟨n, hn⟩ : ∃ n, blockSize alg - key.length = n + 1 := ⟨blockSize alg - key.length - 1, by omega⟩
  have e : blockSize alg - (key.length + 1) = n := by omega
  rw [hn, e, List.replicate_succ, List.append_assoc]
  rfl

/-- The key block has the size of the block when the hash is not longer than
the block. -/
theorem hmacKeyBlock_length (lib : Lib) (alg : String) (key : List Nat)
    (hlen : ∀ x, (lib.hash alg x).length ≤ blockSize alg) :
    (hmacKeyBlock lib alg key).length = blockSize alg := by
  unfold hmacKeyBlock
  simp only
  split_ifs with h
  · have := hlen key
    rw [List.length_append, List.length_replicate]; omega
  · rw [List.length_append, List.length_replicate]; omega

/-- With a hash function without collisions, two keys with different key
blocks give different HMACs, whatever the messages. -/
theorem hmac_ne_of_keyBlock_ne (lib : Lib) (alg : String) (k1 k2 m1 m2 : List Nat)
    (hinj : Function.Injective (lib.hash alg))
    (hlen : ∀ x, (lib.hash alg x).length ≤ blockSize alg)
    (hk : hmacKeyBlock lib alg k1 ≠ hmacKeyBlock lib alg k2) :
    hmac lib alg k1 m1 ≠ hmac lib alg k2 m2 := by
  intro h
  unfold hmac at h
  simp only at h
  have h1 := hinj h
  have hl : ((hmacKeyBlock lib alg k1).map (fun b => Nat.xor b 92)).length =
      ((hmacKeyBlock lib alg k2).map (fun b => Nat.xor b 92)).length := by
    rw [List.length_map, List.length_map, hmacKeyBlock_length lib alg k1 hlen,
      hmacKeyBlock_length lib alg k2 hlen]
  have h2 := (List.append_inj h1 hl).1
  have hx : Function.Injective (fun b : Nat => Nat.xor b 92) := by
    intro a b hab
    exact Nat.xor_left_injective hab
  exact hk (List.map_injective_iff.2 hx h2)

theorem hmac_append_zero (lib : Lib) (alg : String) (key message : List Nat)
    (h : key.length < blockSize alg) :
    hmac lib alg (key ++ [0]) message = hmac lib alg key message := by
  unfold hmac
  rw [hmacKeyBlock_append_zero lib alg key h]

theorem utf8Bytes_append_nul (s : String) : utf8Bytes (s ++ "\x00") = utf8Bytes s ++ [0] := by
  unfold utf8Bytes
  rw [String.toList, String.data_append, List.flatMap_append]
  rfl

/-- A token signed with the configured secret followed by a NUL byte is the
token signed with the configured secret. -/
theorem signedToken_secret_nul (lib : Lib) (alg : String) (claims : TokenClaims) (secret : String)
    (h : (utf8Bytes secret).length < blockSize alg) :
    signedToken lib alg claims (secret ++ "\x00") = signedToken lib alg claims secret := by
  unfold signedToken
  rw [utf8Bytes_append_nul, hmac_append_zero lib alg _ _ h]

/-- A decoded token whose signature is not the HMAC under the configured
secret is refused by the parser, with "token signature is invalid" for a
method of the HMAC family. -/
theorem ParseWithClaims_foreign_signature (lib : Lib) (cfg : Config) (now : Time) (alg : String)
    (claims : TokenClaims) (signature : List Nat)
    (hsig : signature ≠ hmac lib alg (utf8Bytes cfg.JWT.Secret) (lib.signingString alg claims)) :
    ∃ e, (ParseWithClaims lib cfg now (.jwt alg claims signature)).2 = some e ∧
      ValidateToken lib cfg now (.jwt alg claims signature) = .err ("invalid token: " ++ e.Error) ∧
      (alg ∈ hmacMethods → e = .signatureInvalid) := by
  have hsub : alg ∈ hmacMethods → alg ∈ registeredMethods := by
    intro hm
    simp only [hmacMethods, List.mem_cons, List.mem_singleton, List.not_mem_nil, or_false] at hm
    rcases hm with rfl | rfl | rfl <;> decide
  have key : ∃ e, (ParseWithClaims lib cfg now (.jwt alg claims signature)).2 = some e ∧
      (alg ∈ hmacMethods → e = .signatureInvalid) := by
    unfold ParseWithClaims
    simp only
    by_cases h1 : alg ∈ registeredMethods
    · rw [if_neg (not_not.2 h1)]
      by_cases h2 : alg ∈ hmacMethods
      · have hk : keyFunc cfg alg = .ok cfg.JWT.Secret := by unfold keyFunc; rw [if_pos h2]
        rw [hk]
        simp only
        rw [if_pos hsig]
        exact ⟨_, rfl, fun _ => rfl⟩
      · have hk : keyFunc cfg alg = .err ("unexpected signing method: " ++ alg) := by
          unfold keyFunc; rw [if_neg h2]
        rw [hk]
        exact ⟨_, rfl, fun hm => absurd hm h2⟩
    · rw [if_pos h1]
      exact ⟨_, rfl, fun hm => absurd (hsub hm) h1⟩
  obtain ⟨e, he, hm⟩ := key
  have hv : ValidateToken lib cfg now (.jwt alg claims signature) =
      .err ("invalid token: " ++ e.Error) := by
    unfold ValidateToken
    rcases hp : ParseWithClaims lib cfg now (.jwt alg claims signature) with ⟨t, r⟩
    rw [hp] at he
    simp only at he
    subst he
    cases t <;> rfl
  exact ⟨e, he, hv, hm⟩

/-- C7 (as amended).  For every token string that does not decode the parser
fails with "token is malformed" and its detail, and `ValidateToken` returns
the error "invalid token: token is malformed: ..." and no claims.  For every
token signed with a secret whose HMAC key block (the secret, hashed when it is
longer than the block of the hash, then padded with zero bytes to the block)
differs from the key block of the configured secret, and a hash function
without collisions whose values are not longer than its block, the parser
fails, with "token signature is invalid" for a method of the HMAC family, and
`ValidateToken` returns an error and no claims. -/
theorem C7_malformed_or_foreign_key_rejected (lib : Lib) (cfg : Config) (now : Time)
    (detail alg other : String) (claims : TokenClaims)
    (hinj : Function.Injective (lib.hash alg))
    (hlen : ∀ x, (lib.hash alg x).length ≤ blockSize alg)
    (hkey : hmacKeyBlock lib alg (utf8Bytes other) ≠
      hmacKeyBlock lib alg (utf8Bytes cfg.JWT.Secret)) :
    (ParseWithClaims lib cfg now (.malformed detail)).1 = none ∧
    (ParseWithClaims lib cfg now (.malformed detail)).2 = some (.malformed detail) ∧
    ValidateToken lib cfg now (.malformed detail) =
      .err ("invalid token: token is malformed: " ++ detail) ∧
    ∃ e, (ParseWithClaims lib cfg now (signedToken lib alg claims other)).2 = some e ∧
      ValidateToken lib cfg now (signedToken lib alg claims other) =
        .err ("invalid token: " ++ e.Error) ∧
      (alg ∈ hmacMethods → e = .signatureInvalid) :=
  ⟨rfl, rfl, rfl, ParseWithClaims_foreign_signature lib cfg now alg claims _
    (hmac_ne_of_keyBlock_ne lib alg _ _ _ _ hinj hlen hkey)⟩

/-- C7, witness: a library without collisions, a string without dots and the
token of the test signed with "wrong-secret". -/
theorem C7_malformed_or_foreign_key_rejected_witness :
    Function.Injective (idealLib.hash "HS256") ∧
    (∀ x, (idealLib.hash "HS256" x).length ≤ blockSize "HS256") ∧
    hmacKeyBlock idealLib "HS256" (utf8Bytes "wrong-secret") ≠
      hmacKeyBlock idealLib "HS256" (utf8Bytes testConfig.JWT.Secret) ∧
    ValidateToken idealLib testConfig (clockTen 0)
        (.malformed "token contains an invalid number of segments") =
      .err "invalid token: token is malformed: token contains an invalid number of segments" ∧
    ValidateToken idealLib testConfig (clockTen 0)
        (signedToken idealLib "HS256" testClaims "wrong-secret") =
      .err "invalid token: token signature is invalid: signature is invalid" :=
  have hinj : Function.Injective (idealLib.hash "HS256") :=
    fun _ _ h => Encodable.encode_injective (List.singleton_injective h)
  have hlen : ∀ x, (idealLib.hash "HS256" x).length ≤ blockSize "HS256" := fun _ => by
    show 1 ≤ blockSize "HS256"
    decide
  have hkey : hmacKeyBlock idealLib "HS256" (utf8Bytes "wrong-secret") ≠
      hmacKeyBlock idealLib "HS256" (utf8Bytes testConfig.JWT.Secret) := by decide
  have h := C7_malformed_or_foreign_key_rejected idealLib testConfig (clockTen 0)
    "token contains an invalid number of segments" "HS256" "wrong-secret" testClaims hinj hlen hkey
  ⟨hinj, hlen, hkey, h.2.2.1, by
    obtain ⟨e, _, hv, he⟩ := h.2.2.2
    rw [hv, he (by decide)]
    rfl⟩

/-- C7, counterexample to the claim as stated: it is not the case that every
token signed with a secret different from the configured one is rejected.
HMAC pads a short key with zero bytes, so the token signed with the
configured secret followed by a NUL byte is the token signed with the
configured secret (`signedToken_secret_nul`, for every hash function), and
`ValidateToken` accepts it. -/
theorem C7_counterexample :
    ¬ ∀ (lib : Lib) (cfg : Config) (now : Time) (other : String) (claims : TokenClaims),
      other ≠ cfg.JWT.Secret →
      (ValidateToken lib cfg now (signedToken lib "HS256" claims other)).isOk = false := by
  intro h
  have h1 := h sampleLib testConfig halfPastTen (testConfig.JWT.Secret ++ "\x00") accessClaims
    (by decide)
  rw [signedToken_secret_nul sampleLib "HS256" accessClaims testConfig.JWT.Secret (by decide),
    ValidateToken_signed] at h1
  revert h1
  decide

/-! ## Registration: one account per email -/

theorem Store.firstUserByEmail_isSome (s : Store) (email : String) (u : User) (hu : u ∈ s.users)
    (hlive : u.DeletedAt = none) (hemail : u.Email = email) :
    ∃ v, s.firstUserByEmail email = some v := by
  unfold Store.firstUserByEmail
  apply firstBy_isSome
  intro hnil
  have : u ∈ s.users.filter (fun u => u.DeletedAt.isNone && u.Email == email) := by
    simp [List.mem_filter, hu, hlive, hemail]
  rw [hnil] at this
  exact absurd this (List.not_mem_nil u)

theorem Register_of_existing (lib : Lib) (cfg : Config) (s : Store) (gen : Nat → UUID) (salt : Nat)
    (clk : Nat → Time) (req : RegisterRequest) (u : User) (hu : u ∈ s.users)
    (hlive : u.DeletedAt = none) (hemail : u.Email = req.Email) :
    Register lib cfg s gen salt clk req = (s, .err "user with this email already exists") := by
  obtain ⟨v, hv⟩ := Store.firstUserByEmail_isSome s req.Email u hu hlive hemail
  simp [Register, hv]

/-- `Register` keeps the users that are stored. -/
theorem Register_users_mono (lib : Lib) (cfg : Config) (s : Store) (gen : Nat → UUID) (salt : Nat)
    (clk : Nat → Time) (req : RegisterRequest) (u : User) (hu : u ∈ s.users) :
    u ∈ (Register lib cfg s gen salt clk req).1.users := by
  unfold Register
  cases s.firstUserByEmail req.Email with
  | some _ => exact hu
  | none =>
    simp only
    cases bcryptGenerate lib salt req.Password with
    | err e => exact hu
    | panic p => exact hu
    | ok hashed =>
      simp only [Store.createUser]
      split_ifs
      · exact hu
      · exact hu
      · simp only [GenerateTokenPair_eq]
        exact List.mem_append_left _ hu

theorem registerAll_users_mono (lib : Lib) (cfg : Config) (calls : List RegisterCall) :
    ∀ (s : Store) (u : User), u ∈ s.users → u ∈ (registerAll lib cfg s calls).users := by
  induction calls with
  | nil => intro s u hu; exact hu
  | cons c cs ih =>
    intro s u hu
    exact ih _ u (Register_users_mono lib cfg s c.gen c.salt c.clk c.req u hu)

/-- A successful `Register` stores a live user with the email of the request. -/
theorem Register_ok_stores (lib : Lib) (cfg : Config) (s s1 : Store) (gen : Nat → UUID) (salt : Nat)
    (clk : Nat → Time) (req : RegisterRequest) (resp : AuthResponse)
    (h : Register lib cfg s gen salt clk req = (s1, .ok resp)) :
    ∃ u ∈ s1.users, u.DeletedAt = none ∧ u.Email = req.Email ∧ s1.users = s.users ++ [u] := by
  unfold Register at h
  cases hf : s.firstUserByEmail req.Email with
  | some _ => simp [hf] at h
  | none =>
    simp only [hf] at h
    cases hb : bcryptGenerate lib salt req.Password with
    | err e => simp [hb] at h
    | panic p => simp [hb] at h
    | ok hashed =>
      simp only [hb, Store.createUser] at h
      split_ifs at h with h1 h2
      · simp at h
      · simp at h
      · simp only [GenerateTokenPair_eq, Prod.mk.injEq, Result.ok.injEq] at h
        obtain ⟨hs, _⟩ := h
        subst hs
        refine ⟨_, by simp, ?_, ?_, rfl⟩
        · simp only [User.BeforeCreate]; split_ifs <;> rfl
        · simp only [User.BeforeCreate]; split_ifs <;> rfl

/-- C8.  For every email that belongs to a stored (live) user, `Register` with
that email returns the error "user with this email already exists", which the
handler answers with status 409, and leaves the store as it was.  Hence after
a successful `Register` every later `Register` with the same email fails with
that error, whatever registrations happen in between. -/
theorem C8_duplicate_email_conflict (lib : Lib) (cfg : Config) (s : Store) (gen : Nat → UUID)
    (salt : Nat) (clk : Nat → Time) (req : RegisterRequest) (u : User) (hu : u ∈ s.users)
    (hlive : u.DeletedAt = none) (hemail : u.Email = req.Email) :
    Register lib cfg s gen salt clk req = (s, .err "user with this email already exists") ∧
    AuthHandler.Register lib cfg s gen salt clk (.ok req) = (s, 409) ∧
    (∀ (s0 s1 : Store) (first : RegisterCall) (resp : AuthResponse),
      Register lib cfg s0 first.gen first.salt first.clk first.req = (s1, .ok resp) →
      ∀ (between : List RegisterCall) (later : RegisterCall), later.req.Email = first.req.Email →
        Register lib cfg (registerAll lib cfg s1 between) later.gen later.salt later.clk later.req =
          (registerAll lib cfg s1 between, .err "user with this email already exists")) := by
  have h1 := Register_of_existing lib cfg s gen salt clk req u hu hlive hemail
  refine ⟨h1, ?_, ?_⟩
  · simp only [AuthHandler.Register, h1, if_true]
  · intro s0 s1 first resp hok between later hl
    obtain ⟨v, hv, hvl, hve, _⟩ := Register_ok_stores lib cfg s0 s1 _ _ _ _ resp hok
    exact Register_of_existing lib cfg _ _ _ _ _ v
      (registerAll_users_mono lib cfg between s1 v hv) hvl (hve.trans hl.symm)

/-- C8, witness: the first registration of `sampleRegister` succeeds and stores
`sampleUser`; the second one is refused. -/
theorem C8_duplicate_email_conflict_witness :
    sampleUser ∈ storeWithUser.users ∧ sampleUser.DeletedAt = none ∧
    sampleUser.Email = sampleRegister.Email ∧
    Register sampleLib testConfig emptyStore sampleGen 7 clockTen sampleRegister =
      (storeWithUser, (Register sampleLib testConfig emptyStore sampleGen 7 clockTen sampleRegister).2) ∧
    (Register sampleLib testConfig emptyStore sampleGen 7 clockTen sampleRegister).2.isOk = true ∧
    Register sampleLib testConfig storeWithUser sampleGen 8 clockTen sampleRegister =
      (storeWithUser, .err "user with this email already exists") ∧
    AuthHandler.Register sampleLib testConfig storeWithUser sampleGen 8 clockTen (.ok sampleRegister) =
      (storeWithUser, 409) :=
  have h := C8_duplicate_email_conflict sampleLib testConfig storeWithUser sampleGen 8 clockTen
    sampleRegister sampleUser (by decide) rfl rfl
  ⟨by decide, rfl, rfl, by decide, by decide, h.1, h.2.1⟩

/-! ## Daily plans: one plan per user and date -/

theorem Store.firstDailyPlanByDate_isSome (s : Store) (user : UUID) (date : Time) (p : DailyPlan)
    (hp : p ∈ s.dailyPlans) (hlive : p.DeletedAt = none) (huser : p.UserID = user)
    (hdate : p.Date = date) : ∃ q, s.firstDailyPlanByDate user date = some q := by
  unfold Store.firstDailyPlanByDate
  apply firstBy_isSome
  intro hnil
  have : p ∈ s.dailyPlans.filter
      (fun p => p.DeletedAt.isNone && p.UserID == user && p.Date == date) := by
    simp [List.mem_filter, hp, hlive, huser, hdate]
  rw [hnil] at this
  exact absurd this (List.not_mem_nil p)

/-- C9.  For every user and date for which the user has a (live) daily plan,
`CreateDailyPlan` returns the error "daily plan already exists for this date",
which the handler answers with status 409, and leaves the store as it was: no
plan and no activity is created. -/
theorem C9_duplicate_plan_conflict (lib : Lib) (s : Store) (gen : Nat → UUID) (userID : String)
    (req : DailyPlanRequest) (user : UUID) (date : Time) (p : DailyPlan)
    (huser : uuidParse userID = .ok user) (hdate : Time.Parse req.Date = .ok date)
    (hp : p ∈ s.dailyPlans) (hlive : p.DeletedAt = none) (hpu : p.UserID = user)
    (hpd : p.Date = date) :
    CreateDailyPlan lib s gen userID req = (s, .err "daily plan already exists for this date") ∧
    DailyPlanHandler.CreateDailyPlan lib s gen (some userID) (.ok req) = (s, 409) := by
  obtain ⟨q, hq⟩ := Store.firstDailyPlanByDate_isSome s user date p hp hlive hpu hpd
  have h1 : ∀ r : DailyPlanRequest, r.Date = req.Date →
      CreateDailyPlan lib s gen userID r = (s, .err "daily plan already exists for this date") := by
    intro r hr
    simp [CreateDailyPlan, huser, hr, hdate, hq]
  refine ⟨h1 req rfl, ?_⟩
  simp only [DailyPlanHandler.CreateDailyPlan]
  rw [h1 _ (by split_ifs <;> rfl)]
  simp

/-- C9, witness: user 10 has a plan for 2024-01-01 in `storeTwoPlans`. -/
theorem C9_duplicate_plan_conflict_witness :
    uuidParse userA = .ok 10 ∧
    Time.Parse (planRequest "2024-01-01").Date = .ok (Time.Date 2024 1 1 0 0 0 0) ∧
    planRow 101 (Time.Date 2024 1 1 0 0 0 0) ∈ storeTwoPlans.dailyPlans ∧
    CreateDailyPlan sampleLib storeTwoPlans sampleGen3 userA (planRequest "2024-01-01") =
      (storeTwoPlans, .err "daily plan already exists for this date") ∧
    DailyPlanHandler.CreateDailyPlan sampleLib storeTwoPlans sampleGen3 (some userA)
      (.ok (planRequest "2024-01-01")) = (storeTwoPlans, 409) :=
  have h := C9_duplicate_plan_conflict sampleLib storeTwoPlans sampleGen3 userA
    (planRequest "2024-01-01") 10 (Time.Date 2024 1 1 0 0 0 0)
    (planRow 101 (Time.Date 2024 1 1 0 0 0 0)) (by decide) (by decide) (by decide) rfl rfl rfl
  ⟨by decide, by decide, by decide, h.1, h.2⟩

/-! ### The invariant under the other operations -/

theorem firstBy_eq_none {α : Type} (key : α → Nat) (l : List α) (h : firstBy key l = none) :
    l = [] := by
  cases l with
  | nil => rfl
  | cons a as =>
    obtain ⟨x, hx⟩ := firstBy_isSome key (a :: as) (by simp)
    rw [hx] at h
    exact absurd h (by simp)

theorem onePlanPerDay_congr (s t : Store) (h : t.dailyPlans = s.dailyPlans) (hs : onePlanPerDay s) :
    onePlanPerDay t := by
  unfold onePlanPerDay at hs ⊢
  rw [h]; exact hs

theorem Store.createActivities_dailyPlans (s : Store) (gen : Nat → UUID) (k : Nat)
    (acts : List Activity) : (s.createActivities gen k acts).1.dailyPlans = s.dailyPlans := by
  unfold Store.createActivities
  simp only
  split_ifs <;> rfl

/-- The plan rows after the transaction of `CreateDailyPlan`: unchanged, or one
row more, with the user, the date and the deletion mark of the new plan. -/
theorem createPlanTx_dailyPlans (s : Store) (gen : Nat → UUID) (plan : DailyPlan)
    (reqs : List Services.Activity) :
    (createPlanTx s gen plan reqs).1.dailyPlans = s.dailyPlans ∨
    ∃ p : DailyPlan, p.UserID = plan.UserID ∧ p.Date = plan.Date ∧ p.DeletedAt = plan.DeletedAt ∧
      (createPlanTx s gen plan reqs).1.dailyPlans = s.dailyPlans ++ [p] := by
  unfold createPlanTx
  rcases hc : s.createDailyPlan (gen 0) plan with ⟨s1, r⟩
  cases r with
  | err e => left; rfl
  | panic p => left; rfl
  | ok created =>
    have hprop : created.UserID = plan.UserID ∧ created.Date = plan.Date ∧
        created.DeletedAt = plan.DeletedAt ∧ s1.dailyPlans = s.dailyPlans ++ [created] := by
      unfold Store.createDailyPlan at hc
      simp only at hc
      split at hc
      · simp at hc
      · simp only [Prod.mk.injEq, Result.ok.injEq] at hc
        obtain ⟨hs, hcr⟩ := hc
        subst hs hcr
        refine ⟨?_, ?_, ?_, rfl⟩ <;> (simp only [DailyPlan.BeforeCreate]; split_ifs <;> rfl)
    simp only
    split_ifs with hlen
    · rcases ha : s1.createActivities gen 1 (activitiesOfRequest created.ID reqs) with ⟨s2, r2⟩
      have hd := Store.createActivities_dailyPlans s1 gen 1 (activitiesOfRequest created.ID reqs)
      rw [ha] at hd
      cases r2 with
      | err e => left; rfl
      | panic p => left; rfl
      | ok v =>
        right
        exact ⟨created, hprop.1, hprop.2.1, hprop.2.2.1, by simp only; rw [hd]; exact hprop.2.2.2⟩
    · right
      exact ⟨created, hprop⟩

/-- `CreateDailyPlan` keeps the invariant "one plan per user and date". -/
theorem CreateDailyPlan_onePlanPerDay (lib : Lib) (s : Store) (gen : Nat → UUID) (userID : String)
    (req : DailyPlanRequest) (h : onePlanPerDay s) :
    onePlanPerDay (CreateDailyPlan lib s gen userID req).1 := by
  unfold CreateDailyPlan
  cases uuidParse userID with
  | err e => exact h
  | panic p => exact h
  | ok user =>
    simp only
    cases Time.Parse req.Date with
    | err e => exact h
    | panic p => exact h
    | ok date =>
      simp only
      cases hf : s.firstDailyPlanByDate user date with
      | some q => exact h
      | none =>
        simp only
        have hnone := firstBy_eq_none _ _ hf
        generalize hplan : newDailyPlan user date req = plan
        have hpu : plan.UserID = user := by rw [← hplan]; rfl
        have hpd : plan.Date = date := by rw [← hplan]; rfl
        have hpl : plan.DeletedAt = none := by rw [← hplan]; rfl
        have key : onePlanPerDay (createPlanTx s gen plan req.Activities).1 := by
          rcases createPlanTx_dailyPlans s gen plan req.Activities with hd | ⟨p, h1, h2, h3, hd⟩
          · exact onePlanPerDay_congr s _ hd h
          · unfold onePlanPerDay at h ⊢
            rw [hd]
            simp only [List.filter_append, List.map_append, List.filter_cons, h3, hpl,
              Option.isNone_none, if_true, List.filter_nil, List.map_cons, List.map_nil]
            rw [List.nodup_append]
            refine ⟨h, List.nodup_singleton _, ?_⟩
            intro k hk1 hk2
            simp only [List.mem_singleton] at hk2
            subst hk2
            simp only [List.mem_map, List.mem_filter] at hk1
            obtain ⟨q, ⟨hq, hl⟩, hkey⟩ := hk1
            simp only [Prod.mk.injEq] at hkey
            have : q ∈ s.dailyPlans.filter
                (fun p => p.DeletedAt.isNone && p.UserID == user && p.Date == date) := by
              simp [List.mem_filter, hq, hl, hkey.1, hkey.2, h1, h2, hpu, hpd]
            rw [hnone] at this
            exact absurd this (List.not_mem_nil q)
        rcases hc : createPlanTx s gen plan req.Activities with ⟨s1, r⟩
        rw [hc] at key
        cases r <;> exact key

/-- Rewriting rows so that a row either stays as it is or stops being live
leaves a sublist of the live rows. -/
theorem filter_live_map_sublist (f : DailyPlan → DailyPlan)
    (hf : ∀ a, (f a).DeletedAt.isNone = true → f a = a) (l : List DailyPlan) :
    ((l.map f).filter (fun p => p.DeletedAt.isNone)).Sublist
      (l.filter (fun p => p.DeletedAt.isNone)) := by
  induction l with
  | nil => simp
  | cons a as ih =>
    simp only [List.map_cons, List.filter_cons]
    by_cases h : (f a).DeletedAt.isNone = true
    · have e := hf a h
      rw [e] at h ⊢
      rw [if_pos h, if_pos h]
      exact List.Sublist.cons₂ _ ih
    · rw [if_neg h]
      by_cases h2 : a.DeletedAt.isNone = true
      · rw [if_pos h2]
        exact List.Sublist.cons _ ih
      · rw [if_neg h2]
        exact ih

/-- Soft deletion of plan rows keeps the invariant. -/
theorem Store.deleteDailyPlan_onePlanPerDay (s : Store) (now : Time) (id user : UUID)
    (h : onePlanPerDay s) : onePlanPerDay (s.deleteDailyPlan now id user).1 := by
  unfold onePlanPerDay at h ⊢
  unfold Store.deleteDailyPlan
  simp only
  refine List.Nodup.sublist ?_ h
  apply List.Sublist.map
  apply filter_live_map_sublist
  intro a ha
  split_ifs at ha ⊢ with hc
  · simp at ha
  · rfl

/-- `DeleteDailyPlan` keeps the invariant "one plan per user and date". -/
theorem DeleteDailyPlan_onePlanPerDay (s : Store) (now : Time) (userID planID : String)
    (h : onePlanPerDay s) : onePlanPerDay (DeleteDailyPlan s now userID planID).1 := by
  unfold DeleteDailyPlan
  cases uuidParse userID with
  | err e => exact h
  | panic p => exact h
  | ok user =>
    simp only
    cases uuidParse planID with
    | err e => exact h
    | panic p => exact h
    | ok plan =>
      simp only
      have h1 : onePlanPerDay (s.deleteActivitiesOf now plan) := onePlanPerDay_congr s _ rfl h
      have h2 := Store.deleteDailyPlan_onePlanPerDay _ now plan user h1
      split_ifs <;> exact h2

/-- `UpdateActivity` keeps the invariant "one plan per user and date". -/
theorem UpdateActivity_onePlanPerDay (s : Store) (userID planID activityID : String)
    (req : UpdateActivityRequest) (h : onePlanPerDay s) :
    onePlanPerDay (UpdateActivity s userID planID activityID req).1 := by
  unfold UpdateActivity
  cases uuidParse userID with
  | err e => exact h
  | panic p => exact h
  | ok user =>
    simp only
    cases uuidParse planID with
    | err e => exact h
    | panic p => exact h
    | ok plan =>
      simp only
      cases uuidParse activityID with
      | err e => exact h
      | panic p => exact h
      | ok act =>
        simp only
        have h1 : onePlanPerDay (s.updateActivity act plan req).1 := onePlanPerDay_congr s _ rfl h
        split_ifs
        · exact h1
        · cases (s.updateActivity act plan req).1.firstActivityByID act <;> exact h1

/-- C10, the code at the failing input.  The empty store satisfies the
invariant.  Two calls of `CreateDailyPlan` for user 10, for 2024-01-01 and
2024-01-02, lead to `storeTwoPlans`, which satisfies it.  `UpdateDailyPlan` of
the second plan with the date 2024-01-01 writes the date without looking for
another plan of that day (it succeeds with an engine that sorts the preload)
and leads to `storeSameDay`, in which user 10 has two live plans for
2024-01-01.  The other three operations keep the invariant
(`CreateDailyPlan_onePlanPerDay`, `DeleteDailyPlan_onePlanPerDay`,
`UpdateActivity_onePlanPerDay`). -/
theorem C10_update_breaks_one_plan_per_day (lib : Lib) :
    onePlanPerDay emptyStore ∧
    (CreateDailyPlan lib emptyStore sampleGen userA (planRequest "2024-01-01")).1.dailyPlans =
      [planRow 101 (Time.Date 2024 1 1 0 0 0 0)] ∧
    (CreateDailyPlan lib
      (CreateDailyPlan lib emptyStore sampleGen userA (planRequest "2024-01-01")).1
      sampleGen2 userA (planRequest "2024-01-02")).1 = storeTwoPlans ∧
    onePlanPerDay storeTwoPlans ∧
    (UpdateDailyPlan lib storeTwoPlans sampleGen3 halfPastTen userA plan201
      (planRequest "2024-01-01")).1 = storeSameDay ∧
    UpdateDailyPlan sampleLib storeTwoPlans sampleGen3 halfPastTen userA plan201
      (planRequest "2024-01-01") =
      (storeSameDay, .ok (toDailyPlanResponse
        { planRow 201 (Time.Date 2024 1 1 0 0 0 0) with
          Activities := [activityRow 301 201 none] })) ∧
    ¬ onePlanPerDay storeSameDay := by
  refine ⟨by decide, rfl, rfl, by decide, rfl, by decide, by decide⟩

/-! ## Lemmas on `UpdateDailyPlan` and `GetDailyPlan` -/

theorem UpdateDailyPlan_ok (lib : Lib) (s s' : Store) (gen : Nat → UUID) (now : Time)
    (userID planID : String) (req : DailyPlanRequest) (resp : DailyPlanResponse)
    (h : UpdateDailyPlan lib s gen now userID planID req = (s', .ok resp)) :
    ∃ userUUID planUUID date, uuidParse userID = .ok userUUID ∧ uuidParse planID = .ok planUUID ∧
      Time.Parse req.Date = .ok date ∧
      updatePlanTx s gen now planUUID userUUID date req = (s', .ok ()) ∧
      GetDailyPlan lib s' userID planID = .ok resp := by
  unfold UpdateDailyPlan at h
  split at h
  · simp at h
  · simp at h
  · rename_i userUUID hu
    split at h
    · simp at h
    · simp at h
    · rename_i planUUID hp
      split at h
      · simp at h
      · simp at h
      · rename_i date hd
        split at h
        · simp at h
        · simp at h
        · rename_i s1 u htx
          simp only [Prod.mk.injEq] at h
          obtain ⟨h1, h2⟩ := h
          subst h1
          exact ⟨userUUID, planUUID, date, hu, hp, hd, htx, h2⟩

theorem newActivityRows_spec (gen : Nat → UUID) (plan : UUID) :
    ∀ (reqs : List Services.Activity) (k : Nat),
      List.Forall₂ (fun a r => a.storedFrom r = true ∧ a.DailyPlanID = plan ∧ a.DeletedAt = none)
        (Store.newActivityRows gen k (activitiesOfRequest plan reqs)) reqs := by
  intro reqs
  induction reqs with
  | nil => intro k; exact List.Forall₂.nil
  | cons r rs ih =>
    intro k
    simp only [activitiesOfRequest, List.map_cons, Store.newActivityRows]
    refine List.Forall₂.cons ?_ (ih (k + 1))
    simp [Activity.BeforeCreate, UUID.Nil, Activity.storedFrom]

theorem Store.activitiesOf_deleteActivitiesOf (s : Store) (now : Time) (plan : UUID) :
    (s.deleteActivitiesOf now plan).activitiesOf plan = [] := by
  simp only [Store.activitiesOf, Store.deleteActivitiesOf, List.filter_eq_nil_iff, List.mem_map]
  rintro a ⟨b, _, rfl⟩
  by_cases hb : (b.DeletedAt.isNone && b.DailyPlanID == plan) = true
  · simp [hb]
  · simp [hb]

theorem Store.createActivities_ok (s s2 : Store) (gen : Nat → UUID) (k : Nat)
    (activities v : List Activity) (h : s.createActivities gen k activities = (s2, .ok v)) :
    s2.activities = s.activities ++ Store.newActivityRows gen k activities ∧
      s2.dailyPlans = s.dailyPlans ∧
      (∀ r ∈ Store.newActivityRows gen k activities, ∀ x ∈ s.activities, x.ID ≠ r.ID) := by
  unfold Store.createActivities at h
  simp only at h
  split at h
  · simp at h
  · rename_i hno
    simp only [Prod.mk.injEq] at h
    rw [← h.1]
    refine ⟨rfl, rfl, ?_⟩
    intro r hr x hx hxr
    apply hno
    left
    simp only [List.any_eq_true]
    exact ⟨r, hr, x, hx, by simp [hxr]⟩

theorem updatePlanTx_ok (s s' : Store) (gen : Nat → UUID) (now : Time) (planUUID userUUID : UUID)
    (date : Time) (req : DailyPlanRequest)
    (h : updatePlanTx s gen now planUUID userUUID date req = (s', .ok ())) :
    s'.activities = (s.deleteActivitiesOf now planUUID).activities ++
        Store.newActivityRows gen 0 (activitiesOfRequest planUUID req.Activities) ∧
      s'.dailyPlans = (s.updateDailyPlan planUUID userUUID date
        (totalEstimatedTime req.Activities) req.Status).dailyPlans ∧
      (∀ r ∈ Store.newActivityRows gen 0 (activitiesOfRequest planUUID req.Activities),
        ∀ x ∈ (s.deleteActivitiesOf now planUUID).activities, x.ID ≠ r.ID) := by
  unfold updatePlanTx at h
  simp only at h
  by_cases hlen : req.Activities.length > 0
  · rw [if_pos hlen] at h
    cases hca : ((s.updateDailyPlan planUUID userUUID date (totalEstimatedTime req.Activities)
        req.Status).deleteActivitiesOf now planUUID).createActivities gen 0
        (activitiesOfRequest planUUID req.Activities) with
    | mk s3 r =>
      rw [hca] at h
      cases r with
      | err e => simp at h
      | panic p => simp at h
      | ok v =>
        simp only [Prod.mk.injEq] at h
        rw [← h.1]
        obtain ⟨h1, h2, h3⟩ := Store.createActivities_ok _ _ _ _ _ _ hca
        exact ⟨h1, h2, h3⟩
  · rw [if_neg hlen] at h
    simp only [Prod.mk.injEq] at h
    rw [← h.1]
    have hnil : req.Activities = [] := by
      cases hr : req.Activities with
      | nil => rfl
      | cons a l => rw [hr] at hlen; simp at hlen
    rw [hnil]
    simp [activitiesOfRequest, Store.newActivityRows, Store.deleteActivitiesOf, Store.updateDailyPlan]

theorem GetDailyPlan_ok (lib : Lib) (s : Store) (userID planID : String) (resp : DailyPlanResponse)
    (h : GetDailyPlan lib s userID planID = .ok resp) :
    ∃ userUUID planUUID plan l, uuidParse userID = .ok userUUID ∧ uuidParse planID = .ok planUUID ∧
      s.firstDailyPlan planUUID userUUID = some plan ∧ plan.ID = planUUID ∧
      lib.orderedPreload (s.activitiesOf planUUID) = .ok l ∧
      resp = toDailyPlanResponse { plan with Activities := l } := by
  unfold GetDailyPlan at h
  split at h
  · simp at h
  · simp at h
  · rename_i userUUID hu
    split at h
    · simp at h
    · simp at h
    · rename_i planUUID hp
      split at h
      · simp at h
      · rename_i plan hplan
        have hid : plan.ID = planUUID := by
          have hm := firstBy_mem _ _ _ hplan
          simp only [List.mem_filter, Bool.and_eq_true, beq_iff_eq] at hm
          exact hm.2.1.2
        unfold loadPlan at h
        rw [hid] at h
        split at h
        · rename_i l hl
          simp only [Result.ok.injEq] at h
          exact ⟨userUUID, planUUID, plan, l, hu, hp, hplan, hid, hl, by rw [← h, hid]⟩
        · simp at h
        · simp at h

theorem Store.firstActivityByID_isSome (s : Store) (a : Activity) (ha : a ∈ s.activities)
    (hlive : a.DeletedAt = none) : (s.firstActivityByID a.ID).isSome = true := by
  unfold Store.firstActivityByID
  have hne : s.activities.filter (fun x => x.DeletedAt.isNone && x.ID == a.ID) ≠ [] := by
    intro hnil
    have hm : a ∈ s.activities.filter (fun x => x.DeletedAt.isNone && x.ID == a.ID) := by
      simp [List.mem_filter, ha, hlive]
    rw [hnil] at hm
    simp at hm
  obtain ⟨x, hx⟩ := firstBy_isSome Activity.ID _ hne
  rw [hx]
  rfl

theorem Store.firstActivityByID_eq_none (s : Store) (id : UUID)
    (h : ∀ x ∈ s.activities, x.DeletedAt = none → x.ID ≠ id) : s.firstActivityByID id = none := by
  unfold Store.firstActivityByID
  have hnil : s.activities.filter (fun x => x.DeletedAt.isNone && x.ID == id) = [] := by
    simp only [List.filter_eq_nil_iff, Bool.and_eq_true, beq_iff_eq, not_and, Option.isNone_iff_eq_none]
    exact h
  rw [hnil]
  rfl

theorem newActivityRows_live (gen : Nat → UUID) (plan : UUID) :
    ∀ (reqs : List Services.Activity) (k : Nat),
      ∀ a ∈ Store.newActivityRows gen k (activitiesOfRequest plan reqs),
        a.DailyPlanID = plan ∧ a.DeletedAt = none := by
  intro reqs
  induction reqs with
  | nil => intro k a ha; simp [activitiesOfRequest, Store.newActivityRows] at ha
  | cons r rs ih =>
    intro k a ha
    simp only [activitiesOfRequest, List.map_cons, Store.newActivityRows, List.mem_cons] at ha
    rcases ha with ha | ha
    · subst ha
      simp [Activity.BeforeCreate, UUID.Nil]
    · exact ih (k + 1) a ha

theorem insertByOrder_perm (a : Activity) : ∀ l : List Activity, (insertByOrder a l).Perm (a :: l) := by
  intro l
  induction l with
  | nil => exact List.Perm.refl _
  | cons b bs ih =>
    simp only [insertByOrder]
    split
    · exact List.Perm.refl _
    · exact ((List.Perm.cons b ih).trans (List.Perm.swap a b bs))

theorem foldl_insertByOrder_perm : ∀ (rows acc : List Activity),
    (rows.foldl (fun acc a => insertByOrder a acc) acc).Perm (acc ++ rows) := by
  intro rows
  induction rows with
  | nil => intro acc; simp
  | cons r rs ih =>
    intro acc
    simp only [List.foldl_cons]
    refine (ih (insertByOrder r acc)).trans ?_
    refine ((insertByOrder_perm r acc).append_right rs).trans ?_
    simp only [List.cons_append]
    exact List.perm_middle.symm

theorem sampleLib_orderedPreload_perm (rows l : List Activity)
    (h : sampleLib.orderedPreload rows = .ok l) : l.Perm rows := by
  simp only [sampleLib, Result.ok.injEq] at h
  rw [← h]
  simpa [sortByOrder] using foldl_insertByOrder_perm rows []

/-! ## C12 to C14: deleting a plan, the total estimated time, updating an activity -/

/-- C12, evaluation at the failing input.  User 11 calls `DeleteDailyPlan` for
plan 201, which belongs to user 10 and has the live activity 202.  The call
answers "daily plan not found", the plan is still there, and yet activity 202
has been deleted: the store is not the one before the call. -/
theorem C12_not_found_deletes_activities :
    uuidParse userB = .ok 11 ∧ uuidParse plan201 = .ok 201 ∧
    storeTwoPlans.firstDailyPlan 201 11 = none ∧
    storeTwoPlans.firstDailyPlan 201 10 = some (planRow 201 (Time.Date 2024 1 2 0 0 0 0)) ∧
    storeTwoPlans.activitiesOf 201 = [activityRow 202 201 none] ∧
    DeleteDailyPlan storeTwoPlans halfPastTen userB plan201 =
      (storeOrphaned, .err "daily plan not found") ∧
    storeOrphaned.firstDailyPlan 201 10 = some (planRow 201 (Time.Date 2024 1 2 0 0 0 0)) ∧
    storeOrphaned.activitiesOf 201 = [] ∧
    storeOrphaned.firstActivityByID 202 = none ∧
    storeOrphaned ≠ storeTwoPlans := by
  refine ⟨by decide, by decide, by decide, by decide, by decide, by decide, by decide, by decide,
    by decide, by decide⟩

theorem totalEstimatedTime_eq_sum (reqs : List Services.Activity)
    (hlo : -9223372036854775808 ≤ (reqs.map (fun r => r.EstimatedTime)).sum)
    (hhi : (reqs.map (fun r => r.EstimatedTime)).sum ≤ 9223372036854775807) :
    totalEstimatedTime reqs = (reqs.map (fun r => r.EstimatedTime)).sum := by
  unfold totalEstimatedTime
  have h := foldl_wrapInt64_eq (reqs.map (fun r => r.EstimatedTime)) 0
  rw [List.foldl_map] at h
  have h0 : wrapInt64 0 = 0 := by decide
  rw [h0, zero_add] at h
  rw [h, wrapInt64_of_fits _ hlo hhi]

theorem createPlanTx_total (s : Store) (gen : Nat → UUID) (plan : DailyPlan)
    (reqs : List Services.Activity) :
    (createPlanTx s gen plan reqs).1 = s ∨
    ∃ p : DailyPlan, p.UserID = plan.UserID ∧ p.TotalEstimatedTime = plan.TotalEstimatedTime ∧
      p.DeletedAt = plan.DeletedAt ∧
      (createPlanTx s gen plan reqs).1.dailyPlans = s.dailyPlans ++ [p] := by
  unfold createPlanTx
  rcases hc : s.createDailyPlan (gen 0) plan with ⟨s1, r⟩
  cases r with
  | err e => left; rfl
  | panic p => left; rfl
  | ok created =>
    have hprop : created.UserID = plan.UserID ∧
        created.TotalEstimatedTime = plan.TotalEstimatedTime ∧
        created.DeletedAt = plan.DeletedAt ∧ s1.dailyPlans = s.dailyPlans ++ [created] := by
      unfold Store.createDailyPlan at hc
      simp only at hc
      split at hc
      · simp at hc
      · simp only [Prod.mk.injEq, Result.ok.injEq] at hc
        obtain ⟨hs, hcr⟩ := hc
        subst hs hcr
        refine ⟨?_, ?_, ?_, rfl⟩ <;> (simp only [DailyPlan.BeforeCreate]; split_ifs <;> rfl)
    simp only
    split_ifs with hlen
    · rcases ha : s1.createActivities gen 1 (activitiesOfRequest created.ID reqs) with ⟨s2, r2⟩
      have hd := Store.createActivities_dailyPlans s1 gen 1 (activitiesOfRequest created.ID reqs)
      rw [ha] at hd
      cases r2 with
      | err e => left; rfl
      | panic p => left; rfl
      | ok v =>
        right
        exact ⟨created, hprop.1, hprop.2.1, hprop.2.2.1, by simp only; rw [hd]; exact hprop.2.2.2⟩
    · right
      exact ⟨created, hprop⟩

theorem CreateDailyPlan_total (lib : Lib) (s : Store) (gen : Nat → UUID) (userID : String)
    (req : DailyPlanRequest) :
    (CreateDailyPlan lib s gen userID req).1 = s ∨
    ∃ p : DailyPlan, p.TotalEstimatedTime = totalEstimatedTime req.Activities ∧
      uuidParse userID = .ok p.UserID ∧ p.DeletedAt = none ∧
      (CreateDailyPlan lib s gen userID req).1.dailyPlans = s.dailyPlans ++ [p] := by
  unfold CreateDailyPlan
  cases hu : uuidParse userID with
  | err e => left; rfl
  | panic p => left; rfl
  | ok user =>
    simp only
    cases Time.Parse req.Date with
    | err e => left; rfl
    | panic p => left; rfl
    | ok date =>
      simp only
      cases s.firstDailyPlanByDate user date with
      | some q => left; rfl
      | none =>
        simp only
        rcases createPlanTx_total s gen (newDailyPlan user date req) req.Activities with
          h | ⟨p, h1, h2, h3, h4⟩
        · left
          rcases hc : createPlanTx s gen (newDailyPlan user date req) req.Activities with ⟨s1, r⟩
          rw [hc] at h
          cases r <;> exact h
        · right
          refine ⟨p, h2, by rw [h1]; rfl, h3, ?_⟩
          rcases hc : createPlanTx s gen (newDailyPlan user date req) req.Activities with ⟨s1, r⟩
          rw [hc] at h4
          cases r <;> exact h4

theorem UpdateDailyPlan_store (lib : Lib) (s : Store) (gen : Nat → UUID) (now : Time)
    (userID planID : String) (req : DailyPlanRequest) :
    (UpdateDailyPlan lib s gen now userID planID req).1 = s ∨
    ∃ userUUID planUUID date, uuidParse userID = .ok userUUID ∧ uuidParse planID = .ok planUUID ∧
      Time.Parse req.Date = .ok date ∧
      updatePlanTx s gen now planUUID userUUID date req =
        ((UpdateDailyPlan lib s gen now userID planID req).1, .ok ()) := by
  unfold UpdateDailyPlan
  cases hu : uuidParse userID with
  | err e => left; rfl
  | panic p => left; rfl
  | ok userUUID =>
    simp only
    cases hp : uuidParse planID with
    | err e => left; rfl
    | panic p => left; rfl
    | ok planUUID =>
      simp only
      cases hd : Time.Parse req.Date with
      | err e => left; rfl
      | panic p => left; rfl
      | ok date =>
        simp only
        rcases htx : updatePlanTx s gen now planUUID userUUID date req with ⟨s1, r⟩
        cases r with
        | err e =>
          left
          unfold updatePlanTx at htx
          simp only at htx
          split_ifs at htx
          · split at htx <;> simp_all
          · simp at htx
        | panic p =>
          left
          unfold updatePlanTx at htx
          simp only at htx
          split_ifs at htx
          · split at htx <;> simp_all
          · simp at htx
        | ok u =>
          right
          exact ⟨userUUID, planUUID, date, rfl, rfl, rfl, htx⟩

/-- C13, amended claim.  For a request whose estimated times add up to a
value of the `int` range, from -2^63 to 2^63 - 1: `CreateDailyPlan` leaves the store as it is or
appends one live plan row of the caller whose total estimated time is the sum
of the estimated times of the request (0 for no activities); `UpdateDailyPlan`
leaves the store as it is or keeps every live plan row with the given id of
the caller and gives each of them that sum as total estimated time. -/
theorem C13_total_estimated_time (lib : Lib) (s : Store) (gen : Nat → UUID) (now : Time)
    (userID planID : String) (req : DailyPlanRequest)
    (hlo : -9223372036854775808 ≤ (req.Activities.map (fun r => r.EstimatedTime)).sum)
    (hhi : (req.Activities.map (fun r => r.EstimatedTime)).sum ≤ 9223372036854775807) :
    ((CreateDailyPlan lib s gen userID req).1 = s ∨
      ∃ p : DailyPlan, uuidParse userID = .ok p.UserID ∧ p.DeletedAt = none ∧
        (CreateDailyPlan lib s gen userID req).1.dailyPlans = s.dailyPlans ++ [p] ∧
        p.TotalEstimatedTime = (req.Activities.map (fun r => r.EstimatedTime)).sum) ∧
    ((UpdateDailyPlan lib s gen now userID planID req).1 = s ∨
      ∃ userUUID planUUID, uuidParse userID = .ok userUUID ∧ uuidParse planID = .ok planUUID ∧
        (∀ p ∈ s.dailyPlans, p.DeletedAt = none → p.ID = planUUID → p.UserID = userUUID →
          ∃ q ∈ (UpdateDailyPlan lib s gen now userID planID req).1.dailyPlans,
            q.DeletedAt = none ∧ q.ID = planUUID ∧ q.UserID = userUUID) ∧
        (∀ q ∈ (UpdateDailyPlan lib s gen now userID planID req).1.dailyPlans,
          q.DeletedAt = none → q.ID = planUUID → q.UserID = userUUID →
          q.TotalEstimatedTime = (req.Activities.map (fun r => r.EstimatedTime)).sum)) := by
  have hsum := totalEstimatedTime_eq_sum req.Activities hlo hhi
  refine ⟨?_, ?_⟩
  · rcases CreateDailyPlan_total lib s gen userID req with h | ⟨p, h1, h2, h3, h4⟩
    · exact Or.inl h
    · exact Or.inr ⟨p, h2, h3, h4, by rw [h1, hsum]⟩
  · rcases UpdateDailyPlan_store lib s gen now userID planID req with h | ⟨u, pl, date, hu, hp, _, htx⟩
    · exact Or.inl h
    · right
      obtain ⟨_, hplans, _⟩ := updatePlanTx_ok _ _ _ _ _ _ _ _ htx
      refine ⟨u, pl, hu, hp, ?_, ?_⟩
      · intro p hpm hlive hid huser
        refine ⟨{ p with Date := date, TotalEstimatedTime := totalEstimatedTime req.Activities,
                         Status := req.Status }, ?_, hlive, hid, huser⟩
        rw [hplans]
        simp only [Store.updateDailyPlan, List.mem_map]
        exact ⟨p, hpm, by simp [hlive, hid, huser]⟩
      · intro q hq hlive hid huser
        rw [hplans] at hq
        simp only [Store.updateDailyPlan, List.mem_map] at hq
        obtain ⟨p, _, hpq⟩ := hq
        by_cases hhit : (p.DeletedAt.isNone && p.ID == pl && p.UserID == u) = true
        · rw [if_pos hhit] at hpq
          rw [← hpq, ← hsum]
        · rw [if_neg hhit] at hpq
          subst hpq
          simp [hlive, hid, huser] at hhit

/-- C13, witness: a request with activities of 30 and 45 minutes, created as a
new plan in `storeTwoPlans` and written to plan 201 of that store. -/
theorem C13_total_estimated_time_witness :
    (reqTwoActivities.Activities.map (fun r => r.EstimatedTime)).sum = 75 ∧
    (CreateDailyPlan sampleLib storeTwoPlans sampleGen3 userA reqTwoActivities).1 ≠ storeTwoPlans ∧
    (UpdateDailyPlan sampleLib storeTwoPlans sampleGen3 halfPastTen userA plan201
      reqTwoActivities).1 ≠ storeTwoPlans ∧
    ((CreateDailyPlan sampleLib storeTwoPlans sampleGen3 userA reqTwoActivities).1 = storeTwoPlans ∨
      ∃ p : DailyPlan, uuidParse userA = .ok p.UserID ∧ p.DeletedAt = none ∧
        (CreateDailyPlan sampleLib storeTwoPlans sampleGen3 userA reqTwoActivities).1.dailyPlans =
          storeTwoPlans.dailyPlans ++ [p] ∧
        p.TotalEstimatedTime = (reqTwoActivities.Activities.map (fun r => r.EstimatedTime)).sum) ∧
    ((UpdateDailyPlan sampleLib storeTwoPlans sampleGen3 halfPastTen userA plan201
        reqTwoActivities).1 = storeTwoPlans ∨
      ∃ userUUID planUUID, uuidParse userA = .ok userUUID ∧ uuidParse plan201 = .ok planUUID ∧
        (∀ p ∈ storeTwoPlans.dailyPlans, p.DeletedAt = none → p.ID = planUUID →
          p.UserID = userUUID →
          ∃ q ∈ (UpdateDailyPlan sampleLib storeTwoPlans sampleGen3 halfPastTen userA plan201
              reqTwoActivities).1.dailyPlans,
            q.DeletedAt = none ∧ q.ID = planUUID ∧ q.UserID = userUUID) ∧
        (∀ q ∈ (UpdateDailyPlan sampleLib storeTwoPlans sampleGen3 halfPastTen userA plan201
              reqTwoActivities).1.dailyPlans,
          q.DeletedAt = none → q.ID = planUUID → q.UserID = userUUID →
          q.TotalEstimatedTime =
            (reqTwoActivities.Activities.map (fun r => r.EstimatedTime)).sum)) :=
  ⟨by decide, by decide, by decide,
    C13_total_estimated_time sampleLib storeTwoPlans sampleGen3 halfPastTen userA plan201
      reqTwoActivities (by decide) (by decide)⟩

/-- C13, counterexample to the claim as stated.  The two estimated times of
`reqHugeEstimates` add up to 2^63; the plan that `CreateDailyPlan` stores, and
the plan 201 that `UpdateDailyPlan` called by its owner stores, have the total
estimated time -2^63. -/
theorem C13_counterexample :
    (reqHugeEstimates.Activities.map (fun r => r.EstimatedTime)).sum = 9223372036854775808 ∧
    (CreateDailyPlan sampleLib emptyStore sampleGen userA reqHugeEstimates).1.dailyPlans =
      [{ planRow 101 (Time.Date 2024 1 2 0 0 0 0) with
         TotalEstimatedTime := -9223372036854775808 }] ∧
    ((CreateDailyPlan sampleLib emptyStore sampleGen userA reqHugeEstimates).2.isOk = true) ∧
    (UpdateDailyPlan sampleLib storeTwoPlans sampleGen3 halfPastTen userA plan201
      reqHugeEstimates).1.dailyPlans =
      [planRow 101 (Time.Date 2024 1 1 0 0 0 0),
       { planRow 201 (Time.Date 2024 1 2 0 0 0 0) with
         TotalEstimatedTime := -9223372036854775808 }] := by
  refine ⟨by decide, by decide, by decide, by decide⟩

theorem UpdateActivity_ok (s s' : Store) (userID planID activityID : String)
    (req : UpdateActivityRequest) (resp : ActivityResponse)
    (h : UpdateActivity s userID planID activityID req = (s', .ok resp)) :
    ∃ planUUID activityUUID x, uuidParse planID = .ok planUUID ∧
      uuidParse activityID = .ok activityUUID ∧
      s.updateActivity activityUUID planUUID req = (s', x) ∧ x ≠ 0 ∧
      ∃ activity, s'.firstActivityByID activityUUID = some activity ∧
        resp = toActivityResponse activity := by
  unfold UpdateActivity at h
  split at h
  · simp at h
  · simp at h
  · split at h
    · simp at h
    · simp at h
    · rename_i planUUID hp
      split at h
      · simp at h
      · simp at h
      · rename_i activityUUID ha
        split at h
        rename_i s1 rows hup
        split_ifs at h with h0
        · simp at h
        · split at h
          · simp at h
          · rename_i activity hact
            simp only [Prod.mk.injEq, Result.ok.injEq] at h
            obtain ⟨h1, h2⟩ := h
            subst h1
            exact ⟨planUUID, activityUUID, rows, hp, ha, hup, h0, activity, hact, h2.symm⟩

/-- C14, amended claim.  When `UpdateActivity` succeeds on a store whose
activity ids are unique, there is exactly one live activity with the given id
in the given plan; it is replaced by the row with the same id, plan and
deletion mark whose description, estimated time, actual time, status,
category, priority and order are those of the request, whether they are
supplied or empty, absent or 0; every other activity and every plan stays as
it is, and the answer carries the seven values of the request. -/
theorem C14_update_activity_overwrites (s s' : Store) (userID planID activityID : String)
    (req : UpdateActivityRequest) (resp : ActivityResponse)
    (hpk : (s.activities.map Activity.ID).Nodup)
    (h : UpdateActivity s userID planID activityID req = (s', .ok resp)) :
    ∃ planUUID activityUUID a, uuidParse planID = .ok planUUID ∧
      uuidParse activityID = .ok activityUUID ∧
      a ∈ s.activities ∧ a.DeletedAt = none ∧ a.ID = activityUUID ∧ a.DailyPlanID = planUUID ∧
      s'.activities = s.activities.map (fun b => if b = a then a.overwrittenBy req else b) ∧
      s'.dailyPlans = s.dailyPlans ∧
      s'.firstActivityByID activityUUID = some (a.overwrittenBy req) ∧
      resp = { ID := activityUUID, Description := req.Description,
               EstimatedTime := req.EstimatedTime, ActualTime := req.ActualTime,
               Status := req.Status, Category := req.Category, Priority := req.Priority,
               Order := req.Order } := by
  obtain ⟨planUUID, activityUUID, x, hp, ha, hup, hx, activity, hfirst, hresp⟩ :=
    UpdateActivity_ok _ _ _ _ _ _ _ h
  unfold Store.updateActivity at hup
  simp only [Prod.mk.injEq] at hup
  obtain ⟨hs, hcount⟩ := hup
  have hne : s.activities.filter
      (fun a => a.DeletedAt.isNone && a.ID == activityUUID && a.DailyPlanID == planUUID) ≠ [] := by
    intro hnil
    rw [hnil] at hcount
    exact hx hcount.symm
  obtain ⟨a, ham⟩ := List.exists_mem_of_ne_nil _ hne
  simp only [List.mem_filter, Bool.and_eq_true, beq_iff_eq, Option.isNone_iff_eq_none] at ham
  obtain ⟨hmem, ⟨hlive, hid⟩, hplan⟩ := ham
  have hmap : s.activities.map (fun b =>
      if (b.DeletedAt.isNone && b.ID == activityUUID && b.DailyPlanID == planUUID) = true then
        { b with Description := req.Description, EstimatedTime := req.EstimatedTime,
                 ActualTime := req.ActualTime, Status := req.Status, Category := req.Category,
                 Priority := req.Priority, Order := req.Order }
      else b) = s.activities.map (fun b => if b = a then a.overwrittenBy req else b) := by
    apply List.map_congr_left
    intro b hb
    by_cases hhit : (b.DeletedAt.isNone && b.ID == activityUUID && b.DailyPlanID == planUUID) = true
    · have hbid : b.ID = a.ID := by
        simp only [Bool.and_eq_true, beq_iff_eq] at hhit
        rw [hhit.1.2, hid]
      have hba : b = a := List.inj_on_of_nodup_map hpk hb hmem hbid
      rw [if_pos hhit, if_pos hba, hba]
      rfl
    · have hba : b ≠ a := by
        intro hba
        rw [hba] at hhit
        simp [hlive, hid, hplan] at hhit
      rw [if_neg hhit, if_neg hba]
  have hs' : s'.activities =
      s.activities.map (fun b => if b = a then a.overwrittenBy req else b) := by
    rw [← hs, ← hmap]
  have hact : activity = a.overwrittenBy req := by
    have hm := firstBy_mem _ _ _ hfirst
    simp only [List.mem_filter, Bool.and_eq_true, beq_iff_eq, Option.isNone_iff_eq_none] at hm
    obtain ⟨hm1, _, hm3⟩ := hm
    rw [hs'] at hm1
    simp only [List.mem_map] at hm1
    obtain ⟨b, hb, hbe⟩ := hm1
    by_cases hba : b = a
    · rw [if_pos hba] at hbe
      exact hbe.symm
    · rw [if_neg hba] at hbe
      subst hbe
      exact absurd (List.inj_on_of_nodup_map hpk hb hmem (hm3.trans hid.symm)) hba
  refine ⟨planUUID, activityUUID, a, hp, ha, hmem, hlive, hid, hplan, hs', by rw [← hs], ?_, ?_⟩
  · rw [hfirst, hact]
  · rw [hresp, hact, ← hid]
    rfl

/-- C14, witness: activity 202 of `storeTwoPlans` is overwritten with
`reqEstimateOnly`. -/
theorem C14_update_activity_overwrites_witness :
    (storeTwoPlans.activities.map Activity.ID).Nodup ∧
    ∃ planUUID activityUUID a, uuidParse plan201 = .ok planUUID ∧
      uuidParse activity202 = .ok activityUUID ∧
      a ∈ storeTwoPlans.activities ∧ a.DeletedAt = none ∧ a.ID = activityUUID ∧
      a.DailyPlanID = planUUID ∧
      (UpdateActivity storeTwoPlans userA plan201 activity202 reqEstimateOnly).1.activities =
        storeTwoPlans.activities.map
          (fun b => if b = a then a.overwrittenBy reqEstimateOnly else b) ∧
      (UpdateActivity storeTwoPlans userA plan201 activity202 reqEstimateOnly).1.dailyPlans =
        storeTwoPlans.dailyPlans ∧
      (UpdateActivity storeTwoPlans userA plan201 activity202 reqEstimateOnly).1.firstActivityByID
        activityUUID = some (a.overwrittenBy reqEstimateOnly) ∧
      ({ ID := 202, Description := "", EstimatedTime := 45, ActualTime := none, Status := "",
         Category := "", Priority := "", Order := 0 } : ActivityResponse) =
        { ID := activityUUID, Description := reqEstimateOnly.Description,
          EstimatedTime := reqEstimateOnly.EstimatedTime, ActualTime := reqEstimateOnly.ActualTime,
          Status := reqEstimateOnly.Status, Category := reqEstimateOnly.Category,
          Priority := reqEstimateOnly.Priority, Order := reqEstimateOnly.Order } :=
  ⟨by decide,
    C14_update_activity_overwrites storeTwoPlans _ userA plan201 activity202 reqEstimateOnly _
      (by decide) (by decide)⟩

/-- C14, counterexample to the claim as stated.  Activity 202 has the
description "Morning routine", status "pending", category "Personal",
priority "medium" and order 1; the request `reqEstimateOnly` supplies the
estimated time only, and after `UpdateActivity` the five fields are empty or
0 in the stored row and in the answer. -/
theorem C14_counterexample :
    storeTwoPlans.firstActivityByID 202 = some (activityRow 202 201 none) ∧
    (activityRow 202 201 none).Description = "Morning routine" ∧
    reqEstimateOnly.Description = "" ∧
    (UpdateActivity storeTwoPlans userA plan201 activity202 reqEstimateOnly).2 =
      .ok { ID := 202, Description := "", EstimatedTime := 45, ActualTime := none, Status := "",
            Category := "", Priority := "", Order := 0 } ∧
    (UpdateActivity storeTwoPlans userA plan201 activity202 reqEstimateOnly).1.firstActivityByID 202 =
      some { ID := 202, DailyPlanID := 201, Description := "", EstimatedTime := 45,
             ActualTime := none, Status := "", Category := "", Priority := "", Order := 0,
             DeletedAt := none } := by
  refine ⟨by decide, by decide, by decide, by decide, by decide⟩

/-! ## C15 and C16: access by another user, pagination -/

theorem Store.firstTimeEntry_eq_none (s : Store) (id user : UUID)
    (h : ∀ x ∈ s.timeEntries, x.ID = id → x.UserID ≠ user) : s.firstTimeEntry id user = none := by
  unfold Store.firstTimeEntry
  have hnil : s.timeEntries.filter
      (fun e => e.DeletedAt.isNone && e.ID == id && e.UserID == user) = [] := by
    simp only [List.filter_eq_nil_iff, Bool.and_eq_true, beq_iff_eq, not_and]
    intro x hx hx2
    exact h x hx hx2.2
  rw [hnil]
  rfl

theorem Store.deleteTimeEntry_eq (s : Store) (now : Time) (id user : UUID)
    (h : ∀ x ∈ s.timeEntries, x.ID = id → x.UserID ≠ user) :
    s.deleteTimeEntry now id user = (s, 0) := by
  unfold Store.deleteTimeEntry
  have hno : ∀ x ∈ s.timeEntries,
      (x.DeletedAt.isNone && x.ID == id && x.UserID == user) = false := by
    intro x hx
    by_cases hid : x.ID = id
    · simp [hid, h x hx hid]
    · simp [hid]
  have hmap : s.timeEntries.map (fun e =>
      if (e.DeletedAt.isNone && e.ID == id && e.UserID == user) = true then
        { e with DeletedAt := some now } else e) = s.timeEntries := by
    conv => rhs; rw [← List.map_id s.timeEntries]
    apply List.map_congr_left
    intro x hx
    simp [hno x hx]
  have hfil : s.timeEntries.filter
      (fun e => e.DeletedAt.isNone && e.ID == id && e.UserID == user) = [] := by
    simp only [List.filter_eq_nil_iff]
    intro x hx
    simp [hno x hx]
  simp only [hmap, hfil, List.length_nil]

/-- C15, amended claim.  In a store whose time entry ids are unique, for
every time entry and every user other than its owner, called with that user's
id and the id of the entry: `GetTimeEntry` and `DeleteTimeEntry` return "time
entry not found" and their handlers answer 404; `UpdateTimeEntry` returns
"time entry not found" (handler: 404) when the request does not end before it
starts, and "end time cannot be before start time" (handler: 400) when it
does; in every case the store is the one before the call. -/
theorem C15_cross_user_not_found (s : Store) (gen : Nat → UUID) (now : Time) (e : TimeEntry)
    (userID entryID : String) (userUUID : UUID) (req : TimeEntryRequest)
    (hpk : (s.timeEntries.map TimeEntry.ID).Nodup) (he : e ∈ s.timeEntries)
    (hu : uuidParse userID = .ok userUUID) (hid : uuidParse entryID = .ok e.ID)
    (hother : userUUID ≠ e.UserID) :
    GetTimeEntry s userID entryID = .err "time entry not found" ∧
    TimeHandler.GetTimeEntry s (some userID) entryID = 404 ∧
    (endBeforeStart req = false →
      UpdateTimeEntry s gen userID entryID req = (s, .err "time entry not found") ∧
      TimeHandler.UpdateTimeEntry s gen (some userID) entryID (.ok req) = (s, 404)) ∧
    (endBeforeStart req = true →
      UpdateTimeEntry s gen userID entryID req = (s, .err "end time cannot be before start time") ∧
      TimeHandler.UpdateTimeEntry s gen (some userID) entryID (.ok req) = (s, 400)) ∧
    DeleteTimeEntry s now userID entryID = (s, .err "time entry not found") ∧
    TimeHandler.DeleteTimeEntry s now (some userID) entryID = (s, 404) := by
  have hno : ∀ x ∈ s.timeEntries, x.ID = e.ID → x.UserID ≠ userUUID := by
    intro x hx hxe
    rw [List.inj_on_of_nodup_map hpk hx he hxe]
    exact fun h => hother h.symm
  have hne : entryID ≠ "" := by
    intro h
    rw [h] at hid
    have h0 : (uuidParse "").isOk = false := by decide
    rw [hid] at h0
    simp [Result.isOk] at h0
  have hget : GetTimeEntry s userID entryID = .err "time entry not found" := by
    unfold GetTimeEntry
    rw [hu, hid]
    simp only [Store.firstTimeEntry_eq_none s e.ID userUUID hno]
  have hdel : DeleteTimeEntry s now userID entryID = (s, .err "time entry not found") := by
    unfold DeleteTimeEntry
    rw [hu, hid]
    simp only [Store.deleteTimeEntry_eq s now e.ID userUUID hno, if_true]
  have hupd1 : endBeforeStart req = false →
      UpdateTimeEntry s gen userID entryID req = (s, .err "time entry not found") := by
    intro hr
    unfold UpdateTimeEntry
    rw [hu, hid]
    simp only [hr, Store.firstTimeEntry_eq_none s e.ID userUUID hno]
    rfl
  have hupd2 : endBeforeStart req = true →
      UpdateTimeEntry s gen userID entryID req =
        (s, .err "end time cannot be before start time") := by
    intro hr
    unfold UpdateTimeEntry
    rw [hu, hid]
    simp only [hr, if_true]
  refine ⟨hget, ?_, ?_, ?_, hdel, ?_⟩
  · simp only [TimeHandler.GetTimeEntry, if_neg hne, hget, if_true]
  · intro hr
    refine ⟨hupd1 hr, ?_⟩
    simp only [TimeHandler.UpdateTimeEntry, if_neg hne, hupd1 hr, if_true]
  · intro hr
    refine ⟨hupd2 hr, ?_⟩
    simp only [TimeHandler.UpdateTimeEntry, if_neg hne, hupd2 hr]
    rfl
  · simp only [TimeHandler.DeleteTimeEntry, if_neg hne, hdel, if_true]

/-- C15, witness: user 11 addresses entry 101 of user 10. -/
theorem C15_cross_user_not_found_witness :
    (storedRow 101 reqNinetyMinutes (some 5400)) ∈
      (storeWith (storedRow 101 reqNinetyMinutes (some 5400))).timeEntries ∧
    uuidParse userB = .ok 11 ∧
    uuidParse entry101 = .ok (storedRow 101 reqNinetyMinutes (some 5400)).ID ∧
    (11 : UUID) ≠ (storedRow 101 reqNinetyMinutes (some 5400)).UserID ∧
    endBeforeStart reqNinetyMinutes = false ∧ endBeforeStart reqEndBeforeStart = true ∧
    (GetTimeEntry (storeWith (storedRow 101 reqNinetyMinutes (some 5400))) userB entry101 =
        .err "time entry not found" ∧
      TimeHandler.GetTimeEntry (storeWith (storedRow 101 reqNinetyMinutes (some 5400)))
        (some userB) entry101 = 404 ∧
      (endBeforeStart reqNinetyMinutes = false →
        UpdateTimeEntry (storeWith (storedRow 101 reqNinetyMinutes (some 5400))) sampleGen userB
          entry101 reqNinetyMinutes =
          (storeWith (storedRow 101 reqNinetyMinutes (some 5400)), .err "time entry not found") ∧
        TimeHandler.UpdateTimeEntry (storeWith (storedRow 101 reqNinetyMinutes (some 5400)))
          sampleGen (some userB) entry101 (.ok reqNinetyMinutes) =
          (storeWith (storedRow 101 reqNinetyMinutes (some 5400)), 404)) ∧
      (endBeforeStart reqNinetyMinutes = true →
        UpdateTimeEntry (storeWith (storedRow 101 reqNinetyMinutes (some 5400))) sampleGen userB
          entry101 reqNinetyMinutes =
          (storeWith (storedRow 101 reqNinetyMinutes (some 5400)),
           .err "end time cannot be before start time") ∧
        TimeHandler.UpdateTimeEntry (storeWith (storedRow 101 reqNinetyMinutes (some 5400)))
          sampleGen (some userB) entry101 (.ok reqNinetyMinutes) =
          (storeWith (storedRow 101 reqNinetyMinutes (some 5400)), 400)) ∧
      DeleteTimeEntry (storeWith (storedRow 101 reqNinetyMinutes (some 5400))) halfPastTen userB
        entry101 =
        (storeWith (storedRow 101 reqNinetyMinutes (some 5400)), .err "time entry not found") ∧
      TimeHandler.DeleteTimeEntry (storeWith (storedRow 101 reqNinetyMinutes (some 5400)))
        halfPastTen (some userB) entry101 =
        (storeWith (storedRow 101 reqNinetyMinutes (some 5400)), 404)) :=
  ⟨by decide, by decide, by decide, by decide, by decide, by decide,
    C15_cross_user_not_found (storeWith (storedRow 101 reqNinetyMinutes (some 5400))) sampleGen
      halfPastTen (storedRow 101 reqNinetyMinutes (some 5400)) userB entry101 11 reqNinetyMinutes
      (by decide) (by decide) (by decide) (by decide) (by decide)⟩

/-- C15, counterexample to the claim as stated.  Entry 101 belongs to user 10;
`UpdateTimeEntry` called by user 11 with a request that ends before it starts
returns "end time cannot be before start time", which the handler answers
with 400, not "time entry not found" with 404. -/
theorem C15_counterexample :
    (storeWith (storedRow 101 reqNinetyMinutes (some 5400))).firstTimeEntryByID 101 =
      some (storedRow 101 reqNinetyMinutes (some 5400)) ∧
    (storedRow 101 reqNinetyMinutes (some 5400)).UserID = 10 ∧
    uuidParse userB = .ok 11 ∧ uuidParse entry101 = .ok 101 ∧
    UpdateTimeEntry (storeWith (storedRow 101 reqNinetyMinutes (some 5400))) sampleGen userB
      entry101 reqEndBeforeStart =
      (storeWith (storedRow 101 reqNinetyMinutes (some 5400)),
       .err "end time cannot be before start time") ∧
    TimeHandler.UpdateTimeEntry (storeWith (storedRow 101 reqNinetyMinutes (some 5400))) sampleGen
      (some userB) entry101 (.ok reqEndBeforeStart) =
      (storeWith (storedRow 101 reqNinetyMinutes (some 5400)), 400) ∧
    "end time cannot be before start time" ≠ "time entry not found" := by
  refine ⟨by decide, by decide, by decide, by decide, by decide, by decide, by decide⟩

theorem timePagination_eq (tp : TimeQueryParams) :
    TimeHandler.validatePagination tp =
      { tp with Page := if tp.Page ≥ 1 then tp.Page else 1,
                Limit := if 1 ≤ tp.Limit ∧ tp.Limit ≤ 100 then tp.Limit else 20 } := by
  unfold TimeHandler.validatePagination
  by_cases hp : tp.Page < 1 <;> by_cases hl : tp.Limit < 1 ∨ tp.Limit > 100
  · have h1 : ¬ tp.Page ≥ 1 := by omega
    have h2 : ¬ (1 ≤ tp.Limit ∧ tp.Limit ≤ 100) := by omega
    simp only [if_pos hp, if_pos hl, if_neg h1, if_neg h2]
  · have h1 : ¬ tp.Page ≥ 1 := by omega
    have h2 : 1 ≤ tp.Limit ∧ tp.Limit ≤ 100 := by omega
    simp only [if_pos hp, if_neg hl, if_neg h1, if_pos h2]
  · have h1 : tp.Page ≥ 1 := by omega
    have h2 : ¬ (1 ≤ tp.Limit ∧ tp.Limit ≤ 100) := by omega
    simp only [if_neg hp, if_pos hl, if_pos h1, if_neg h2]
  · have h1 : tp.Page ≥ 1 := by omega
    have h2 : 1 ≤ tp.Limit ∧ tp.Limit ≤ 100 := by omega
    simp only [if_neg hp, if_neg hl, if_pos h1, if_pos h2]

theorem planPagination_eq (dp : DailyPlanQueryParams) :
    DailyPlanHandler.validatePagination dp =
      { dp with Page := if dp.Page ≥ 1 then dp.Page else 1,
                Limit := if 1 ≤ dp.Limit ∧ dp.Limit ≤ 100 then dp.Limit else 20 } := by
  unfold DailyPlanHandler.validatePagination
  by_cases hp : dp.Page < 1 <;> by_cases hl : dp.Limit < 1 ∨ dp.Limit > 100
  · have h1 : ¬ dp.Page ≥ 1 := by omega
    have h2 : ¬ (1 ≤ dp.Limit ∧ dp.Limit ≤ 100) := by omega
    simp only [if_pos hp, if_pos hl, if_neg h1, if_neg h2]
  · have h1 : ¬ dp.Page ≥ 1 := by omega
    have h2 : 1 ≤ dp.Limit ∧ dp.Limit ≤ 100 := by omega
    simp only [if_pos hp, if_neg hl, if_neg h1, if_pos h2]
  · have h1 : dp.Page ≥ 1 := by omega
    have h2 : ¬ (1 ≤ dp.Limit ∧ dp.Limit ≤ 100) := by omega
    simp only [if_neg hp, if_pos hl, if_pos h1, if_neg h2]
  · have h1 : dp.Page ≥ 1 := by omega
    have h2 : 1 ≤ dp.Limit ∧ dp.Limit ≤ 100 := by omega
    simp only [if_neg hp, if_neg hl, if_pos h1, if_pos h2]

/-- C16.  For every page and limit that the list handlers `GetTimeEntries` and
`GetDailyPlans` receive, the parameters that reach the service (observed with
a service that answers with its parameters) are the received ones with the
page replaced by 1 unless it is at least 1 and the limit replaced by 20 unless
it lies in 1..100; so the effective page is at least 1 and the effective
limit lies in 1..100. -/
theorem C16_pagination_clamped (uid : String) (tp : TimeQueryParams) (dp : DailyPlanQueryParams) :
    ∃ (tp1 : TimeQueryParams) (dp1 : DailyPlanQueryParams),
      TimeHandler.GetTimeEntries echoService (some uid) (.ok tp) = (200, some tp1) ∧
      DailyPlanHandler.GetDailyPlans echoService (some uid) (.ok dp) =
        (200, some (dp1, dp1.Page, dp1.Limit)) ∧
      tp1 = { tp with Page := if tp.Page ≥ 1 then tp.Page else 1,
                      Limit := if 1 ≤ tp.Limit ∧ tp.Limit ≤ 100 then tp.Limit else 20 } ∧
      dp1 = { dp with Page := if dp.Page ≥ 1 then dp.Page else 1,
                      Limit := if 1 ≤ dp.Limit ∧ dp.Limit ≤ 100 then dp.Limit else 20 } ∧
      1 ≤ tp1.Page ∧ 1 ≤ tp1.Limit ∧ tp1.Limit ≤ 100 ∧
      1 ≤ dp1.Page ∧ 1 ≤ dp1.Limit ∧ dp1.Limit ≤ 100 := by
  refine ⟨TimeHandler.validatePagination tp, DailyPlanHandler.validatePagination dp, rfl, rfl,
    timePagination_eq tp, planPagination_eq dp, ?_⟩
  rw [timePagination_eq tp, planPagination_eq dp]
  simp only
  refine ⟨?_, ?_, ?_, ?_, ?_, ?_⟩ <;> split_ifs <;> omega

/-! ## C17 to C20: the statistics service -/

/-- The week start of `GetStatisticsOverview` is always midnight of a Monday.
On every day but Sunday it is not after `now` and less than 7 days before it;
on a Sunday it is midnight of the next day. -/
theorem weekStart_spec (now : Time) :
    (GetStatisticsOverview.weekStart now).Weekday = 1 ∧
    (GetStatisticsOverview.weekStart now).ns % 86400000000000 = 0 ∧
    (now.Weekday ≠ 0 →
      (GetStatisticsOverview.weekStart now).ns ≤ now.ns ∧
      now.ns - (GetStatisticsOverview.weekStart now).ns < 7 * 86400000000000) ∧
    (now.Weekday = 0 →
      now.ns < (GetStatisticsOverview.weekStart now).ns ∧
      (GetStatisticsOverview.weekStart now).ns =
        (now.ns / 86400000000000 + 1) * 86400000000000) := by
  simp only [GetStatisticsOverview.weekStart, Time.startOfDay, Time.AddDate, Time.Weekday]
  refine ⟨?_, ?_, ?_, ?_⟩
  · omega
  · omega
  · intro h; omega
  · intro h; omega

/-- C17, evaluation at the failing input.  At noon of Sunday 2024-01-07 the
start of the "this week" window is midnight of Monday 2024-01-08, after
`now`; the Monday of the week that contains that Sunday is 2024-01-01, which
is the week start computed on the Saturday before. -/
theorem C17_week_start_on_sunday :
    sundayNoon.Format = "2024-01-07" ∧ sundayNoon.Weekday = 0 ∧
    (Time.Date 2024 1 1 0 0 0 0).Weekday = 1 ∧
    GetStatisticsOverview.weekStart (Time.Date 2024 1 6 12 0 0 0) = Time.Date 2024 1 1 0 0 0 0 ∧
    GetStatisticsOverview.weekStart sundayNoon = Time.Date 2024 1 8 0 0 0 0 ∧
    (GetStatisticsOverview.weekStart sundayNoon).Weekday = 1 ∧
    (GetStatisticsOverview.weekStart sundayNoon).After sundayNoon = true := by
  refine ⟨by decide, by decide, by decide, by decide, by decide, by decide, by decide⟩

theorem getCategoryStats.totalSum_eq (rows : List CategoryTime) :
    getCategoryStats.totalSum rows = wrapInt64 ((rows.map (fun r => r.TotalTime)).sum) := by
  unfold getCategoryStats.totalSum
  have h := foldl_wrapInt64_eq (rows.map (fun r => r.TotalTime)) 0
  rw [List.foldl_map] at h
  have h0 : wrapInt64 0 = 0 := by decide
  rw [h0, zero_add] at h
  exact h

theorem getCategoryStats.convert_spec (total : Int) : ∀ (rows : List CategoryTime) (i : Nat),
    List.Forall₂ (fun (st : CategoryStat) (ct : CategoryTime) =>
        st.Category = ct.Category ∧ st.TotalTime = ct.TotalTime ∧ st.Count = ct.Count ∧
        st.Percentage = (if total > 0 then (ct.TotalTime : ℚ) / (total : ℚ) * 100 else 0) ∧
        st.Color ∈ categoryColors)
      (getCategoryStats.convert total i rows) rows := by
  intro rows
  induction rows with
  | nil => intro i; exact List.Forall₂.nil
  | cons ct rest ih =>
    intro i
    refine List.Forall₂.cons ⟨rfl, rfl, rfl, rfl, ?_⟩ (ih (i + 1))
    have hlt : i % categoryColors.length < categoryColors.length :=
      Nat.mod_lt _ (by decide)
    simp only [List.getD_eq_getElem?_getD, List.getElem?_eq_getElem hlt, Option.getD_some]
    exact List.getElem_mem _

theorem getCategoryStats.convert_sum (total : Int) : ∀ (rows : List CategoryTime) (i : Nat),
    ((getCategoryStats.convert total i rows).map (fun st => st.Percentage)).sum =
      if total > 0 then (((rows.map (fun r => r.TotalTime)).sum : Int) : ℚ) / (total : ℚ) * 100
      else 0 := by
  intro rows
  induction rows with
  | nil => intro i; simp [getCategoryStats.convert]
  | cons ct rest ih =>
    intro i
    simp only [getCategoryStats.convert, List.map_cons, List.sum_cons, ih (i + 1)]
    split_ifs
    · push_cast
      ring
    · simp

theorem getCategoryStats.convert_zero (total : Int) (h : total ≤ 0) :
    ∀ (rows : List CategoryTime) (i : Nat), ∀ st ∈ getCategoryStats.convert total i rows,
      st.Percentage = 0 := by
  intro rows
  induction rows with
  | nil => intro i st hst; simp [getCategoryStats.convert] at hst
  | cons ct rest ih =>
    intro i st hst
    simp only [getCategoryStats.convert, List.mem_cons] at hst
    rcases hst with hst | hst
    · rw [hst]
      exact if_neg (by omega)
    · exact ih (i + 1) st hst

/-- C18, amended claim.  For every list of per-category rows whose totals add
up to at most 2^63 - 1: when the sum of the totals is positive the
percentages of `getCategoryStats` add up to 100 (over the rationals), and
when it is 0 every percentage is 0. -/
theorem C18_percentages_add_up (rows : List CategoryTime)
    (hfit : (rows.map (fun r => r.TotalTime)).sum ≤ 9223372036854775807) :
    (0 < (rows.map (fun r => r.TotalTime)).sum →
      ((getCategoryStats rows).map (fun st => st.Percentage)).sum = 100) ∧
    ((rows.map (fun r => r.TotalTime)).sum = 0 →
      ∀ st ∈ getCategoryStats rows, st.Percentage = 0) := by
  constructor
  · intro hpos
    have htot : getCategoryStats.totalSum rows = (rows.map (fun r => r.TotalTime)).sum := by
      rw [getCategoryStats.totalSum_eq, wrapInt64_of_fits _ (by omega) hfit]
    unfold getCategoryStats
    rw [getCategoryStats.convert_sum, htot, if_pos hpos]
    have hne : (((rows.map (fun r => r.TotalTime)).sum : Int) : ℚ) ≠ 0 := by
      exact_mod_cast (ne_of_gt hpos)
    rw [div_self hne]
    norm_num
  · intro hzero st hst
    have htot : getCategoryStats.totalSum rows = 0 := by
      rw [getCategoryStats.totalSum_eq, hzero]
      decide
    unfold getCategoryStats at hst
    rw [htot] at hst
    exact getCategoryStats.convert_zero 0 (le_refl 0) rows 0 st hst

/-- C18, witness: totals 3600, 1800 and 600 give the percentages 60, 30 and 10. -/
theorem C18_percentages_add_up_witness :
    (sampleCategoryTimes.map (fun r => r.TotalTime)).sum = 6000 ∧
    (getCategoryStats sampleCategoryTimes).map (fun st => st.Percentage) = [60, 30, 10] ∧
    ((0 < (sampleCategoryTimes.map (fun r => r.TotalTime)).sum →
      ((getCategoryStats sampleCategoryTimes).map (fun st => st.Percentage)).sum = 100) ∧
    ((sampleCategoryTimes.map (fun r => r.TotalTime)).sum = 0 →
      ∀ st ∈ getCategoryStats sampleCategoryTimes, st.Percentage = 0)) :=
  ⟨by decide,
    by
      have htot : getCategoryStats.totalSum sampleCategoryTimes = 6000 := by decide
      simp only [getCategoryStats, htot]
      simp only [sampleCategoryTimes, getCategoryStats.convert, List.map_cons, List.map_nil]
      norm_num,
    C18_percentages_add_up sampleCategoryTimes (by decide)⟩

/-- C18, counterexample to the claim as stated.  The two totals of
`hugeCategoryTimes` are non-negative and add up to 2^63; the 64-bit sum of
`getCategoryStats` is -2^63, both percentages are 0 and they do not add up
to 100. -/
theorem C18_counterexample :
    hugeCategoryTimes ≠ [] ∧ (∀ r ∈ hugeCategoryTimes, 0 ≤ r.TotalTime) ∧
    0 < (hugeCategoryTimes.map (fun r => r.TotalTime)).sum ∧
    getCategoryStats.totalSum hugeCategoryTimes = -9223372036854775808 ∧
    (getCategoryStats hugeCategoryTimes).map (fun st => st.Percentage) = [0, 0] ∧
    ((getCategoryStats hugeCategoryTimes).map (fun st => st.Percentage)).sum ≠ 100 := by
  have htot : getCategoryStats.totalSum hugeCategoryTimes = -9223372036854775808 := by decide
  have hpct : (getCategoryStats hugeCategoryTimes).map (fun st => st.Percentage) = [0, 0] := by
    simp only [getCategoryStats, htot]
    simp [hugeCategoryTimes, getCategoryStats.convert]
  refine ⟨by decide, by decide, by decide, htot, hpct, ?_⟩
  rw [hpct]
  norm_num

/-- C19, amended claim.  For every list of rows of the grouping query whose
totals add up to a value of the `int64` range, `getCategoryStats` returns one
stat per row in the same order, with the category, the total time and the
count of the row, a colour of the palette, and the percentage
`total time / sum of all totals * 100` when that sum is positive and 0
otherwise. -/
theorem C19_category_stats_rows (rows : List CategoryTime)
    (hlo : -9223372036854775808 ≤ (rows.map (fun r => r.TotalTime)).sum)
    (hhi : (rows.map (fun r => r.TotalTime)).sum ≤ 9223372036854775807) :
    List.Forall₂ (fun (st : CategoryStat) (ct : CategoryTime) =>
        st.Category = ct.Category ∧ st.TotalTime = ct.TotalTime ∧ st.Count = ct.Count ∧
        st.Percentage =
          (if (rows.map (fun r => r.TotalTime)).sum > 0 then
            (ct.TotalTime : ℚ) / (((rows.map (fun r => r.TotalTime)).sum : Int) : ℚ) * 100
          else 0) ∧
        st.Color ∈ categoryColors)
      (getCategoryStats rows) rows := by
  have htot : getCategoryStats.totalSum rows = (rows.map (fun r => r.TotalTime)).sum := by
    rw [getCategoryStats.totalSum_eq, wrapInt64_of_fits _ hlo hhi]
  unfold getCategoryStats
  rw [htot]
  exact getCategoryStats.convert_spec _ rows 0

/-- C19, witness: the rows `sampleCategoryTimes`. -/
theorem C19_category_stats_rows_witness :
    (sampleCategoryTimes.map (fun r => r.TotalTime)).sum = 6000 ∧
    List.Forall₂ (fun (st : CategoryStat) (ct : CategoryTime) =>
        st.Category = ct.Category ∧ st.TotalTime = ct.TotalTime ∧ st.Count = ct.Count ∧
        st.Percentage =
          (if (sampleCategoryTimes.map (fun r => r.TotalTime)).sum > 0 then
            (ct.TotalTime : ℚ) /
              (((sampleCategoryTimes.map (fun r => r.TotalTime)).sum : Int) : ℚ) * 100
          else 0) ∧
        st.Color ∈ categoryColors)
      (getCategoryStats sampleCategoryTimes) sampleCategoryTimes :=
  ⟨by decide, C19_category_stats_rows sampleCategoryTimes (by decide) (by decide)⟩

/-- C19, counterexample to the claim as stated.  The totals of
`hugeCategoryTimes` add up to 2^63, so that each row is 50 percent of the
sum; `getCategoryStats` returns the percentage 0 for both rows. -/
theorem C19_counterexample :
    (hugeCategoryTimes.map (fun r => r.TotalTime)).sum = 9223372036854775808 ∧
    hugeCategoryTimes.map (fun ct => (ct.TotalTime : ℚ) /
      (((hugeCategoryTimes.map (fun r => r.TotalTime)).sum : Int) : ℚ) * 100) = [50, 50] ∧
    getCategoryStats hugeCategoryTimes =
      [{ Category := "Work", TotalTime := 4611686018427387904, Percentage := 0,
         Color := "#3b82f6", Count := 2 },
       { Category := "Study", TotalTime := 4611686018427387904, Percentage := 0,
         Color := "#10b981", Count := 1 }] := by
  have hsum : (hugeCategoryTimes.map (fun r => r.TotalTime)).sum = 9223372036854775808 := by
    decide
  have htot : getCategoryStats.totalSum hugeCategoryTimes = -9223372036854775808 := by decide
  refine ⟨hsum, ?_, ?_⟩
  · rw [hsum]
    simp only [hugeCategoryTimes, List.map_cons, List.map_nil]
    norm_num
  · simp only [getCategoryStats, htot]
    simp [hugeCategoryTimes, getCategoryStats.convert, categoryColors]

/-- C20, amended claim.  When `date_from` and `date_to` are each empty or not a
date, the window of `GetStatisticsOverview` ends at `now` and starts `days`
days before, where `days` is the value of the request when that lies in
1..365 and 30 otherwise; it spans at most 365 days. -/
theorem C20_default_window (now : Time) (params : StatisticsQueryParams)
    (hfrom : params.DateFrom = "" ∨ (Time.Parse params.DateFrom).isOk = false)
    (hto : params.DateTo = "" ∨ (Time.Parse params.DateTo).isOk = false) :
    ∃ days : Int,
      days = (if 1 ≤ params.Days ∧ params.Days ≤ 365 then params.Days else 30) ∧
      1 ≤ days ∧ days ≤ 365 ∧
      GetStatisticsOverview.dateRange now params = (now.AddDate (-days), now) ∧
      (GetStatisticsOverview.dateRange now params).2.ns -
        (GetStatisticsOverview.dateRange now params).1.ns = days * 86400000000000 ∧
      (GetStatisticsOverview.dateRange now params).2.ns -
        (GetStatisticsOverview.dateRange now params).1.ns ≤ 365 * 86400000000000 := by
  have hrange : GetStatisticsOverview.dateRange now params =
      (now.AddDate (-(if params.Days < 1 ∨ params.Days > 365 then 30 else params.Days)), now) := by
    unfold GetStatisticsOverview.dateRange
    simp only
    have h1 : (if params.DateFrom ≠ "" then
        (match Time.Parse params.DateFrom with
          | .ok dateFrom => dateFrom
          | _ => now.AddDate (-(if params.Days < 1 ∨ params.Days > 365 then 30 else params.Days)))
        else now.AddDate (-(if params.Days < 1 ∨ params.Days > 365 then 30 else params.Days))) =
        now.AddDate (-(if params.Days < 1 ∨ params.Days > 365 then 30 else params.Days)) := by
      rcases hfrom with h | h
      · simp [h]
      · cases hp : Time.Parse params.DateFrom with
        | ok v => rw [hp] at h; simp [Result.isOk] at h
        | err e => simp
        | panic p => simp
    have h2 : (if params.DateTo ≠ "" then
        (match Time.Parse params.DateTo with
          | .ok dateTo => dateTo.Add (24 * Hour - Second)
          | _ => now)
        else now) = now := by
      rcases hto with h | h
      · simp [h]
      · cases hp : Time.Parse params.DateTo with
        | ok v => rw [hp] at h; simp [Result.isOk] at h
        | err e => simp
        | panic p => simp
    rw [h1, h2]
  refine ⟨if params.Days < 1 ∨ params.Days > 365 then 30 else params.Days, ?_, ?_, ?_, hrange, ?_, ?_⟩
  · split_ifs <;> first | rfl | omega
  · split_ifs <;> omega
  · split_ifs <;> omega
  · rw [hrange]
    simp only [Time.AddDate]
    ring
  · rw [hrange]
    simp only [Time.AddDate]
    split_ifs <;> omega

/-- C20, witness: `days` 400 at 2024-01-01 10:00 gives the 30 days from
2023-12-02 10:00. -/
theorem C20_default_window_witness :
    (Time.Parse paramsDaysOutOfRange.DateTo).isOk = false ∧
    GetStatisticsOverview.dateRange (clockTen 0) paramsDaysOutOfRange =
      (Time.Date 2023 12 2 10 0 0 0, Time.Date 2024 1 1 10 0 0 0) ∧
    ∃ days : Int,
      days = (if 1 ≤ paramsDaysOutOfRange.Days ∧ paramsDaysOutOfRange.Days ≤ 365 then
        paramsDaysOutOfRange.Days else 30) ∧
      1 ≤ days ∧ days ≤ 365 ∧
      GetStatisticsOverview.dateRange (clockTen 0) paramsDaysOutOfRange =
        ((clockTen 0).AddDate (-days), clockTen 0) ∧
      (GetStatisticsOverview.dateRange (clockTen 0) paramsDaysOutOfRange).2.ns -
        (GetStatisticsOverview.dateRange (clockTen 0) paramsDaysOutOfRange).1.ns =
          days * 86400000000000 ∧
      (GetStatisticsOverview.dateRange (clockTen 0) paramsDaysOutOfRange).2.ns -
        (GetStatisticsOverview.dateRange (clockTen 0) paramsDaysOutOfRange).1.ns ≤
          365 * 86400000000000 :=
  ⟨by decide, by decide,
    C20_default_window (clockTen 0) paramsDaysOutOfRange (Or.inl rfl) (Or.inr (by decide))⟩

/-- C20, counterexample to the claim as stated.  With `days` 30 and `date_from`
2000-01-01, at 2024-01-01 10:00 the window is [2000-01-01 00:00, 2024-01-01
10:00]: 8766 days and 10 hours. -/
theorem C20_counterexample :
    (1 ≤ paramsFromYear2000.Days ∧ paramsFromYear2000.Days ≤ 365) ∧
    GetStatisticsOverview.dateRange (clockTen 0) paramsFromYear2000 =
      (Time.Date 2000 1 1 0 0 0 0, Time.Date 2024 1 1 10 0 0 0) ∧
    (GetStatisticsOverview.dateRange (clockTen 0) paramsFromYear2000).2.ns -
      (GetStatisticsOverview.dateRange (clockTen 0) paramsFromYear2000).1.ns =
        8766 * 86400000000000 + 10 * Hour ∧
    ¬ ((GetStatisticsOverview.dateRange (clockTen 0) paramsFromYear2000).2.ns -
      (GetStatisticsOverview.dateRange (clockTen 0) paramsFromYear2000).1.ns ≤
        365 * 86400000000000) := by
  refine ⟨by decide, by decide, by decide, by decide⟩

/-! ## C11: `UpdateDailyPlan` replaces the activities of the plan -/

/-- The ids of the rows of a batch are the values of `uuid.New()`, in order. -/
theorem newActivityRows_ids (gen : Nat → UUID) (plan : UUID) :
    ∀ (reqs : List Services.Activity) (k : Nat),
      (Store.newActivityRows gen k (activitiesOfRequest plan reqs)).map Activity.ID =
        (List.range' k reqs.length).map gen := by
  intro reqs
  induction reqs with
  | nil => intro k; rfl
  | cons r rs ih =>
    intro k
    simp only [activitiesOfRequest, List.map_cons, Store.newActivityRows, List.length_cons,
      List.range'_succ] at ih ⊢
    rw [ih (k + 1)]
    simp [Activity.BeforeCreate, UUID.Nil]

/-- An insert of a batch whose ids are new and pairwise distinct succeeds. -/
theorem Store.createActivities_fresh (s : Store) (gen : Nat → UUID) (k : Nat) (plan : UUID)
    (reqs : List Services.Activity)
    (hnew : ((List.range' k reqs.length).map gen).Nodup)
    (hfresh : ∀ i ∈ List.range' k reqs.length, ∀ x ∈ s.activities, x.ID ≠ gen i) :
    ∃ s2 v, s.createActivities gen k (activitiesOfRequest plan reqs) = (s2, .ok v) := by
  unfold Store.createActivities
  simp only
  have hids := newActivityRows_ids gen plan reqs k
  rw [if_neg]
  · exact ⟨_, _, rfl⟩
  · rintro (h | h)
    · simp only [List.any_eq_true, beq_iff_eq] at h
      obtain ⟨r, hr, x, hx, hxr⟩ := h
      have hmem : r.ID ∈ (List.range' k reqs.length).map gen := by
        rw [← hids]; exact List.mem_map_of_mem _ hr
      obtain ⟨i, hi, hgi⟩ := List.mem_map.1 hmem
      exact hfresh i hi x hx (by rw [hgi]; exact hxr)
    · rw [hids] at h
      exact h hnew

/-- With well-formed ids and date and new ids from `uuid.New()`, the
transaction of `UpdateDailyPlan` commits and the method returns what
`GetDailyPlan` answers on the committed store. -/
theorem UpdateDailyPlan_commits (lib : Lib) (s : Store) (gen : Nat → UUID) (now : Time)
    (userID planID : String) (req : DailyPlanRequest) (userUUID planUUID : UUID) (date : Time)
    (hu : uuidParse userID = .ok userUUID) (hp : uuidParse planID = .ok planUUID)
    (hd : Time.Parse req.Date = .ok date)
    (hnew : ((List.range req.Activities.length).map gen).Nodup)
    (hfresh : ∀ i < req.Activities.length, ∀ x ∈ s.activities, x.ID ≠ gen i) :
    ∃ s', updatePlanTx s gen now planUUID userUUID date req = (s', .ok ()) ∧
      UpdateDailyPlan lib s gen now userID planID req = (s', GetDailyPlan lib s' userID planID) := by
  have htx : ∃ s', updatePlanTx s gen now planUUID userUUID date req = (s', .ok ()) := by
    unfold updatePlanTx
    simp only
    split_ifs with hlen
    · obtain ⟨s2, v, hc⟩ := Store.createActivities_fresh
        ((s.updateDailyPlan planUUID userUUID date (totalEstimatedTime req.Activities)
          req.Status).deleteActivitiesOf now planUUID) gen 0 planUUID req.Activities
        (by rw [← List.range_eq_range']; exact hnew)
        (by
          intro i hi x hx
          simp only [Store.deleteActivitiesOf, Store.updateDailyPlan, List.mem_map] at hx
          obtain ⟨b, hb, rfl⟩ := hx
          have hlt : i < req.Activities.length := by
            simp only [List.mem_range'_1] at hi; omega
          have := hfresh i hlt b hb
          split <;> exact this)
      rw [hc]
      exact ⟨s2, rfl⟩
    · exact ⟨_, rfl⟩
  obtain ⟨s', hs'⟩ := htx
  refine ⟨s', hs', ?_⟩
  unfold UpdateDailyPlan
  rw [hu, hp, hd]
  simp only
  rw [hs']

/-- The store that `UpdateDailyPlan` leaves does not depend on the libraries. -/
theorem UpdateDailyPlan_store_lib (lib lib2 : Lib) (s : Store) (gen : Nat → UUID) (now : Time)
    (userID planID : String) (req : DailyPlanRequest) :
    (UpdateDailyPlan lib s gen now userID planID req).1 =
      (UpdateDailyPlan lib2 s gen now userID planID req).1 := by
  unfold UpdateDailyPlan
  cases uuidParse userID with
  | err e => rfl
  | panic p => rfl
  | ok userUUID =>
    simp only
    cases uuidParse planID with
    | err e => rfl
    | panic p => rfl
    | ok planUUID =>
      simp only
      cases Time.Parse req.Date with
      | err e => rfl
      | panic p => rfl
      | ok date =>
        simp only
        rcases updatePlanTx s gen now planUUID userUUID date req with ⟨s1, r⟩
        cases r <;> rfl

/-- C11 (as amended).  For a plan of the caller, well-formed ids and date, a
table whose activity ids are unique and new ids from `uuid.New()`:
`UpdateDailyPlan` commits its transaction and answers with what `GetDailyPlan`
reads back from the committed store (an error where the engine rejects the
ordered preload).  In the committed store the plan is still a live plan of the
caller; its live activities are, one for one and in the order of the request,
the activities of the request, with the same description, estimated time,
actual time, category and order, and with the status and priority of the
request except that an empty status is stored as "pending" and an empty
priority as "medium"; no activity id that belonged to the plan before the
update resolves any more; every id of these activities resolves, and so does
every activity id of a returned plan when the preload answers with the rows
in some order. -/
theorem C11_update_replaces_activities (lib : Lib) (s : Store) (gen : Nat → UUID) (now : Time)
    (userID planID : String) (req : DailyPlanRequest) (userUUID planUUID : UUID) (date : Time)
    (plan : DailyPlan)
    (hpk : (s.activities.map Activity.ID).Nodup)
    (hu : uuidParse userID = .ok userUUID) (hp : uuidParse planID = .ok planUUID)
    (hd : Time.Parse req.Date = .ok date)
    (hown : s.firstDailyPlan planUUID userUUID = some plan)
    (hnew : ((List.range req.Activities.length).map gen).Nodup)
    (hfresh : ∀ i < req.Activities.length, ∀ x ∈ s.activities, x.ID ≠ gen i) :
    ∃ s', UpdateDailyPlan lib s gen now userID planID req =
        (s', GetDailyPlan lib s' userID planID) ∧
      (∃ q ∈ s'.dailyPlans, q.DeletedAt = none ∧ q.ID = planUUID ∧ q.UserID = userUUID) ∧
      List.Forall₂ (fun a r => a.storedFrom r = true) (s'.activitiesOf planUUID) req.Activities ∧
      (∀ a ∈ s.activitiesOf planUUID, s'.firstActivityByID a.ID = none) ∧
      (∀ a ∈ s'.activitiesOf planUUID, (s'.firstActivityByID a.ID).isSome = true) ∧
      (∀ resp, GetDailyPlan lib s' userID planID = .ok resp →
        (∀ rows l, lib.orderedPreload rows = .ok l → l.Perm rows) →
        ∀ r ∈ resp.Activities, (s'.firstActivityByID r.ID).isSome = true) := by
  obtain ⟨s', htx, heq⟩ := UpdateDailyPlan_commits lib s gen now userID planID req userUUID
    planUUID date hu hp hd hnew hfresh
  obtain ⟨hact, hplans, hfr⟩ := updatePlanTx_ok _ _ _ _ _ _ _ _ htx
  have hof : s'.activitiesOf planUUID =
      Store.newActivityRows gen 0 (activitiesOfRequest planUUID req.Activities) := by
    have h0 := Store.activitiesOf_deleteActivitiesOf s now planUUID
    unfold Store.activitiesOf at h0 ⊢
    rw [hact, List.filter_append, h0, List.nil_append, List.filter_eq_self]
    intro a ha
    obtain ⟨h1, h2⟩ := newActivityRows_live gen planUUID req.Activities 0 a ha
    simp [h1, h2]
  have hsub : ∀ a ∈ s'.activitiesOf planUUID, a ∈ s'.activities ∧ a.DeletedAt = none := by
    intro a ha
    simp only [Store.activitiesOf, List.mem_filter, Bool.and_eq_true,
      Option.isNone_iff_eq_none] at ha
    exact ⟨ha.1, ha.2.1⟩
  refine ⟨s', heq, ?_, ?_, ?_, ?_, ?_⟩
  · have hm := firstBy_mem _ _ _ hown
    simp only [List.mem_filter, Bool.and_eq_true, beq_iff_eq, Option.isNone_iff_eq_none] at hm
    obtain ⟨hmem, ⟨hlive, hid⟩, huser⟩ := hm
    refine ⟨{ plan with Date := date, TotalEstimatedTime := totalEstimatedTime req.Activities,
                        Status := req.Status }, ?_, hlive, hid, huser⟩
    rw [hplans]
    simp only [Store.updateDailyPlan, List.mem_map]
    exact ⟨plan, hmem, by simp [hlive, hid, huser]⟩
  · rw [hof]
    exact (newActivityRows_spec gen planUUID req.Activities 0).imp (fun _ _ hab => hab.1)
  · intro a ha
    simp only [Store.activitiesOf, List.mem_filter, Bool.and_eq_true, beq_iff_eq,
      Option.isNone_iff_eq_none] at ha
    obtain ⟨ham, halive, haplan⟩ := ha
    apply Store.firstActivityByID_eq_none
    intro x hx hxlive hxid
    rw [hact, List.mem_append] at hx
    rcases hx with hx | hx
    · simp only [Store.deleteActivitiesOf, List.mem_map] at hx
      obtain ⟨b, hb, rfl⟩ := hx
      by_cases hhit : (b.DeletedAt.isNone && b.DailyPlanID == planUUID) = true
      · simp [hhit] at hxlive
      · have hbid : b.ID = a.ID := by simpa [hhit] using hxid
        have hba : b = a := List.inj_on_of_nodup_map hpk hb ham hbid
        rw [hba] at hhit
        simp [halive, haplan] at hhit
    · refine hfr x hx (if a.DeletedAt.isNone && a.DailyPlanID == planUUID then
        { a with DeletedAt := some now } else a) ?_ ?_
      · simp only [Store.deleteActivitiesOf, List.mem_map]
        exact ⟨a, ham, rfl⟩
      · rw [hxid]
        split <;> rfl
  · intro a ha
    obtain ⟨ham, halive⟩ := hsub a ha
    exact Store.firstActivityByID_isSome s' a ham halive
  · intro resp hget hpre r hr
    obtain ⟨_, planUUID2, _, l, _, hp2, _, _, hl, hresp⟩ := GetDailyPlan_ok _ _ _ _ _ hget
    rw [hp] at hp2
    cases hp2
    rw [hresp] at hr
    simp only [toDailyPlanResponse, List.mem_map] at hr
    obtain ⟨a, ha, rfl⟩ := hr
    obtain ⟨ham, halive⟩ := hsub a ((hpre _ _ hl).mem_iff.1 ha)
    exact Store.firstActivityByID_isSome s' a ham halive

/-- C11, witness: with an engine that rejects the ordered preload, the
activities of plan 201 of `storeTwoPlans` are replaced by the one of
`reqNoStatus`, and the call answers with the error of the read-back. -/
theorem C11_update_replaces_activities_witness :
    (storeTwoPlans.activities.map Activity.ID).Nodup ∧
    uuidParse userA = .ok 10 ∧ uuidParse plan201 = .ok 201 ∧
    Time.Parse reqNoStatus.Date = .ok (Time.Date 2024 1 2 0 0 0 0) ∧
    storeTwoPlans.firstDailyPlan 201 10 = some (planRow 201 (Time.Date 2024 1 2 0 0 0 0)) ∧
    ((List.range reqNoStatus.Activities.length).map sampleGen3).Nodup ∧
    (∀ i < reqNoStatus.Activities.length, ∀ x ∈ storeTwoPlans.activities, x.ID ≠ sampleGen3 i) ∧
    (UpdateDailyPlan strictLib storeTwoPlans sampleGen3 halfPastTen userA plan201 reqNoStatus).1 =
      storeReplaced ∧
    (UpdateDailyPlan strictLib storeTwoPlans sampleGen3 halfPastTen userA plan201
      reqNoStatus).2.isOk = false ∧
    ∃ s', UpdateDailyPlan strictLib storeTwoPlans sampleGen3 halfPastTen userA plan201
        reqNoStatus = (s', GetDailyPlan strictLib s' userA plan201) ∧
      (∃ q ∈ s'.dailyPlans, q.DeletedAt = none ∧ q.ID = 201 ∧ q.UserID = 10) ∧
      List.Forall₂ (fun a r => a.storedFrom r = true) (s'.activitiesOf 201)
        reqNoStatus.Activities ∧
      (∀ a ∈ storeTwoPlans.activitiesOf 201, s'.firstActivityByID a.ID = none) ∧
      (∀ a ∈ s'.activitiesOf 201, (s'.firstActivityByID a.ID).isSome = true) ∧
      (∀ resp, GetDailyPlan strictLib s' userA plan201 = .ok resp →
        (∀ rows l, strictLib.orderedPreload rows = .ok l → l.Perm rows) →
        ∀ r ∈ resp.Activities, (s'.firstActivityByID r.ID).isSome = true) :=
  ⟨by decide, by decide, by decide, by decide, by decide, by decide, by decide, by decide,
    by decide,
    C11_update_replaces_activities strictLib storeTwoPlans sampleGen3 halfPastTen userA plan201
      reqNoStatus 10 201 (Time.Date 2024 1 2 0 0 0 0) (planRow 201 (Time.Date 2024 1 2 0 0 0 0))
      (by decide) (by decide) (by decide) (by decide) (by decide) (by decide) (by decide)⟩

/-- C11, counterexample to the claim as stated.  User 10 owns plan 201 and
calls `UpdateDailyPlan` with `reqNoStatus`, whose activity has an empty status
and an empty priority.  Whatever the libraries, the committed store is
`storeReplaced`, in which the activity of the plan has status "pending" and
priority "medium": its fields are not those of the request.  With an engine
that sorts the preload the call succeeds and returns that activity. -/
theorem C11_counterexample :
    storeTwoPlans.firstDailyPlan 201 10 = some (planRow 201 (Time.Date 2024 1 2 0 0 0 0)) ∧
    uuidParse userA = .ok 10 ∧ uuidParse plan201 = .ok 201 ∧
    (∀ lib : Lib,
      (UpdateDailyPlan lib storeTwoPlans sampleGen3 halfPastTen userA plan201 reqNoStatus).1 =
        storeReplaced) ∧
    UpdateDailyPlan sampleLib storeTwoPlans sampleGen3 halfPastTen userA plan201 reqNoStatus =
      (storeReplaced, .ok respReplaced) ∧
    (storeReplaced.activitiesOf 201).map Activity.Status = ["pending"] ∧
    (storeReplaced.activitiesOf 201).map Activity.Priority = ["medium"] ∧
    reqNoStatus.Activities.map Services.Activity.Status = [""] ∧
    reqNoStatus.Activities.map Services.Activity.Priority = [""] ∧
    ¬ List.Forall₂ (fun a r => a.sameFields r = true) (storeReplaced.activitiesOf 201)
        reqNoStatus.Activities := by
  refine ⟨by decide, by decide, by decide, ?_, by decide, by decide, by decide, by decide,
    by decide, ?_⟩
  · intro lib
    rw [UpdateDailyPlan_store_lib lib sampleLib]
    decide
  · intro h
    have h2 : storeReplaced.activitiesOf 201 =
        [{ ID := 301, DailyPlanID := 201, Description := "Read", EstimatedTime := 45,
           ActualTime := none, Status := "pending", Category := "Study",
           Priority := "medium", Order := 1, DeletedAt := none }] := by decide
    rw [h2] at h
    simp only [reqNoStatus, List.forall₂_cons] at h
    exact absurd h.1 (by decide)

/-! ## C24 to C30: passwords, tag colours, ownership of plans and activities, totals -/

theorem Result.exists_of_isOk {α : Type} (r : Result α) (h : r.isOk = true) : ∃ v, r = .ok v := by
  cases r with
  | ok v => exact ⟨v, rfl⟩
  | err e => simp [Result.isOk] at h
  | panic p => simp [Result.isOk] at h

/-- C24.  The user in the answer of every successful `Register` and `Login`,
and the user that every successful `GetUserByID` returns, has an empty
password field. -/
theorem C24_password_never_returned (lib : Lib) (cfg : Config) (s s' : Store) (gen : Nat → UUID)
    (salt : Nat) (clk : Nat → Time) (rreq : RegisterRequest) (lreq : LoginRequest)
    (userID : String) :
    (∀ resp, Register lib cfg s gen salt clk rreq = (s', .ok resp) → resp.User.Password = "") ∧
    (∀ resp, Login lib cfg s clk lreq = .ok resp → resp.User.Password = "") ∧
    (∀ user, GetUserByID s userID = .ok user → user.Password = "") := by
  refine ⟨?_, ?_, ?_⟩
  · intro resp h
    unfold Register at h
    split at h
    · simp at h
    · split at h
      · simp at h
      · simp at h
      · split at h
        · simp at h
        · simp at h
        · split at h
          · simp at h
          · simp at h
          · simp only [Prod.mk.injEq, Result.ok.injEq] at h
            rw [← h.2]
  · intro resp h
    unfold Login at h
    split at h
    · simp at h
    · split at h
      · simp at h
      · split at h
        · simp at h
        · simp at h
        · simp only [Result.ok.injEq] at h
          rw [← h]
  · intro user h
    unfold GetUserByID at h
    split at h
    · simp at h
    · simp only [Result.ok.injEq] at h
      rw [← h]

/-- C24, witness: a registration, a login and a lookup that succeed; the
stored user has the password hash "$2a$10$secret1". -/
theorem C24_password_never_returned_witness :
    plainUser.Password = "$2a$10$secret1" ∧
    (∃ resp, Register plainLib testConfig emptyStore sampleGen 7 clockTen sampleRegister =
        (storeWithPlainUser, .ok resp) ∧ resp.User.Password = "") ∧
    (∃ resp, Login plainLib testConfig storeWithPlainUser clockTen sampleLogin = .ok resp ∧
        resp.User.Password = "") ∧
    GetUserByID storeWithPlainUser user101 = .ok { plainUser with Password := "" } := by
  have hr : (Register plainLib testConfig emptyStore sampleGen 7 clockTen sampleRegister).2.isOk
      = true := by decide
  obtain ⟨r1, h1⟩ := Result.exists_of_isOk _ hr
  have hs : (Register plainLib testConfig emptyStore sampleGen 7 clockTen sampleRegister).1
      = storeWithPlainUser := by decide
  have hl : (Login plainLib testConfig storeWithPlainUser clockTen sampleLogin).isOk = true := by
    decide
  obtain ⟨r2, h2⟩ := Result.exists_of_isOk _ hl
  have hg : GetUserByID storeWithPlainUser user101 = .ok { plainUser with Password := "" } := by
    decide
  have hall := C24_password_never_returned plainLib testConfig emptyStore storeWithPlainUser
    sampleGen 7 clockTen sampleRegister sampleLogin user101
  have hall2 := C24_password_never_returned plainLib testConfig storeWithPlainUser
    storeWithPlainUser sampleGen 7 clockTen sampleRegister sampleLogin user101
  exact ⟨rfl, ⟨r1, Prod.ext hs h1, hall.1 r1 (Prod.ext hs h1)⟩, ⟨r2, h2, hall2.2.1 r2 h2⟩, hg⟩

/-- For a tag name whose hash is not negative `generateColorForTag` returns a
colour of the palette. -/
theorem generateColorForTag_of_nonneg (tagName : String) (h : 0 ≤ tagHash tagName) :
    ∃ color ∈ tagColors, generateColorForTag tagName = .ok color := by
  unfold generateColorForTag
  have hlen : (tagColors.length : Int) = 10 := by decide
  simp only [hlen]
  have h0 : 0 ≤ Int.tmod (tagHash tagName) 10 := Int.tmod_nonneg _ h
  have h1 : Int.tmod (tagHash tagName) 10 < 10 := Int.tmod_lt_of_pos _ (by decide)
  rw [if_pos h0]
  have hlt : (Int.tmod (tagHash tagName) 10).toNat < tagColors.length := by
    have : tagColors.length = 10 := by decide
    omega
  refine ⟨tagColors[(Int.tmod (tagHash tagName) 10).toNat], List.getElem_mem _, ?_⟩
  simp only [List.getD_eq_getElem?_getD, List.getElem?_eq_getElem hlt, Option.getD_some]

/-- C25, evaluation at the failing input.  The hash of the tag name
"project-planning" overflows to -7959953620001879151, the Go remainder by 10
is -1, indexing the palette panics, and so does `CreateTimeEntry` for a
request with that tag. -/
theorem C25_negative_hash_panics :
    tagHash "project-planning" = -7959953620001879151 ∧
    Int.tmod (tagHash "project-planning") 10 = -1 ∧
    generateColorForTag "project-planning" = .panic "runtime error: index out of range [-1]" ∧
    CreateTimeEntry emptyStore sampleGen userA reqTagged =
      (emptyStore, .panic "runtime error: index out of range [-1]") := by
  refine ⟨by decide, by decide, by decide, by decide⟩

/-- C26, evaluation at the failing input.  User 11 calls `UpdateDailyPlan` for
plan 201, which belongs to user 10 and has the live activity 202.  Whatever
the engine does with the preload, the call answers "daily plan not found" and
the plan row is as before, but activity 202 has been deleted and activity 301
of the request has been created in the plan. -/
theorem C26_non_owner_update_replaces_activities (lib : Lib) :
    uuidParse userB = .ok 11 ∧ uuidParse plan201 = .ok 201 ∧
    storeTwoPlans.firstDailyPlan 201 11 = none ∧
    storeTwoPlans.firstDailyPlan 201 10 = some (planRow 201 (Time.Date 2024 1 2 0 0 0 0)) ∧
    storeTwoPlans.activitiesOf 201 = [activityRow 202 201 none] ∧
    UpdateDailyPlan lib storeTwoPlans sampleGen3 halfPastTen userB plan201
      (planRequest "2024-01-02") = (storeHijacked, .err "daily plan not found") ∧
    storeHijacked.dailyPlans = storeTwoPlans.dailyPlans ∧
    storeHijacked.firstActivityByID 202 = none ∧
    storeHijacked.activitiesOf 201 = [activityRow 301 201 none] := by
  refine ⟨by decide, by decide, by decide, by decide, by decide, rfl, rfl, by decide, by decide⟩

/-- C27, evaluation at the failing input.  Activity 202 belongs to plan 201 of
user 10.  `UpdateActivity` called with the id of user 11 does what it does
for user 10: it succeeds and overwrites the activity. -/
theorem C27_other_user_updates_activity :
    uuidParse userB = .ok 11 ∧
    storeTwoPlans.firstDailyPlan 201 10 = some (planRow 201 (Time.Date 2024 1 2 0 0 0 0)) ∧
    storeTwoPlans.firstActivityByID 202 = some (activityRow 202 201 none) ∧
    UpdateActivity storeTwoPlans userB plan201 activity202 reqEstimateOnly =
      UpdateActivity storeTwoPlans userA plan201 activity202 reqEstimateOnly ∧
    (UpdateActivity storeTwoPlans userB plan201 activity202 reqEstimateOnly).2 =
      .ok { ID := 202, Description := "", EstimatedTime := 45, ActualTime := none, Status := "",
            Category := "", Priority := "", Order := 0 } ∧
    (UpdateActivity storeTwoPlans userB plan201 activity202 reqEstimateOnly).1.firstActivityByID 202 =
      some { ID := 202, DailyPlanID := 201, Description := "", EstimatedTime := 45,
             ActualTime := none, Status := "", Category := "", Priority := "", Order := 0,
             DeletedAt := none } := by
  refine ⟨by decide, by decide, by decide, by decide, by decide, by decide⟩

/-- C29, evaluation at the failing input.  Entry 101 is stored with an end
time and the duration 5400.  `UpdateTimeEntry` with a request without end
time succeeds, and the stored entry has no end time and still the duration
5400. -/
theorem C29_duration_kept_without_end_time :
    reqNoEnd.EndTime = none ∧
    UpdateTimeEntry (storeWith (storedRow 101 reqNinetyMinutes (some 5400))) sampleGen userA
      entry101 reqNoEnd =
      (storeWith (storedRow 101 reqNoEnd (some 5400)),
       .ok (toTimeEntryResponse (storedRow 101 reqNoEnd (some 5400)))) ∧
    (storedRow 101 reqNoEnd (some 5400)).EndTime = none ∧
    (storedRow 101 reqNoEnd (some 5400)).Duration = some 5400 := by
  refine ⟨rfl, by decide, rfl, rfl⟩

theorem Store.createDailyPlan_ok (s s1 : Store) (fresh : UUID) (plan created : DailyPlan)
    (h : s.createDailyPlan fresh plan = (s1, .ok created)) :
    (∀ q ∈ s.dailyPlans, q.ID ≠ created.ID) ∧ s1.dailyPlans = s.dailyPlans ++ [created] ∧
      s1.activities = s.activities ∧
      created.TotalEstimatedTime = plan.TotalEstimatedTime ∧ created.UserID = plan.UserID ∧
      created.DeletedAt = plan.DeletedAt := by
  unfold Store.createDailyPlan at h
  simp only at h
  split at h
  · simp at h
  · rename_i hno
    simp only [Prod.mk.injEq, Result.ok.injEq] at h
    obtain ⟨hs, hc⟩ := h
    subst hs hc
    refine ⟨?_, rfl, rfl, ?_, ?_, ?_⟩
    · intro q hq hqid
      apply hno
      simp only [List.any_eq_true, beq_iff_eq]
      exact ⟨q, hq, hqid⟩
    · simp only [DailyPlan.BeforeCreate]; split_ifs <;> rfl
    · simp only [DailyPlan.BeforeCreate]; split_ifs <;> rfl
    · simp only [DailyPlan.BeforeCreate]; split_ifs <;> rfl

theorem createPlanTx_ok (s s1 : Store) (gen : Nat → UUID) (plan created : DailyPlan)
    (reqs : List Services.Activity) (h : createPlanTx s gen plan reqs = (s1, .ok created)) :
    (∀ q ∈ s.dailyPlans, q.ID ≠ created.ID) ∧ s1.dailyPlans = s.dailyPlans ++ [created] ∧
      s1.activities = s.activities ++
        Store.newActivityRows gen 1 (activitiesOfRequest created.ID reqs) ∧
      created.TotalEstimatedTime = plan.TotalEstimatedTime ∧ created.UserID = plan.UserID ∧
      created.DeletedAt = plan.DeletedAt := by
  unfold createPlanTx at h
  rcases hc : s.createDailyPlan (gen 0) plan with ⟨s0, r⟩
  rw [hc] at h
  cases r with
  | err e => simp at h
  | panic p => simp at h
  | ok c =>
    obtain ⟨h1, h2, h3, h4, h5, h6⟩ := Store.createDailyPlan_ok _ _ _ _ _ hc
    simp only at h
    by_cases hlen : reqs.length > 0
    · rw [if_pos hlen] at h
      rcases ha : s0.createActivities gen 1 (activitiesOfRequest c.ID reqs) with ⟨s2, r2⟩
      rw [ha] at h
      cases r2 with
      | err e => simp at h
      | panic p => simp at h
      | ok v =>
        simp only [Prod.mk.injEq, Result.ok.injEq] at h
        obtain ⟨hs, hcc⟩ := h
        subst hs hcc
        obtain ⟨g1, g2, _⟩ := Store.createActivities_ok _ _ _ _ _ _ ha
        exact ⟨h1, by rw [g2, h2], by rw [g1, h3], h4, h5, h6⟩
    · rw [if_neg hlen] at h
      simp only [Prod.mk.injEq, Result.ok.injEq] at h
      obtain ⟨hs, hcc⟩ := h
      subst hs hcc
      have hnil : reqs = [] := by
        cases reqs with
        | nil => rfl
        | cons a l => simp at hlen
      subst hnil
      exact ⟨h1, h2, by simp [activitiesOfRequest, Store.newActivityRows, h3], h4, h5, h6⟩

theorem CreateDailyPlan_ok (lib : Lib) (s s' : Store) (gen : Nat → UUID) (userID : String)
    (req : DailyPlanRequest) (resp : DailyPlanResponse)
    (h : CreateDailyPlan lib s gen userID req = (s', .ok resp)) :
    ∃ userUUID date created, uuidParse userID = .ok userUUID ∧ Time.Parse req.Date = .ok date ∧
      createPlanTx s gen (newDailyPlan userUUID date req) req.Activities = (s', .ok created) ∧
      GetDailyPlan lib s' userID created.ID.String = .ok resp := by
  unfold CreateDailyPlan at h
  split at h
  · simp at h
  · simp at h
  · rename_i userUUID hu
    split at h
    · simp at h
    · simp at h
    · rename_i date hd
      split at h
      · simp at h
      · split at h
        · simp at h
        · simp at h
        · rename_i s1 created htx
          simp only [Prod.mk.injEq] at h
          obtain ⟨h1, h2⟩ := h
          subst h1
          exact ⟨userUUID, date, created, hu, hd, htx, h2⟩

theorem newActivityRows_estimated (gen : Nat → UUID) (plan : UUID) :
    ∀ (reqs : List Services.Activity) (k : Nat),
      (Store.newActivityRows gen k (activitiesOfRequest plan reqs)).map (fun a => a.EstimatedTime) =
        reqs.map (fun r => r.EstimatedTime) := by
  intro reqs
  induction reqs with
  | nil => intro k; rfl
  | cons r rs ih =>
    intro k
    simp only [activitiesOfRequest, List.map_cons, Store.newActivityRows] at ih ⊢
    rw [ih (k + 1)]
    simp [Activity.BeforeCreate, UUID.Nil]

theorem Store.activitiesOf_append_new (s' : Store) (gen : Nat → UUID) (k : Nat) (plan : UUID)
    (reqs : List Services.Activity) (old : List Activity)
    (hact : s'.activities = old ++ Store.newActivityRows gen k (activitiesOfRequest plan reqs))
    (hold : ∀ a ∈ old, a.DeletedAt = none → a.DailyPlanID ≠ plan) :
    s'.activitiesOf plan = Store.newActivityRows gen k (activitiesOfRequest plan reqs) := by
  unfold Store.activitiesOf
  rw [hact, List.filter_append]
  have h0 : old.filter (fun a => a.DeletedAt.isNone && a.DailyPlanID == plan) = [] := by
    simp only [List.filter_eq_nil_iff, Bool.and_eq_true, beq_iff_eq, not_and,
      Option.isNone_iff_eq_none]
    exact hold
  rw [h0, List.nil_append, List.filter_eq_self]
  intro a ha
  obtain ⟨h1, h2⟩ := newActivityRows_live gen plan reqs k a ha
  simp [h1, h2]

/-! ## C21 to C23 and C28: today's plan, error statuses, configuration, the activity route -/

theorem loadPlan_ne_ok (lib : Lib) (hrej : ∀ rows, (lib.orderedPreload rows).isOk = false)
    (s : Store) (plan : DailyPlan) (resp : DailyPlanResponse) : loadPlan lib s plan ≠ .ok resp := by
  unfold loadPlan
  have h := hrej (s.activitiesOf plan.ID)
  cases hp : lib.orderedPreload (s.activitiesOf plan.ID) with
  | ok l => rw [hp] at h; simp [Result.isOk] at h
  | err e => simp
  | panic p => simp

theorem GetDailyPlan_ne_ok (lib : Lib) (hrej : ∀ rows, (lib.orderedPreload rows).isOk = false)
    (s : Store) (userID planID : String) (resp : DailyPlanResponse) :
    GetDailyPlan lib s userID planID ≠ .ok resp := by
  unfold GetDailyPlan
  split
  · simp
  · simp
  · split
    · simp
    · simp
    · split
      · simp
      · exact loadPlan_ne_ok lib hrej s _ resp

theorem GetDailyPlanByDate_ne_ok (lib : Lib) (hrej : ∀ rows, (lib.orderedPreload rows).isOk = false)
    (s : Store) (userID date : String) (resp : DailyPlanResponse) :
    GetDailyPlanByDate lib s userID date ≠ .ok resp := by
  unfold GetDailyPlanByDate
  split
  · simp
  · simp
  · split
    · simp
    · simp
    · split
      · simp
      · exact loadPlan_ne_ok lib hrej s _ resp

theorem CreateDailyPlan_ne_ok (lib : Lib) (hrej : ∀ rows, (lib.orderedPreload rows).isOk = false)
    (s : Store) (gen : Nat → UUID) (userID : String) (req : DailyPlanRequest)
    (resp : DailyPlanResponse) : (CreateDailyPlan lib s gen userID req).2 ≠ .ok resp := by
  unfold CreateDailyPlan
  split
  · simp
  · simp
  · split
    · simp
    · simp
    · split
      · simp
      · split
        · simp
        · simp
        · exact GetDailyPlan_ne_ok lib hrej _ _ _ resp

/-- With an engine that rejects the ordered preload `GetTodayPlan` never
answers 200. -/
theorem GetTodayPlan_ne_200 (lib : Lib) (hrej : ∀ rows, (lib.orderedPreload rows).isOk = false)
    (s : Store) (gen : Nat → UUID) (now : Time) (userID : Option String) :
    (DailyPlanHandler.GetTodayPlan lib s gen now userID).2.1 ≠ 200 := by
  unfold DailyPlanHandler.GetTodayPlan
  cases userID with
  | none => simp
  | some uid =>
    simp only
    cases hg : GetDailyPlanByDate lib s uid now.Format with
    | ok plan => exact absurd hg (GetDailyPlanByDate_ne_ok lib hrej s uid _ plan)
    | panic p => simp
    | err e =>
      simp only
      split_ifs
      · rcases hc : CreateDailyPlan lib s gen uid (todayTemplate now.Format) with ⟨s1, r⟩
        have hne := CreateDailyPlan_ne_ok lib hrej s gen uid (todayTemplate now.Format)
        rw [hc] at hne
        cases r with
        | ok plan => exact absurd rfl (hne plan)
        | err e2 => simp
        | panic p => simp
      · simp

/-- C21, evaluation at the failing input.  User 10 has no plan for 2024-01-01
and calls `GetTodayPlan` at 10:00.  Whatever the engine does with the
preload, the template plan and its five activities are stored.  With an
engine that rejects the reserved word in `ORDER BY order ASC` the answer is
400 without a plan, and so is the answer of a second call at 10:30, which
creates nothing.  With an engine that sorts the preload both calls answer 200
with the same plan: draft, total 360, five pending activities with the orders
1 to 5 and the estimated times 30, 120, 60, 120, 30. -/
theorem C21_today_plan_created_not_returned (lib : Lib) :
    emptyStore.firstDailyPlanByDate 10 (Time.Date 2024 1 1 0 0 0 0) = none ∧
    (clockTen 0).Format = "2024-01-01" ∧ halfPastTen.Format = "2024-01-01" ∧
    (DailyPlanHandler.GetTodayPlan lib emptyStore sampleGen (clockTen 0) (some userA)).1 =
      storeToday ∧
    (DailyPlanHandler.GetTodayPlan lib storeToday sampleGen2 halfPastTen (some userA)).1 =
      storeToday ∧
    DailyPlanHandler.GetTodayPlan strictLib emptyStore sampleGen (clockTen 0) (some userA) =
      (storeToday, 400, none) ∧
    DailyPlanHandler.GetTodayPlan strictLib storeToday sampleGen2 halfPastTen (some userA) =
      (storeToday, 400, none) ∧
    DailyPlanHandler.GetTodayPlan sampleLib emptyStore sampleGen (clockTen 0) (some userA) =
      (storeToday, 200, some planToday) ∧
    DailyPlanHandler.GetTodayPlan sampleLib storeToday sampleGen2 halfPastTen (some userA) =
      (storeToday, 200, some planToday) ∧
    planToday.TotalEstimatedTime = 360 ∧ planToday.Status = "draft" ∧
    planToday.Activities.map (fun a => (a.Order, a.EstimatedTime, a.Status)) =
      [(1, 30, "pending"), (2, 120, "pending"), (3, 60, "pending"), (4, 120, "pending"),
       (5, 30, "pending")] := by
  refine ⟨by decide, by decide, by decide, ?_, ?_, by decide, by decide, by decide, by decide,
    by decide, by decide, by decide⟩
  · have h1 : GetDailyPlanByDate lib emptyStore userA (clockTen 0).Format =
        .err "daily plan not found" := rfl
    have hc : (CreateDailyPlan lib emptyStore sampleGen userA
        (todayTemplate (clockTen 0).Format)).1 = storeToday := rfl
    simp only [DailyPlanHandler.GetTodayPlan, h1, if_true]
    rcases hr : CreateDailyPlan lib emptyStore sampleGen userA
      (todayTemplate (clockTen 0).Format) with ⟨s1, r⟩
    rw [hr] at hc
    cases r <;> exact hc
  · have hc : CreateDailyPlan lib storeToday sampleGen2 userA (todayTemplate halfPastTen.Format) =
        (storeToday, .err "daily plan already exists for this date") := rfl
    simp only [DailyPlanHandler.GetTodayPlan]
    cases GetDailyPlanByDate lib storeToday userA halfPastTen.Format with
    | ok plan => rfl
    | panic p => rfl
    | err e =>
      simp only
      split_ifs
      · rw [hc]
      · rfl

/-- C22, amended claim.  A service error other than the two conflicts is
answered with status 400 by the handlers `Register`, `CreateTimeEntry` and
`CreateDailyPlan`, and every service error is answered with status 401 by the
handler `Login`; the body of `Login` and `CreateTimeEntry` carries the text
of the error. -/
theorem C22_service_errors_answered_400 (lib : Lib) (cfg : Config) (s : Store) (gen : Nat → UUID)
    (salt : Nat) (clk : Nat → Time) (rreq : RegisterRequest) (lreq : LoginRequest)
    (treq : TimeEntryRequest) (preq : DailyPlanRequest) (uid e : String) :
    ((Register lib cfg s gen salt clk rreq).2 = .err e →
      e ≠ "user with this email already exists" →
      (AuthHandler.Register lib cfg s gen salt clk (.ok rreq)).2 = 400) ∧
    (Login lib cfg s clk lreq = .err e →
      AuthHandler.Login lib cfg s clk (.ok lreq) = (401, e)) ∧
    ((CreateTimeEntry s gen uid treq).2 = .err e →
      (TimeHandler.CreateTimeEntry s gen (some uid) (.ok treq)).2 = (400, e)) ∧
    (preq.Status ≠ "" → (CreateDailyPlan lib s gen uid preq).2 = .err e →
      e ≠ "daily plan already exists for this date" →
      (DailyPlanHandler.CreateDailyPlan lib s gen (some uid) (.ok preq)).2 = 400) := by
  refine ⟨?_, ?_, ?_, ?_⟩
  · intro h hne
    unfold AuthHandler.Register
    rcases hr : Register lib cfg s gen salt clk rreq with ⟨s1, r⟩
    rw [hr] at h
    simp only at h
    subst h
    simp only [hr, if_neg hne]
  · intro h
    unfold AuthHandler.Login
    simp only [h]
  · intro h
    unfold TimeHandler.CreateTimeEntry
    rcases hr : CreateTimeEntry s gen uid treq with ⟨s1, r⟩
    rw [hr] at h
    simp only at h
    subst h
    simp only [hr]
  · intro hst h hne
    unfold DailyPlanHandler.CreateDailyPlan
    simp only [if_neg hst]
    rcases hr : CreateDailyPlan lib s gen uid preq with ⟨s1, r⟩
    rw [hr] at h
    simp only at h
    subst h
    simp only [hr, if_neg hne]

/-- C22, witness: a registration whose insert fails and a login of an unknown
user. -/
theorem C22_service_errors_answered_400_witness :
    (Register sampleLib testConfig storeWithUser sampleGen 8 clockTen otherRegister).2 =
      .err "failed to create user: UNIQUE constraint failed: users.id" ∧
    (AuthHandler.Register sampleLib testConfig storeWithUser sampleGen 8 clockTen
      (.ok otherRegister)).2 = 400 ∧
    Login sampleLib testConfig emptyStore clockTen sampleLogin = .err "invalid email or password" ∧
    AuthHandler.Login sampleLib testConfig emptyStore clockTen (.ok sampleLogin) =
      (401, "invalid email or password") := by
  have hr : (Register sampleLib testConfig storeWithUser sampleGen 8 clockTen otherRegister).2 =
      .err "failed to create user: UNIQUE constraint failed: users.id" := by decide
  have hl : Login sampleLib testConfig emptyStore clockTen sampleLogin =
      .err "invalid email or password" := by decide
  have h := C22_service_errors_answered_400 sampleLib testConfig storeWithUser sampleGen 8 clockTen
    otherRegister sampleLogin reqNinetyMinutes (planRequest "2024-01-01") userA
    "failed to create user: UNIQUE constraint failed: users.id"
  have h2 := C22_service_errors_answered_400 sampleLib testConfig emptyStore sampleGen 8 clockTen
    otherRegister sampleLogin reqNinetyMinutes (planRequest "2024-01-01") userA
    "invalid email or password"
  exact ⟨hr, h.1 hr (by decide), hl, h2.2.1 hl⟩

/-- C22, counterexample to the claim as stated.  An insert that the database
rejects while a user or a time entry is created (the generated id is taken),
and a query that the engine rejects while a created plan is read back, are
answered with status 400, the time entry handler with the text of the
database error. -/
theorem C22_counterexample :
    ((Register sampleLib testConfig storeWithUser sampleGen 8 clockTen otherRegister).2 =
        .err "failed to create user: UNIQUE constraint failed: users.id" ∧
      AuthHandler.Register sampleLib testConfig storeWithUser sampleGen 8 clockTen
        (.ok otherRegister) = (storeWithUser, 400)) ∧
    ((CreateTimeEntry (storeWith (storedRow 101 reqNinetyMinutes (some 5400))) sampleGen userB
        reqNinetyMinutes).2 =
        .err "failed to create time entry: UNIQUE constraint failed: time_entries.id" ∧
      TimeHandler.CreateTimeEntry (storeWith (storedRow 101 reqNinetyMinutes (some 5400)))
        sampleGen (some userB) (.ok reqNinetyMinutes) =
        (storeWith (storedRow 101 reqNinetyMinutes (some 5400)), 400,
         "failed to create time entry: UNIQUE constraint failed: time_entries.id")) ∧
    ((CreateDailyPlan strictLib emptyStore sampleGen userA (planRequest "2024-01-01")).2 =
        .err "failed to fetch daily plan: near \"order\": syntax error" ∧
      (DailyPlanHandler.CreateDailyPlan strictLib emptyStore sampleGen (some userA)
        (.ok (planRequest "2024-01-01"))).2 = 400) := by
  refine ⟨⟨by decide, by decide⟩, ⟨by decide, by decide⟩, by decide, by decide⟩

/-- C23.  When `JWT_SECRET` is not set or is "default-secret-change-this",
`config.Load` returns one of its two errors and no configuration, and `main`
does not get a configuration. -/
theorem C23_default_secret_refused (env : String → Option String)
    (h : env "JWT_SECRET" = none ∨ env "JWT_SECRET" = some "default-secret-change-this") :
    (Load env = .err "database password is required for PostgreSQL" ∨
      Load env = .err "JWT secret must be set to a secure value") ∧
    (Load env).isOk = false ∧ mainConfig env = none := by
  have hs : getEnv env "JWT_SECRET" "default-secret-change-this" = "default-secret-change-this" := by
    unfold getEnv
    rcases h with h | h <;> rw [h]
  have hl : Load env = .err "database password is required for PostgreSQL" ∨
      Load env = .err "JWT secret must be set to a secure value" := by
    unfold Load
    simp only [hs, if_true]
    split_ifs
    · exact Or.inl rfl
    · exact Or.inr rfl
  refine ⟨hl, ?_, ?_⟩
  · rcases hl with hl | hl <;> rw [hl] <;> rfl
  · unfold mainConfig
    rcases hl with hl | hl <;> rw [hl]

/-- C23, witness: the empty environment is refused; an environment with a
secret is accepted. -/
theorem C23_default_secret_refused_witness :
    Load secretEnv = .ok { JWT := { Secret := "s3cret-value", ExpireHours := 12,
                                    RefreshExpireHours := 168 } } ∧
    emptyEnv "JWT_SECRET" = none ∧
    Load emptyEnv = .err "JWT secret must be set to a secure value" ∧
    ((Load emptyEnv = .err "database password is required for PostgreSQL" ∨
      Load emptyEnv = .err "JWT secret must be set to a secure value") ∧
    (Load emptyEnv).isOk = false ∧ mainConfig emptyEnv = none) :=
  ⟨by decide, rfl, by decide, C23_default_secret_refused emptyEnv (Or.inl rfl)⟩

/-- C28, evaluation at every input.  The route binds the path values to the
names `id` and `activity_id`; the handler reads `plan_id`, which is empty,
and answers 400 "Plan ID and Activity ID are required" for every request of
an authenticated user, whatever the two path values and the body are.  With
the path values bound to `plan_id` and `activity_id` the same request is
answered 200. -/
theorem C28_plan_id_never_bound (s : Store) (uid id activityID : String)
    (bound : Result UpdateActivityRequest) :
    ginParam (activityRouteParams id activityID) "plan_id" = "" ∧
    ginParam (activityRouteParams id activityID) "id" = id ∧
    ginParam (activityRouteParams id activityID) "activity_id" = activityID ∧
    DailyPlanHandler.UpdateActivity s (activityRouteParams id activityID) (some uid) bound =
      (s, 400, "Plan ID and Activity ID are required") ∧
    (DailyPlanHandler.UpdateActivity storeTwoPlans (activityRouteParams plan201 activity202)
      (some userA) (.ok reqEstimateOnly) =
      (storeTwoPlans, 400, "Plan ID and Activity ID are required")) ∧
    (DailyPlanHandler.UpdateActivity storeTwoPlans
      [("plan_id", plan201), ("activity_id", activity202)] (some userA) (.ok reqEstimateOnly)).2 =
      (200, "") := by
  have h1 : ginParam (activityRouteParams id activityID) "plan_id" = "" := by
    simp [ginParam, activityRouteParams, List.lookup]
  refine ⟨h1, ?_, ?_, ?_, by decide, by decide⟩
  · simp [ginParam, activityRouteParams, List.lookup]
  · simp [ginParam, activityRouteParams, List.lookup]
  · simp only [DailyPlanHandler.UpdateActivity, h1, true_or, if_true]

/-! ## C30: the total follows the activities -/

/-- The store that `CreateDailyPlan` leaves does not depend on the libraries. -/
theorem CreateDailyPlan_store_lib (lib lib2 : Lib) (s : Store) (gen : Nat → UUID)
    (userID : String) (req : DailyPlanRequest) :
    (CreateDailyPlan lib s gen userID req).1 = (CreateDailyPlan lib2 s gen userID req).1 := by
  unfold CreateDailyPlan
  cases uuidParse userID with
  | err e => rfl
  | panic p => rfl
  | ok userUUID =>
    simp only
    cases Time.Parse req.Date with
    | err e => rfl
    | panic p => rfl
    | ok date =>
      simp only
      cases s.firstDailyPlanByDate userUUID date with
      | some q => rfl
      | none =>
        simp only
        rcases createPlanTx s gen (newDailyPlan userUUID date req) req.Activities with ⟨s1, r⟩
        cases r <;> rfl

/-- With a well-formed user id and date, no plan of the user on that date and
new ids from `uuid.New()`, the transaction of `CreateDailyPlan` commits and
the method returns what `GetDailyPlan` answers on the committed store. -/
theorem CreateDailyPlan_commits (lib : Lib) (s : Store) (gen : Nat → UUID) (userID : String)
    (req : DailyPlanRequest) (userUUID : UUID) (date : Time)
    (hu : uuidParse userID = .ok userUUID) (hd : Time.Parse req.Date = .ok date)
    (hnone : s.firstDailyPlanByDate userUUID date = none)
    (hplan : ∀ q ∈ s.dailyPlans, q.ID ≠ gen 0)
    (hnew : ((List.range' 1 req.Activities.length).map gen).Nodup)
    (hfresh : ∀ i ∈ List.range' 1 req.Activities.length, ∀ x ∈ s.activities, x.ID ≠ gen i) :
    ∃ s' created, createPlanTx s gen (newDailyPlan userUUID date req) req.Activities =
        (s', .ok created) ∧ created.ID = gen 0 ∧
      CreateDailyPlan lib s gen userID req = (s', GetDailyPlan lib s' userID created.ID.String) := by
  have hc : ∃ s1 created, s.createDailyPlan (gen 0) (newDailyPlan userUUID date req) =
      (s1, .ok created) ∧ created.ID = gen 0 ∧ s1.activities = s.activities := by
    unfold Store.createDailyPlan
    simp only
    rw [if_neg]
    · exact ⟨_, _, rfl, by simp [DailyPlan.BeforeCreate, newDailyPlan, UUID.Nil], rfl⟩
    · simp only [List.any_eq_true, beq_iff_eq, not_exists, not_and]
      intro q hq
      have := hplan q hq
      simpa [DailyPlan.BeforeCreate, newDailyPlan, UUID.Nil] using this
  obtain ⟨s1, created, hc1, hid, hact⟩ := hc
  have htx : ∃ s', createPlanTx s gen (newDailyPlan userUUID date req) req.Activities =
      (s', .ok created) := by
    unfold createPlanTx
    rw [hc1]
    simp only
    split_ifs with hlen
    · obtain ⟨s2, v, hca⟩ := Store.createActivities_fresh s1 gen 1 created.ID req.Activities hnew
        (by rw [hact]; exact hfresh)
      rw [hca]
      exact ⟨s2, rfl⟩
    · exact ⟨_, rfl⟩
  obtain ⟨s', hs'⟩ := htx
  refine ⟨s', created, hs', hid, ?_⟩
  unfold CreateDailyPlan
  rw [hu, hd]
  simp only
  rw [hnone]
  simp only
  rw [hs']

/-- C30 (as amended).  For a request with a well-formed user id and date whose
estimated times add up to a value of the `int` range, from -2^63 to 2^63 - 1,
and new ids from `uuid.New()`.  On a store in which every activity belongs
to a stored plan and the user has no plan on the date, `CreateDailyPlan`
commits one new live plan row of the user (and answers with what
`GetDailyPlan` reads back) whose total estimated time is the sum of the
estimated times of the live activities of the plan in the committed store.
For a plan of the caller, `UpdateDailyPlan` commits (and answers with the
read-back), the plan is still a live plan of the caller, and every live row of
that plan and caller has a total estimated time equal to the sum of the
estimated times of the live activities of the plan in the committed store. -/
theorem C30_total_matches_activities (lib : Lib) (s : Store) (gen : Nat → UUID) (now : Time)
    (userID planID : String) (req : DailyPlanRequest) (userUUID : UUID) (date : Time)
    (hu : uuidParse userID = .ok userUUID) (hd : Time.Parse req.Date = .ok date)
    (hlo : -9223372036854775808 ≤ (req.Activities.map (fun r => r.EstimatedTime)).sum)
    (hhi : (req.Activities.map (fun r => r.EstimatedTime)).sum ≤ 9223372036854775807) :
    (s.firstDailyPlanByDate userUUID date = none →
      (∀ a ∈ s.activities, ∃ q ∈ s.dailyPlans, q.ID = a.DailyPlanID) →
      (∀ q ∈ s.dailyPlans, q.ID ≠ gen 0) →
      ((List.range' 1 req.Activities.length).map gen).Nodup →
      (∀ i ∈ List.range' 1 req.Activities.length, ∀ x ∈ s.activities, x.ID ≠ gen i) →
      ∃ s' p, CreateDailyPlan lib s gen userID req =
          (s', GetDailyPlan lib s' userID p.ID.String) ∧
        s'.dailyPlans = s.dailyPlans ++ [p] ∧ p.DeletedAt = none ∧ p.UserID = userUUID ∧
        p.TotalEstimatedTime = ((s'.activitiesOf p.ID).map (fun a => a.EstimatedTime)).sum) ∧
    (∀ planUUID plan, uuidParse planID = .ok planUUID →
      s.firstDailyPlan planUUID userUUID = some plan →
      ((List.range req.Activities.length).map gen).Nodup →
      (∀ i < req.Activities.length, ∀ x ∈ s.activities, x.ID ≠ gen i) →
      ∃ s', UpdateDailyPlan lib s gen now userID planID req =
          (s', GetDailyPlan lib s' userID planID) ∧
        (∃ q ∈ s'.dailyPlans, q.DeletedAt = none ∧ q.ID = planUUID ∧ q.UserID = userUUID) ∧
        (∀ q ∈ s'.dailyPlans, q.DeletedAt = none → q.ID = planUUID → q.UserID = userUUID →
          q.TotalEstimatedTime =
            ((s'.activitiesOf planUUID).map (fun a => a.EstimatedTime)).sum)) := by
  have hsum := totalEstimatedTime_eq_sum req.Activities hlo hhi
  constructor
  · intro hnone hfk hplan hnew hfresh
    obtain ⟨s', created, htx, _, heq⟩ := CreateDailyPlan_commits lib s gen userID req userUUID
      date hu hd hnone hplan hnew hfresh
    obtain ⟨h1, h2, h3, h4, h5, h6⟩ := createPlanTx_ok _ _ _ _ _ _ htx
    refine ⟨s', created, heq, h2, h6, h5, ?_⟩
    rw [Store.activitiesOf_append_new s' gen 1 created.ID req.Activities s.activities h3,
      newActivityRows_estimated, h4]
    · exact hsum
    · intro a ha _ hpl
      obtain ⟨q, hq, hqa⟩ := hfk a ha
      exact h1 q hq (hqa.trans hpl)
  · intro planUUID plan hp hown hnew hfresh
    obtain ⟨s', htx, heq⟩ := UpdateDailyPlan_commits lib s gen now userID planID req userUUID
      planUUID date hu hp hd hnew hfresh
    obtain ⟨hact, hplans, _⟩ := updatePlanTx_ok _ _ _ _ _ _ _ _ htx
    refine ⟨s', heq, ?_, ?_⟩
    · have hm := firstBy_mem _ _ _ hown
      simp only [List.mem_filter, Bool.and_eq_true, beq_iff_eq, Option.isNone_iff_eq_none] at hm
      obtain ⟨hmem, ⟨hlive, hid⟩, huser⟩ := hm
      refine ⟨{ plan with Date := date, TotalEstimatedTime := totalEstimatedTime req.Activities,
                          Status := req.Status }, ?_, hlive, hid, huser⟩
      rw [hplans]
      simp only [Store.updateDailyPlan, List.mem_map]
      exact ⟨plan, hmem, by simp [hlive, hid, huser]⟩
    · intro q hq hlive hid huser
      have htotal : q.TotalEstimatedTime = totalEstimatedTime req.Activities := by
        rw [hplans] at hq
        simp only [Store.updateDailyPlan, List.mem_map] at hq
        obtain ⟨p, _, hpq⟩ := hq
        by_cases hhit : (p.DeletedAt.isNone && p.ID == planUUID && p.UserID == userUUID) = true
        · rw [if_pos hhit] at hpq
          rw [← hpq]
        · rw [if_neg hhit] at hpq
          subst hpq
          simp [hlive, hid, huser] at hhit
      rw [Store.activitiesOf_append_new s' gen 0 planUUID req.Activities _ hact,
        newActivityRows_estimated, htotal]
      · exact hsum
      · intro a ha hlive2 hplan2
        have h0 := Store.activitiesOf_deleteActivitiesOf s now planUUID
        have : a ∈ (s.deleteActivitiesOf now planUUID).activitiesOf planUUID := by
          simp only [Store.activitiesOf, List.mem_filter, Bool.and_eq_true, beq_iff_eq,
            Option.isNone_iff_eq_none]
          exact ⟨ha, hlive2, hplan2⟩
        rw [h0] at this
        exact absurd this (List.not_mem_nil a)

/-- C30, witness: with an engine that rejects the ordered preload,
`reqTwoActivities` is created as a new plan in `storeTwoPlans` and written to
plan 201 of that store; both calls answer with the error of the read-back. -/
theorem C30_total_matches_activities_witness :
    uuidParse userA = .ok 10 ∧
    Time.Parse reqTwoActivities.Date = .ok (Time.Date 2024 1 3 0 0 0 0) ∧
    (reqTwoActivities.Activities.map (fun r => r.EstimatedTime)).sum = 75 ∧
    (CreateDailyPlan strictLib storeTwoPlans sampleGen3 userA reqTwoActivities).2.isOk = false ∧
    (UpdateDailyPlan strictLib storeTwoPlans sampleGen3 halfPastTen userA plan201
      reqTwoActivities).2.isOk = false ∧
    (∃ s' p, CreateDailyPlan strictLib storeTwoPlans sampleGen3 userA reqTwoActivities =
        (s', GetDailyPlan strictLib s' userA p.ID.String) ∧
      s'.dailyPlans = storeTwoPlans.dailyPlans ++ [p] ∧ p.DeletedAt = none ∧ p.UserID = 10 ∧
      p.TotalEstimatedTime = ((s'.activitiesOf p.ID).map (fun a => a.EstimatedTime)).sum) ∧
    (∃ s', UpdateDailyPlan strictLib storeTwoPlans sampleGen3 halfPastTen userA plan201
        reqTwoActivities = (s', GetDailyPlan strictLib s' userA plan201) ∧
      (∃ q ∈ s'.dailyPlans, q.DeletedAt = none ∧ q.ID = 201 ∧ q.UserID = 10) ∧
      (∀ q ∈ s'.dailyPlans, q.DeletedAt = none → q.ID = 201 → q.UserID = 10 →
        q.TotalEstimatedTime = ((s'.activitiesOf 201).map (fun a => a.EstimatedTime)).sum)) :=
  have h := C30_total_matches_activities strictLib storeTwoPlans sampleGen3 halfPastTen userA
    plan201 reqTwoActivities 10 (Time.Date 2024 1 3 0 0 0 0) (by decide) (by decide) (by decide)
    (by decide)
  ⟨by decide, by decide, by decide, by decide, by decide,
    h.1 (by decide) (by decide) (by decide) (by decide) (by decide),
    h.2 201 (planRow 201 (Time.Date 2024 1 2 0 0 0 0)) (by decide) (by decide) (by decide)
      (by decide)⟩

/-- C30, counterexample to the claim as stated.  Whatever the libraries,
`CreateDailyPlan` with `reqHugeEstimates` commits a plan with the total -2^63
for activities that add up to 2^63.  `UpdateActivity` of activity 202 with the
estimated time 45 succeeds and leaves plan 201 with the total 30 for
activities that add up to 45. -/
theorem C30_counterexample :
    (∀ lib : Lib,
      (CreateDailyPlan lib emptyStore sampleGen userA reqHugeEstimates).1.dailyPlans =
        [{ planRow 101 (Time.Date 2024 1 2 0 0 0 0) with
           TotalEstimatedTime := -9223372036854775808 }] ∧
      (((CreateDailyPlan lib emptyStore sampleGen userA reqHugeEstimates).1.activitiesOf
        101).map (fun a => a.EstimatedTime)).sum = 9223372036854775808) ∧
    ((UpdateActivity storeTwoPlans userA plan201 activity202 reqEstimateOnly).2.isOk = true ∧
      (UpdateActivity storeTwoPlans userA plan201 activity202 reqEstimateOnly).1.firstDailyPlan
        201 10 = some (planRow 201 (Time.Date 2024 1 2 0 0 0 0)) ∧
      (planRow 201 (Time.Date 2024 1 2 0 0 0 0)).TotalEstimatedTime = 30 ∧
      (((UpdateActivity storeTwoPlans userA plan201 activity202 reqEstimateOnly).1.activitiesOf
        201).map (fun a => a.EstimatedTime)).sum = 45) := by
  refine ⟨?_, by decide, by decide, by decide, by decide⟩
  intro lib
  rw [CreateDailyPlan_store_lib lib sampleLib]
  exact ⟨by decide, by decide⟩

/-! ## C3: the persisted duration -/

/-- C3 (as amended).  Whenever `CreateTimeEntry` or `UpdateTimeEntry` succeeds
with a request whose end time is present and after the start time, the entry
is stored, every live stored row with the id of the response has the start
and end time of the request and a duration that is present, and the response
carries the same duration.  When `end - start` fits a `time.Duration` the
duration is the whole number of seconds of the difference, the fraction of a
second being dropped, for every difference below 2^24 seconds and for every
fraction of at most 0.999999 s; in general, with `B` the number of binary
digits of the whole seconds and `f` the fraction in nanoseconds, it is one
more than the whole seconds exactly when `(10^9 - f) * 2^54 < (2^B + 1) * 10^9`.
For a larger difference it is 9223372036. -/
theorem C3_persisted_duration (s s' : Store) (gen : Nat → UUID) (userID entryID : String)
    (req : TimeEntryRequest) (resp : TimeEntryResponse) (e : Time)
    (he : req.EndTime = some e) (hlt : req.StartTime.Before e = true)
    (h : CreateTimeEntry s gen userID req = (s', .ok resp) ∨
         UpdateTimeEntry s gen userID entryID req = (s', .ok resp)) :
    ∃ x : Int,
      (∃ row ∈ s'.timeEntries, row.ID = resp.ID ∧ row.DeletedAt = none) ∧
      (∀ row ∈ s'.timeEntries, row.ID = resp.ID → row.DeletedAt = none →
        row.StartTime = req.StartTime ∧ row.EndTime = some e ∧ row.Duration = some x) ∧
      resp.Duration = some x ∧
      (e.ns - req.StartTime.ns ≤ maxDuration →
        ((e.ns - req.StartTime.ns) / 1000000000 < 2 ^ 24 ∨
            (e.ns - req.StartTime.ns) % 1000000000 ≤ 999999000 →
          x = (e.ns - req.StartTime.ns) / 1000000000) ∧
        (∀ B : Nat, (e.ns - req.StartTime.ns) / 1000000000 < 2 ^ B →
          (B = 0 ∨ 2 ^ (B - 1) ≤ (e.ns - req.StartTime.ns) / 1000000000) →
          x = if (1000000000 - (e.ns - req.StartTime.ns) % 1000000000) * 2 ^ 54 <
                (2 ^ B + 1) * 1000000000
              then (e.ns - req.StartTime.ns) / 1000000000 + 1
              else (e.ns - req.StartTime.ns) / 1000000000)) ∧
      (maxDuration < e.ns - req.StartTime.ns → x = 9223372036) := by
  have hs := secondsInt_sub_spec req.StartTime e hlt
  refine ⟨Duration.secondsInt (e.Sub req.StartTime), ?_, ?_, ?_, hs.1, hs.2⟩
  · rcases h with h | h
    · obtain ⟨u, id, tags, old, c, hc, hst, hold, hr⟩ := CreateTimeEntry_ok _ _ _ _ _ _ h
      refine ⟨{ c with Tags := [] }, by rw [hst]; simp, by rw [hr]; rfl, ?_⟩
      rw [hc, newTimeEntry_BeforeSave u req tags e he hlt]
      simp only [TimeEntry.BeforeCreate]
      split_ifs <;> rfl
    · obtain ⟨found, tags, c, hmem, hlive, hc, hall, hrow, hr⟩ := UpdateTimeEntry_ok _ _ _ _ _ _ _ h
      refine ⟨{ c with Tags := [] }, hrow, by rw [hr]; rfl, ?_⟩
      rw [hc, updatedTimeEntry_BeforeSave found req tags e he hlt]
      exact hlive
  · rcases h with h | h
    · obtain ⟨u, id, tags, old, c, hc, hst, hold, hr⟩ := CreateTimeEntry_ok _ _ _ _ _ _ h
      intro row hrow hid hlive
      rw [hst] at hrow
      simp only [List.mem_append, List.mem_singleton] at hrow
      have hrid : resp.ID = c.ID := by rw [hr]; rfl
      rcases hrow with hrow | hrow
      · exact absurd (hid.trans hrid) (hold row hrow)
      · subst hrow
        rw [hc, newTimeEntry_BeforeSave u req tags e he hlt]
        simp only [TimeEntry.BeforeCreate]
        split_ifs <;> exact ⟨rfl, he, rfl⟩
    · obtain ⟨found, tags, c, hmem, hlive, hc, hall, hrow, hr⟩ := UpdateTimeEntry_ok _ _ _ _ _ _ _ h
      intro row hrow' hid hlive'
      have hrid : resp.ID = c.ID := by rw [hr]; rfl
      have := hall row hrow' (hid.trans hrid) hlive'
      subst this
      rw [hc, updatedTimeEntry_BeforeSave found req tags e he hlt]
      exact ⟨rfl, he, rfl⟩
  · rcases h with h | h
    · obtain ⟨u, id, tags, old, c, hc, hst, hold, hr⟩ := CreateTimeEntry_ok _ _ _ _ _ _ h
      rw [hr, hc, newTimeEntry_BeforeSave u req tags e he hlt]
      simp only [TimeEntry.BeforeCreate, toTimeEntryResponse]
      split_ifs <;> rfl
    · obtain ⟨found, tags, c, hmem, hlive, hc, hall, hrow, hr⟩ := UpdateTimeEntry_ok _ _ _ _ _ _ _ h
      rw [hr, hc, updatedTimeEntry_BeforeSave found req tags e he hlt]
      rfl

/-- C3, witness: creating the entry of 90 minutes and half a second in the
empty store; the stored duration is 5400. -/
theorem C3_persisted_duration_witness :
    reqHalfSecond.EndTime = some (Time.Date 2024 1 1 11 30 0 500000000) ∧
    reqHalfSecond.StartTime.Before (Time.Date 2024 1 1 11 30 0 500000000) = true ∧
    (Time.Date 2024 1 1 11 30 0 500000000).ns - reqHalfSecond.StartTime.ns = 5400500000000 ∧
    CreateTimeEntry emptyStore sampleGen userA reqHalfSecond =
      (storeWith (storedRow 101 reqHalfSecond (some 5400)),
       .ok (toTimeEntryResponse (storedRow 101 reqHalfSecond (some 5400)))) ∧
    ∃ x : Int,
      (∃ row ∈ (storeWith (storedRow 101 reqHalfSecond (some 5400))).timeEntries,
        row.ID = (toTimeEntryResponse (storedRow 101 reqHalfSecond (some 5400))).ID ∧
        row.DeletedAt = none) ∧
      (∀ row ∈ (storeWith (storedRow 101 reqHalfSecond (some 5400))).timeEntries,
        row.ID = (toTimeEntryResponse (storedRow 101 reqHalfSecond (some 5400))).ID →
        row.DeletedAt = none →
        row.StartTime = reqHalfSecond.StartTime ∧
        row.EndTime = some (Time.Date 2024 1 1 11 30 0 500000000) ∧ row.Duration = some x) ∧
      (toTimeEntryResponse (storedRow 101 reqHalfSecond (some 5400))).Duration = some x ∧
      ((Time.Date 2024 1 1 11 30 0 500000000).ns - reqHalfSecond.StartTime.ns ≤ maxDuration →
        (((Time.Date 2024 1 1 11 30 0 500000000).ns - reqHalfSecond.StartTime.ns) / 1000000000
            < 2 ^ 24 ∨
          ((Time.Date 2024 1 1 11 30 0 500000000).ns - reqHalfSecond.StartTime.ns) % 1000000000
            ≤ 999999000 →
          x = ((Time.Date 2024 1 1 11 30 0 500000000).ns - reqHalfSecond.StartTime.ns)
            / 1000000000) ∧
        (∀ B : Nat,
          ((Time.Date 2024 1 1 11 30 0 500000000).ns - reqHalfSecond.StartTime.ns) / 1000000000
            < 2 ^ B →
          (B = 0 ∨ 2 ^ (B - 1) ≤
            ((Time.Date 2024 1 1 11 30 0 500000000).ns - reqHalfSecond.StartTime.ns)
              / 1000000000) →
          x = if (1000000000 -
                  ((Time.Date 2024 1 1 11 30 0 500000000).ns - reqHalfSecond.StartTime.ns)
                    % 1000000000) * 2 ^ 54 < (2 ^ B + 1) * 1000000000
              then ((Time.Date 2024 1 1 11 30 0 500000000).ns - reqHalfSecond.StartTime.ns)
                / 1000000000 + 1
              else ((Time.Date 2024 1 1 11 30 0 500000000).ns - reqHalfSecond.StartTime.ns)
                / 1000000000)) ∧
      (maxDuration < (Time.Date 2024 1 1 11 30 0 500000000).ns - reqHalfSecond.StartTime.ns →
        x = 9223372036) :=
  ⟨rfl, by decide, by decide, by decide,
    C3_persisted_duration emptyStore _ sampleGen userA entry101 reqHalfSecond _
      (Time.Date 2024 1 1 11 30 0 500000000) rfl (by decide) (Or.inl (by decide))⟩

/-- C3, counterexample to the claim as stated.  The request `reqLongSpan` has an
end time after its start time, 63839664000 seconds apart, and the entry that
`CreateTimeEntry` stores has duration 9223372036.  The times of `reqRoundUp`
are 16777216.999999999 seconds apart and the stored duration is 16777217; the
times of `reqHalfSecond` are 5400.5 seconds apart and the stored duration is
5400.  The request `reqZeroLength` has an end time that is present and not
before its start time (they are equal); the entry that `CreateTimeEntry`
stores for it has no duration, and `UpdateTimeEntry` of a stored entry with
duration 5400 keeps 5400. -/
theorem C3_counterexample :
    (endBeforeStart reqLongSpan = false ∧ reqLongSpan.EndTime = some (Time.Date 2024 1 1 0 0 0 0) ∧
      ((Time.Date 2024 1 1 0 0 0 0).ns - reqLongSpan.StartTime.ns) / 1000000000 = 63839664000 ∧
      CreateTimeEntry emptyStore sampleGen userA reqLongSpan =
        (storeWith (storedRow 101 reqLongSpan (some 9223372036)),
         .ok (toTimeEntryResponse (storedRow 101 reqLongSpan (some 9223372036))))) ∧
    (endBeforeStart reqRoundUp = false ∧
      reqRoundUp.EndTime = some (Time.Date 2024 7 13 4 20 16 999999999) ∧
      (Time.Date 2024 7 13 4 20 16 999999999).ns - reqRoundUp.StartTime.ns =
        16777216 * 1000000000 + 999999999 ∧
      CreateTimeEntry emptyStore sampleGen userA reqRoundUp =
        (storeWith (storedRow 101 reqRoundUp (some 16777217)),
         .ok (toTimeEntryResponse (storedRow 101 reqRoundUp (some 16777217))))) ∧
    (endBeforeStart reqHalfSecond = false ∧
      reqHalfSecond.EndTime = some (Time.Date 2024 1 1 11 30 0 500000000) ∧
      (Time.Date 2024 1 1 11 30 0 500000000).ns - reqHalfSecond.StartTime.ns =
        5400 * 1000000000 + 500000000 ∧
      CreateTimeEntry emptyStore sampleGen userA reqHalfSecond =
        (storeWith (storedRow 101 reqHalfSecond (some 5400)),
         .ok (toTimeEntryResponse (storedRow 101 reqHalfSecond (some 5400))))) ∧
    (endBeforeStart reqZeroLength = false ∧
      reqZeroLength.EndTime = some reqZeroLength.StartTime ∧
      CreateTimeEntry emptyStore sampleGen userA reqZeroLength =
        (storeWith (storedRow 101 reqZeroLength none),
         .ok (toTimeEntryResponse (storedRow 101 reqZeroLength none))) ∧
      UpdateTimeEntry (storeWith (storedRow 101 reqNinetyMinutes (some 5400))) sampleGen userA
          entry101 reqZeroLength =
        (storeWith (storedRow 101 reqZeroLength (some 5400)),
         .ok (toTimeEntryResponse (storedRow 101 reqZeroLength (some 5400))))) := by
  refine ⟨⟨by decide, rfl, by decide, ?_⟩, ⟨by decide, rfl, by decide, by decide⟩,
    ⟨by decide, rfl, by decide, by decide⟩, ⟨by decide, rfl, by decide, by decide⟩⟩
  rfl

end TimeCal
